import Mathlib

/-!
Property synchronisation engine (hop-val-be): model and verified properties

A shallow embedding of `services/sync_service.go` together with the wire
shapes of `schema/external_api_schema.go` and the rows of `models/*.go`.

* Go `uint` identifiers and the run counters (which start at zero and are only
  incremented or set to a length) are natural numbers; `int` payload fields are
  integers; `*T` is `Option T`.
* A Go `error` is a `GoError`; a nil error is `none`.
* The HTTP client, the JSON decoder, the clock, the time parser and the
  failures of the database are parameters collected in `Env`.
* The database is a `Store` of five tables. Every statement may fail with any
  error the environment chooses (`Env.faults`); a statement that does not fail
  has the effect written out in this file.
* The page loop of `FetchAndSyncProperties` can run forever on a cyclic
  source, so it is modelled with a bound on the number of page requests.

The file also embeds the parts of `services/property_service.go`,
`utils/pagination.go`, `utils/errors.go` and `schema/utils.go` that the
properties below are about:

* a query builder is the record of the joins, conditions, orderings, offset,
  limit and preloads it was given; the queries a service hands to the database
  are collected in order;
* Go `int` is 64 bits wide and its arithmetic wraps; a `float64` value is the
  rational number it denotes, and conversions and divisions round to the
  nearest representable value;
* a call that panics returns the panic value in place of its result.
-/

namespace HopVal

/-! ## Go values -/

/-- Go errors as far as the sync engine can tell them apart: the sentinel
`gorm.ErrRecordNotFound`, an error created elsewhere (driver, HTTP client,
decoder, `errors.New`), and `fmt.Errorf("...: %w", inner)`, whose text is the
formatted text before the verb followed by the text of `inner`. -/
inductive GoError where
  | recordNotFound : GoError
  | other (msg : String) : GoError
  | wrap (msg : String) (inner : GoError) : GoError
  deriving DecidableEq, Repr

/-- The method `Error()`. -/
def GoError.Error : GoError → String
  | .recordNotFound => "record not found"
  | .other msg => msg
  | .wrap msg inner => msg ++ inner.Error

/-- The call `errors.Is(err, gorm.ErrRecordNotFound)`: walks the `%w` chain. -/
def GoError.isRecordNotFound : GoError → Bool
  | .recordNotFound => true
  | .other _ => false
  | .wrap _ inner => inner.isRecordNotFound

/-- An instant of `time.Time`, as an offset from Go's zero time; the zero value
of the type is `0`. -/
abbrev Time := Int

/-- A `float64`, carried by its bit pattern; the engine only copies such values. -/
structure Float64 where
  bits : Nat
  deriving DecidableEq, Repr

/-! ## Wire shapes (`schema/external_api_schema.go`) -/

structure ExternalUser where
  ID : Nat
  Name : String
  Email : String
  Status : String
  EmailVerifiedAt : Option String
  Phone : String
  PasswordLastUpdatedAt : Option String
  FinancialInstitutionID : Option Nat
  DeletedAt : Option String
  CreatedAt : String
  UpdatedAt : String
  Role : String
  SignatureStorageURL : Option String
  ProfileImageStorageURL : Option String
  deriving DecidableEq, Repr

structure ExternalAgent where
  ID : Nat
  UserID : String
  Phone1 : String
  Phone2 : Option String
  Headline1 : Option String
  Headline2 : Option String
  About : Option String
  IsAgreementSigned : String
  AgentType : String
  BankName : Option String
  AccountName : Option String
  AccountNumber : Option String
  AccountType : Option String
  AccountBranch : Option String
  Phone : String
  Email : String
  Linkedin : Option String
  Address : Option String
  CreatedAt : String
  UpdatedAt : String
  CoverageArea : Option String
  Name : String
  User : Option ExternalUser
  deriving DecidableEq, Repr

structure ExternalLocation where
  ID : Nat
  PropertyID : Nat
  Region : String
  District : String
  Area : String
  Postcode : Option String
  SubArea : Option String
  GoogleMapLink : Option String
  Latitude : Option String
  Longitude : Option String
  ZoneCategory : String
  Zoning : String
  CreatedAt : String
  UpdatedAt : String
  deriving DecidableEq, Repr

structure ExternalCoverPhoto where
  ID : Nat
  Url : String
  Description : String
  deriving DecidableEq, Repr

/-- The wire property. The field `OpenHouses` (a list of untyped values that
the engine never reads) is left out. -/
structure ExternalProperty where
  ID : Nat
  ValuerID : Option Nat
  PropertyNumber : Option String
  ParentValuation : Option Nat
  ProjectID : Option Nat
  OwnerName : String
  PropertyType : Option String
  PropertyDesign : String
  ConstructionStage : String
  YearBuilt : Option String
  Age : Option Int
  Eul : Option Int
  Rel : Option Int
  Measurements : String
  NoRooms : Option Int
  NoOfBathrooms : Option Int
  Occupancy : Option String
  Attributes : String
  TitleDeedsAvailable : String
  CertificateOfSearchAvailable : Option String
  EncumbrancesAvailable : Option String
  Defects : Option String
  Description : String
  MasterBedroomEnsuite : String
  BuildingSize : Option Float64
  BuildingSizeUnit : String
  LandSize : Option Float64
  LandSizeUnit : String
  EntryType : String
  Price : Option Float64
  ListingType : String
  CreatedBy : Option Nat
  CreatedAt : String
  UpdatedAt : String
  IsApproved : String
  IsSubmitted : String
  IsSaleCompleted : String
  HasAcceptedOffer : String
  IsReferred : String
  ApprovedAt : Option String
  Visibility : String
  Views : Int
  Location : Option ExternalLocation
  Agent : Option ExternalAgent
  CoverPhoto : Option ExternalCoverPhoto
  deriving DecidableEq, Repr

/-- The `meta` object of a page. -/
structure Meta where
  CurrentPage : Int
  LastPage : Int
  PerPage : Int
  Total : Int
  NextPageURL : Option String
  PrevPageURL : Option String
  deriving DecidableEq, Repr

structure PropertiesAPIResponse where
  Data : List ExternalProperty
  Meta : Meta
  deriving DecidableEq, Repr

/-- The run report. `TotalProperties` copies a decoded `int` and is an integer;
the other numeric fields count upwards from zero. -/
structure SyncResult where
  Status : String
  TotalPagesFetched : Nat
  TotalProperties : Int
  FetchedCount : Nat
  SyncedCount : Nat
  SkippedCount : Nat
  ErrorCount : Nat
  Errors : List String
  deriving DecidableEq, Repr

/-! ## Rows (`models/*.go`): the columns of each table -/

structure User where
  ID : Nat
  Name : String
  Email : String
  Status : String
  EmailVerifiedAt : Option Time
  Phone : String
  PasswordLastUpdatedAt : Option Time
  FinancialInstitutionID : Option Nat
  DeletedAt : Option Time
  CreatedAt : Time
  UpdatedAt : Time
  Role : String
  SignatureStorageURL : Option String
  ProfileImageStorageURL : Option String
  deriving DecidableEq, Repr

structure Agent where
  ID : Nat
  UserID : Nat
  Phone1 : String
  Phone2 : Option String
  Headline1 : Option String
  Headline2 : Option String
  About : Option String
  IsAgreementSigned : String
  AgentType : String
  BankName : Option String
  AccountName : Option String
  AccountNumber : Option String
  AccountType : Option String
  AccountBranch : Option String
  Linkedin : Option String
  Address : Option String
  CreatedAt : Time
  UpdatedAt : Time
  CoverageArea : Option String
  deriving DecidableEq, Repr

structure Location where
  ID : Nat
  PropertyID : Nat
  Region : String
  District : String
  Area : String
  Postcode : Option String
  SubArea : Option String
  GoogleMapLink : Option String
  Latitude : Option String
  Longitude : Option String
  ZoneCategory : String
  Zoning : String
  CreatedAt : Time
  UpdatedAt : Time
  deriving DecidableEq, Repr

structure CoverPhoto where
  ID : Nat
  Url : String
  Description : String
  PropertyID : Nat
  deriving DecidableEq, Repr

structure Property where
  ID : Nat
  ValuerID : Option Nat
  PropertyNumber : Option String
  ParentValuation : Option Nat
  ProjectID : Option Nat
  OwnerName : String
  PropertyType : Option String
  PropertyDesign : String
  ConstructionStage : String
  YearBuilt : Option String
  Age : Option Int
  Eul : Option Int
  Rel : Option Int
  Measurements : String
  NoRooms : Option Int
  NoOfBathrooms : Option Int
  Occupancy : Option String
  Attributes : String
  TitleDeedsAvailable : String
  CertificateOfSearchAvailable : Option String
  EncumbrancesAvailable : Option String
  Defects : Option String
  Description : String
  MasterBedroomEnsuite : String
  BuildingSize : Option Float64
  BuildingSizeUnit : String
  LandSize : Option Float64
  LandSizeUnit : String
  EntryType : String
  Price : Option Float64
  ListingType : String
  CreatedBy : Option Nat
  CreatedAt : Time
  UpdatedAt : Time
  IsApproved : String
  IsSubmitted : String
  IsSaleCompleted : String
  HasAcceptedOffer : String
  IsReferred : String
  ApprovedAt : Option Time
  Visibility : String
  Views : Int
  AgentID : Option Nat
  deriving DecidableEq, Repr

/-! ## The environment -/

/-- What `s.Client.Get` hands back when the transport succeeds: the status
code, and the two results of `io.ReadAll(resp.Body)`. -/
structure HTTPResponse where
  StatusCode : Int
  body : String
  readErr : Option GoError
  deriving DecidableEq, Repr

/-- The five tables. -/
structure Store where
  users : List User
  agents : List Agent
  coverPhotos : List CoverPhoto
  properties : List Property
  locations : List Location
  deriving DecidableEq, Repr

/-- The statements the engine sends to the database. -/
inductive DBOp where
  | firstProperty (id : Nat) : DBOp
  | txBegin : DBOp
  | txCommit : DBOp
  | upsertUser (row : User) : DBOp
  | upsertAgent (row : Agent) : DBOp
  | upsertCoverPhoto (row : CoverPhoto) : DBOp
  | createProperty (row : Property) : DBOp
  | upsertLocation (row : Location) : DBOp
  deriving DecidableEq, Repr

/-- Everything outside the engine.
* `propertiesURL`: `cfg.ExternalAPI.PropertiesURL` of the loaded configuration;
* `get n url`: the outcome of the `n`-th page request of a run, sent to `url`
  (a transport error, or a response);
* `unmarshal`: `json.Unmarshal` into a `PropertiesAPIResponse`;
* `timeParse layout value`: `time.Parse`, `none` when it returns an error;
* `now`: the reading of `time.Now()`;
* `faults n op`: the error, if any, with which the database answers statement
  `op` when it is the `n`-th statement sent over the connection. -/
structure Env where
  propertiesURL : String
  get : Nat → String → Except GoError HTTPResponse
  unmarshal : String → Except GoError PropertiesAPIResponse
  timeParse : String → String → Option Time
  now : Time
  faults : Nat → DBOp → Option GoError

/-- The database as the engine sees it: the committed (or, inside a
transaction, the working) tables and the number of statements sent so far. -/
structure DBState where
  store : Store
  calls : Nat
  deriving DecidableEq, Repr

/-! ## Statements -/

/-- Insert-or-update keyed by `key`: the first stored row with the key of `row`
is replaced by `merge stored row`; without such a row, `row` is appended. -/
def upsertBy {α : Type} (key : α → Nat) (merge : α → α → α) (row : α) : List α → List α
  | [] => [row]
  | r :: rs => if key r = key row then merge r row :: rs else r :: upsertBy key merge row rs

/-- The assignment list of `upsertUser`: `DoUpdates` over name, email, status,
phone, financial_institution_id, role, signature_storage_url,
profile_image_storage_url, updated_at, email_verified_at,
password_last_updated_at. -/
def User.onConflict (stored excluded : User) : User :=
  { stored with
    Name := excluded.Name, Email := excluded.Email, Status := excluded.Status,
    Phone := excluded.Phone, FinancialInstitutionID := excluded.FinancialInstitutionID,
    Role := excluded.Role, SignatureStorageURL := excluded.SignatureStorageURL,
    ProfileImageStorageURL := excluded.ProfileImageStorageURL,
    UpdatedAt := excluded.UpdatedAt, EmailVerifiedAt := excluded.EmailVerifiedAt,
    PasswordLastUpdatedAt := excluded.PasswordLastUpdatedAt }

/-- The assignment list of `upsertAgent`. -/
def Agent.onConflict (stored excluded : Agent) : Agent :=
  { stored with
    UserID := excluded.UserID, Phone1 := excluded.Phone1, Phone2 := excluded.Phone2,
    Headline1 := excluded.Headline1, Headline2 := excluded.Headline2,
    About := excluded.About, IsAgreementSigned := excluded.IsAgreementSigned,
    AgentType := excluded.AgentType, BankName := excluded.BankName,
    AccountName := excluded.AccountName, AccountNumber := excluded.AccountNumber,
    AccountType := excluded.AccountType, AccountBranch := excluded.AccountBranch,
    Linkedin := excluded.Linkedin, Address := excluded.Address,
    CoverageArea := excluded.CoverageArea, UpdatedAt := excluded.UpdatedAt }

/-- The assignment list of `upsertLocation`. -/
def Location.onConflict (stored excluded : Location) : Location :=
  { stored with
    PropertyID := excluded.PropertyID, Region := excluded.Region,
    District := excluded.District, Area := excluded.Area, Postcode := excluded.Postcode,
    SubArea := excluded.SubArea, GoogleMapLink := excluded.GoogleMapLink,
    Latitude := excluded.Latitude, Longitude := excluded.Longitude,
    ZoneCategory := excluded.ZoneCategory, Zoning := excluded.Zoning,
    UpdatedAt := excluded.UpdatedAt }

/-- The assignment list of `upsertCoverPhoto`: url and description. -/
def CoverPhoto.onConflict (stored excluded : CoverPhoto) : CoverPhoto :=
  { stored with Url := excluded.Url, Description := excluded.Description }

/-- Whether the properties table holds a row with this primary key. -/
def Store.hasProperty (s : Store) (id : Nat) : Bool :=
  s.properties.any (fun p => p.ID == id)

/-- The key the database assigns to a row that is sent without one. Which
key it picks is the database's business; the model takes one more than the
largest key of the table, and the statements about the engine use only that
the key is not zero. -/
def assignedKey (keys : List Nat) : Nat := keys.foldl max 0 + 1

/-- The key under which a row is written: the key it carries, or, when that is
zero (the ORM then leaves the column out of the `INSERT`), the key the
database assigns. -/
def writtenKey (keys : List Nat) (id : Nat) : Nat :=
  if id = 0 then assignedKey keys else id

/-- The key under which a user row carrying `id` is written. -/
def Store.userKey (s : Store) (id : Nat) : Nat :=
  writtenKey (s.users.map (fun u => u.ID)) id

/-- The key under which an agent row carrying `id` is written. -/
def Store.agentKey (s : Store) (id : Nat) : Nat :=
  writtenKey (s.agents.map (fun a => a.ID)) id

/-- The effect of a statement that the environment does not fail. The lookup
reports `gorm.ErrRecordNotFound` when no row has the key; a plain `INSERT` of a
property whose primary key is taken is refused; the upserts resolve a taken key
by their assignment lists (`ON CONFLICT (id) DO UPDATE`). A user or an agent
row that carries the zero key is written under the key the database assigns.
Any other refusal (unique index, foreign key, lost connection) is a failure
chosen by the environment; in particular the foreign key from
`cover_photos.property_id` to the properties table, which refuses the insert
of a cover photo whose `property_id` names no property, is such a failure.
Two things the ORM does on insert are not modelled, and the statements that
would depend on them say so: a property, a location or a cover photo that
carries the zero key is stored under key 0 rather than under an assigned key,
and a zero `created_at` or `updated_at` is stored as it is rather than filled
with the time of the insert. -/
def Store.apply (s : Store) : DBOp → Except GoError Store
  | .firstProperty id =>
    if s.hasProperty id then .ok s else .error .recordNotFound
  | .txBegin => .ok s
  | .txCommit => .ok s
  | .upsertUser row =>
    .ok { s with
      users := upsertBy User.ID User.onConflict { row with ID := s.userKey row.ID } s.users }
  | .upsertAgent row =>
    .ok { s with
      agents := upsertBy Agent.ID Agent.onConflict { row with ID := s.agentKey row.ID } s.agents }
  | .upsertCoverPhoto row =>
    .ok { s with coverPhotos := upsertBy CoverPhoto.ID CoverPhoto.onConflict row s.coverPhotos }
  | .createProperty row =>
    if s.hasProperty row.ID then
      .error (.other "duplicate key value violates unique constraint properties_pkey")
    else .ok { s with properties := s.properties ++ [row] }
  | .upsertLocation row =>
    .ok { s with locations := upsertBy Location.ID Location.onConflict row s.locations }

/-- Send one statement: the environment may fail it, otherwise it takes
effect. Either way one more statement has been sent. -/
def DBState.exec (env : Env) (db : DBState) (op : DBOp) : Option GoError × DBState :=
  match env.faults db.calls op with
  | some e => (some e, { db with calls := db.calls + 1 })
  | none =>
    match db.store.apply op with
    | .error e => (some e, { db with calls := db.calls + 1 })
    | .ok s => (none, { store := s, calls := db.calls + 1 })

/-- The method `(*gorm.DB).Transaction`: begin; run `fc` on the transaction
handle; on a nil error commit and return the commit's error, on an error roll
back and return it. Statements sent through the handle change the working
tables, which replace the committed ones only by a successful commit. -/
def transaction (env : Env) (db : DBState) (fc : DBState → Option GoError × DBState) :
    Option GoError × DBState :=
  match db.exec env .txBegin with
  | (some e, db1) => (some e, db1)
  | (none, tx) =>
    match fc tx with
    | (some e, tx1) => (some e, { store := db.store, calls := tx1.calls })
    | (none, tx1) =>
      match tx1.exec env .txCommit with
      | (some e, tx2) => (some e, { store := db.store, calls := tx2.calls })
      | (none, tx2) => (none, tx2)

/-! ## Mapper (`sync_service.go`, lines 213-311) -/

/-- The layouts `parseAPITime` tries, in order: `time.RFC3339Nano`, then the
layout of `approved_at`. -/
def layouts : List String :=
  ["2006-01-02T15:04:05.999999999Z07:00", "2006-01-02 15:04:05"]

/-- The function `parseAPITime`: a nil or empty string gives no time and no
error; otherwise the first layout that parses wins, and when none does the
result is an error. -/
def parseAPITime (env : Env) (apiTime : Option String) : Except GoError (Option Time) :=
  match apiTime with
  | none => .ok none
  | some s =>
    if s = "" then .ok none
    else
      match layouts.findSome? (fun layout => env.timeParse layout s) with
      | some t => .ok (some t)
      | none => .error (.other ("failed to parse time string: " ++ s))

/-- The pattern `if err == nil && t != nil { field = *t }` over a field that
holds the zero time. -/
def setIfParsed (r : Except GoError (Option Time)) : Time :=
  match r with
  | .ok (some t) => t
  | _ => 0

/-- The pattern `if err == nil { field = t }` over a field that holds nil. -/
def setIfNoError (r : Except GoError (Option Time)) : Option Time :=
  match r with
  | .ok t => t
  | .error _ => none

/-- The function `mapExternalToDBProperty`. The warnings it logs are not
modelled. The cover photo argument is not read, as in the source. -/
def mapExternalToDBProperty (env : Env) (extProp : ExternalProperty) (agent : Option Agent)
    (_coverPhoto : Option CoverPhoto) : Property × Option GoError :=
  let createdAt : Time :=
    match parseAPITime env (some extProp.CreatedAt) with
    | .error _ => env.now
    | .ok (some t) => t
    | .ok none => 0
  let updatedAt : Time :=
    match parseAPITime env (some extProp.UpdatedAt) with
    | .error _ => env.now
    | .ok (some t) => t
    | .ok none => 0
  let approvedAt : Option Time :=
    match parseAPITime env extProp.ApprovedAt with
    | .error _ => none
    | .ok t => t
  let agentID : Option Nat :=
    match agent with
    | some a => some a.ID
    | none => none
  ({ ID := extProp.ID
     ValuerID := extProp.ValuerID
     PropertyNumber := extProp.PropertyNumber
     ParentValuation := extProp.ParentValuation
     ProjectID := extProp.ProjectID
     OwnerName := extProp.OwnerName
     PropertyType := extProp.PropertyType
     PropertyDesign := extProp.PropertyDesign
     ConstructionStage := extProp.ConstructionStage
     YearBuilt := extProp.YearBuilt
     Age := extProp.Age
     Eul := extProp.Eul
     Rel := extProp.Rel
     Measurements := extProp.Measurements
     NoRooms := extProp.NoRooms
     NoOfBathrooms := extProp.NoOfBathrooms
     Occupancy := extProp.Occupancy
     Attributes := extProp.Attributes
     TitleDeedsAvailable := extProp.TitleDeedsAvailable
     CertificateOfSearchAvailable := extProp.CertificateOfSearchAvailable
     EncumbrancesAvailable := extProp.EncumbrancesAvailable
     Defects := extProp.Defects
     Description := extProp.Description
     MasterBedroomEnsuite := extProp.MasterBedroomEnsuite
     BuildingSize := extProp.BuildingSize
     BuildingSizeUnit := extProp.BuildingSizeUnit
     LandSize := extProp.LandSize
     LandSizeUnit := extProp.LandSizeUnit
     EntryType := extProp.EntryType
     Price := extProp.Price
     ListingType := extProp.ListingType
     CreatedBy := extProp.CreatedBy
     CreatedAt := createdAt
     UpdatedAt := updatedAt
     IsApproved := extProp.IsApproved
     IsSubmitted := extProp.IsSubmitted
     IsSaleCompleted := extProp.IsSaleCompleted
     HasAcceptedOffer := extProp.HasAcceptedOffer
     IsReferred := extProp.IsReferred
     ApprovedAt := approvedAt
     Visibility := extProp.Visibility
     Views := extProp.Views
     AgentID := agentID }, none)

/-! ## Upsert helpers (`sync_service.go`, lines 313-507) -/

/-- The row `upsertUser` builds from the wire user. -/
def mapUser (env : Env) (extUser : ExternalUser) : User :=
  { ID := extUser.ID
    Name := extUser.Name
    Email := extUser.Email
    Status := extUser.Status
    Phone := extUser.Phone
    FinancialInstitutionID := extUser.FinancialInstitutionID
    Role := extUser.Role
    SignatureStorageURL := extUser.SignatureStorageURL
    ProfileImageStorageURL := extUser.ProfileImageStorageURL
    DeletedAt := none
    CreatedAt := setIfParsed (parseAPITime env (some extUser.CreatedAt))
    UpdatedAt := setIfParsed (parseAPITime env (some extUser.UpdatedAt))
    EmailVerifiedAt := setIfNoError (parseAPITime env extUser.EmailVerifiedAt)
    PasswordLastUpdatedAt := setIfNoError (parseAPITime env extUser.PasswordLastUpdatedAt) }

/-- The method `upsertUser`: results `(*User, error)` and the handle after the
statement. `Create` writes the key of the written row back into `user`, so
the row returned carries the key under which it is stored. -/
def upsertUser (env : Env) (tx : DBState) (extUser : Option ExternalUser) :
    Option User × Option GoError × DBState :=
  match extUser with
  | none => (none, some (.other "cannot upsert nil user"), tx)
  | some extUser =>
    let user := mapUser env extUser
    match tx.exec env (.upsertUser user) with
    | (some err, tx1) => (none, some (.wrap "upsert user failed: " err), tx1)
    | (none, tx1) => (some { user with ID := tx.store.userKey user.ID }, none, tx1)

/-- The row `upsertAgent` builds. The wire `user_id` string is parsed only to
log a warning, which is not modelled; the row takes `userID`. -/
def mapAgent (env : Env) (extAgent : ExternalAgent) (userID : Nat) : Agent :=
  { ID := extAgent.ID
    UserID := userID
    Phone1 := extAgent.Phone1
    Phone2 := extAgent.Phone2
    Headline1 := extAgent.Headline1
    Headline2 := extAgent.Headline2
    About := extAgent.About
    IsAgreementSigned := extAgent.IsAgreementSigned
    AgentType := extAgent.AgentType
    BankName := extAgent.BankName
    AccountName := extAgent.AccountName
    AccountNumber := extAgent.AccountNumber
    AccountType := extAgent.AccountType
    AccountBranch := extAgent.AccountBranch
    Linkedin := extAgent.Linkedin
    Address := extAgent.Address
    CoverageArea := extAgent.CoverageArea
    CreatedAt := setIfParsed (parseAPITime env (some extAgent.CreatedAt))
    UpdatedAt := setIfParsed (parseAPITime env (some extAgent.UpdatedAt)) }

/-- The method `upsertAgent`. As in `upsertUser`, the row returned carries the
key under which it is stored. -/
def upsertAgent (env : Env) (tx : DBState) (extAgent : Option ExternalAgent) (userID : Nat) :
    Option Agent × Option GoError × DBState :=
  match extAgent with
  | none => (none, some (.other "cannot upsert nil agent"), tx)
  | some extAgent =>
    let agent := mapAgent env extAgent userID
    match tx.exec env (.upsertAgent agent) with
    | (some err, tx1) => (none, some (.wrap "upsert agent failed: " err), tx1)
    | (none, tx1) => (some { agent with ID := tx.store.agentKey agent.ID }, none, tx1)

/-- The row `upsertLocation` builds. -/
def mapLocation (env : Env) (extLocation : ExternalLocation) : Location :=
  { ID := extLocation.ID
    PropertyID := extLocation.PropertyID
    Region := extLocation.Region
    District := extLocation.District
    Area := extLocation.Area
    Postcode := extLocation.Postcode
    SubArea := extLocation.SubArea
    GoogleMapLink := extLocation.GoogleMapLink
    Latitude := extLocation.Latitude
    Longitude := extLocation.Longitude
    ZoneCategory := extLocation.ZoneCategory
    Zoning := extLocation.Zoning
    CreatedAt := setIfParsed (parseAPITime env (some extLocation.CreatedAt))
    UpdatedAt := setIfParsed (parseAPITime env (some extLocation.UpdatedAt)) }

/-- The method `upsertLocation`. -/
def upsertLocation (env : Env) (tx : DBState) (extLocation : Option ExternalLocation) :
    Option Location × Option GoError × DBState :=
  match extLocation with
  | none => (none, some (.other "cannot upsert nil location"), tx)
  | some extLocation =>
    let location := mapLocation env extLocation
    match tx.exec env (.upsertLocation location) with
    | (some err, tx1) => (none, some (.wrap "upsert location failed: " err), tx1)
    | (none, tx1) => (some location, none, tx1)

/-- The method `upsertCoverPhoto`; the row's `PropertyID` keeps its zero value. -/
def upsertCoverPhoto (env : Env) (tx : DBState) (extPhoto : Option ExternalCoverPhoto) :
    Option CoverPhoto × Option GoError × DBState :=
  match extPhoto with
  | none => (none, some (.other "cannot upsert nil cover photo"), tx)
  | some extPhoto =>
    let photo : CoverPhoto :=
      { ID := extPhoto.ID, Url := extPhoto.Url, Description := extPhoto.Description,
        PropertyID := 0 }
    match tx.exec env (.upsertCoverPhoto photo) with
    | (some err, tx1) => (none, some (.wrap "upsert cover photo failed: " err), tx1)
    | (none, tx1) => (some photo, none, tx1)

/-! ## Reconciler (`sync_service.go`, lines 146-211) -/

/-- The first block of the closure (lines 164-177): with an agent and its
nested user present, upsert the user, then the agent linked to the upserted
user's ID. Results: `mappedAgent`, the error the closure returns at this point
if any, and the handle. -/
def txUserAndAgent (env : Env) (extProp : ExternalProperty) (tx : DBState) :
    Option Agent × Option GoError × DBState :=
  match extProp.Agent with
  | none => (none, none, tx)
  | some extAgent =>
    match extAgent.User with
    | none => (none, none, tx)
    | some extUser =>
      match upsertUser env tx (some extUser) with
      | (_, some txErr, tx1) =>
        (none, some (.wrap ("failed to upsert user " ++ toString extUser.ID ++
          " for property " ++ toString extProp.ID ++ ": ") txErr), tx1)
      | (none, none, tx1) => (none, none, tx1)
      | (some mappedUser, none, tx1) =>
        match upsertAgent env tx1 (some extAgent) mappedUser.ID with
        | (_, some txErr, tx2) =>
          (none, some (.wrap ("failed to upsert agent " ++ toString extAgent.ID ++
            " for property " ++ toString extProp.ID ++ ": ") txErr), tx2)
        | (mappedAgent, none, tx2) => (mappedAgent, none, tx2)

/-- The second block of the closure (lines 179-186): upsert the cover photo
when there is one. -/
def txCoverPhoto (env : Env) (extProp : ExternalProperty) (tx : DBState) :
    Option CoverPhoto × Option GoError × DBState :=
  match extProp.CoverPhoto with
  | none => (none, none, tx)
  | some extPhoto =>
    match upsertCoverPhoto env tx (some extPhoto) with
    | (_, some txErr, tx1) =>
      (none, some (.wrap ("failed to upsert cover photo " ++ toString extPhoto.ID ++
        " for property " ++ toString extProp.ID ++ ": ") txErr), tx1)
    | (mappedCoverPhoto, none, tx1) => (mappedCoverPhoto, none, tx1)

/-- The rest of the closure (lines 188-209): map the property, insert it, then
upsert the location with its `PropertyID` set to the property's ID. -/
def txPropertyAndLocation (env : Env) (extProp : ExternalProperty) (mappedAgent : Option Agent)
    (mappedCoverPhoto : Option CoverPhoto) (tx : DBState) : Option GoError × DBState :=
  match mapExternalToDBProperty env extProp mappedAgent mappedCoverPhoto with
  | (_, some mapErr) =>
    (some (.wrap ("failed to map external property " ++ toString extProp.ID ++
      " to db model: ") mapErr), tx)
  | (dbProperty, none) =>
    match tx.exec env (.createProperty dbProperty) with
    | (some createErr, tx1) =>
      (some (.wrap ("failed to create property " ++ toString dbProperty.ID ++ ": ")
        createErr), tx1)
    | (none, tx1) =>
      match extProp.Location with
      | none => (none, tx1)
      | some extLocation =>
        match upsertLocation env tx1 (some { extLocation with PropertyID := extProp.ID }) with
        | (_, some txErr, tx2) =>
          (some (.wrap ("failed to upsert location " ++ toString extLocation.ID ++
            " for property " ++ toString extProp.ID ++ ": ") txErr), tx2)
        | (_, none, tx2) => (none, tx2)

/-- The closure `syncSingleProperty` passes to `Transaction` (lines 159-210):
the three blocks in order; the first error is returned at once. -/
def syncTx (env : Env) (extProp : ExternalProperty) (tx : DBState) : Option GoError × DBState :=
  match txUserAndAgent env extProp tx with
  | (_, some err, tx1) => (some err, tx1)
  | (mappedAgent, none, tx1) =>
    match txCoverPhoto env extProp tx1 with
    | (_, some err, tx2) => (some err, tx2)
    | (mappedCoverPhoto, none, tx2) =>
      txPropertyAndLocation env extProp mappedAgent mappedCoverPhoto tx2

/-- The method `syncSingleProperty`: the existence lookup, then the
transaction. A found row is signalled by returning `gorm.ErrRecordNotFound`. -/
def syncSingleProperty (env : Env) (db : DBState) (extProp : ExternalProperty) :
    Option GoError × DBState :=
  match db.exec env (.firstProperty extProp.ID) with
  | (none, db1) => (some .recordNotFound, db1)
  | (some err, db1) =>
    if !err.isRecordNotFound then
      (some (.wrap "failed to check for existing property: " err), db1)
    else transaction env db1 (syncTx env extProp)

/-! ## Fetcher and report (`sync_service.go`, lines 36-144) -/

/-- The variables of `FetchAndSyncProperties` that live across iterations:
`result`, `allErrors`, the key set of `processedIDs`, and the database. -/
structure RunState where
  result : SyncResult
  allErrors : List String
  processedIDs : List Nat
  db : DBState
  deriving DecidableEq, Repr

/-- What `FetchAndSyncProperties` returns, `(*SyncResult, error)`, and the
database it leaves. -/
structure RunOutcome where
  result : Option SyncResult
  err : Option GoError
  db : DBState
  deriving DecidableEq, Repr

/-- One iteration of the inner loop over `apiResponse.Data` (lines 101-124). -/
def processRecord (env : Env) (st : RunState) (extProp : ExternalProperty) : RunState :=
  let st1 : RunState :=
    { st with result := { st.result with FetchedCount := st.result.FetchedCount + 1 } }
  if extProp.ID ∈ st1.processedIDs then st1
  else
    match syncSingleProperty env st1.db extProp with
    | (some syncErr, db1) =>
      if syncErr.isRecordNotFound then
        { st1 with
          result := { st1.result with SkippedCount := st1.result.SkippedCount + 1 }
          processedIDs := extProp.ID :: st1.processedIDs
          db := db1 }
      else
        { st1 with
          allErrors := st1.allErrors ++
            ["Failed to sync property ID " ++ toString extProp.ID ++ ": " ++ syncErr.Error]
          result := { st1.result with ErrorCount := st1.result.ErrorCount + 1 }
          processedIDs := extProp.ID :: st1.processedIDs
          db := db1 }
    | (none, db1) =>
      { st1 with
        result := { st1.result with SyncedCount := st1.result.SyncedCount + 1 }
        processedIDs := extProp.ID :: st1.processedIDs
        db := db1 }

/-- The four abort blocks of the page loop (lines 54-94): append the message,
set the status to `failed`, publish the error list, set the error count to its
length, and return the result with the error. -/
def abortRun (st : RunState) (errMsg : String) (err : GoError) : RunOutcome :=
  let allErrors := st.allErrors ++ [errMsg]
  { result := some { st.result with
      Status := "failed", Errors := allErrors, ErrorCount := allErrors.length }
    err := some err
    db := st.db }

/-- The code after the page loop (lines 134-143). -/
def finishRun (st : RunState) : RunOutcome :=
  let status := if st.result.ErrorCount > 0 then "completed_with_errors" else "completed"
  { result := some { st.result with Status := status, Errors := st.allErrors }
    err := none
    db := st.db }

/-- The page loop `for nextURL != ""` (lines 49-132), allowed `fuel` page
requests; `none` when the loop wants a further request. -/
def pageLoop (env : Env) : Nat → String → RunState → Option RunOutcome
  | 0, nextURL, st => if nextURL = "" then some (finishRun st) else none
  | fuel + 1, nextURL, st0 =>
    if nextURL = "" then some (finishRun st0)
    else
      let st : RunState :=
        { st0 with result :=
            { st0.result with TotalPagesFetched := st0.result.TotalPagesFetched + 1 } }
      match env.get st.result.TotalPagesFetched nextURL with
      | .error err =>
        some (abortRun st
          ("Failed to fetch data from " ++ nextURL ++ ": " ++ err.Error)
          (.wrap ("failed to fetch page " ++ toString st.result.TotalPagesFetched ++ ": ") err))
      | .ok resp =>
        if resp.StatusCode ≠ 200 then
          let errMsg := "API request to " ++ nextURL ++ " failed with status " ++
            toString resp.StatusCode ++ ": " ++ resp.body
          some (abortRun st errMsg (.other errMsg))
        else
          match resp.readErr with
          | some err =>
            some (abortRun st
              ("Failed to read response body from " ++ nextURL ++ ": " ++ err.Error)
              (.wrap ("failed to read response body for page " ++
                toString st.result.TotalPagesFetched ++ ": ") err))
          | none =>
            match env.unmarshal resp.body with
            | .error err =>
              some (abortRun st
                ("Failed to unmarshal JSON from " ++ nextURL ++ ": " ++ err.Error)
                (.wrap ("failed to unmarshal JSON for page " ++
                  toString st.result.TotalPagesFetched ++ ": ") err))
            | .ok apiResponse =>
              let st1 : RunState :=
                if st.result.TotalPagesFetched = 1 then
                  { st with result := { st.result with TotalProperties := apiResponse.Meta.Total } }
                else st
              let st2 := apiResponse.Data.foldl (processRecord env) st1
              let next :=
                match apiResponse.Meta.NextPageURL with
                | some url => url
                | none => ""
              pageLoop env fuel next st2

/-- The state before the first iteration (lines 43-47). -/
def initialState (db : DBState) : RunState :=
  { result :=
      { Status := "in_progress", TotalPagesFetched := 0, TotalProperties := 0,
        FetchedCount := 0, SyncedCount := 0, SkippedCount := 0, ErrorCount := 0, Errors := [] }
    allErrors := []
    processedIDs := []
    db := db }

/-- The method `FetchAndSyncProperties`, allowed `fuel` page requests. -/
def FetchAndSyncProperties (env : Env) (fuel : Nat) (db : DBState) : Option RunOutcome :=
  if env.propertiesURL = "" then
    some { result := none
           err := some (.other "external API properties URL not configured")
           db := db }
  else pageLoop env fuel env.propertiesURL (initialState db)

/-! ## Fixtures for the concrete scenarios -/

/-- A wire property with the given ID, no agent, no location, no cover photo,
and empty payload fields. -/
def bareRecord (id : Nat) : ExternalProperty :=
  { ID := id, ValuerID := none, PropertyNumber := none, ParentValuation := none,
    ProjectID := none, OwnerName := "", PropertyType := none, PropertyDesign := "",
    ConstructionStage := "", YearBuilt := none, Age := none, Eul := none, Rel := none,
    Measurements := "", NoRooms := none, NoOfBathrooms := none, Occupancy := none,
    Attributes := "", TitleDeedsAvailable := "", CertificateOfSearchAvailable := none,
    EncumbrancesAvailable := none, Defects := none, Description := "",
    MasterBedroomEnsuite := "", BuildingSize := none, BuildingSizeUnit := "",
    LandSize := none, LandSizeUnit := "", EntryType := "", Price := none, ListingType := "",
    CreatedBy := none, CreatedAt := "", UpdatedAt := "", IsApproved := "", IsSubmitted := "",
    IsSaleCompleted := "", HasAcceptedOffer := "", IsReferred := "", ApprovedAt := none,
    Visibility := "", Views := 0, Location := none, Agent := none, CoverPhoto := none }

/-- A wire location with the given ID and wire `property_id`. -/
def bareLocation (id propertyID : Nat) : ExternalLocation :=
  { ID := id, PropertyID := propertyID, Region := "", District := "", Area := "",
    Postcode := none, SubArea := none, GoogleMapLink := none, Latitude := none,
    Longitude := none, ZoneCategory := "", Zoning := "", CreatedAt := "", UpdatedAt := "" }

/-- A page holding `records`, declaring `total` and linking to `next`. -/
def mkPage (records : List ExternalProperty) (total : Int) (next : Option String) :
    PropertiesAPIResponse :=
  { Data := records
    Meta := { CurrentPage := 0, LastPage := 0, PerPage := 0, Total := total,
              NextPageURL := next, PrevPageURL := none } }

/-- A source serving the listed pages: a request for a listed URL is answered
with status 200 and a body (the URL itself) that decodes to the page; any
other URL is answered with status 500. No database statement fails. -/
def sourceOf (start : String) (pages : List (String × PropertiesAPIResponse)) : Env :=
  { propertiesURL := start
    get := fun _ url =>
      match pages.lookup url with
      | some _ => .ok { StatusCode := 200, body := url, readErr := none }
      | none => .ok { StatusCode := 500, body := "", readErr := none }
    unmarshal := fun body =>
      match pages.lookup body with
      | some page => .ok page
      | none => .error (.other "unexpected end of JSON input")
    timeParse := fun _ _ => none
    now := 0
    faults := fun _ _ => none }

/-- The database with empty tables. -/
def emptyDB : DBState :=
  { store := { users := [], agents := [], coverPhotos := [], properties := [], locations := [] }
    calls := 0 }

/-- The source of the overlap scenario: page 1 holds 10 and 11 and links to
page 2, which holds 10 and 12 and links nowhere. -/
def overlapSource : Env :=
  sourceOf "page1"
    [("page1", mkPage [bareRecord 10, bareRecord 11] 3 (some "page2")),
     ("page2", mkPage [bareRecord 10, bareRecord 12] 3 none)]

/-! ## Specification-side vocabulary -/

/-- The page a request yields when the fetch succeeds: the transport returns a
response, its status is 200, the body is read without error and decodes.
`none` stands for each of the four fetch-level failures. -/
def pageOf (env : Env) (n : Nat) (url : String) : Option PropertiesAPIResponse :=
  match env.get n url with
  | .error _ => none
  | .ok resp =>
    if resp.StatusCode ≠ 200 then none
    else
      match resp.readErr with
      | some _ => none
      | none =>
        match env.unmarshal resp.body with
        | .error _ => none
        | .ok page => some page

/-- The URL the loop visits after a page: its next-page link, or the empty
string that ends the loop. -/
def nextURL (page : PropertiesAPIResponse) : String :=
  match page.Meta.NextPageURL with
  | some url => url
  | none => ""

/-- The number of records the dedup guard skips when the records with the given
IDs are processed in order starting from the seen-set `seen`: a record counts
when its ID is in the seen-set at its turn, and every other record enters the
seen-set. -/
def dedupSkips (seen : List Nat) : List Nat → Nat
  | [] => 0
  | id :: ids =>
    if id ∈ seen then dedupSkips seen ids + 1 else dedupSkips (id :: seen) ids

/-- The seen-set after the records with the given IDs have been processed. -/
def seenAfter (seen : List Nat) : List Nat → List Nat
  | [] => seen
  | id :: ids => if id ∈ seen then seenAfter seen ids else seenAfter (id :: seen) ids

/-- Pages `p₁ … pₘ` are fetched successfully one after the other, starting at
`url` after `n` earlier requests, each linking to the next request, and the
request that follows `pₘ` fails. -/
def FailsAfter (env : Env) : Nat → String → List PropertiesAPIResponse → Prop
  | n, url, [] => url ≠ "" ∧ pageOf env (n + 1) url = none
  | n, url, page :: pages =>
    url ≠ "" ∧ pageOf env (n + 1) url = some page ∧ FailsAfter env (n + 1) (nextURL page) pages

/-- Pages `p₁ … pₘ` are fetched successfully one after the other, starting at
`url` after `n` earlier requests, and the last one links nowhere. -/
def ChainOf (env : Env) : Nat → String → List PropertiesAPIResponse → Prop
  | _, url, [] => url = ""
  | n, url, page :: pages =>
    url ≠ "" ∧ pageOf env (n + 1) url = some page ∧ ChainOf env (n + 1) (nextURL page) pages

/-- No database statement is failed by the environment. -/
def NoFaults (env : Env) : Prop := ∀ n op, env.faults n op = none

/-- The IDs of the stored property rows, in insertion order. -/
def Store.propertyIDs (s : Store) : List Nat := s.properties.map (fun p => p.ID)

/-- A state with the two page-level fields of the report replaced. -/
def RunState.withMeta (st : RunState) (pages : Nat) (total : Int) : RunState :=
  { st with result := { st.result with TotalPagesFetched := pages, TotalProperties := total } }

/-- The state after the records of a list have gone through the record loop. -/
def processAll (env : Env) (st : RunState) (records : List ExternalProperty) : RunState :=
  records.foldl (processRecord env) st

/-- The records of a list of pages, in processing order. -/
def recordsOf (pages : List PropertiesAPIResponse) : List ExternalProperty :=
  pages.flatMap (fun page => page.Data)

/-- The state reached by sending the records of the pages through the record
loop from the initial state: the values accumulated while processing them. -/
def accumulated (env : Env) (db : DBState) (pages : List PropertiesAPIResponse) : RunState :=
  processAll env (initialState db) (recordsOf pages)

/-- The environment `env` with the database failures replaced. -/
def withFaults (env : Env) (faults : Nat → DBOp → Option GoError) : Env :=
  { env with faults := faults }

/-- A source whose only page holds record 10 twice and links to a page that
is answered with status 500. -/
def brokenSource : Env :=
  sourceOf "page1" [("page1", mkPage [bareRecord 10, bareRecord 10] 2 (some "page2"))]

/-- A source of five pages of one record each, linked in a row, whose third
page is answered with status 500. -/
def fivePageSource : Env :=
  sourceOf "page1"
    [("page1", mkPage [bareRecord 1] 5 (some "page2")),
     ("page2", mkPage [bareRecord 2] 5 (some "page3")),
     ("page4", mkPage [bareRecord 4] 5 (some "page5")),
     ("page5", mkPage [bareRecord 5] 5 none)]

/-- A wire property with the given ID and a location with the given ID. -/
def recordWithLocation (id locationID : Nat) : ExternalProperty :=
  { bareRecord id with Location := some (bareLocation locationID 0) }

/-- A source of one page of three records with locations 101, 102, 103, over a
database that refuses the upsert of location 102. -/
def threeRecordSource : Env :=
  withFaults
    (sourceOf "page1"
      [("page1", mkPage [recordWithLocation 1 101, recordWithLocation 2 102,
          recordWithLocation 3 103] 3 none)])
    (fun _ op =>
      match op with
      | .upsertLocation row =>
        if row.ID = 102 then some (.other "connection reset by peer") else none
      | _ => none)

/-- The outcome of a run that returns within its fuel (and a placeholder
without report otherwise). -/
def outcomeOf (env : Env) (fuel : Nat) (db : DBState) : RunOutcome :=
  (FetchAndSyncProperties env fuel db).getD { result := none, err := none, db := db }

/-- The report of a run that returns one (and the initial report otherwise). -/
def reportOf (env : Env) (fuel : Nat) (db : DBState) : SyncResult :=
  (outcomeOf env fuel db).result.getD (initialState db).result

instance ChainOf.decidable (env : Env) :
    ∀ (n : Nat) (url : String) (pages : List PropertiesAPIResponse),
      Decidable (ChainOf env n url pages)
  | _, url, [] => inferInstanceAs (Decidable (url = ""))
  | n, url, page :: pages =>
    have := ChainOf.decidable env (n + 1) (nextURL page) pages
    inferInstanceAs (Decidable (url ≠ "" ∧ pageOf env (n + 1) url = some page ∧
      ChainOf env (n + 1) (nextURL page) pages))

instance FailsAfter.decidable (env : Env) :
    ∀ (n : Nat) (url : String) (pages : List PropertiesAPIResponse),
      Decidable (FailsAfter env n url pages)
  | n, url, [] => inferInstanceAs (Decidable (url ≠ "" ∧ pageOf env (n + 1) url = none))
  | n, url, page :: pages =>
    have := FailsAfter.decidable env (n + 1) (nextURL page) pages
    inferInstanceAs (Decidable (url ≠ "" ∧ pageOf env (n + 1) url = some page ∧
      FailsAfter env (n + 1) (nextURL page) pages))

/-- The two pages of `overlapSource`. -/
def overlapPages : List PropertiesAPIResponse :=
  [mkPage [bareRecord 10, bareRecord 11] 3 (some "page2"),
   mkPage [bareRecord 10, bareRecord 12] 3 none]

/-- The page `brokenSource` serves. -/
def brokenPages : List PropertiesAPIResponse :=
  [mkPage [bareRecord 10, bareRecord 10] 2 (some "page2")]

/-- The two pages of `fivePageSource` that precede the failing one. -/
def firstTwoPages : List PropertiesAPIResponse :=
  [mkPage [bareRecord 1] 5 (some "page2"), mkPage [bareRecord 2] 5 (some "page3")]

/-- A state in the middle of a run over the empty database: counters at
3, 1, 1, 1, one error string, and records 10 and 11 in the seen-set. -/
def midRunState : RunState :=
  { result := { Status := "in_progress", TotalPagesFetched := 2, TotalProperties := 7,
                FetchedCount := 3, SyncedCount := 1, SkippedCount := 1, ErrorCount := 1,
                Errors := [] }
    allErrors := ["Failed to sync property ID 11: connection reset by peer"]
    processedIDs := [11, 10]
    db := emptyDB }

/-- The database after record 10 has been synced into the empty database. -/
def seededDB : DBState :=
  (syncSingleProperty overlapSource emptyDB (bareRecord 10)).2

/-- A source of one page holding record 10. -/
def singlePageSource : Env :=
  sourceOf "page1" [("page1", mkPage [bareRecord 10] 1 none)]

/-- The single-page source over a database whose existence
lookups fail with a connection error. -/
def lookupDownSource : Env :=
  withFaults singlePageSource
    (fun _ op =>
      match op with
      | .firstProperty _ => some (.other "connection refused")
      | _ => none)

/-- The single-page source over a database that fails the third statement it
is sent (counting from zero: statement 2) and no other. -/
def flakySource : Env :=
  withFaults singlePageSource (fun n _ => if n = 2 then some (.other "statement timeout") else none)

/-! ## Vocabulary for the rows of the tables -/

/-- The first stored user row with the given ID. -/
def Store.userRow (s : Store) (id : Nat) : Option User :=
  s.users.find? (fun u => u.ID == id)

/-- The first stored agent row with the given ID. -/
def Store.agentRow (s : Store) (id : Nat) : Option Agent :=
  s.agents.find? (fun a => a.ID == id)

/-- The first stored location row with the given ID. -/
def Store.locationRow (s : Store) (id : Nat) : Option Location :=
  s.locations.find? (fun l => l.ID == id)

/-- The first stored cover photo row with the given ID. -/
def Store.coverPhotoRow (s : Store) (id : Nat) : Option CoverPhoto :=
  s.coverPhotos.find? (fun c => c.ID == id)

/-- The first stored property row with the given ID. -/
def Store.propertyRow (s : Store) (id : Nat) : Option Property :=
  s.properties.find? (fun q => q.ID == id)

/-- Every agent row's `user_id` is the ID of a stored user row. -/
def AgentsHaveUsers (s : Store) : Prop :=
  ∀ a ∈ s.agents, ∃ u ∈ s.users, u.ID = a.UserID

instance AgentsHaveUsers.decidable (s : Store) : Decidable (AgentsHaveUsers s) :=
  inferInstanceAs (Decidable (∀ a ∈ s.agents, ∃ u ∈ s.users, u.ID = a.UserID))

/-- A wire user with the given ID, email and `created_at` text. -/
def bareUser (id : Nat) (email createdAt : String) : ExternalUser :=
  { ID := id, Name := "", Email := email, Status := "", EmailVerifiedAt := none, Phone := "",
    PasswordLastUpdatedAt := none, FinancialInstitutionID := none, DeletedAt := none,
    CreatedAt := createdAt, UpdatedAt := "", Role := "", SignatureStorageURL := none,
    ProfileImageStorageURL := none }

/-- A wire agent with the given ID, wire `user_id` text and nested user. -/
def bareAgent (id : Nat) (userID : String) (user : Option ExternalUser) : ExternalAgent :=
  { ID := id, UserID := userID, Phone1 := "", Phone2 := none, Headline1 := none,
    Headline2 := none, About := none, IsAgreementSigned := "", AgentType := "",
    BankName := none, AccountName := none, AccountNumber := none, AccountType := none,
    AccountBranch := none, Phone := "", Email := "", Linkedin := none, Address := none,
    CreatedAt := "", UpdatedAt := "", CoverageArea := none, Name := "", User := user }

/-- Record 20: agent 5 whose wire `user_id` text is not a number and whose
nested user is 7, and location 9 whose wire `property_id` is 999. -/
def agentRecord : ExternalProperty :=
  { bareRecord 20 with
    Agent := some (bareAgent 5 "seven" (some (bareUser 7 "a@example.com" "")))
    Location := some (bareLocation 9 999) }

/-- Record 22: agent 5 whose nested user carries the ID 0, as does the wire
`user_id` text. -/
def zeroUserRecord : ExternalProperty :=
  { bareRecord 22 with
    Agent := some (bareAgent 5 "0" (some (bareUser 0 "a@example.com" ""))) }

/-- Record 23: an agent that carries the ID 0, with nested user 7. -/
def zeroAgentRecord : ExternalProperty :=
  { bareRecord 23 with
    Agent := some (bareAgent 0 "7" (some (bareUser 7 "a@example.com" ""))) }

/-- A database that refuses every user upsert. -/
def userDownSource : Env :=
  withFaults singlePageSource
    (fun _ op =>
      match op with
      | .upsertUser _ => some (.other "unique constraint violated")
      | _ => none)

/-! ## A reference time parser for the concrete scenarios -/

/-- Whether a year of the proleptic Gregorian calendar is a leap year. -/
def isLeapYear (y : Nat) : Bool :=
  y % 4 == 0 && (y % 100 != 0 || y % 400 == 0)

/-- The number of days of a month (1 to 12) of a year; 0 for any other number. -/
def daysInMonth (y m : Nat) : Nat :=
  if m = 2 then (if isLeapYear y then 29 else 28)
  else if m = 4 ∨ m = 6 ∨ m = 9 ∨ m = 11 then 30
  else if 1 ≤ m ∧ m ≤ 12 then 31
  else 0

/-- The days of a year that precede its month `m`. -/
def daysBeforeMonth (y m : Nat) : Nat :=
  ((List.range (m - 1)).map (fun i => daysInMonth y (i + 1))).sum

/-- The days between 1 January of year 1 and the given date (year at least 1). -/
def daysSinceYearOne (y m d : Nat) : Nat :=
  365 * (y - 1) + (y - 1) / 4 - (y - 1) / 100 + (y - 1) / 400 + daysBeforeMonth y m + (d - 1)

/-- The instant of a UTC wall-clock reading, in nanoseconds after Go's zero
time (1 January of year 1, 00:00:00 UTC). -/
def instantUTC (year month day hour minute second nanos : Nat) : Time :=
  ((((daysSinceYearOne year month day * 24 + hour) * 60 + minute) * 60 + second : Nat) : Int)
    * 1000000000 + nanos

/-- The value of a decimal digit. -/
def digitValue (c : Char) : Option Nat :=
  if 48 ≤ c.toNat ∧ c.toNat ≤ 57 then some (c.toNat - 48) else none

/-- Read exactly `width` decimal digits. -/
def readDigits : Nat → List Char → Option (Nat × List Char)
  | 0, rest => some (0, rest)
  | _ + 1, [] => none
  | width + 1, c :: rest =>
    match digitValue c with
    | none => none
    | some v =>
      match readDigits width rest with
      | none => none
      | some (n, rest1) => some (v * 10 ^ width + n, rest1)

/-- Read the given character. -/
def readChar (c : Char) : List Char → Option (List Char)
  | [] => none
  | x :: rest => if x = c then some rest else none

/-- Read `YYYY-MM-DD`, a separator, and `HH:MM:SS` with the fields in range:
the seconds after year one of the wall-clock reading, and the rest of the input. -/
def readDateTime (sep : Char) (input : List Char) : Option (Nat × List Char) :=
  match readDigits 4 input with
  | none => none
  | some (y, r1) =>
  match readChar '-' r1 with
  | none => none
  | some r2 =>
  match readDigits 2 r2 with
  | none => none
  | some (m, r3) =>
  match readChar '-' r3 with
  | none => none
  | some r4 =>
  match readDigits 2 r4 with
  | none => none
  | some (d, r5) =>
  match readChar sep r5 with
  | none => none
  | some r6 =>
  match readDigits 2 r6 with
  | none => none
  | some (hh, r7) =>
  match readChar ':' r7 with
  | none => none
  | some r8 =>
  match readDigits 2 r8 with
  | none => none
  | some (mm, r9) =>
  match readChar ':' r9 with
  | none => none
  | some r10 =>
  match readDigits 2 r10 with
  | none => none
  | some (ss, r11) =>
    if 1 ≤ y ∧ 1 ≤ m ∧ m ≤ 12 ∧ 1 ≤ d ∧ d ≤ daysInMonth y m ∧ hh < 24 ∧ mm < 60 ∧ ss < 60 then
      some (((daysSinceYearOne y m d * 24 + hh) * 60 + mm) * 60 + ss, r11)
    else none

/-- Read an optional fraction of a second, a period or a comma followed by
one or more digits, of which the first nine count: its nanoseconds and the
rest of the input. -/
def readFraction (input : List Char) : Nat × List Char :=
  match input with
  | [] => (0, input)
  | c :: rest =>
    if c = '.' ∨ c = ',' then
      let digits := rest.takeWhile (fun c => (digitValue c).isSome)
      if 1 ≤ digits.length then
        match readDigits (digits.take 9).length (digits.take 9) with
        | some (n, _) => (n * 10 ^ (9 - (digits.take 9).length), rest.drop digits.length)
        | none => (0, input)
      else (0, input)
    else (0, input)

/-- Read a zone, `Z` or a sign and `HH:MM`, to the end of the input: its
offset from UTC in seconds. -/
def readZone (input : List Char) : Option Int :=
  match input with
  | ['Z'] => some 0
  | sign :: rest =>
    if sign = '+' ∨ sign = '-' then
      match readDigits 2 rest with
      | none => none
      | some (hh, r1) =>
      match readChar ':' r1 with
      | none => none
      | some r2 =>
      match readDigits 2 r2 with
      | none => none
      | some (mm, r3) =>
        if r3 = [] ∧ hh < 24 ∧ mm < 60 then
          some ((if sign = '-' then -1 else 1) * ((hh * 60 + mm) * 60 : Nat))
        else none
    else none
  | [] => none

/-- A stand-in for the library function `time.Parse` on the two layouts of
`parseAPITime`, reading the fixed-width form of each layout: for
`time.RFC3339Nano` a date, `T`, a time, an optional fraction and a zone; for
`2006-01-02 15:04:05` a date, a blank, a time and, as the library accepts a
fraction of a second right after the seconds field of a layout that has none,
an optional fraction, taken as UTC. It serves the concrete scenarios only; the
general statements hold for every parser. Inputs the library accepts beyond
these forms are not accepted here. -/
def referenceParse (layout value : String) : Option Time :=
  if layout = "2006-01-02T15:04:05.999999999Z07:00" then
    match readDateTime 'T' value.toList with
    | none => none
    | some (seconds, rest) =>
      match readZone (readFraction rest).2 with
      | none => none
      | some offset => some (((seconds : Int) - offset) * 1000000000 + (readFraction rest).1)
  else if layout = "2006-01-02 15:04:05" then
    match readDateTime ' ' value.toList with
    | none => none
    | some (seconds, rest) =>
      if (readFraction rest).2 = [] then
        some ((seconds : Int) * 1000000000 + (readFraction rest).1)
      else none
  else none

/-- The overlap source with the reference parser and a clock that reads
1 January 2026, 00:00:00 UTC. -/
def clockedSource : Env :=
  { overlapSource with
    timeParse := referenceParse
    now := instantUTC 2026 1 1 0 0 0 0 }

/-- Record 30 with the given `created_at`, `updated_at` and `approved_at` texts. -/
def timedRecord (createdAt updatedAt : String) (approvedAt : Option String) :
    ExternalProperty :=
  { bareRecord 30 with CreatedAt := createdAt, UpdatedAt := updatedAt, ApprovedAt := approvedAt }

/-- Two wire versions of user 7: the first created on 1 April 2025 with one
email, the second carrying another email and another `created_at`. -/
def userVersions : ExternalUser × ExternalUser :=
  (bareUser 7 "first@example.com" "2025-04-01T11:44:25.000000Z",
   bareUser 7 "second@example.com" "2025-05-02T08:00:00Z")

/-- The total the first of the fetched pages declares; 0 when no page was
fetched. -/
def declaredTotal (pages : List PropertiesAPIResponse) : Int :=
  match pages with
  | [] => 0
  | page :: _ => page.Meta.Total

/-- The value of `TotalProperties` after the loop has gone through `pages`
starting after `n` earlier requests with the value `current`: the total of the
first page when the loop starts at its first request, `current` otherwise. -/
def totalAfter (n : Nat) (current : Int) (pages : List PropertiesAPIResponse) : Int :=
  if n = 0 then
    match pages with
    | [] => current
    | page :: _ => page.Meta.Total
  else current

/-- A source of two pages of one record each: page 1 declares a total of 5,
page 2 a total of 99. -/
def mixedTotalsSource : Env :=
  sourceOf "page1"
    [("page1", mkPage [bareRecord 1] 5 (some "page2")),
     ("page2", mkPage [bareRecord 2] 99 none)]

/-- The two pages of `mixedTotalsSource`. -/
def mixedTotalsPages : List PropertiesAPIResponse :=
  [mkPage [bareRecord 1] 5 (some "page2"), mkPage [bareRecord 2] 99 none]

/-- A source whose first URL is answered with status 500. -/
def unservedSource : Env := sourceOf "page1" []

/-- The error strings the record loop appends for one record at a given
state: none when the dedup guard stops the record, when it is synced or when
it is counted as skipped; one when it is counted as an error. -/
def errorOf (env : Env) (st : RunState) (r : ExternalProperty) : List String :=
  if r.ID ∈ st.processedIDs then []
  else
    match (syncSingleProperty env st.db r).1 with
    | some syncErr =>
      if syncErr.isRecordNotFound then []
      else ["Failed to sync property ID " ++ toString r.ID ++ ": " ++ syncErr.Error]
    | none => []

/-- The error strings of the failed records of a list, in the order in which
the records are processed. -/
def recordErrors (env : Env) (st : RunState) : List ExternalProperty → List String
  | [] => []
  | r :: rs => errorOf env st r ++ recordErrors env (processRecord env st r) rs

/-- The source `brokenSource` over a database whose existence lookups fail
with a connection error. -/
def brokenLookupDownSource : Env :=
  withFaults brokenSource
    (fun _ op =>
      match op with
      | .firstProperty _ => some (.other "connection refused")
      | _ => none)

/-- Whether a statement is an upsert of a user or of an agent. -/
def DBOp.isUserOrAgentUpsert : DBOp → Bool
  | .upsertUser _ => true
  | .upsertAgent _ => true
  | _ => false

/-- Two environments that can differ only in how the database answers upserts
of users and agents (and in what the page source serves). -/
def AgreeOffUserAgent (env env2 : Env) : Prop :=
  env2.timeParse = env.timeParse ∧ env2.now = env.now ∧
  ∀ n op, DBOp.isUserOrAgentUpsert op = false → env2.faults n op = env.faults n op

/-- Record 21: agent 5 without a nested user. -/
def userlessAgentRecord : ExternalProperty :=
  { bareRecord 21 with Agent := some (bareAgent 5 "7" none) }

/-- A database that refuses every upsert of a user and of an agent. -/
def userAgentDownSource : Env :=
  withFaults singlePageSource
    (fun _ op =>
      match op with
      | .upsertUser _ => some (.other "unique constraint violated")
      | .upsertAgent _ => some (.other "unique constraint violated")
      | _ => none)

/-! ## Query building (`gorm` builder calls of `services/property_service.go`) -/

/-- A value bound to a placeholder of a condition. -/
inductive SQLArg where
  | text (s : String) : SQLArg
  | float (f : Float64) : SQLArg
  | uint (n : Nat) : SQLArg
  deriving DecidableEq, Repr

/-- A condition of the `WHERE` clause: an expression with one placeholder and
the argument bound to it (`Where("... ?", arg)`), or a parenthesised group of
such expressions joined by `OR` (`Where(db.Where(...).Or(...)...)`). The
conditions of a query are joined by `AND`. -/
inductive Condition where
  | expr (sql : String) (arg : SQLArg) : Condition
  | orGroup (parts : List (String × SQLArg)) : Condition
  deriving DecidableEq, Repr

/-- The state of a `*gorm.DB` query builder as far as the services drive it:
the model's table, the joins and conditions in the order they were added, the
orderings, offset and limit, and the preloads. Rendering to SQL is the ORM's
and is not modelled. -/
structure Query where
  table : String
  joins : List String
  conds : List Condition
  orders : List String
  offset : Option Int
  limit : Option Int
  preloads : List String
  deriving DecidableEq, Repr

/-- The call `s.DB.Model(&models.Property{})`. -/
def Query.Model : Query :=
  { table := "properties", joins := [], conds := [], orders := [], offset := none,
    limit := none, preloads := [] }

/-- The call `query.Where(sql, arg)`. -/
def Query.Where (q : Query) (sql : String) (arg : SQLArg) : Query :=
  { q with conds := q.conds ++ [.expr sql arg] }

/-- The call `query.Where(group)` with a builder holding `Where(...).Or(...)`
conditions. -/
def Query.WhereGroup (q : Query) (parts : List (String × SQLArg)) : Query :=
  { q with conds := q.conds ++ [.orGroup parts] }

/-- The call `query.Joins(sql)`. -/
def Query.Joins (q : Query) (sql : String) : Query :=
  { q with joins := q.joins ++ [sql] }

/-- The call `query.Order(sql)`. -/
def Query.Order (q : Query) (sql : String) : Query :=
  { q with orders := q.orders ++ [sql] }

/-- The call `query.Preload(name)`. -/
def Query.Preload (q : Query) (name : String) : Query :=
  { q with preloads := q.preloads ++ [name] }

/-- The call `query.Offset(n)`. -/
def Query.Offset (q : Query) (n : Int) : Query :=
  { q with offset := some n }

/-- The call `query.Limit(n)`. -/
def Query.Limit (q : Query) (n : Int) : Query :=
  { q with limit := some n }

/-! ## Pagination (`utils/pagination.go`) -/

/-- The value of an `int` expression on a 64-bit platform: the mathematical
result wrapped into the range of `int64` (two's complement). -/
def wrapInt (x : Int) : Int :=
  (x + 2 ^ 63) % 2 ^ 64 - 2 ^ 63

def DefaultPage : Int := 1

def DefaultPageSize : Int := 10

def MaxPageSize : Int := 100

/-- The struct `schema.PaginationRequest`. -/
structure PaginationRequest where
  Page : Int
  PageSize : Int
  deriving DecidableEq, Repr

/-- The function `GetPaginationParams`, from the two integers that
`c.QueryInt("page", DefaultPage)` and `c.QueryInt("pageSize", DefaultPageSize)`
hand back. -/
def GetPaginationParams (queryPage queryPageSize : Int) : PaginationRequest :=
  let page := if queryPage ≤ 0 then DefaultPage else queryPage
  let pageSize := if queryPageSize ≤ 0 then DefaultPageSize else queryPageSize
  let pageSize := if pageSize > MaxPageSize then MaxPageSize else pageSize
  { Page := page, PageSize := pageSize }

/-- The scope `PaginateScope(page, pageSize)`: the offset is computed in
`int` arithmetic. -/
def PaginateScope (page pageSize : Int) (db : Query) : Query :=
  let offset := wrapInt (wrapInt (page - 1) * pageSize)
  (db.Offset offset).Limit pageSize

/-! ## Paginated responses (`utils/pagination.go`, lines 46-60) -/

/-- Round to the nearest integer, a tie going to the even neighbour. -/
def roundHalfEven (x : ℚ) : ℤ :=
  if x - ⌊x⌋ < 1 / 2 then ⌊x⌋
  else if 1 / 2 < x - ⌊x⌋ then ⌊x⌋ + 1
  else if ⌊x⌋ % 2 = 0 then ⌊x⌋
  else ⌊x⌋ + 1

/-- The value of the `float64` nearest to a number (IEEE 754 binary64, round
to nearest, ties to even): the number is rounded to a multiple of the unit in
the last place of its binade, 2^(e - 52) for 2^e <= |x| < 2^(e + 1). This is
the result of the conversion `float64(n)` and of a `float64` division applied
to the exact quotient. The exponent range of the format is not modelled; the
magnitudes that arise from `int64` operands lie between 2^(-63) and 2^63. -/
def toFloat64 (x : ℚ) : ℚ :=
  if x = 0 then 0
  else roundHalfEven (x / 2 ^ (Int.log 2 |x| - 52)) * 2 ^ (Int.log 2 |x| - 52)

/-- The function `math.Ceil`, exact on every `float64`. -/
def Ceil (x : ℚ) : ℚ := (⌈x⌉ : ℤ)

/-- The conversion `int(f)`: truncation towards zero. For a value outside the
range of `int64` the language leaves the result to the implementation; the
value given here is the one of amd64. -/
def floatToInt (x : ℚ) : Int :=
  if -2 ^ 63 ≤ x ∧ x < 2 ^ 63 then (if 0 ≤ x then ⌊x⌋ else ⌈x⌉) else -2 ^ 63

/-- The struct `schema.PaginatedResponse`; `Data` is an `interface{}`. -/
structure PaginatedResponse (α : Type) where
  Data : α
  Page : Int
  PageSize : Int
  TotalItems : Int
  TotalPages : Int

/-- The function `CreatePaginatedResponse`. -/
def CreatePaginatedResponse {α : Type} (data : α) (totalItems page pageSize : Int) :
    PaginatedResponse α :=
  let totalPages : Int :=
    if pageSize > 0 then
      floatToInt (Ceil (toFloat64 (toFloat64 totalItems / toFloat64 pageSize)))
    else 0
  { Data := data, Page := page, PageSize := pageSize, TotalItems := totalItems,
    TotalPages := totalPages }

/-! ## Filters and search (`services/property_service.go`, lines 204-292) -/

instance Float64.inhabited : Inhabited Float64 := ⟨⟨0⟩⟩

/-- The struct `schema.PropertyFilter`. -/
structure PropertyFilter where
  OwnerName : Option String
  PropertyType : Option String
  ConstructionStage : Option String
  ListingType : Option String
  MinPrice : Option Float64
  MaxPrice : Option Float64
  District : Option String
  Area : Option String
  AgentID : Option Nat
  deriving DecidableEq, Repr

/-- The expression `*p`. The code evaluates it only behind a test `p != nil`;
for a nil pointer the zero value stands in. -/
def deref {α : Type} [Inhabited α] (p : Option α) : α :=
  p.getD default

/-- The function `applyPropertyFilters`. -/
def applyPropertyFilters (query : Query) (filter : PropertyFilter) : Query :=
  let query :=
    if filter.OwnerName ≠ none ∧ deref filter.OwnerName ≠ "" then
      query.Where "properties.owner_name ILIKE ?" (.text ("%" ++ deref filter.OwnerName ++ "%"))
    else query
  let query :=
    if filter.PropertyType ≠ none ∧ deref filter.PropertyType ≠ "" then
      query.Where "properties.property_type = ?" (.text (deref filter.PropertyType))
    else query
  let query :=
    if filter.ConstructionStage ≠ none ∧ deref filter.ConstructionStage ≠ "" then
      query.Where "properties.construction_stage = ?" (.text (deref filter.ConstructionStage))
    else query
  let query :=
    if filter.ListingType ≠ none ∧ deref filter.ListingType ≠ "" then
      query.Where "properties.listing_type = ?" (.text (deref filter.ListingType))
    else query
  let query :=
    if filter.MinPrice ≠ none then
      query.Where "properties.price >= ?" (.float (deref filter.MinPrice))
    else query
  let query :=
    if filter.MaxPrice ≠ none then
      query.Where "properties.price <= ?" (.float (deref filter.MaxPrice))
    else query
  let query :=
    if filter.AgentID ≠ none then
      query.Where "properties.agent_id = ?" (.uint (deref filter.AgentID))
    else query
  let needsLocationJoin : Bool :=
    decide (filter.District ≠ none ∧ deref filter.District ≠ "") ||
      decide (filter.Area ≠ none ∧ deref filter.Area ≠ "")
  if needsLocationJoin then
    let query := query.Joins "JOIN locations ON locations.property_id = properties.id"
    let query :=
      if filter.District ≠ none ∧ deref filter.District ≠ "" then
        query.Where "locations.district ILIKE ?" (.text ("%" ++ deref filter.District ++ "%"))
      else query
    let query :=
      if filter.Area ≠ none ∧ deref filter.Area ≠ "" then
        query.Where "locations.area ILIKE ?" (.text ("%" ++ deref filter.Area ++ "%"))
      else query
    query
  else query

/-- The condition a string filter stands for: none when the filter is nil or
empty. -/
def textCondition (value : Option String) (mk : String → Condition) : List Condition :=
  match value with
  | none => []
  | some v => if v = "" then [] else [mk v]

/-- The condition a numeric filter stands for: none when the filter is nil. -/
def valueCondition {α : Type} (value : Option α) (mk : α → Condition) : List Condition :=
  match value with
  | none => []
  | some v => [mk v]

/-- The conditions a filter asks for, in the fixed order: owner name,
property type, construction stage, listing type, minimum price, maximum
price, agent, district, area. -/
def expectedConditions (filter : PropertyFilter) : List Condition :=
  textCondition filter.OwnerName
      (fun v => .expr "properties.owner_name ILIKE ?" (.text ("%" ++ v ++ "%"))) ++
    textCondition filter.PropertyType
      (fun v => .expr "properties.property_type = ?" (.text v)) ++
    textCondition filter.ConstructionStage
      (fun v => .expr "properties.construction_stage = ?" (.text v)) ++
    textCondition filter.ListingType
      (fun v => .expr "properties.listing_type = ?" (.text v)) ++
    valueCondition filter.MinPrice (fun v => .expr "properties.price >= ?" (.float v)) ++
    valueCondition filter.MaxPrice (fun v => .expr "properties.price <= ?" (.float v)) ++
    valueCondition filter.AgentID (fun v => .expr "properties.agent_id = ?" (.uint v)) ++
    textCondition filter.District
      (fun v => .expr "locations.district ILIKE ?" (.text ("%" ++ v ++ "%"))) ++
    textCondition filter.Area
      (fun v => .expr "locations.area ILIKE ?" (.text ("%" ++ v ++ "%")))

/-- Whether a string filter is set: not nil and not empty. -/
def textSet (value : Option String) : Bool :=
  match value with
  | none => false
  | some v => v != ""

/-- The number of filters that are set. -/
def setCount (filter : PropertyFilter) : Nat :=
  (textSet filter.OwnerName).toNat + (textSet filter.PropertyType).toNat +
    (textSet filter.ConstructionStage).toNat + (textSet filter.ListingType).toNat +
    filter.MinPrice.isSome.toNat + filter.MaxPrice.isSome.toNat +
    filter.AgentID.isSome.toNat + (textSet filter.District).toNat +
    (textSet filter.Area).toNat

/-- The join of the locations table a filter asks for. -/
def expectedJoins (filter : PropertyFilter) : List String :=
  if textSet filter.District || textSet filter.Area then
    ["JOIN locations ON locations.property_id = properties.id"]
  else []

/-- The filter with no field set. -/
def emptyFilter : PropertyFilter :=
  { OwnerName := none, PropertyType := none, ConstructionStage := none, ListingType := none,
    MinPrice := none, MaxPrice := none, District := none, Area := none, AgentID := none }

/-- The filter of `TestGetAllProperties_AllFiltersCombined`; the price 50000.0
is carried by its bit pattern. -/
def combinedFilter : PropertyFilter :=
  { emptyFilter with
    OwnerName := some "Combined Owner", PropertyType := some "Residential",
    MinPrice := some ⟨4677104761256804352⟩, District := some "Suburb", AgentID := some 20 }

/-- The read side of the database: what it answers to a `Count` and to a
`Find` of a query. -/
structure ReadDB where
  count : Query → Except GoError Int
  find : Query → Except GoError (List Property)

/-- A query handed to the database for execution. -/
inductive Sent where
  | count (q : Query) : Sent
  | find (q : Query) : Sent
  deriving DecidableEq, Repr

/-- The query of an execution. -/
def Sent.query : Sent → Query
  | .count q => q
  | .find q => q

/-- The call `query.Scopes(f)`. -/
def Query.Scopes (q : Query) (f : Query → Query) : Query := f q

/-- The method `SearchProperties`: the results `([]models.Property, int64,
error)` and the queries it handed to the database, in order. -/
def SearchProperties (db : ReadDB) (searchTerm : String) (pag : PaginationRequest) :
    (List Property × Int × Option GoError) × List Sent :=
  let query := Query.Model
  let query :=
    if searchTerm ≠ "" then
      let query :=
        ((query.Joins "JOIN locations ON locations.property_id = properties.id").Joins
          "LEFT JOIN agents ON agents.id = properties.agent_id").Joins
          "LEFT JOIN users ON users.id = agents.user_id"
      let searchPattern := "%" ++ searchTerm ++ "%"
      query.WhereGroup
        [("properties.owner_name ILIKE ?", .text searchPattern),
         ("properties.description ILIKE ?", .text searchPattern),
         ("properties.property_design ILIKE ?", .text searchPattern),
         ("locations.district ILIKE ?", .text searchPattern),
         ("locations.area ILIKE ?", .text searchPattern),
         ("locations.sub_area ILIKE ?", .text searchPattern),
         ("users.name ILIKE ?", .text searchPattern)]
    else query
  let countQuery := query
  match db.count countQuery with
  | .error err =>
    (([], 0, some (.wrap "failed to count search results: " err)), [.count countQuery])
  | .ok totalItems =>
    let dataQuery :=
      ((((query.Scopes (PaginateScope pag.Page pag.PageSize)).Order
        "properties.created_at DESC").Preload "Location").Preload "Agent.User").Preload
        "CoverPhoto"
    match db.find dataQuery with
    | .error err =>
      (([], 0, some (.wrap "failed to retrieve search results: " err)),
        [.count countQuery, .find dataQuery])
    | .ok properties => ((properties, totalItems, none), [.count countQuery, .find dataQuery])

/-- The three joins of a search. -/
def searchJoins : List String :=
  ["JOIN locations ON locations.property_id = properties.id",
   "LEFT JOIN agents ON agents.id = properties.agent_id",
   "LEFT JOIN users ON users.id = agents.user_id"]

/-- The seven columns a search looks into. -/
def searchColumns : List String :=
  ["properties.owner_name", "properties.description", "properties.property_design",
   "locations.district", "locations.area", "locations.sub_area", "users.name"]

/-- The group of a search: one `ILIKE` per column, all bound to the pattern of
the term. -/
def searchGroup (term : String) : Condition :=
  .orGroup (searchColumns.map (fun column => (column ++ " ILIKE ?", .text ("%" ++ term ++ "%"))))

/-- A database that counts one row and finds none. -/
def scriptedDB : ReadDB :=
  { count := fun _ => .ok 1, find := fun _ => .ok [] }

/-! ## API errors (`schema/utils.go`, `utils/errors.go`) -/

/-- The struct `schema.CustomError`. -/
structure CustomError where
  StatusCode : Int
  Message : String
  Details : String
  deriving DecidableEq, Repr

/-- The method `(*CustomError).Error`, whose body is `panic("unimplemented")`:
`.error v` is a panic with value `v`. -/
def CustomError.Error (_c : CustomError) : Except String String :=
  .error "unimplemented"

/-- One entry of `validator.ValidationErrors`, by the two methods the handler
calls. -/
structure FieldError where
  Namespace : String
  Tag : String
  deriving DecidableEq, Repr

/-- A Go `error` as it reaches the HTTP layer: a `*schema.CustomError`; a
`validator.ValidationErrors` with the text of its `Error()` method; or an
error of the persistence layer, possibly wrapped with `%w`. -/
inductive HandlerError where
  | custom (e : CustomError) : HandlerError
  | validation (fields : List FieldError) (text : String) : HandlerError
  | plain (e : GoError) : HandlerError
  deriving DecidableEq, Repr

/-- The call `err.Error()`; `.error v` is a panic with value `v`. -/
def HandlerError.Error : HandlerError → Except String String
  | .custom c => c.Error
  | .validation _ text => .ok text
  | .plain e => .ok e.Error

/-- The function `NewAPIError`; `details` is the variadic argument. -/
def NewAPIError (statusCode : Int) (message : String) (details : List String) : CustomError :=
  { StatusCode := statusCode
    Message := message
    Details :=
      match details with
      | first :: _ => first
      | [] => "" }

/-- The variable `ErrPropertyExists`; `http.StatusConflict` is 409. -/
def ErrPropertyExists : CustomError :=
  NewAPIError 409 "Property already exists"
    ["A property with the provided ID already exists in the database."]

/-- The function `NewBadRequestError`; `http.StatusBadRequest` is 400. -/
def NewBadRequestError (details : String) : CustomError :=
  NewAPIError 400 "Bad Request" [details]

/-- The function `NewNotFoundError`; `http.StatusNotFound` is 404. -/
def NewNotFoundError (resource : String) : CustomError :=
  NewAPIError 404 (resource ++ " not found") []

/-- What `c.Status(code).JSON(body)` writes. -/
structure APIResponse where
  status : Int
  body : CustomError
  deriving DecidableEq, Repr

/-- The function `HandleError`: the response it writes, or the panic it ends
in (`.error v`). The default error is built first, from `err.Error()`; then
the error is classified: validation errors, `gorm.ErrRecordNotFound`, an
existing custom error. -/
def HandleError (err : HandlerError) : Except String APIResponse :=
  match err.Error with
  | .error panicValue => .error panicValue
  | .ok text =>
    let apiError := NewAPIError 500 "An unexpected error occurred" [text]
    let classified : Except String CustomError :=
      match err with
      | .validation ve _ =>
        match ve with
        | [] => .error "runtime error: index out of range [0] with length 0"
        | firstErr :: _ =>
          .ok (NewAPIError 400 "Invalid request data"
            ["Validation failed on field \x27" ++ firstErr.Namespace ++ "\x27, condition \x27" ++
              firstErr.Tag ++ "\x27"])
      | .plain e =>
        if e.isRecordNotFound then .ok (NewAPIError 404 "Resource not found" [])
        else .ok apiError
      | .custom customErr => .ok customErr
    match classified with
    | .error panicValue => .error panicValue
    | .ok apiError => .ok { status := apiError.StatusCode, body := apiError }

/-! ## Creating properties (`services/property_service.go`, lines 24-150) -/

/-- The struct `schema.CreatePropertyRequest`. -/
structure CreatePropertyRequest where
  ID : Nat
  ValuerID : Option Nat
  PropertyNumber : Option String
  ParentValuation : Option Nat
  ProjectID : Option Nat
  OwnerName : String
  PropertyType : Option String
  PropertyDesign : String
  ConstructionStage : String
  YearBuilt : Option String
  Age : Option Int
  Eul : Option Int
  Rel : Option Int
  Measurements : String
  NoRooms : Option Int
  NoOfBathrooms : Option Int
  Occupancy : Option String
  Attributes : String
  TitleDeedsAvailable : String
  CertificateOfSearchAvailable : Option String
  EncumbrancesAvailable : Option String
  Defects : Option String
  Description : String
  MasterBedroomEnsuite : String
  BuildingSize : Option Float64
  BuildingSizeUnit : String
  LandSize : Option Float64
  LandSizeUnit : String
  EntryType : String
  Price : Option Float64
  ListingType : String
  CreatedBy : Option Nat
  IsApproved : String
  IsSubmitted : String
  IsSaleCompleted : String
  HasAcceptedOffer : String
  IsReferred : String
  ApprovedAt : Option Time
  Visibility : String
  Views : Int
  Location : Option Location
  AgentID : Option Nat
  CoverPhoto : Option CoverPhoto
  deriving DecidableEq, Repr

/-- The struct `schema.BulkErrorDetail`. -/
structure BulkErrorDetail where
  PropertyID : Nat
  Error : String
  deriving DecidableEq, Repr

/-- The value `newProperty` that `CreateProperty` builds (lines 38-80): the
columns of the request; the timestamps and the agent reference keep their
zero values. -/
def newPropertyOf (req : CreatePropertyRequest) : Property :=
  { ID := req.ID
    ValuerID := req.ValuerID
    PropertyNumber := req.PropertyNumber
    ParentValuation := req.ParentValuation
    ProjectID := req.ProjectID
    OwnerName := req.OwnerName
    PropertyType := req.PropertyType
    PropertyDesign := req.PropertyDesign
    ConstructionStage := req.ConstructionStage
    YearBuilt := req.YearBuilt
    Age := req.Age
    Eul := req.Eul
    Rel := req.Rel
    Measurements := req.Measurements
    NoRooms := req.NoRooms
    NoOfBathrooms := req.NoOfBathrooms
    Occupancy := req.Occupancy
    Attributes := req.Attributes
    TitleDeedsAvailable := req.TitleDeedsAvailable
    CertificateOfSearchAvailable := req.CertificateOfSearchAvailable
    EncumbrancesAvailable := req.EncumbrancesAvailable
    Defects := req.Defects
    Description := req.Description
    MasterBedroomEnsuite := req.MasterBedroomEnsuite
    BuildingSize := req.BuildingSize
    BuildingSizeUnit := req.BuildingSizeUnit
    LandSize := req.LandSize
    LandSizeUnit := req.LandSizeUnit
    EntryType := req.EntryType
    Price := req.Price
    ListingType := req.ListingType
    CreatedBy := req.CreatedBy
    CreatedAt := 0
    UpdatedAt := 0
    IsApproved := req.IsApproved
    IsSubmitted := req.IsSubmitted
    IsSaleCompleted := req.IsSaleCompleted
    HasAcceptedOffer := req.HasAcceptedOffer
    IsReferred := req.IsReferred
    ApprovedAt := req.ApprovedAt
    Visibility := req.Visibility
    Views := req.Views
    AgentID := none }

/-- The method `CreateProperty`: the results `(*models.Property, error)` and
the database it leaves. The existence lookup, the insert and the reload are
statements of the database of this file. The nested location and cover photo
of the request travel with the Go value and are written by the ORM along with
the insert; those writes, and the preloading of associations on the reload,
are not modelled: the rows here are the columns of the properties table. -/
def CreateProperty (env : Env) (db : DBState) (req : CreatePropertyRequest) :
    (Option Property × Option HandlerError) × DBState :=
  match db.exec env (.firstProperty req.ID) with
  | (none, db1) => ((none, some (.custom ErrPropertyExists)), db1)
  | (some err, db1) =>
    if !err.isRecordNotFound then
      ((none, some (.plain (.wrap "failed to check for existing property: " err))), db1)
    else
      let newProperty := newPropertyOf req
      match db1.exec env (.createProperty newProperty) with
      | (some createErr, db2) =>
        ((none, some (.plain (.wrap "failed to create property: " createErr))), db2)
      | (none, db2) =>
        match db2.exec env (.firstProperty newProperty.ID) with
        | (some loadErr, db3) =>
          ((none, some (.plain
            (.wrap "failed to fetch created property with associations: " loadErr))), db3)
        | (none, db3) =>
          ((some ((db3.store.propertyRow newProperty.ID).getD newProperty), none), db3)

/-- The text of an error in the bulk report (lines 132-138): message and
details of a custom error, the text of `Error()` otherwise. -/
def errMsg (err : HandlerError) : String :=
  match err with
  | .custom customErr => customErr.Message ++ ": " ++ customErr.Details
  | .validation _ text => text
  | .plain e => e.Error

/-- One iteration of the loop of `CreateMultipleProperties` (lines 123-147). -/
def bulkStep (env : Env) (acc : (List Property × List BulkErrorDetail) × DBState)
    (req : CreatePropertyRequest) : (List Property × List BulkErrorDetail) × DBState :=
  match CreateProperty env acc.2 req with
  | ((_, some err), db1) =>
    ((acc.1.1, acc.1.2 ++ [{ PropertyID := req.ID, Error := errMsg err }]), db1)
  | ((some createdProperty, none), db1) => ((acc.1.1 ++ [createdProperty], acc.1.2), db1)
  | ((none, none), db1) => (acc.1, db1)

/-- The method `CreateMultipleProperties`: the successful properties, the
error report, and the database it leaves. -/
def CreateMultipleProperties (env : Env) (db : DBState) (requests : List CreatePropertyRequest) :
    (List Property × List BulkErrorDetail) × DBState :=
  requests.foldl (bulkStep env) (([], []), db)

/-- The attempts of a list of requests: each request with what `CreateProperty`
returns for it, run one after the other on the database the previous one
left. -/
def attempts (env : Env) :
    DBState → List CreatePropertyRequest →
      List (CreatePropertyRequest × Option Property × Option HandlerError)
  | _, [] => []
  | db, req :: rest =>
    (req, (CreateProperty env db req).1.1, (CreateProperty env db req).1.2)
      :: attempts env (CreateProperty env db req).2 rest

/-- The property an attempt reports as created, if it did not fail. -/
def createdOf (a : CreatePropertyRequest × Option Property × Option HandlerError) :
    Option Property :=
  match a.2.2 with
  | some _ => none
  | none => a.2.1

/-- The error detail an attempt reports, if it failed. -/
def detailOf (a : CreatePropertyRequest × Option Property × Option HandlerError) :
    Option BulkErrorDetail :=
  a.2.2.map (fun err => { PropertyID := a.1.ID, Error := errMsg err })

/-- A request with the given ID and empty payload. -/
def bareRequest (id : Nat) : CreatePropertyRequest :=
  { ID := id, ValuerID := none, PropertyNumber := none, ParentValuation := none,
    ProjectID := none, OwnerName := "", PropertyType := none, PropertyDesign := "",
    ConstructionStage := "", YearBuilt := none, Age := none, Eul := none, Rel := none,
    Measurements := "", NoRooms := none, NoOfBathrooms := none, Occupancy := none,
    Attributes := "", TitleDeedsAvailable := "", CertificateOfSearchAvailable := none,
    EncumbrancesAvailable := none, Defects := none, Description := "",
    MasterBedroomEnsuite := "", BuildingSize := none, BuildingSizeUnit := "",
    LandSize := none, LandSizeUnit := "", EntryType := "", Price := none, ListingType := "",
    CreatedBy := none, IsApproved := "", IsSubmitted := "", IsSaleCompleted := "",
    HasAcceptedOffer := "", IsReferred := "", ApprovedAt := none, Visibility := "", Views := 0,
    Location := none, AgentID := none, CoverPhoto := none }

/-! ## Further vocabulary and fixtures for the sync engine -/

/-- Whether a statement is the existence lookup, the only `First` the engine
sends. -/
def DBOp.isLookup : DBOp → Bool
  | .firstProperty _ => true
  | _ => false

/-- The library returns `gorm.ErrRecordNotFound` from `First`, `Take` and
`Last` only, and the repository registers no hook, plugin or callback: a
failure of any other statement (begin, commit, insert, upsert) is not that
error and does not wrap it. -/
def SentinelOnlyFromLookup (env : Env) : Prop :=
  ∀ n op e, env.faults n op = some e → DBOp.isLookup op = false → e.isRecordNotFound = false

/-- Two wire versions of agent 5, with different phone numbers and
timestamps. -/
def agentVersions : ExternalAgent × ExternalAgent :=
  ({ bareAgent 5 "7" none with
      Phone1 := "0111", CreatedAt := "2025-04-01T11:44:25.000000Z",
      UpdatedAt := "2025-04-01T11:44:25.000000Z" },
   { bareAgent 5 "8" none with
      Phone1 := "0222", CreatedAt := "2025-05-02T08:00:00Z",
      UpdatedAt := "2025-05-02T08:00:00Z" })

/-- Two wire versions of location 9 of property 20, with different districts
and timestamps. -/
def locationVersions : ExternalLocation × ExternalLocation :=
  ({ bareLocation 9 20 with
      District := "North", CreatedAt := "2025-04-01T11:44:25.000000Z",
      UpdatedAt := "2025-04-01T11:44:25.000000Z" },
   { bareLocation 9 20 with
      District := "South", CreatedAt := "2025-05-02T08:00:00Z",
      UpdatedAt := "2025-05-02T08:00:00Z" })

/-- Two wire versions of cover photo 3. -/
def photoVersions : ExternalCoverPhoto × ExternalCoverPhoto :=
  ({ ID := 3, Url := "old.jpg", Description := "old" },
   { ID := 3, Url := "new.jpg", Description := "new" })

/-- A database that holds users 7 and 8, the first version of agent 5 (of
user 7), property 20 of that agent, and the first versions of location 9 and
of cover photo 3, both attached to property 20. -/
def stockedDB : DBState :=
  { calls := 0
    store :=
      { users := [mapUser clockedSource (bareUser 7 "a@example.com" "2025-04-01T11:44:25.000000Z"),
                  mapUser clockedSource (bareUser 8 "b@example.com" "2025-04-01T11:44:25.000000Z")]
        agents := [mapAgent clockedSource agentVersions.1 7]
        coverPhotos := [{ ID := 3, Url := "old.jpg", Description := "old", PropertyID := 20 }]
        properties :=
          [(mapExternalToDBProperty clockedSource (bareRecord 20)
              (some (mapAgent clockedSource agentVersions.1 7)) none).1]
        locations := [mapLocation clockedSource locationVersions.1] } }

/-! ## Statements and transactions -/

theorem exec_calls (env : Env) (db : DBState) (op : DBOp) :
    (db.exec env op).2.calls = db.calls + 1 := by
  unfold DBState.exec
  split
  · rfl
  · split <;> rfl

theorem exec_error_store (env : Env) (db : DBState) (op : DBOp)
    (h : (db.exec env op).1 ≠ none) : (db.exec env op).2.store = db.store := by
  unfold DBState.exec at h ⊢
  split
  · rfl
  · split
    · rfl
    · rename_i h1 _ _ h2
      simp [h1, h2] at h

theorem exec_firstProperty_store (env : Env) (db : DBState) (id : Nat) :
    (db.exec env (.firstProperty id)).2.store = db.store := by
  unfold DBState.exec
  cases env.faults db.calls (.firstProperty id) with
  | some e => rfl
  | none => by_cases hp : db.store.hasProperty id <;> simp [Store.apply, hp]

theorem exec_txBegin_store (env : Env) (db : DBState) :
    (db.exec env .txBegin).2.store = db.store := by
  unfold DBState.exec
  cases env.faults db.calls .txBegin with
  | some e => rfl
  | none => simp [Store.apply]

theorem transaction_error_store (env : Env) (db : DBState)
    (fc : DBState → Option GoError × DBState)
    (h : (transaction env db fc).1 ≠ none) : (transaction env db fc).2.store = db.store := by
  unfold transaction at h ⊢
  have hb := exec_txBegin_store env db
  rcases hbeg : db.exec env .txBegin with ⟨e1, db1⟩
  rw [hbeg] at hb
  cases e1 with
  | some e => simpa [hbeg] using hb
  | none =>
    simp only [hbeg] at h ⊢
    rcases hfc : fc db1 with ⟨e2, tx1⟩
    cases e2 with
    | some e => simp [hfc]
    | none =>
      simp only [hfc] at h ⊢
      rcases hc : tx1.exec env .txCommit with ⟨e3, tx2⟩
      cases e3 with
      | some e => simp [hc]
      | none => simp [hc] at h

theorem syncSingleProperty_error_store (env : Env) (db : DBState) (extProp : ExternalProperty)
    (h : (syncSingleProperty env db extProp).1 ≠ none) :
    (syncSingleProperty env db extProp).2.store = db.store := by
  unfold syncSingleProperty at h ⊢
  have hs := exec_firstProperty_store env db extProp.ID
  rcases hl : db.exec env (.firstProperty extProp.ID) with ⟨e1, db1⟩
  rw [hl] at hs
  cases e1 with
  | none => simpa [hl] using hs
  | some err =>
    simp only [hl] at h ⊢
    by_cases hnf : err.isRecordNotFound = true
    · simp only [hnf, Bool.not_true, Bool.false_eq_true, if_false] at h ⊢
      rw [transaction_error_store env db1 _ h]
      exact hs
    · simpa [hnf] using hs

/-! ## The record loop -/

theorem processRecord_withMeta (env : Env) (st : RunState) (r : ExternalProperty)
    (pages : Nat) (total : Int) :
    processRecord env (st.withMeta pages total) r
      = (processRecord env st r).withMeta pages total := by
  unfold processRecord RunState.withMeta
  simp only
  by_cases hm : r.ID ∈ st.processedIDs
  · simp [hm]
  · simp only [hm, if_false]
    rcases syncSingleProperty env st.db r with ⟨e, db1⟩
    cases e with
    | none => rfl
    | some e => by_cases hn : e.isRecordNotFound = true <;> simp [hn]

theorem processAll_withMeta (env : Env) (records : List ExternalProperty) (st : RunState)
    (pages : Nat) (total : Int) :
    processAll env (st.withMeta pages total) records
      = (processAll env st records).withMeta pages total := by
  induction records generalizing st with
  | nil => rfl
  | cons r rs ih =>
    simp only [processAll, List.foldl_cons] at ih ⊢
    rw [processRecord_withMeta, ih]

theorem processAll_append (env : Env) (st : RunState) (xs ys : List ExternalProperty) :
    processAll env st (xs ++ ys) = processAll env (processAll env st xs) ys := by
  simp [processAll, List.foldl_append]

theorem processRecord_seen (env : Env) (st : RunState) (r : ExternalProperty)
    (h : r.ID ∈ st.processedIDs) :
    processRecord env st r
      = { st with result := { st.result with FetchedCount := st.result.FetchedCount + 1 } } := by
  unfold processRecord
  simp [h]

theorem processRecord_mem (env : Env) (st : RunState) (r : ExternalProperty) :
    r.ID ∈ (processRecord env st r).processedIDs := by
  unfold processRecord
  simp only
  by_cases hm : r.ID ∈ st.processedIDs
  · simp [hm]
  · simp only [hm, if_false]
    rcases syncSingleProperty env st.db r with ⟨e, db1⟩
    cases e with
    | none => simp
    | some e => by_cases hn : e.isRecordNotFound = true <;> simp [hn]

theorem processRecord_subset (env : Env) (st : RunState) (r : ExternalProperty) (id : Nat)
    (h : id ∈ st.processedIDs) : id ∈ (processRecord env st r).processedIDs := by
  unfold processRecord
  simp only
  by_cases hm : r.ID ∈ st.processedIDs
  · simp [hm, h]
  · simp only [hm, if_false]
    rcases syncSingleProperty env st.db r with ⟨e, db1⟩
    cases e with
    | none => simp [h]
    | some e => by_cases hn : e.isRecordNotFound = true <;> simp [hn, h]

theorem processAll_subset (env : Env) (records : List ExternalProperty) (st : RunState)
    (id : Nat) (h : id ∈ st.processedIDs) : id ∈ (processAll env st records).processedIDs := by
  induction records generalizing st with
  | nil => exact h
  | cons r rs ih =>
    simp only [processAll, List.foldl_cons] at ih ⊢
    exact ih _ (processRecord_subset env st r id h)

theorem dedupSkips_cons (seen : List Nat) (id : Nat) (ids : List Nat) :
    dedupSkips seen (id :: ids)
      = if id ∈ seen then dedupSkips seen ids + 1 else dedupSkips (id :: seen) ids := rfl

theorem seenAfter_cons (seen : List Nat) (id : Nat) (ids : List Nat) :
    seenAfter seen (id :: ids)
      = if id ∈ seen then seenAfter seen ids else seenAfter (id :: seen) ids := rfl

theorem dedupSkips_append (seen : List Nat) (xs ys : List Nat) :
    dedupSkips seen (xs ++ ys) = dedupSkips seen xs + dedupSkips (seenAfter seen xs) ys := by
  induction xs generalizing seen with
  | nil => simp [dedupSkips, seenAfter]
  | cons x xs ih =>
    rw [List.cons_append, dedupSkips_cons, dedupSkips_cons, seenAfter_cons]
    by_cases hm : x ∈ seen
    · simp only [hm, if_true]
      rw [ih]
      omega
    · simp only [hm, if_false]
      rw [ih]

theorem seenAfter_append (seen : List Nat) (xs ys : List Nat) :
    seenAfter seen (xs ++ ys) = seenAfter (seenAfter seen xs) ys := by
  induction xs generalizing seen with
  | nil => simp [seenAfter]
  | cons x xs ih =>
    rw [List.cons_append, seenAfter_cons, seenAfter_cons]
    by_cases hm : x ∈ seen
    · simp only [hm, if_true]
      rw [ih]
    · simp only [hm, if_false]
      rw [ih]

/-- The records stopped by the dedup guard are the repeats: together with
the distinct IDs that were not in the seen-set they make up all records. -/
theorem dedupSkips_add_distinct (seen ids : List Nat) :
    dedupSkips seen ids + (ids.toFinset \ seen.toFinset).card = ids.length := by
  induction ids generalizing seen with
  | nil => simp [dedupSkips]
  | cons x xs ih =>
    rw [dedupSkips_cons]
    by_cases hm : x ∈ seen
    · have hx : (x :: xs).toFinset \ seen.toFinset = xs.toFinset \ seen.toFinset := by
        ext y
        simp only [List.toFinset_cons, Finset.mem_sdiff, Finset.mem_insert, List.mem_toFinset]
        constructor
        · rintro ⟨h1 | h1, h2⟩
          · exact absurd (h1 ▸ hm) h2
          · exact ⟨h1, h2⟩
        · rintro ⟨h1, h2⟩
          exact ⟨Or.inr h1, h2⟩
      have := ih seen
      simp only [hm, if_true, hx, List.length_cons]
      omega
    · have hx : (x :: xs).toFinset \ seen.toFinset
          = insert x (xs.toFinset \ (x :: seen).toFinset) := by
        ext y
        simp only [List.toFinset_cons, Finset.mem_sdiff, Finset.mem_insert, List.mem_toFinset]
        constructor
        · rintro ⟨h1 | h1, h2⟩
          · exact Or.inl h1
          · by_cases hy : y = x
            · exact Or.inl hy
            · exact Or.inr ⟨h1, by rintro (h3 | h3); exact hy h3; exact h2 h3⟩
        · rintro (h1 | ⟨h1, h2⟩)
          · exact ⟨Or.inl h1, h1 ▸ hm⟩
          · exact ⟨Or.inr h1, fun h3 => h2 (Or.inr h3)⟩
      have hnot : x ∉ xs.toFinset \ (x :: seen).toFinset := by
        simp
      have := ih (x :: seen)
      simp only [hm, if_false, hx, List.length_cons, Finset.card_insert_of_not_mem hnot]
      omega

/-- From an empty seen-set the dedup guard stops as many records as there
are more records than distinct IDs. -/
theorem dedupSkips_nil (ids : List Nat) :
    dedupSkips [] ids + ids.toFinset.card = ids.length := by
  have := dedupSkips_add_distinct [] ids
  simpa using this

/-- The bookkeeping of one turn of the record loop: one more record fetched;
the record is synced, skipped, failed (one more error string) or stopped by
the dedup guard; the error count grows with the error list; the seen-set
grows as `seenAfter` says. -/
theorem processRecord_tally (env : Env) (st : RunState) (r : ExternalProperty) :
    (processRecord env st r).result.FetchedCount = st.result.FetchedCount + 1 ∧
    (processRecord env st r).result.SyncedCount + (processRecord env st r).result.SkippedCount
        + (processRecord env st r).allErrors.length + dedupSkips st.processedIDs [r.ID]
      = st.result.SyncedCount + st.result.SkippedCount + st.allErrors.length + 1 ∧
    (processRecord env st r).result.ErrorCount + st.allErrors.length
      = st.result.ErrorCount + (processRecord env st r).allErrors.length ∧
    (processRecord env st r).processedIDs = seenAfter st.processedIDs [r.ID] := by
  unfold processRecord
  simp only
  by_cases hm : r.ID ∈ st.processedIDs
  · simp [hm, dedupSkips, seenAfter]
  · simp only [hm, if_false, dedupSkips, seenAfter]
    rcases syncSingleProperty env st.db r with ⟨e, db1⟩
    cases e with
    | none => simp; omega
    | some e =>
      by_cases hn : e.isRecordNotFound = true
      · simp [hn]; omega
      · simp [hn]; omega

theorem processAll_tally (env : Env) (records : List ExternalProperty) (st : RunState) :
    (processAll env st records).result.FetchedCount = st.result.FetchedCount + records.length ∧
    (processAll env st records).result.SyncedCount + (processAll env st records).result.SkippedCount
        + (processAll env st records).allErrors.length
        + dedupSkips st.processedIDs (records.map (fun r => r.ID))
      = st.result.SyncedCount + st.result.SkippedCount + st.allErrors.length + records.length ∧
    (processAll env st records).result.ErrorCount + st.allErrors.length
      = st.result.ErrorCount + (processAll env st records).allErrors.length ∧
    (processAll env st records).processedIDs
      = seenAfter st.processedIDs (records.map (fun r => r.ID)) := by
  induction records generalizing st with
  | nil => simp [processAll, dedupSkips, seenAfter]
  | cons r rs ih =>
    obtain ⟨h1, h2, h3, h4⟩ := processRecord_tally env st r
    obtain ⟨i1, i2, i3, i4⟩ := ih (processRecord env st r)
    have hd := dedupSkips_append st.processedIDs [r.ID] (rs.map (fun r => r.ID))
    have hsa := seenAfter_append st.processedIDs [r.ID] (rs.map (fun r => r.ID))
    simp only [List.singleton_append] at hd hsa
    simp only [processAll, List.foldl_cons, List.map_cons, List.length_cons] at i1 i2 i3 i4 ⊢
    rw [h4] at i2 i4
    refine ⟨by omega, by omega, by omega, ?_⟩
    rw [i4, hsa]

/-! ## The page loop -/

theorem withMeta_self (st : RunState) :
    st.withMeta st.result.TotalPagesFetched st.result.TotalProperties = st := rfl

theorem withMeta_withMeta (st : RunState) (a b : Nat) (s t : Int) :
    (st.withMeta a s).withMeta b t = st.withMeta b t := rfl

theorem pageLoop_done (env : Env) (fuel : Nat) (st : RunState) :
    pageLoop env fuel "" st = some (finishRun st) := by
  cases fuel <;> simp [pageLoop]

/-- A failed fetch ends the loop with `abortRun` on the state the loop had,
the page counter advanced by one. -/
theorem pageLoop_fail (env : Env) (fuel : Nat) (url : String) (st : RunState)
    (hu : url ≠ "") (hp : pageOf env (st.result.TotalPagesFetched + 1) url = none) :
    ∃ msg err, pageLoop env (fuel + 1) url st
      = some (abortRun (st.withMeta (st.result.TotalPagesFetched + 1) st.result.TotalProperties)
          msg err) := by
  unfold pageOf at hp
  simp only [pageLoop, hu, if_false]
  rcases hg : env.get (st.result.TotalPagesFetched + 1) url with err | resp
  · exact ⟨_, _, rfl⟩
  · simp only [hg] at hp ⊢
    by_cases hc : resp.StatusCode = 200
    · simp only [hc, ne_eq, not_true_eq_false, if_false] at hp ⊢
      rcases hr : resp.readErr with _ | err
      · simp only [hr] at hp ⊢
        rcases hj : env.unmarshal resp.body with err | page
        · exact ⟨_, _, rfl⟩
        · simp [hj] at hp
      · exact ⟨_, _, rfl⟩
    · simp only [ne_eq, hc, not_false_eq_true, if_true]
      exact ⟨_, _, rfl⟩

/-- A successful fetch sends the page's records through the record loop and
goes on with the page's link. -/
theorem pageLoop_page (env : Env) (fuel : Nat) (url : String) (st : RunState)
    (page : PropertiesAPIResponse)
    (hu : url ≠ "") (hp : pageOf env (st.result.TotalPagesFetched + 1) url = some page) :
    ∃ total, pageLoop env (fuel + 1) url st
      = pageLoop env fuel (nextURL page)
          (processAll env (st.withMeta (st.result.TotalPagesFetched + 1) total) page.Data) := by
  unfold pageOf at hp
  simp only [pageLoop, hu, if_false]
  rcases hg : env.get (st.result.TotalPagesFetched + 1) url with err | resp
  · simp [hg] at hp
  · simp only [hg] at hp ⊢
    by_cases hc : resp.StatusCode = 200
    · simp only [hc, ne_eq, not_true_eq_false, if_false] at hp ⊢
      rcases hr : resp.readErr with _ | err
      · simp only [hr] at hp ⊢
        rcases hj : env.unmarshal resp.body with err | pg
        · simp [hj] at hp
        · simp only [hj, Option.some.injEq] at hp ⊢
          subst hp
          by_cases h1 : st.result.TotalPagesFetched + 1 = 1
          · exact ⟨pg.Meta.Total, by simp [h1, processAll, nextURL, RunState.withMeta]⟩
          · exact ⟨st.result.TotalProperties, by simp [h1, processAll, nextURL, RunState.withMeta]⟩
      · simp [hr] at hp
    · simp [hc] at hp

theorem recordsOf_cons (page : PropertiesAPIResponse) (pages : List PropertiesAPIResponse) :
    recordsOf (page :: pages) = page.Data ++ recordsOf pages := by
  simp [recordsOf]

theorem processRecord_pages (env : Env) (st : RunState) (r : ExternalProperty) :
    (processRecord env st r).result.TotalPagesFetched = st.result.TotalPagesFetched := by
  unfold processRecord
  simp only
  by_cases hm : r.ID ∈ st.processedIDs
  · simp [hm]
  · simp only [hm, if_false]
    rcases syncSingleProperty env st.db r with ⟨e, db1⟩
    cases e with
    | none => rfl
    | some e => by_cases hn : e.isRecordNotFound = true <;> simp [hn]

/-- A chain of pages that ends without a link makes the loop return, given
fuel for its requests, the finished report of the state reached by sending all
records of the chain through the record loop. -/
theorem pageLoop_chain (env : Env) (pages : List PropertiesAPIResponse) :
    ∀ (n : Nat) (url : String) (st : RunState) (fuel : Nat),
      ChainOf env n url pages → st.result.TotalPagesFetched = n → pages.length ≤ fuel →
      ∃ total, pageLoop env fuel url st
        = some (finishRun ((processAll env st (recordsOf pages)).withMeta
            (n + pages.length) total)) := by
  induction pages with
  | nil =>
    intro n url st fuel hc hn _
    simp only [ChainOf] at hc
    subst hc
    refine ⟨st.result.TotalProperties, ?_⟩
    rw [pageLoop_done]
    subst hn
    rfl
  | cons page pages ih =>
    intro n url st fuel hc hn hf
    obtain ⟨hu, hp, hrest⟩ := hc
    cases fuel with
    | zero => simp at hf
    | succ fuel =>
      subst hn
      obtain ⟨total, hstep⟩ := pageLoop_page env fuel url st page hu hp
      rw [hstep, processAll_withMeta]
      obtain ⟨total2, hrec⟩ := ih (st.result.TotalPagesFetched + 1) (nextURL page)
        ((processAll env st page.Data).withMeta (st.result.TotalPagesFetched + 1) total)
        fuel hrest rfl (by simpa using hf)
      refine ⟨total2, ?_⟩
      rw [hrec, processAll_withMeta, withMeta_withMeta, recordsOf_cons, processAll_append]
      simp only [List.length_cons]
      congr 3
      omega

/-- A chain of pages followed by a failed fetch makes the loop return, given
fuel for its requests, the aborted report of the state reached by sending all
records of the chain through the record loop. -/
theorem pageLoop_failsAfter (env : Env) (pages : List PropertiesAPIResponse) :
    ∀ (n : Nat) (url : String) (st : RunState) (fuel : Nat),
      FailsAfter env n url pages → st.result.TotalPagesFetched = n → pages.length + 1 ≤ fuel →
      ∃ total msg err, pageLoop env fuel url st
        = some (abortRun ((processAll env st (recordsOf pages)).withMeta
            (n + pages.length + 1) total) msg err) := by
  induction pages with
  | nil =>
    intro n url st fuel hc hn hf
    obtain ⟨hu, hp⟩ := hc
    cases fuel with
    | zero => simp at hf
    | succ fuel =>
      subst hn
      obtain ⟨msg, err, h⟩ := pageLoop_fail env fuel url st hu hp
      exact ⟨st.result.TotalProperties, msg, err, by rw [h]; rfl⟩
  | cons page pages ih =>
    intro n url st fuel hc hn hf
    obtain ⟨hu, hp, hrest⟩ := hc
    cases fuel with
    | zero => simp at hf
    | succ fuel =>
      subst hn
      obtain ⟨total, hstep⟩ := pageLoop_page env fuel url st page hu hp
      rw [hstep, processAll_withMeta]
      obtain ⟨total2, msg, err, hrec⟩ := ih (st.result.TotalPagesFetched + 1) (nextURL page)
        ((processAll env st page.Data).withMeta (st.result.TotalPagesFetched + 1) total)
        fuel hrest rfl (by simpa using hf)
      refine ⟨total2, msg, err, ?_⟩
      rw [hrec, processAll_withMeta, withMeta_withMeta, recordsOf_cons, processAll_append]
      simp only [List.length_cons]
      congr 3
      omega

/-- A loop that returns has walked a chain of pages that either ended without
a link or was cut short by a failed fetch, within its fuel. -/
theorem pageLoop_some (env : Env) :
    ∀ (fuel : Nat) (url : String) (st : RunState) (out : RunOutcome),
      pageLoop env fuel url st = some out →
      ∃ pages, (ChainOf env st.result.TotalPagesFetched url pages ∧ pages.length ≤ fuel) ∨
        (FailsAfter env st.result.TotalPagesFetched url pages ∧ pages.length + 1 ≤ fuel) := by
  intro fuel
  induction fuel with
  | zero =>
    intro url st out h
    by_cases hu : url = ""
    · exact ⟨[], Or.inl ⟨hu, by simp⟩⟩
    · simp [pageLoop, hu] at h
  | succ fuel ih =>
    intro url st out h
    by_cases hu : url = ""
    · exact ⟨[], Or.inl ⟨hu, by simp⟩⟩
    · rcases hp : pageOf env (st.result.TotalPagesFetched + 1) url with _ | page
      · exact ⟨[], Or.inr ⟨⟨hu, hp⟩, by simp⟩⟩
      · obtain ⟨total, hstep⟩ := pageLoop_page env fuel url st page hu hp
        rw [hstep, processAll_withMeta] at h
        obtain ⟨pages, hrec⟩ := ih _ _ _ h
        refine ⟨page :: pages, ?_⟩
        rcases hrec with ⟨hc, hl⟩ | ⟨hc, hl⟩
        · exact Or.inl ⟨⟨hu, hp, hc⟩, by simpa using hl⟩
        · exact Or.inr ⟨⟨hu, hp, hc⟩, by simpa using hl⟩

theorem chainOf_unique (env : Env) (ps : List PropertiesAPIResponse) :
    ∀ (n : Nat) (url : String) (qs : List PropertiesAPIResponse),
      ChainOf env n url ps → ChainOf env n url qs → ps = qs := by
  induction ps with
  | nil =>
    intro n url qs hp hq
    cases qs with
    | nil => rfl
    | cons q qs => exact absurd hp hq.1
  | cons p ps ih =>
    intro n url qs hp hq
    cases qs with
    | nil => exact absurd hq hp.1
    | cons q qs =>
      have hpq : p = q := Option.some.inj (hp.2.1.symm.trans hq.2.1)
      subst hpq
      rw [ih _ _ _ hp.2.2 hq.2.2]

theorem failsAfter_unique (env : Env) (ps : List PropertiesAPIResponse) :
    ∀ (n : Nat) (url : String) (qs : List PropertiesAPIResponse),
      FailsAfter env n url ps → FailsAfter env n url qs → ps = qs := by
  induction ps with
  | nil =>
    intro n url qs hp hq
    cases qs with
    | nil => rfl
    | cons q qs =>
      have := hp.2.symm.trans hq.2.1
      simp at this
  | cons p ps ih =>
    intro n url qs hp hq
    cases qs with
    | nil =>
      have := hq.2.symm.trans hp.2.1
      simp at this
    | cons q qs =>
      have hpq : p = q := Option.some.inj (hp.2.1.symm.trans hq.2.1)
      subst hpq
      rw [ih _ _ _ hp.2.2 hq.2.2]

theorem chainOf_not_failsAfter (env : Env) (ps : List PropertiesAPIResponse) :
    ∀ (n : Nat) (url : String) (qs : List PropertiesAPIResponse),
      ChainOf env n url ps → FailsAfter env n url qs → False := by
  induction ps with
  | nil =>
    intro n url qs hp hq
    cases qs with
    | nil => exact hq.1 hp
    | cons q qs => exact hq.1 hp
  | cons p ps ih =>
    intro n url qs hp hq
    cases qs with
    | nil =>
      have := hq.2.symm.trans hp.2.1
      simp at this
    | cons q qs =>
      have hpq : p = q := Option.some.inj (hp.2.1.symm.trans hq.2.1)
      subst hpq
      exact ih _ _ _ hp.2.2 hq.2.2

/-- A run that returns over a complete chain returns the finished report of
the accumulated state. -/
theorem run_of_chain (env : Env) (fuel : Nat) (db : DBState) (out : RunOutcome)
    (pages : List PropertiesAPIResponse)
    (hu : env.propertiesURL ≠ "")
    (hrun : FetchAndSyncProperties env fuel db = some out)
    (hc : ChainOf env 0 env.propertiesURL pages) :
    ∃ total, out = finishRun ((accumulated env db pages).withMeta pages.length total) := by
  simp only [FetchAndSyncProperties, hu, if_false] at hrun
  obtain ⟨qs, hq⟩ := pageLoop_some env fuel _ _ _ hrun
  have hlen : pages.length ≤ fuel := by
    rcases hq with ⟨hq, hl⟩ | ⟨hq, _⟩
    · rw [chainOf_unique env pages _ _ qs hc hq]; exact hl
    · exact (chainOf_not_failsAfter env pages _ _ qs hc hq).elim
  obtain ⟨total, h⟩ := pageLoop_chain env pages 0 _ (initialState db) fuel hc rfl hlen
  rw [h] at hrun
  refine ⟨total, ?_⟩
  rw [← Option.some.inj hrun, Nat.zero_add]
  rfl

/-- A run that returns over a chain cut short by a failed fetch returns the
aborted report of the accumulated state. -/
theorem run_of_failsAfter (env : Env) (fuel : Nat) (db : DBState) (out : RunOutcome)
    (pages : List PropertiesAPIResponse)
    (hrun : FetchAndSyncProperties env fuel db = some out)
    (hc : FailsAfter env 0 env.propertiesURL pages) :
    ∃ total msg err,
      out = abortRun ((accumulated env db pages).withMeta (pages.length + 1) total) msg err := by
  have hu : env.propertiesURL ≠ "" := by
    cases pages with
    | nil => exact hc.1
    | cons p ps => exact hc.1
  simp only [FetchAndSyncProperties, hu, if_false] at hrun
  obtain ⟨qs, hq⟩ := pageLoop_some env fuel _ _ _ hrun
  have hlen : pages.length + 1 ≤ fuel := by
    rcases hq with ⟨hq, _⟩ | ⟨hq, hl⟩
    · exact (chainOf_not_failsAfter env qs _ _ pages hq hc).elim
    · rw [failsAfter_unique env pages _ _ qs hc hq]; exact hl
  obtain ⟨total, msg, err, h⟩ :=
    pageLoop_failsAfter env pages 0 _ (initialState db) fuel hc rfl hlen
  rw [h] at hrun
  refine ⟨total, msg, err, ?_⟩
  rw [← Option.some.inj hrun, Nat.zero_add]
  rfl

/-- Every run that returns a report fetched a chain of pages that ended
without a link or was cut short by a failed fetch. -/
theorem run_pages (env : Env) (fuel : Nat) (db : DBState) (out : RunOutcome)
    (res : SyncResult)
    (hrun : FetchAndSyncProperties env fuel db = some out) (hres : out.result = some res) :
    env.propertiesURL ≠ "" ∧
    ∃ pages, ChainOf env 0 env.propertiesURL pages ∨ FailsAfter env 0 env.propertiesURL pages := by
  by_cases hu : env.propertiesURL = ""
  · simp only [FetchAndSyncProperties, hu, if_true, Option.some.injEq] at hrun
    rw [← hrun] at hres
    simp at hres
  · refine ⟨hu, ?_⟩
    simp only [FetchAndSyncProperties, hu, if_false] at hrun
    obtain ⟨qs, hq⟩ := pageLoop_some env fuel _ _ _ hrun
    exact ⟨qs, hq.elim (fun h => Or.inl h.1) (fun h => Or.inr h.1)⟩

/-- The counters of the accumulated state: the error count is the length of
the error list, and the fetched records split into synced, skipped, failed and
stopped by the dedup guard. -/
theorem accumulated_tally (env : Env) (db : DBState) (pages : List PropertiesAPIResponse) :
    (accumulated env db pages).result.FetchedCount = (recordsOf pages).length ∧
    (accumulated env db pages).result.ErrorCount = (accumulated env db pages).allErrors.length ∧
    (accumulated env db pages).result.FetchedCount
      = (accumulated env db pages).result.SyncedCount
        + (accumulated env db pages).result.SkippedCount
        + (accumulated env db pages).result.ErrorCount
        + dedupSkips [] ((recordsOf pages).map (fun r => r.ID)) := by
  obtain ⟨h1, h2, h3, _⟩ := processAll_tally env (recordsOf pages) (initialState db)
  simp only [initialState, List.length_nil, Nat.zero_add, Nat.add_zero] at h1 h2 h3
  unfold accumulated
  simp only [initialState]
  omega

/-! ## Verified properties of the run report -/

theorem finishRun_result (st : RunState) :
    (finishRun st).result = some { st.result with
      Status := if st.result.ErrorCount > 0 then "completed_with_errors" else "completed"
      Errors := st.allErrors } ∧ (finishRun st).err = none ∧ (finishRun st).db = st.db :=
  ⟨rfl, rfl, rfl⟩

theorem abortRun_result (st : RunState) (msg : String) (err : GoError) :
    (abortRun st msg err).result = some { st.result with
      Status := "failed", Errors := st.allErrors ++ [msg]
      ErrorCount := st.allErrors.length + 1 } ∧
    (abortRun st msg err).err = some err ∧ (abortRun st msg err).db = st.db := by
  simp [abortRun]

/-- C1 (amended). For every run that returns a report: when the run completes
(every page of the chain is fetched), fetchedCount = syncedCount + skippedCount
+ errorCount + d, with d the number of records stopped by the dedup guard; when
a fetch fails, errorCount also counts the fetch-level error, so that
fetchedCount + 1 = syncedCount + skippedCount + errorCount + d. Every run that
returns a report is of one of the two kinds. -/
theorem fetched_count_invariant (env : Env) (fuel : Nat) (db : DBState) (out : RunOutcome)
    (res : SyncResult)
    (hrun : FetchAndSyncProperties env fuel db = some out) (hres : out.result = some res) :
    (∀ pages, ChainOf env 0 env.propertiesURL pages →
      out.err = none ∧
      res.FetchedCount = res.SyncedCount + res.SkippedCount + res.ErrorCount
        + dedupSkips [] ((recordsOf pages).map (fun r => r.ID))) ∧
    (∀ pages, FailsAfter env 0 env.propertiesURL pages →
      out.err ≠ none ∧
      res.FetchedCount + 1 = res.SyncedCount + res.SkippedCount + res.ErrorCount
        + dedupSkips [] ((recordsOf pages).map (fun r => r.ID))) ∧
    (∃ pages, ChainOf env 0 env.propertiesURL pages ∨
      FailsAfter env 0 env.propertiesURL pages) := by
  obtain ⟨hu, hex⟩ := run_pages env fuel db out res hrun hres
  refine ⟨?_, ?_, hex⟩
  · intro pages hc
    obtain ⟨total, hout⟩ := run_of_chain env fuel db out pages hu hrun hc
    obtain ⟨_, h2, h3⟩ := accumulated_tally env db pages
    subst hout
    obtain ⟨r1, r2, _⟩ := finishRun_result ((accumulated env db pages).withMeta pages.length total)
    rw [r1] at hres
    have hres := Option.some.inj hres
    subst hres
    exact ⟨r2, h3⟩
  · intro pages hc
    obtain ⟨total, msg, err, hout⟩ := run_of_failsAfter env fuel db out pages hrun hc
    obtain ⟨_, h2, h3⟩ := accumulated_tally env db pages
    subst hout
    obtain ⟨r1, r2, _⟩ :=
      abortRun_result ((accumulated env db pages).withMeta (pages.length + 1) total) msg err
    rw [r1] at hres
    have hres := Option.some.inj hres
    subst hres
    refine ⟨by rw [r2]; simp, ?_⟩
    simp only [RunState.withMeta]
    omega

/-- Witness for C1: the overlap source completes, one record is stopped by the
dedup guard, and the counts add up. -/
theorem fetched_count_invariant_witness :
    FetchAndSyncProperties overlapSource 2 emptyDB = some (outcomeOf overlapSource 2 emptyDB) ∧
    (outcomeOf overlapSource 2 emptyDB).result = some (reportOf overlapSource 2 emptyDB) ∧
    ChainOf overlapSource 0 overlapSource.propertiesURL overlapPages ∧
    (reportOf overlapSource 2 emptyDB).FetchedCount
      = (reportOf overlapSource 2 emptyDB).SyncedCount
        + (reportOf overlapSource 2 emptyDB).SkippedCount
        + (reportOf overlapSource 2 emptyDB).ErrorCount
        + dedupSkips [] ((recordsOf overlapPages).map (fun r => r.ID)) :=
  ⟨rfl, rfl, by decide,
    ((fetched_count_invariant overlapSource 2 emptyDB (outcomeOf overlapSource 2 emptyDB)
      (reportOf overlapSource 2 emptyDB) rfl rfl).1 overlapPages (by decide)).2⟩

/-- Counterexample to C1 as stated: record 10 arrives twice on page 1 and the
fetch of page 2 fails. The report has fetchedCount 2, syncedCount 1,
skippedCount 0, errorCount 1 (the fetch-level error) and one record was stopped
by the dedup guard, so the sum is 3, not 2. -/
theorem fetched_count_counterexample :
    FetchAndSyncProperties brokenSource 2 emptyDB = some (outcomeOf brokenSource 2 emptyDB) ∧
    (outcomeOf brokenSource 2 emptyDB).result = some (reportOf brokenSource 2 emptyDB) ∧
    FailsAfter brokenSource 0 brokenSource.propertiesURL brokenPages ∧
    dedupSkips [] ((recordsOf brokenPages).map (fun r => r.ID)) = 1 ∧
    (reportOf brokenSource 2 emptyDB).FetchedCount = 2 ∧
    (reportOf brokenSource 2 emptyDB).SyncedCount = 1 ∧
    (reportOf brokenSource 2 emptyDB).SkippedCount = 0 ∧
    (reportOf brokenSource 2 emptyDB).ErrorCount = 1 ∧
    (reportOf brokenSource 2 emptyDB).FetchedCount
      ≠ (reportOf brokenSource 2 emptyDB).SyncedCount
        + (reportOf brokenSource 2 emptyDB).SkippedCount
        + (reportOf brokenSource 2 emptyDB).ErrorCount
        + dedupSkips [] ((recordsOf brokenPages).map (fun r => r.ID)) := by
  decide

/-- C2. Every report a run returns has status `completed` when every page of
the chain was fetched and errorCount is 0, `completed_with_errors` when every
page was fetched and errorCount is positive, and `failed` when a fetch failed;
it has one of these three statuses and never `in_progress`. -/
theorem final_status (env : Env) (fuel : Nat) (db : DBState) (out : RunOutcome)
    (res : SyncResult)
    (hrun : FetchAndSyncProperties env fuel db = some out) (hres : out.result = some res) :
    (∀ pages, ChainOf env 0 env.propertiesURL pages → res.ErrorCount = 0 →
      res.Status = "completed") ∧
    (∀ pages, ChainOf env 0 env.propertiesURL pages → 0 < res.ErrorCount →
      res.Status = "completed_with_errors") ∧
    (∀ pages, FailsAfter env 0 env.propertiesURL pages → res.Status = "failed") ∧
    (res.Status = "completed" ∨ res.Status = "completed_with_errors" ∨ res.Status = "failed") ∧
    res.Status ≠ "in_progress" := by
  obtain ⟨hu, hex⟩ := run_pages env fuel db out res hrun hres
  have hchain : ∀ pages, ChainOf env 0 env.propertiesURL pages →
      res.Status = if res.ErrorCount > 0 then "completed_with_errors" else "completed" := by
    intro pages hc
    obtain ⟨total, hout⟩ := run_of_chain env fuel db out pages hu hrun hc
    subst hout
    obtain ⟨r1, _, _⟩ := finishRun_result ((accumulated env db pages).withMeta pages.length total)
    rw [r1] at hres
    have hres := Option.some.inj hres
    subst hres
    rfl
  have hfail : ∀ pages, FailsAfter env 0 env.propertiesURL pages → res.Status = "failed" := by
    intro pages hc
    obtain ⟨total, msg, err, hout⟩ := run_of_failsAfter env fuel db out pages hrun hc
    subst hout
    obtain ⟨r1, _, _⟩ :=
      abortRun_result ((accumulated env db pages).withMeta (pages.length + 1) total) msg err
    rw [r1] at hres
    have hres := Option.some.inj hres
    subst hres
    rfl
  have hthree : res.Status = "completed" ∨ res.Status = "completed_with_errors" ∨
      res.Status = "failed" := by
    obtain ⟨pages, hc | hc⟩ := hex
    · have h := hchain pages hc
      by_cases he : res.ErrorCount > 0
      · rw [if_pos he] at h; exact Or.inr (Or.inl h)
      · rw [if_neg he] at h; exact Or.inl h
    · exact Or.inr (Or.inr (hfail pages hc))
  refine ⟨?_, ?_, hfail, hthree, ?_⟩
  · intro pages hc he
    have h := hchain pages hc
    rw [if_neg (by omega)] at h
    exact h
  · intro pages hc he
    have h := hchain pages hc
    rw [if_pos he] at h
    exact h
  · rcases hthree with h | h | h <;> rw [h] <;> decide

/-- Witness for C2: the three-record source, in which one record fails,
completes with errors. -/
theorem final_status_witness :
    FetchAndSyncProperties threeRecordSource 1 emptyDB
      = some (outcomeOf threeRecordSource 1 emptyDB) ∧
    (outcomeOf threeRecordSource 1 emptyDB).result = some (reportOf threeRecordSource 1 emptyDB) ∧
    (reportOf threeRecordSource 1 emptyDB).Status = "completed_with_errors" ∧
    (reportOf threeRecordSource 1 emptyDB).Status ≠ "in_progress" :=
  ⟨rfl, rfl,
    (final_status threeRecordSource 1 emptyDB (outcomeOf threeRecordSource 1 emptyDB)
      (reportOf threeRecordSource 1 emptyDB) rfl rfl).2.1
        [mkPage [recordWithLocation 1 101, recordWithLocation 2 102, recordWithLocation 3 103]
          3 none] (by decide) (by decide),
    (final_status threeRecordSource 1 emptyDB (outcomeOf threeRecordSource 1 emptyDB)
      (reportOf threeRecordSource 1 emptyDB) rfl rfl).2.2.2.2⟩

/-- C3. Processing a record whose ID is in the seen-set adds one to
fetchedCount and changes nothing else: the other counters, the error list, the
seen-set and the database (tables and number of statements sent, so the
reconciler was not run) stay as they were. A record enters the seen-set when
it is handled, whatever the outcome, and stays there through all later records. -/
theorem dedup_guard_frame (env : Env) (st : RunState) (r : ExternalProperty)
    (h : r.ID ∈ st.processedIDs) :
    processRecord env st r
      = { st with result := { st.result with FetchedCount := st.result.FetchedCount + 1 } } ∧
    (∀ (st0 : RunState) (r0 : ExternalProperty) (later : List ExternalProperty),
      r0.ID = r.ID → r.ID ∈ (processAll env (processRecord env st0 r0) later).processedIDs) := by
  refine ⟨processRecord_seen env st r h, ?_⟩
  intro st0 r0 later hid
  rw [← hid]
  exact processAll_subset env later _ _ (processRecord_mem env st0 r0)

/-- Witness for C3: record 10 arrives again in the middle of a run. -/
theorem dedup_guard_frame_witness :
    (bareRecord 10).ID ∈ midRunState.processedIDs ∧
    processRecord overlapSource midRunState (bareRecord 10)
      = { midRunState with result := { midRunState.result with FetchedCount := 4 } } :=
  ⟨by decide, (dedup_guard_frame overlapSource midRunState (bareRecord 10) (by decide)).1⟩

/-- C4. Whenever `syncSingleProperty` returns an error, the tables after the
call are the tables before the call: nothing written for the record by the
user, agent, cover photo, property or location step remains. -/
theorem rollback_on_error (env : Env) (db : DBState) (extProp : ExternalProperty)
    (h : (syncSingleProperty env db extProp).1 ≠ none) :
    (syncSingleProperty env db extProp).2.store = db.store :=
  syncSingleProperty_error_store env db extProp h

/-- Witness for C4: the location upsert of record 2 is refused after its
property row was inserted inside the transaction; the row does not remain. -/
theorem rollback_on_error_witness :
    (syncTx threeRecordSource (recordWithLocation 2 102) emptyDB).2.store.propertyIDs = [2] ∧
    (syncSingleProperty threeRecordSource emptyDB (recordWithLocation 2 102)).1 ≠ none ∧
    (syncSingleProperty threeRecordSource emptyDB (recordWithLocation 2 102)).2.store
      = emptyDB.store :=
  ⟨by decide, by decide,
    rollback_on_error threeRecordSource emptyDB (recordWithLocation 2 102) (by decide)⟩

/-- C8. When the pages before page k are fetched one after the other and the
fetch of page k fails, a run with fuel for k requests returns a report together
with an error; the report has status `failed` and totalPagesFetched = k, the
number of requests made. -/
theorem abort_on_failed_fetch (env : Env) (db : DBState) (pages : List PropertiesAPIResponse)
    (fuel : Nat) (hf : FailsAfter env 0 env.propertiesURL pages)
    (hfuel : pages.length + 1 ≤ fuel) :
    ∃ out res, FetchAndSyncProperties env fuel db = some out ∧ out.result = some res ∧
      out.err ≠ none ∧ res.Status = "failed" ∧ res.TotalPagesFetched = pages.length + 1 := by
  have hu : env.propertiesURL ≠ "" := by
    cases pages with
    | nil => exact hf.1
    | cons p ps => exact hf.1
  obtain ⟨total, msg, err, h⟩ :=
    pageLoop_failsAfter env pages 0 _ (initialState db) fuel hf rfl hfuel
  refine ⟨_, _, by simp only [FetchAndSyncProperties, hu, if_false]; exact h,
    (abortRun_result _ msg err).1, ?_, rfl, ?_⟩
  · rw [(abortRun_result _ msg err).2.1]; simp
  · simp [RunState.withMeta]

/-- Witness for C8: page 3 of 5 is answered with status 500. -/
theorem abort_on_failed_fetch_witness :
    FailsAfter fivePageSource 0 fivePageSource.propertiesURL firstTwoPages ∧
    ∃ out res, FetchAndSyncProperties fivePageSource 5 emptyDB = some out ∧
      out.result = some res ∧ out.err ≠ none ∧ res.Status = "failed" ∧
      res.TotalPagesFetched = 3 :=
  ⟨by decide, abort_on_failed_fetch fivePageSource emptyDB firstTwoPages 5 (by decide) (by decide)⟩

/-- C9 (amended). When the pages before page k are fetched and the fetch of
page k fails, a run with fuel for k requests returns a report whose
fetchedCount, syncedCount and skippedCount are the values accumulated while
processing the pages before page k; its errorCount is the accumulated value
plus one, and its error list is the accumulated list followed by the
fetch-level message. The database is left as the accumulated state has it. -/
theorem abort_preserves_counts (env : Env) (fuel : Nat) (db : DBState)
    (pages : List PropertiesAPIResponse)
    (hf : FailsAfter env 0 env.propertiesURL pages) (hfuel : pages.length + 1 ≤ fuel) :
    ∃ out res, FetchAndSyncProperties env fuel db = some out ∧ out.result = some res ∧
      res.FetchedCount = (accumulated env db pages).result.FetchedCount ∧
      res.SyncedCount = (accumulated env db pages).result.SyncedCount ∧
      res.SkippedCount = (accumulated env db pages).result.SkippedCount ∧
      res.ErrorCount = (accumulated env db pages).result.ErrorCount + 1 ∧
      (∃ msg, res.Errors = (accumulated env db pages).allErrors ++ [msg]) ∧
      out.db = (accumulated env db pages).db := by
  have hu : env.propertiesURL ≠ "" := by
    cases pages with
    | nil => exact hf.1
    | cons p ps => exact hf.1
  obtain ⟨total, msg, err, h⟩ :=
    pageLoop_failsAfter env pages 0 _ (initialState db) fuel hf rfl hfuel
  obtain ⟨_, h2, _⟩ := accumulated_tally env db pages
  refine ⟨abortRun ((accumulated env db pages).withMeta (0 + pages.length + 1) total) msg err,
    _, by simp only [FetchAndSyncProperties, hu, if_false]; exact h,
    (abortRun_result _ msg err).1, rfl, rfl, rfl, ?_, ⟨msg, rfl⟩, rfl⟩
  show (accumulated env db pages).allErrors.length + 1
    = (accumulated env db pages).result.ErrorCount + 1
  rw [h2]

/-- Witness for C9: page 3 of 5 fails after two records were synced. -/
theorem abort_preserves_counts_witness :
    FailsAfter fivePageSource 0 fivePageSource.propertiesURL firstTwoPages ∧
    (accumulated fivePageSource emptyDB firstTwoPages).result.FetchedCount = 2 ∧
    (accumulated fivePageSource emptyDB firstTwoPages).result.SyncedCount = 2 ∧
    (accumulated fivePageSource emptyDB firstTwoPages).result.ErrorCount = 0 ∧
    ∃ out res, FetchAndSyncProperties fivePageSource 5 emptyDB = some out ∧
      out.result = some res ∧
      res.FetchedCount = (accumulated fivePageSource emptyDB firstTwoPages).result.FetchedCount ∧
      res.SyncedCount = (accumulated fivePageSource emptyDB firstTwoPages).result.SyncedCount ∧
      res.SkippedCount = (accumulated fivePageSource emptyDB firstTwoPages).result.SkippedCount ∧
      res.ErrorCount = (accumulated fivePageSource emptyDB firstTwoPages).result.ErrorCount + 1 ∧
      (∃ msg, res.Errors = (accumulated fivePageSource emptyDB firstTwoPages).allErrors ++ [msg]) ∧
      out.db = (accumulated fivePageSource emptyDB firstTwoPages).db :=
  ⟨by decide, by decide, by decide, by decide,
    abort_preserves_counts fivePageSource 5 emptyDB firstTwoPages (by decide) (by decide)⟩

/-- Counterexample to C9 as stated: over the pages fetched before the failed
request no error was counted, and the returned report has errorCount 1. -/
theorem abort_preserves_counts_counterexample :
    FetchAndSyncProperties brokenSource 2 emptyDB = some (outcomeOf brokenSource 2 emptyDB) ∧
    (outcomeOf brokenSource 2 emptyDB).result = some (reportOf brokenSource 2 emptyDB) ∧
    FailsAfter brokenSource 0 brokenSource.propertiesURL brokenPages ∧
    (accumulated brokenSource emptyDB brokenPages).result.ErrorCount = 0 ∧
    (reportOf brokenSource 2 emptyDB).ErrorCount = 1 ∧
    (reportOf brokenSource 2 emptyDB).ErrorCount
      ≠ (accumulated brokenSource emptyDB brokenPages).result.ErrorCount := by
  decide

/-! ## The reconciler and the properties table -/

theorem hasProperty_iff (s : Store) (id : Nat) :
    s.hasProperty id = true ↔ id ∈ s.propertyIDs := by
  simp only [Store.hasProperty, Store.propertyIDs, List.any_eq_true, List.mem_map, beq_iff_eq]

/-- Only the insert of a property touches the properties table. -/
theorem exec_properties (env : Env) (db : DBState) (op : DBOp)
    (h : ∀ row, op ≠ .createProperty row) :
    (db.exec env op).2.store.properties = db.store.properties := by
  unfold DBState.exec
  cases env.faults db.calls op with
  | some e => rfl
  | none =>
    cases op with
    | firstProperty id => by_cases hp : db.store.hasProperty id <;> simp [Store.apply, hp]
    | createProperty row => exact absurd rfl (h row)
    | _ => simp [Store.apply]

/-- An insert of a property that succeeds found no row with its key and
appended the row. -/
theorem exec_create_ok (env : Env) (db : DBState) (row : Property)
    (h : (db.exec env (.createProperty row)).1 = none) :
    db.store.hasProperty row.ID = false ∧
    (db.exec env (.createProperty row)).2.store.properties = db.store.properties ++ [row] := by
  unfold DBState.exec at h ⊢
  cases hf : env.faults db.calls (.createProperty row) with
  | some e => simp [hf] at h
  | none =>
    by_cases hp : db.store.hasProperty row.ID = true
    · simp [hf, Store.apply, hp] at h
    · simp [Store.apply, hp]

theorem exec_txCommit_store (env : Env) (db : DBState) :
    (db.exec env .txCommit).2.store = db.store := by
  unfold DBState.exec
  cases env.faults db.calls .txCommit with
  | some e => rfl
  | none => simp [Store.apply]

/-- Without failures from the environment, every statement but the lookup and
the insert of a property succeeds. -/
theorem exec_noFaults (env : Env) (db : DBState) (op : DBOp) (hnf : NoFaults env)
    (h1 : ∀ row, op ≠ .createProperty row) (h2 : ∀ id, op ≠ .firstProperty id) :
    (db.exec env op).1 = none := by
  unfold DBState.exec
  rw [hnf db.calls op]
  cases op with
  | firstProperty id => exact absurd rfl (h2 id)
  | createProperty row => exact absurd rfl (h1 row)
  | _ => simp [Store.apply]

theorem exec_create_noFaults (env : Env) (db : DBState) (row : Property) (hnf : NoFaults env)
    (h : db.store.hasProperty row.ID = false) :
    (db.exec env (.createProperty row)).1 = none := by
  unfold DBState.exec
  rw [hnf db.calls _]
  simp [Store.apply, h]

theorem upsertUser_properties (env : Env) (tx : DBState) (u : Option ExternalUser) :
    (upsertUser env tx u).2.2.store.properties = tx.store.properties := by
  unfold upsertUser
  cases u with
  | none => rfl
  | some u =>
    have := exec_properties env tx (.upsertUser (mapUser env u)) (by intro row h; cases h)
    rcases hx : tx.exec env (.upsertUser (mapUser env u)) with ⟨e, tx1⟩
    rw [hx] at this
    cases e <;> simpa [hx] using this

theorem upsertAgent_properties (env : Env) (tx : DBState) (a : Option ExternalAgent)
    (userID : Nat) :
    (upsertAgent env tx a userID).2.2.store.properties = tx.store.properties := by
  unfold upsertAgent
  cases a with
  | none => rfl
  | some a =>
    have := exec_properties env tx (.upsertAgent (mapAgent env a userID))
      (by intro row h; cases h)
    rcases hx : tx.exec env (.upsertAgent (mapAgent env a userID)) with ⟨e, tx1⟩
    rw [hx] at this
    cases e <;> simpa [hx] using this

theorem upsertCoverPhoto_properties (env : Env) (tx : DBState) (c : Option ExternalCoverPhoto) :
    (upsertCoverPhoto env tx c).2.2.store.properties = tx.store.properties := by
  unfold upsertCoverPhoto
  cases c with
  | none => rfl
  | some c =>
    simp only
    have := exec_properties env tx (.upsertCoverPhoto
      { ID := c.ID, Url := c.Url, Description := c.Description, PropertyID := 0 })
      (by intro row h; cases h)
    rcases hx : tx.exec env (.upsertCoverPhoto
      { ID := c.ID, Url := c.Url, Description := c.Description, PropertyID := 0 }) with ⟨e, tx1⟩
    rw [hx] at this
    cases e <;> simpa [hx] using this

theorem upsertLocation_properties (env : Env) (tx : DBState) (l : Option ExternalLocation) :
    (upsertLocation env tx l).2.2.store.properties = tx.store.properties := by
  unfold upsertLocation
  cases l with
  | none => rfl
  | some l =>
    have := exec_properties env tx (.upsertLocation (mapLocation env l))
      (by intro row h; cases h)
    rcases hx : tx.exec env (.upsertLocation (mapLocation env l)) with ⟨e, tx1⟩
    rw [hx] at this
    cases e <;> simpa [hx] using this

theorem upsertUser_noFaults (env : Env) (tx : DBState) (u : ExternalUser) (hnf : NoFaults env) :
    (upsertUser env tx (some u)).1
      = some { mapUser env u with ID := tx.store.userKey (mapUser env u).ID } ∧
    (upsertUser env tx (some u)).2.1 = none := by
  unfold upsertUser
  have := exec_noFaults env tx (.upsertUser (mapUser env u)) hnf
    (by intro row h; cases h) (by intro id h; cases h)
  rcases hx : tx.exec env (.upsertUser (mapUser env u)) with ⟨e, tx1⟩
  rw [hx] at this
  simp only at this
  subst this
  simp [hx]

theorem upsertAgent_noFaults (env : Env) (tx : DBState) (a : ExternalAgent) (userID : Nat)
    (hnf : NoFaults env) : (upsertAgent env tx (some a) userID).2.1 = none := by
  unfold upsertAgent
  have := exec_noFaults env tx (.upsertAgent (mapAgent env a userID)) hnf
    (by intro row h; cases h) (by intro id h; cases h)
  rcases hx : tx.exec env (.upsertAgent (mapAgent env a userID)) with ⟨e, tx1⟩
  rw [hx] at this
  simp only at this
  subst this
  simp [hx]

theorem upsertCoverPhoto_noFaults (env : Env) (tx : DBState) (c : ExternalCoverPhoto)
    (hnf : NoFaults env) : (upsertCoverPhoto env tx (some c)).2.1 = none := by
  unfold upsertCoverPhoto
  simp only
  have := exec_noFaults env tx (.upsertCoverPhoto
    { ID := c.ID, Url := c.Url, Description := c.Description, PropertyID := 0 }) hnf
    (by intro row h; cases h) (by intro id h; cases h)
  rcases hx : tx.exec env (.upsertCoverPhoto
    { ID := c.ID, Url := c.Url, Description := c.Description, PropertyID := 0 }) with ⟨e, tx1⟩
  rw [hx] at this
  simp only at this
  subst this
  simp [hx]

theorem upsertLocation_noFaults (env : Env) (tx : DBState) (l : ExternalLocation)
    (hnf : NoFaults env) : (upsertLocation env tx (some l)).2.1 = none := by
  unfold upsertLocation
  have := exec_noFaults env tx (.upsertLocation (mapLocation env l)) hnf
    (by intro row h; cases h) (by intro id h; cases h)
  rcases hx : tx.exec env (.upsertLocation (mapLocation env l)) with ⟨e, tx1⟩
  rw [hx] at this
  simp only at this
  subst this
  simp [hx]

theorem txUserAndAgent_properties (env : Env) (r : ExternalProperty) (tx : DBState) :
    (txUserAndAgent env r tx).2.2.store.properties = tx.store.properties := by
  unfold txUserAndAgent
  rcases r.Agent with _ | a
  · rfl
  · simp only
    rcases hu0 : a.User with _ | u
    · rfl
    · simp only
      have hu := upsertUser_properties env tx (some u)
      rcases hx : upsertUser env tx (some u) with ⟨mu, e, tx1⟩
      rw [hx] at hu
      simp only at hu
      cases e with
      | some e => cases mu <;> exact hu
      | none =>
        cases mu with
        | none => exact hu
        | some mu =>
          simp only
          have ha := upsertAgent_properties env tx1 (some a) mu.ID
          rcases hy : upsertAgent env tx1 (some a) mu.ID with ⟨ma, e2, tx2⟩
          rw [hy] at ha
          simp only at ha
          cases e2 with
          | some e2 => exact ha.trans hu
          | none => exact ha.trans hu

theorem txUserAndAgent_noFaults (env : Env) (r : ExternalProperty) (tx : DBState)
    (hnf : NoFaults env) : (txUserAndAgent env r tx).2.1 = none := by
  unfold txUserAndAgent
  rcases r.Agent with _ | a
  · rfl
  · simp only
    rcases hu0 : a.User with _ | u
    · rfl
    · simp only
      obtain ⟨h1, h2⟩ := upsertUser_noFaults env tx u hnf
      rcases hx : upsertUser env tx (some u) with ⟨mu, e, tx1⟩
      rw [hx] at h1 h2
      simp only at h1 h2
      subst h1 h2
      simp only
      have ha := upsertAgent_noFaults env tx1 a (tx.store.userKey (mapUser env u).ID) hnf
      rcases hy : upsertAgent env tx1 (some a) (tx.store.userKey (mapUser env u).ID)
        with ⟨ma, e2, tx2⟩
      rw [hy] at ha
      simp only at ha
      subst ha
      rfl

theorem txCoverPhoto_properties (env : Env) (r : ExternalProperty) (tx : DBState) :
    (txCoverPhoto env r tx).2.2.store.properties = tx.store.properties := by
  unfold txCoverPhoto
  rcases r.CoverPhoto with _ | c
  · rfl
  · simp only
    have hc := upsertCoverPhoto_properties env tx (some c)
    rcases hx : upsertCoverPhoto env tx (some c) with ⟨mc, e, tx1⟩
    rw [hx] at hc
    simp only at hc
    cases e with
    | some e => exact hc
    | none => exact hc

theorem txCoverPhoto_noFaults (env : Env) (r : ExternalProperty) (tx : DBState)
    (hnf : NoFaults env) : (txCoverPhoto env r tx).2.1 = none := by
  unfold txCoverPhoto
  rcases r.CoverPhoto with _ | c
  · rfl
  · simp only
    have hc := upsertCoverPhoto_noFaults env tx c hnf
    rcases hx : upsertCoverPhoto env tx (some c) with ⟨mc, e, tx1⟩
    rw [hx] at hc
    simp only at hc
    subst hc
    rfl

theorem mapExternalToDBProperty_ok (env : Env) (r : ExternalProperty) (a : Option Agent)
    (c : Option CoverPhoto) :
    (mapExternalToDBProperty env r a c).2 = none ∧ (mapExternalToDBProperty env r a c).1.ID = r.ID :=
  ⟨rfl, rfl⟩

/-- When the last block returns no error, the properties table had no row
with the record's ID and gained exactly the mapped row, at its end. -/
theorem txPropertyAndLocation_ok (env : Env) (r : ExternalProperty) (a : Option Agent)
    (c : Option CoverPhoto) (tx : DBState)
    (h : (txPropertyAndLocation env r a c tx).1 = none) :
    tx.store.hasProperty r.ID = false ∧
    (txPropertyAndLocation env r a c tx).2.store.properties
      = tx.store.properties ++ [(mapExternalToDBProperty env r a c).1] := by
  unfold txPropertyAndLocation at h ⊢
  rcases hm : mapExternalToDBProperty env r a c with ⟨p, me⟩
  have hme : me = none := by
    have := (mapExternalToDBProperty_ok env r a c).1
    rw [hm] at this
    exact this
  have hid : p.ID = r.ID := by
    have := (mapExternalToDBProperty_ok env r a c).2
    rw [hm] at this
    exact this
  subst hme
  simp only [hm] at h ⊢
  rcases hx : tx.exec env (.createProperty p) with ⟨e, tx1⟩
  cases e with
  | some e => simp [hx] at h
  | none =>
    have hc := exec_create_ok env tx p (by rw [hx])
    rw [hx, hid] at hc
    simp only at hc
    simp only [hx] at h ⊢
    rcases hloc : r.Location with _ | l
    · exact hc
    · simp only [hloc] at h ⊢
      have hl := upsertLocation_properties env tx1 (some { l with PropertyID := r.ID })
      rcases hy : upsertLocation env tx1 (some { l with PropertyID := r.ID }) with ⟨ml, e2, tx2⟩
      rw [hy] at hl
      simp only at hl
      cases e2 with
      | some e2 => simp [hy] at h
      | none => simp only [hy]; exact ⟨hc.1, hl.trans hc.2⟩

theorem txPropertyAndLocation_noFaults (env : Env) (r : ExternalProperty) (a : Option Agent)
    (c : Option CoverPhoto) (tx : DBState) (hnf : NoFaults env)
    (hp : tx.store.hasProperty r.ID = false) :
    (txPropertyAndLocation env r a c tx).1 = none := by
  unfold txPropertyAndLocation
  rcases hm : mapExternalToDBProperty env r a c with ⟨p, me⟩
  have hme : me = none := by
    have := (mapExternalToDBProperty_ok env r a c).1
    rw [hm] at this
    exact this
  have hid : p.ID = r.ID := by
    have := (mapExternalToDBProperty_ok env r a c).2
    rw [hm] at this
    exact this
  subst hme
  simp only
  have hc := exec_create_noFaults env tx p hnf (by rw [hid]; exact hp)
  rcases hx : tx.exec env (.createProperty p) with ⟨e, tx1⟩
  rw [hx] at hc
  simp only at hc
  subst hc
  simp only
  rcases r.Location with _ | l
  · rfl
  · simp only
    have hl := upsertLocation_noFaults env tx1 { l with PropertyID := r.ID } hnf
    rcases hy : upsertLocation env tx1 (some { l with PropertyID := r.ID }) with ⟨ml, e2, tx2⟩
    rw [hy] at hl
    simp only at hl
    subst hl
    rfl

/-- When the closure returns no error, the properties table had no row with
the record's ID and gained exactly one row, with that ID, at its end. -/
theorem syncTx_ok (env : Env) (r : ExternalProperty) (tx : DBState)
    (h : (syncTx env r tx).1 = none) :
    tx.store.hasProperty r.ID = false ∧
    ∃ p : Property, p.ID = r.ID ∧
      (syncTx env r tx).2.store.properties = tx.store.properties ++ [p] := by
  unfold syncTx at h ⊢
  have h1 := txUserAndAgent_properties env r tx
  rcases hx : txUserAndAgent env r tx with ⟨ma, e1, tx1⟩
  rw [hx] at h1
  simp only at h1
  cases e1 with
  | some e => simp [hx] at h
  | none =>
    simp only [hx] at h ⊢
    have h2 := txCoverPhoto_properties env r tx1
    rcases hy : txCoverPhoto env r tx1 with ⟨mc, e2, tx2⟩
    rw [hy] at h2
    simp only at h2
    cases e2 with
    | some e => simp [hy] at h
    | none =>
      simp only [hy] at h ⊢
      obtain ⟨h3, h4⟩ := txPropertyAndLocation_ok env r ma mc tx2 h
      refine ⟨?_, _, (mapExternalToDBProperty_ok env r ma mc).2, ?_⟩
      · simpa [Store.hasProperty, h2, h1] using h3
      · rw [h4, h2, h1]

theorem syncTx_noFaults (env : Env) (r : ExternalProperty) (tx : DBState) (hnf : NoFaults env)
    (hp : tx.store.hasProperty r.ID = false) : (syncTx env r tx).1 = none := by
  unfold syncTx
  have h1 := txUserAndAgent_properties env r tx
  have n1 := txUserAndAgent_noFaults env r tx hnf
  rcases hx : txUserAndAgent env r tx with ⟨ma, e1, tx1⟩
  rw [hx] at h1 n1
  simp only at h1 n1
  subst n1
  simp only
  have h2 := txCoverPhoto_properties env r tx1
  have n2 := txCoverPhoto_noFaults env r tx1 hnf
  rcases hy : txCoverPhoto env r tx1 with ⟨mc, e2, tx2⟩
  rw [hy] at h2 n2
  simp only at h2 n2
  subst n2
  simp only
  apply txPropertyAndLocation_noFaults env r ma mc tx2 hnf
  simpa [Store.hasProperty, h2, h1] using hp

theorem exec_txBegin_ok (env : Env) (db : DBState) (h : (db.exec env .txBegin).1 = none) :
    (db.exec env .txBegin).2 = { store := db.store, calls := db.calls + 1 } := by
  unfold DBState.exec at h ⊢
  cases hf : env.faults db.calls .txBegin with
  | some e => simp [hf] at h
  | none => simp [Store.apply]

/-- A transaction that returns no error ran the closure on the tables as they
were, the closure returned no error, and the tables are those it left. -/
theorem transaction_ok (env : Env) (db : DBState) (fc : DBState → Option GoError × DBState)
    (h : (transaction env db fc).1 = none) :
    (fc { store := db.store, calls := db.calls + 1 }).1 = none ∧
    (transaction env db fc).2.store
      = (fc { store := db.store, calls := db.calls + 1 }).2.store := by
  unfold transaction at h ⊢
  have hb := exec_txBegin_ok env db
  rcases hbeg : db.exec env .txBegin with ⟨e1, tx⟩
  rw [hbeg] at hb
  cases e1 with
  | some e => simp [hbeg] at h
  | none =>
    have htx := hb rfl
    simp only at htx
    subst htx
    simp only [hbeg] at h ⊢
    rcases hfc : fc { store := db.store, calls := db.calls + 1 } with ⟨e2, tx1⟩
    cases e2 with
    | some e => simp [hfc] at h
    | none =>
      simp only [hfc] at h ⊢
      have hcs := exec_txCommit_store env tx1
      rcases hc : tx1.exec env .txCommit with ⟨e3, tx2⟩
      rw [hc] at hcs
      cases e3 with
      | some e => simp [hc] at h
      | none => exact ⟨trivial, hcs⟩

theorem transaction_noFaults (env : Env) (db : DBState)
    (fc : DBState → Option GoError × DBState) (hnf : NoFaults env)
    (h : (fc { store := db.store, calls := db.calls + 1 }).1 = none) :
    (transaction env db fc).1 = none := by
  unfold transaction
  have hb := exec_noFaults env db .txBegin hnf (by intro row h; cases h) (by intro id h; cases h)
  have hb2 := exec_txBegin_ok env db hb
  rcases hbeg : db.exec env .txBegin with ⟨e1, tx⟩
  rw [hbeg] at hb hb2
  simp only at hb hb2
  subst hb hb2
  simp only
  rcases hfc : fc { store := db.store, calls := db.calls + 1 } with ⟨e2, tx1⟩
  rw [hfc] at h
  simp only at h
  subst h
  simp only
  have hc := exec_noFaults env tx1 .txCommit hnf (by intro row h; cases h) (by intro id h; cases h)
  rcases hcm : tx1.exec env .txCommit with ⟨e3, tx2⟩
  rw [hcm] at hc
  simp only at hc
  subst hc
  rfl

/-- When `syncSingleProperty` returns nil, the properties table had no row
with the record's ID and gained exactly one row, with that ID, at its end. -/
theorem syncSingleProperty_ok (env : Env) (db : DBState) (r : ExternalProperty)
    (h : (syncSingleProperty env db r).1 = none) :
    db.store.hasProperty r.ID = false ∧
    ∃ p : Property, p.ID = r.ID ∧
      (syncSingleProperty env db r).2.store.properties = db.store.properties ++ [p] := by
  unfold syncSingleProperty at h ⊢
  have hs := exec_firstProperty_store env db r.ID
  have hcalls := exec_calls env db (.firstProperty r.ID)
  rcases hl : db.exec env (.firstProperty r.ID) with ⟨e1, db1⟩
  rw [hl] at hs hcalls
  simp only at hs hcalls
  cases e1 with
  | none => simp [hl] at h
  | some err =>
    simp only [hl] at h ⊢
    by_cases hnf : err.isRecordNotFound = true
    · simp only [hnf, Bool.not_true, Bool.false_eq_true, if_false] at h ⊢
      obtain ⟨t1, t2⟩ := transaction_ok env db1 _ h
      obtain ⟨s1, p, s2, s3⟩ := syncTx_ok env r _ t1
      rw [t2, s3]
      simp only [hs] at s1 ⊢
      exact ⟨s1, p, s2, rfl⟩
    · simp [hnf] at h

/-- A lookup that the environment does not fail finds the stored row, and
`syncSingleProperty` returns the skip signal after that one statement. -/
theorem syncSingleProperty_found (env : Env) (db : DBState) (r : ExternalProperty)
    (hf : env.faults db.calls (.firstProperty r.ID) = none)
    (hp : db.store.hasProperty r.ID = true) :
    syncSingleProperty env db r
      = (some .recordNotFound, { store := db.store, calls := db.calls + 1 }) := by
  simp [syncSingleProperty, DBState.exec, hf, Store.apply, hp]

theorem syncSingleProperty_noFaults_absent (env : Env) (db : DBState) (r : ExternalProperty)
    (hnf : NoFaults env) (hp : db.store.hasProperty r.ID = false) :
    (syncSingleProperty env db r).1 = none := by
  have hl : db.exec env (.firstProperty r.ID)
      = (some .recordNotFound, { store := db.store, calls := db.calls + 1 }) := by
    simp [DBState.exec, hnf db.calls _, Store.apply, hp]
  simp only [syncSingleProperty, hl, GoError.isRecordNotFound, Bool.not_true, Bool.false_eq_true,
    if_false]
  exact transaction_noFaults env _ _ hnf (syncTx_noFaults env r _ hnf hp)

/-! ## The record loop and the reconciler -/

theorem processRecord_failed (env : Env) (st : RunState) (r : ExternalProperty) (e : GoError)
    (hu : r.ID ∉ st.processedIDs) (he : (syncSingleProperty env st.db r).1 = some e)
    (hn : e.isRecordNotFound = false) :
    processRecord env st r
      = { st with
          result := { st.result with
            FetchedCount := st.result.FetchedCount + 1
            ErrorCount := st.result.ErrorCount + 1 }
          allErrors := st.allErrors ++
            ["Failed to sync property ID " ++ toString r.ID ++ ": " ++ e.Error]
          processedIDs := r.ID :: st.processedIDs
          db := (syncSingleProperty env st.db r).2 } := by
  rcases hx : syncSingleProperty env st.db r with ⟨e1, db1⟩
  rw [hx] at he
  simp only at he
  subst he
  simp [processRecord, hx, hu, hn]

theorem processRecord_skipped (env : Env) (st : RunState) (r : ExternalProperty) (e : GoError)
    (hu : r.ID ∉ st.processedIDs) (he : (syncSingleProperty env st.db r).1 = some e)
    (hn : e.isRecordNotFound = true) :
    processRecord env st r
      = { st with
          result := { st.result with
            FetchedCount := st.result.FetchedCount + 1
            SkippedCount := st.result.SkippedCount + 1 }
          processedIDs := r.ID :: st.processedIDs
          db := (syncSingleProperty env st.db r).2 } := by
  rcases hx : syncSingleProperty env st.db r with ⟨e1, db1⟩
  rw [hx] at he
  simp only at he
  subst he
  simp [processRecord, hx, hu, hn]

theorem processRecord_synced (env : Env) (st : RunState) (r : ExternalProperty)
    (hu : r.ID ∉ st.processedIDs) (he : (syncSingleProperty env st.db r).1 = none) :
    processRecord env st r
      = { st with
          result := { st.result with
            FetchedCount := st.result.FetchedCount + 1
            SyncedCount := st.result.SyncedCount + 1 }
          processedIDs := r.ID :: st.processedIDs
          db := (syncSingleProperty env st.db r).2 } := by
  rcases hx : syncSingleProperty env st.db r with ⟨e1, db1⟩
  rw [hx] at he
  simp only at he
  subst he
  simp [processRecord, hx, hu]

theorem processRecord_db (env : Env) (st : RunState) (r : ExternalProperty) :
    (processRecord env st r).db
      = if r.ID ∈ st.processedIDs then st.db else (syncSingleProperty env st.db r).2 := by
  by_cases hm : r.ID ∈ st.processedIDs
  · rw [processRecord_seen env st r hm, if_pos hm]
  · rw [if_neg hm]
    rcases he : (syncSingleProperty env st.db r).1 with _ | e
    · rw [processRecord_synced env st r hm he]
    · by_cases hn : e.isRecordNotFound = true
      · rw [processRecord_skipped env st r e hm he hn]
      · rw [processRecord_failed env st r e hm he (by simpa using hn)]

/-- A call of `syncSingleProperty` keeps every stored property row in place and
unchanged: the properties table after the call starts with the table before. -/
theorem syncSingleProperty_keeps (env : Env) (db : DBState) (r : ExternalProperty) :
    db.store.properties <+: (syncSingleProperty env db r).2.store.properties := by
  rcases he : (syncSingleProperty env db r).1 with _ | e
  · obtain ⟨_, p, _, hp⟩ := syncSingleProperty_ok env db r he
    rw [hp]
    exact List.prefix_append _ _
  · rw [syncSingleProperty_error_store env db r (by rw [he]; simp)]

theorem processRecord_keeps (env : Env) (st : RunState) (r : ExternalProperty) :
    st.db.store.properties <+: (processRecord env st r).db.store.properties := by
  rw [processRecord_db]
  split
  · exact List.prefix_refl _
  · exact syncSingleProperty_keeps env st.db r

theorem processAll_keeps (env : Env) (records : List ExternalProperty) (st : RunState) :
    st.db.store.properties <+: (processAll env st records).db.store.properties := by
  induction records generalizing st with
  | nil => exact List.prefix_refl _
  | cons r rs ih =>
    simp only [processAll, List.foldl_cons] at ih ⊢
    exact (processRecord_keeps env st r).trans (ih _)

theorem hasProperty_mono (s t : Store) (id : Nat) (h : s.properties <+: t.properties)
    (hp : s.hasProperty id = true) : t.hasProperty id = true := by
  obtain ⟨rest, hrest⟩ := h
  simp only [Store.hasProperty, ← hrest, List.any_append, Bool.or_eq_true] at hp ⊢
  exact Or.inl hp

/-- Every record that went through the record loop is in the seen-set. -/
theorem processAll_all_seen (env : Env) (records : List ExternalProperty) (st : RunState) :
    ∀ r ∈ records, r.ID ∈ (processAll env st records).processedIDs := by
  induction records generalizing st with
  | nil => intro r hr; cases hr
  | cons x xs ih =>
    intro r hr
    simp only [processAll, List.foldl_cons] at ih ⊢
    rcases List.mem_cons.mp hr with h | h
    · subst h
      exact processAll_subset env xs _ _ (processRecord_mem env st r)
    · exact ih _ r h

/-- The fuel a returning run was given covers the chain it walked. -/
theorem run_fuel (env : Env) (fuel : Nat) (db : DBState) (out : RunOutcome)
    (pages : List PropertiesAPIResponse) (hu : env.propertiesURL ≠ "")
    (hrun : FetchAndSyncProperties env fuel db = some out)
    (hc : ChainOf env 0 env.propertiesURL pages) : pages.length ≤ fuel := by
  simp only [FetchAndSyncProperties, hu, if_false] at hrun
  obtain ⟨qs, hq⟩ := pageLoop_some env fuel _ _ _ hrun
  rcases hq with ⟨hq, hl⟩ | ⟨hq, _⟩
  · rw [chainOf_unique env pages _ _ qs hc hq]; exact hl
  · exact (chainOf_not_failsAfter env pages _ _ qs hc hq).elim

/-- Over a complete chain a run with fuel for its requests returns the
finished report of the accumulated state. -/
theorem run_chain_returns (env : Env) (fuel : Nat) (db : DBState)
    (pages : List PropertiesAPIResponse) (hu : env.propertiesURL ≠ "")
    (hc : ChainOf env 0 env.propertiesURL pages) (hfuel : pages.length ≤ fuel) :
    ∃ total, FetchAndSyncProperties env fuel db
      = some (finishRun ((accumulated env db pages).withMeta pages.length total)) := by
  obtain ⟨total, h⟩ := pageLoop_chain env pages 0 _ (initialState db) fuel hc rfl hfuel
  refine ⟨total, ?_⟩
  simp only [FetchAndSyncProperties, hu, if_false]
  rw [h, Nat.zero_add]
  rfl

/-- The database a run leaves is the one of the state accumulated over the
pages it fetched. -/
theorem run_db (env : Env) (fuel : Nat) (db : DBState) (out : RunOutcome)
    (hrun : FetchAndSyncProperties env fuel db = some out) :
    ∃ pages, out.db = (accumulated env db pages).db := by
  by_cases hu : env.propertiesURL = ""
  · simp only [FetchAndSyncProperties, hu, if_true, Option.some.injEq] at hrun
    exact ⟨[], by rw [← hrun]; rfl⟩
  · have hrun0 := hrun
    simp only [FetchAndSyncProperties, hu, if_false] at hrun
    obtain ⟨qs, hq⟩ := pageLoop_some env fuel _ _ _ hrun
    rcases hq with ⟨hq, _⟩ | ⟨hq, _⟩
    · obtain ⟨total, h⟩ := run_of_chain env fuel db out qs hu hrun0 hq
      exact ⟨qs, by rw [h]; rfl⟩
    · obtain ⟨total, msg, err, h⟩ := run_of_failsAfter env fuel db out qs hrun0 hq
      exact ⟨qs, by rw [h]; rfl⟩

/-! ## Verified properties of the reconciler within a run -/

/-- C5. In a run in which every page fetch succeeds, given fuel for its
requests: the run returns a report and a nil error; every record of every page
goes through the record loop (fetchedCount is the number of records on the
pages and every record's ID ends in the seen-set); errorCount is the length of
the error list. A record whose reconciliation fails adds exactly one string to
the error list and 1 to errorCount, changes no other counter but fetchedCount,
and leaves the tables as they were. In the three-record scenario where record 2
fails in its location upsert, records 1 and 3 are committed with their
locations and counted as synced. -/
theorem failure_isolation (env : Env) (fuel : Nat) (db : DBState)
    (pages : List PropertiesAPIResponse) (hu : env.propertiesURL ≠ "")
    (hc : ChainOf env 0 env.propertiesURL pages) (hfuel : pages.length ≤ fuel) :
    (∃ out res, FetchAndSyncProperties env fuel db = some out ∧ out.err = none ∧
      out.result = some res ∧ res.FetchedCount = (recordsOf pages).length ∧
      res.ErrorCount = res.Errors.length ∧
      ∀ r ∈ recordsOf pages, r.ID ∈ (accumulated env db pages).processedIDs) ∧
    (∀ (st : RunState) (r : ExternalProperty) (e : GoError),
      r.ID ∉ st.processedIDs → (syncSingleProperty env st.db r).1 = some e →
      e.isRecordNotFound = false →
      processRecord env st r
        = { st with
            result := { st.result with
              FetchedCount := st.result.FetchedCount + 1
              ErrorCount := st.result.ErrorCount + 1 }
            allErrors := st.allErrors ++
              ["Failed to sync property ID " ++ toString r.ID ++ ": " ++ e.Error]
            processedIDs := r.ID :: st.processedIDs
            db := (syncSingleProperty env st.db r).2 } ∧
      (processRecord env st r).db.store = st.db.store) ∧
    ((outcomeOf threeRecordSource 1 emptyDB).err = none ∧
      (reportOf threeRecordSource 1 emptyDB).FetchedCount = 3 ∧
      (reportOf threeRecordSource 1 emptyDB).SyncedCount = 2 ∧
      (reportOf threeRecordSource 1 emptyDB).SkippedCount = 0 ∧
      (reportOf threeRecordSource 1 emptyDB).ErrorCount = 1 ∧
      (reportOf threeRecordSource 1 emptyDB).Errors.length = 1 ∧
      (outcomeOf threeRecordSource 1 emptyDB).db.store.propertyIDs = [1, 3] ∧
      (outcomeOf threeRecordSource 1 emptyDB).db.store.locations.map (fun l => l.ID)
        = [101, 103]) := by
  refine ⟨?_, ?_, by decide⟩
  · obtain ⟨total, hrun⟩ := run_chain_returns env fuel db pages hu hc hfuel
    obtain ⟨h1, h2, _⟩ := accumulated_tally env db pages
    refine ⟨_, _, hrun, rfl, rfl, h1, h2, ?_⟩
    exact processAll_all_seen env (recordsOf pages) (initialState db)
  · intro st r e hun he hn
    have hstep := processRecord_failed env st r e hun he hn
    refine ⟨hstep, ?_⟩
    rw [hstep]
    exact syncSingleProperty_error_store env st.db r (by rw [he]; simp)

/-- Witness for C5: the three-record source, whose second record fails. -/
theorem failure_isolation_witness :
    ChainOf threeRecordSource 0 threeRecordSource.propertiesURL
      [mkPage [recordWithLocation 1 101, recordWithLocation 2 102, recordWithLocation 3 103]
        3 none] ∧
    ∃ out res, FetchAndSyncProperties threeRecordSource 1 emptyDB = some out ∧ out.err = none ∧
      out.result = some res ∧ res.FetchedCount = 3 ∧ res.ErrorCount = res.Errors.length :=
  ⟨by decide,
    match (failure_isolation threeRecordSource 1 emptyDB
      [mkPage [recordWithLocation 1 101, recordWithLocation 2 102, recordWithLocation 3 103]
        3 none] (by decide) (by decide) (by decide)).1 with
    | ⟨out, res, h1, h2, h3, h4, h5, _⟩ => ⟨out, res, h1, h2, h3, h4, h5⟩⟩

/-- C6 (amended). For a record whose ID has a property row: `syncSingleProperty`
leaves all five tables as they were and never returns nil (the record is never
counted as synced); when the existence lookup itself does not fail, it returns
the skip signal after that single statement and the run counts the record as
skipped and nothing else. No run modifies or removes a property row that
existed before it: the properties table after the run starts with the table
before it. -/
theorem existing_property_untouched (env : Env) (db : DBState) (r : ExternalProperty)
    (h : db.store.hasProperty r.ID = true) :
    (syncSingleProperty env db r).2.store = db.store ∧
    (syncSingleProperty env db r).1 ≠ none ∧
    (env.faults db.calls (.firstProperty r.ID) = none →
      syncSingleProperty env db r
        = (some .recordNotFound, { store := db.store, calls := db.calls + 1 }) ∧
      ∀ st : RunState, st.db = db → r.ID ∉ st.processedIDs →
        processRecord env st r
          = { st with
              result := { st.result with
                FetchedCount := st.result.FetchedCount + 1
                SkippedCount := st.result.SkippedCount + 1 }
              processedIDs := r.ID :: st.processedIDs
              db := { store := db.store, calls := db.calls + 1 } }) ∧
    (∀ (fuel : Nat) (db0 : DBState) (out : RunOutcome),
      FetchAndSyncProperties env fuel db0 = some out →
      db0.store.properties <+: out.db.store.properties) := by
  have hne : (syncSingleProperty env db r).1 ≠ none := by
    intro hnone
    have := (syncSingleProperty_ok env db r hnone).1
    rw [h] at this
    cases this
  refine ⟨syncSingleProperty_error_store env db r hne, hne, ?_, ?_⟩
  · intro hf
    have hfound := syncSingleProperty_found env db r hf h
    refine ⟨hfound, ?_⟩
    intro st hst hun
    subst hst
    have := processRecord_skipped env st r .recordNotFound hun (by rw [hfound]) rfl
    rw [this, hfound]
  · intro fuel db0 out hrun
    obtain ⟨pages, hdb⟩ := run_db env fuel db0 out hrun
    rw [hdb]
    exact processAll_keeps env (recordsOf pages) (initialState db0)

/-- Witness for C6: record 10 is offered again to a database that holds it. -/
theorem existing_property_untouched_witness :
    seededDB.store.hasProperty (bareRecord 10).ID = true ∧
    (syncSingleProperty overlapSource seededDB (bareRecord 10)).2.store = seededDB.store ∧
    (syncSingleProperty overlapSource seededDB (bareRecord 10)).1 ≠ none :=
  ⟨by decide,
    (existing_property_untouched overlapSource seededDB (bareRecord 10) (by decide)).1,
    (existing_property_untouched overlapSource seededDB (bareRecord 10) (by decide)).2.1⟩

/-- Counterexample to C6 as stated: the database holds property 10 and the
existence lookup fails with a connection error; the run counts record 10 as an
error, not as skipped. -/
theorem existing_property_counterexample :
    seededDB.store.hasProperty (bareRecord 10).ID = true ∧
    (reportOf lookupDownSource 1 seededDB).FetchedCount = 1 ∧
    (reportOf lookupDownSource 1 seededDB).SkippedCount = 0 ∧
    (reportOf lookupDownSource 1 seededDB).ErrorCount = 1 ∧
    (reportOf lookupDownSource 1 seededDB).Errors
      = ["Failed to sync property ID 10: failed to check for existing property: " ++
          "connection refused"] := by
  decide

/-! ## Runs over a database that fails no statement -/

/-- With no failing statement, one turn of the record loop counts no error
and keeps the seen-set within the stored property IDs. -/
theorem processRecord_noFaults (env : Env) (st : RunState) (r : ExternalProperty)
    (hnf : NoFaults env)
    (hinv : ∀ id ∈ st.processedIDs, st.db.store.hasProperty id = true) :
    (∀ id ∈ (processRecord env st r).processedIDs,
      (processRecord env st r).db.store.hasProperty id = true) ∧
    (processRecord env st r).result.ErrorCount = st.result.ErrorCount := by
  by_cases hm : r.ID ∈ st.processedIDs
  · rw [processRecord_seen env st r hm]
    exact ⟨hinv, rfl⟩
  · by_cases hp : st.db.store.hasProperty r.ID = true
    · have hfound := syncSingleProperty_found env st.db r (hnf _ _) hp
      rw [processRecord_skipped env st r .recordNotFound hm (by rw [hfound]) rfl, hfound]
      refine ⟨?_, rfl⟩
      intro id hid
      rcases List.mem_cons.mp hid with h | h
      · rw [h]; exact hp
      · exact hinv id h
    · have hp : st.db.store.hasProperty r.ID = false := by simpa using hp
      have hok := syncSingleProperty_noFaults_absent env st.db r hnf hp
      obtain ⟨_, p, hpid, hprops⟩ := syncSingleProperty_ok env st.db r hok
      rw [processRecord_synced env st r hm hok]
      refine ⟨?_, rfl⟩
      intro id hid
      simp only [Store.hasProperty, hprops, List.any_append, Bool.or_eq_true]
      rcases List.mem_cons.mp hid with h | h
      · right
        simp [hpid, h]
      · left
        exact hinv id h

theorem processAll_noFaults (env : Env) (records : List ExternalProperty) (st : RunState)
    (hnf : NoFaults env)
    (hinv : ∀ id ∈ st.processedIDs, st.db.store.hasProperty id = true) :
    (∀ id ∈ (processAll env st records).processedIDs,
      (processAll env st records).db.store.hasProperty id = true) ∧
    (processAll env st records).result.ErrorCount = st.result.ErrorCount := by
  induction records generalizing st with
  | nil => exact ⟨hinv, rfl⟩
  | cons r rs ih =>
    obtain ⟨h1, h2⟩ := processRecord_noFaults env st r hnf hinv
    obtain ⟨i1, i2⟩ := ih (processRecord env st r) h1
    simp only [processAll, List.foldl_cons] at i1 i2 ⊢
    exact ⟨i1, i2.trans h2⟩

/-- With no failing statement, a record whose ID has a property row is not
synced, counts no error and leaves the tables as they were. -/
theorem processRecord_noFaults_present (env : Env) (st : RunState) (r : ExternalProperty)
    (hnf : NoFaults env) (hp : st.db.store.hasProperty r.ID = true) :
    (processRecord env st r).result.SyncedCount = st.result.SyncedCount ∧
    (processRecord env st r).result.ErrorCount = st.result.ErrorCount ∧
    (processRecord env st r).db.store = st.db.store := by
  by_cases hm : r.ID ∈ st.processedIDs
  · rw [processRecord_seen env st r hm]
    exact ⟨rfl, rfl, rfl⟩
  · have hfound := syncSingleProperty_found env st.db r (hnf _ _) hp
    rw [processRecord_skipped env st r .recordNotFound hm (by rw [hfound]) rfl, hfound]
    exact ⟨rfl, rfl, rfl⟩

theorem processAll_noFaults_present (env : Env) (records : List ExternalProperty)
    (st : RunState) (hnf : NoFaults env)
    (hp : ∀ r ∈ records, st.db.store.hasProperty r.ID = true) :
    (processAll env st records).result.SyncedCount = st.result.SyncedCount ∧
    (processAll env st records).result.ErrorCount = st.result.ErrorCount ∧
    (processAll env st records).db.store = st.db.store := by
  induction records generalizing st with
  | nil => exact ⟨rfl, rfl, rfl⟩
  | cons r rs ih =>
    obtain ⟨h1, h2, h3⟩ :=
      processRecord_noFaults_present env st r hnf (hp r (List.mem_cons_self _ _))
    obtain ⟨i1, i2, i3⟩ := ih (processRecord env st r) (by
      intro x hx
      rw [h3]
      exact hp x (List.mem_cons_of_mem _ hx))
    simp only [processAll, List.foldl_cons] at i1 i2 i3 ⊢
    exact ⟨i1.trans h1, i2.trans h2, i3.trans h3⟩

/-- C7 (amended). When every page fetch succeeds, no database statement
fails and every record of the source carries a non-zero ID, running a second
time against the same source, from the database the first run left, returns a
report with syncedCount = 0, errorCount = 0 and skippedCount equal to the
first run's syncedCount plus the first run's skippedCount, and leaves the
tables as the first run left them; after the first run every record of the
source is stored under its own ID. The statement is made for non-zero IDs
only: a record that carries the ID 0 is inserted under a key the database
assigns, so that the lookup of the second run, by the ID 0, does not find
it. -/
theorem idempotent_rerun (env : Env) (fuel : Nat) (db : DBState) (out1 : RunOutcome)
    (res1 : SyncResult) (pages : List PropertiesAPIResponse) (hnf : NoFaults env)
    (hc : ChainOf env 0 env.propertiesURL pages)
    (hid : ∀ r ∈ recordsOf pages, r.ID ≠ 0)
    (hrun : FetchAndSyncProperties env fuel db = some out1) (hres : out1.result = some res1) :
    (∀ r ∈ recordsOf pages, r.ID ≠ 0 ∧ out1.db.store.hasProperty r.ID = true) ∧
    ∃ out2 res2, FetchAndSyncProperties env fuel out1.db = some out2 ∧ out2.err = none ∧
      out2.result = some res2 ∧ res2.SyncedCount = 0 ∧
      res2.SkippedCount = res1.SyncedCount + res1.SkippedCount ∧
      res2.ErrorCount = 0 ∧ res1.ErrorCount = 0 ∧ out2.db.store = out1.db.store := by
  obtain ⟨hu, _⟩ := run_pages env fuel db out1 res1 hrun hres
  have hfuel := run_fuel env fuel db out1 pages hu hrun hc
  obtain ⟨total1, hout1⟩ := run_of_chain env fuel db out1 pages hu hrun hc
  obtain ⟨total2, hrun2⟩ := run_chain_returns env fuel out1.db pages hu hc hfuel
  -- the first run
  obtain ⟨f1, _, t1⟩ := accumulated_tally env db pages
  obtain ⟨inv1, e1⟩ := processAll_noFaults env (recordsOf pages) (initialState db) hnf
    (by intro id hid; cases hid)
  have hseen := processAll_all_seen env (recordsOf pages) (initialState db)
  have hdb1 : out1.db = (accumulated env db pages).db := by rw [hout1]; rfl
  have hres1 : res1 = { ((accumulated env db pages).withMeta pages.length total1).result with
      Status := if ((accumulated env db pages).withMeta pages.length total1).result.ErrorCount > 0
        then "completed_with_errors" else "completed"
      Errors := ((accumulated env db pages).withMeta pages.length total1).allErrors } := by
    rw [hout1, (finishRun_result _).1] at hres
    exact (Option.some.inj hres).symm
  -- the second run
  obtain ⟨f2, _, t2⟩ := accumulated_tally env out1.db pages
  obtain ⟨s2, e2, d2⟩ := processAll_noFaults_present env (recordsOf pages)
    (initialState out1.db) hnf (by
      intro r hr
      rw [hdb1]
      exact inv1 _ (hseen r hr))
  refine ⟨fun r hr => ⟨hid r hr, by rw [hdb1]; exact inv1 _ (hseen r hr)⟩,
    _, _, hrun2, rfl, rfl, ?_, ?_, ?_, ?_, ?_⟩
  · exact s2
  · have e1' : (accumulated env db pages).result.ErrorCount = 0 := e1
    have s2' : (accumulated env out1.db pages).result.SyncedCount = 0 := s2
    have e2' : (accumulated env out1.db pages).result.ErrorCount = 0 := e2
    rw [hres1]
    simp only [RunState.withMeta]
    omega
  · exact e2
  · rw [hres1]
    exact e1
  · exact d2

theorem noFaults_sourceOf (start : String) (pages : List (String × PropertiesAPIResponse)) :
    NoFaults (sourceOf start pages) := fun _ _ => rfl

/-- Witness for C7: the overlap source run twice from the empty database. -/
theorem idempotent_rerun_witness :
    NoFaults overlapSource ∧
    ChainOf overlapSource 0 overlapSource.propertiesURL overlapPages ∧
    (∀ r ∈ recordsOf overlapPages, r.ID ≠ 0) ∧
    FetchAndSyncProperties overlapSource 2 emptyDB = some (outcomeOf overlapSource 2 emptyDB) ∧
    (reportOf overlapSource 2 emptyDB).SyncedCount = 3 ∧
    (∀ r ∈ recordsOf overlapPages,
      r.ID ≠ 0 ∧ (outcomeOf overlapSource 2 emptyDB).db.store.hasProperty r.ID = true) ∧
    ∃ out2 res2,
      FetchAndSyncProperties overlapSource 2 (outcomeOf overlapSource 2 emptyDB).db = some out2 ∧
      out2.err = none ∧ out2.result = some res2 ∧ res2.SyncedCount = 0 ∧
      res2.SkippedCount = 3 + 0 ∧ res2.ErrorCount = 0 ∧
      (reportOf overlapSource 2 emptyDB).ErrorCount = 0 ∧
      out2.db.store = (outcomeOf overlapSource 2 emptyDB).db.store :=
  ⟨noFaults_sourceOf _ _, by decide, by decide, rfl, by decide,
    idempotent_rerun overlapSource 2 emptyDB (outcomeOf overlapSource 2 emptyDB)
      (reportOf overlapSource 2 emptyDB) overlapPages (noFaults_sourceOf _ _) (by decide)
      (by decide) rfl rfl⟩

/-- Counterexample to C7 as stated, in two scenarios with every fetch
succeeding. First: the database already holds property 10 and no statement
fails; the first run syncs nothing and skips one record, and the second run
skips one record, which is not the first run's syncedCount 0. Second: the
insert of property 10 fails once in the first run and succeeds in the second,
so that the second run's syncedCount is 1. -/
theorem idempotent_rerun_counterexample :
    (ChainOf singlePageSource 0 singlePageSource.propertiesURL [mkPage [bareRecord 10] 1 none] ∧
      seededDB.store.hasProperty 10 = true ∧
      (reportOf singlePageSource 1 seededDB).SyncedCount = 0 ∧
      (reportOf singlePageSource 1 seededDB).SkippedCount = 1 ∧
      (reportOf singlePageSource 1 (outcomeOf singlePageSource 1 seededDB).db).SkippedCount = 1 ∧
      (reportOf singlePageSource 1 (outcomeOf singlePageSource 1 seededDB).db).SkippedCount
        ≠ (reportOf singlePageSource 1 seededDB).SyncedCount) ∧
    (ChainOf flakySource 0 flakySource.propertiesURL [mkPage [bareRecord 10] 1 none] ∧
      (outcomeOf flakySource 1 emptyDB).err = none ∧
      (reportOf flakySource 1 emptyDB).SyncedCount = 0 ∧
      (reportOf flakySource 1 emptyDB).ErrorCount = 1 ∧
      (outcomeOf flakySource 1 (outcomeOf flakySource 1 emptyDB).db).err = none ∧
      (reportOf flakySource 1 (outcomeOf flakySource 1 emptyDB).db).SyncedCount = 1 ∧
      (reportOf flakySource 1 (outcomeOf flakySource 1 emptyDB).db).SyncedCount ≠ 0) := by
  decide

/-! ## The overlap scenario -/

theorem hasProperty_false_iff (s : Store) (id : Nat) :
    s.hasProperty id = false ↔ id ∉ s.propertyIDs := by
  rw [← hasProperty_iff]
  simp

/-- With no failing statement, a record that is neither in the seen-set nor
stored is synced: its ID is appended to the stored property IDs. -/
theorem processRecord_noFaults_absent (env : Env) (st : RunState) (r : ExternalProperty)
    (hnf : NoFaults env) (hm : r.ID ∉ st.processedIDs)
    (hp : st.db.store.hasProperty r.ID = false) :
    (processRecord env st r).result
      = { st.result with
          FetchedCount := st.result.FetchedCount + 1
          SyncedCount := st.result.SyncedCount + 1 } ∧
    (processRecord env st r).allErrors = st.allErrors ∧
    (processRecord env st r).processedIDs = r.ID :: st.processedIDs ∧
    (processRecord env st r).db.store.propertyIDs = st.db.store.propertyIDs ++ [r.ID] := by
  have hok := syncSingleProperty_noFaults_absent env st.db r hnf hp
  obtain ⟨_, p, hpid, hprops⟩ := syncSingleProperty_ok env st.db r hok
  rw [processRecord_synced env st r hm hok]
  refine ⟨rfl, rfl, rfl, ?_⟩
  simp [Store.propertyIDs, hprops, hpid]

/-- The report of a run that finishes without a counted error. -/
theorem finishRun_clean (st : RunState) (h : st.result.ErrorCount = 0) :
    ∃ res, (finishRun st).result = some res ∧ res.Status = "completed" ∧
      res.TotalPagesFetched = st.result.TotalPagesFetched ∧
      res.FetchedCount = st.result.FetchedCount ∧ res.SyncedCount = st.result.SyncedCount ∧
      res.SkippedCount = st.result.SkippedCount ∧ res.ErrorCount = 0 ∧
      res.Errors = st.allErrors := by
  refine ⟨_, (finishRun_result st).1, ?_, rfl, rfl, rfl, rfl, h, rfl⟩
  simp [h]

/-- C10 (amended). For every two-page source in which page 1 holds records 10
and 11 and links to page 2, which holds records 10 and 12 and links nowhere,
run with fuel for two requests against a database that holds none of the three
properties and fails no statement: the run returns a nil error and a report
with status `completed`, fetchedCount = 4, syncedCount = 3 (10, 11 and 12, once
each), skippedCount = 0 and errorCount = 0; the second occurrence of 10 is
stopped by the dedup guard, and exactly the rows 10, 11, 12 are appended to the
properties table, in this order. -/
theorem overlap_scenario (env : Env) (fuel : Nat) (db : DBState)
    (p1 p2 : PropertiesAPIResponse) (a b c d : ExternalProperty)
    (hnf : NoFaults env) (hchain : ChainOf env 0 env.propertiesURL [p1, p2])
    (hp1 : p1.Data = [a, b]) (hp2 : p2.Data = [c, d])
    (ha : a.ID = 10) (hb : b.ID = 11) (hcid : c.ID = 10) (hd : d.ID = 12)
    (h10 : db.store.hasProperty 10 = false) (h11 : db.store.hasProperty 11 = false)
    (h12 : db.store.hasProperty 12 = false) (hfuel : 2 ≤ fuel) :
    ∃ out res, FetchAndSyncProperties env fuel db = some out ∧ out.err = none ∧
      out.result = some res ∧ res.Status = "completed" ∧ res.TotalPagesFetched = 2 ∧
      res.FetchedCount = 4 ∧ res.SyncedCount = 3 ∧ res.SkippedCount = 0 ∧
      res.ErrorCount = 0 ∧ res.Errors = [] ∧
      dedupSkips [] ((recordsOf [p1, p2]).map (fun r => r.ID)) = 1 ∧
      out.db.store.propertyIDs = db.store.propertyIDs ++ [10, 11, 12] := by
  have hu : env.propertiesURL ≠ "" := hchain.1
  obtain ⟨total, hrun⟩ := run_chain_returns env fuel db [p1, p2] hu hchain (by simpa using hfuel)
  have hrec : recordsOf [p1, p2] = [a, b, c, d] := by simp [recordsOf, hp1, hp2]
  rw [hasProperty_false_iff] at h10 h11 h12
  -- record 10 on page 1
  obtain ⟨r1, e1, s1, i1⟩ := processRecord_noFaults_absent env (initialState db) a hnf
    (by simp [initialState]) (by rw [ha, hasProperty_false_iff]; exact h10)
  set S1 := processRecord env (initialState db) a with hS1
  have q1 : S1.result.FetchedCount = 1 ∧ S1.result.SyncedCount = 1 ∧
      S1.result.SkippedCount = 0 ∧ S1.result.ErrorCount = 0 := by
    rw [r1]; simp [initialState]
  -- record 11
  obtain ⟨r2, e2, s2, i2⟩ := processRecord_noFaults_absent env S1 b hnf
    (by rw [s1, ha, hb]; simp [initialState])
    (by
      rw [hasProperty_false_iff, i1, ha, hb]
      simp only [initialState, List.mem_append, List.mem_singleton, not_or]
      exact ⟨h11, by decide⟩)
  set S2 := processRecord env S1 b with hS2
  have q2 : S2.result.FetchedCount = 2 ∧ S2.result.SyncedCount = 2 ∧
      S2.result.SkippedCount = 0 ∧ S2.result.ErrorCount = 0 := by
    rw [r2]; simp [q1]
  -- record 10 again, on page 2
  have m3 : c.ID ∈ S2.processedIDs := by rw [s2, s1, ha, hcid]; simp
  have r3 := processRecord_seen env S2 c m3
  set S3 := processRecord env S2 c with hS3
  have q3 : S3.result.FetchedCount = 3 ∧ S3.result.SyncedCount = 2 ∧
      S3.result.SkippedCount = 0 ∧ S3.result.ErrorCount = 0 ∧ S3.allErrors = S2.allErrors ∧
      S3.processedIDs = S2.processedIDs ∧ S3.db = S2.db := by
    rw [r3]; simp [q2]
  -- record 12
  obtain ⟨r4, e4, s4, i4⟩ := processRecord_noFaults_absent env S3 d hnf
    (by rw [q3.2.2.2.2.2.1, s2, s1, ha, hb, hd]; simp [initialState])
    (by
      rw [hasProperty_false_iff, q3.2.2.2.2.2.2, i2, i1, ha, hb, hd]
      simp only [initialState, List.mem_append, List.mem_singleton, not_or]
      exact ⟨⟨h12, by decide⟩, by decide⟩)
  set S4 := processRecord env S3 d with hS4
  have q4 : S4.result.FetchedCount = 4 ∧ S4.result.SyncedCount = 3 ∧
      S4.result.SkippedCount = 0 ∧ S4.result.ErrorCount = 0 := by
    rw [r4]; simp [q3]
  have hacc : accumulated env db [p1, p2] = S4 := by
    simp [accumulated, hrec, processAll, hS4, hS3, hS2, hS1]
  have herrs : S4.allErrors = [] := by
    rw [e4, q3.2.2.2.2.1, e2, e1]; rfl
  have hids : S4.db.store.propertyIDs = db.store.propertyIDs ++ [10, 11, 12] := by
    rw [i4, q3.2.2.2.2.2.2, i2, i1, ha, hb, hd]
    simp [initialState]
  rw [hacc] at hrun
  obtain ⟨res, hres, hst, hpg, hf, hsy, hsk, her, hel⟩ :=
    finishRun_clean (S4.withMeta 2 total) q4.2.2.2
  refine ⟨_, res, hrun, rfl, hres, hst, hpg, hf.trans q4.1, hsy.trans q4.2.1,
    hsk.trans q4.2.2.1, her, hel.trans herrs, ?_, hids⟩
  rw [hrec]
  simp only [List.map, ha, hb, hcid, hd]
  decide

/-- Witness for C10: the overlap source over the empty database. -/
theorem overlap_scenario_witness :
    NoFaults overlapSource ∧
    ChainOf overlapSource 0 overlapSource.propertiesURL
      [mkPage [bareRecord 10, bareRecord 11] 3 (some "page2"),
       mkPage [bareRecord 10, bareRecord 12] 3 none] ∧
    ∃ out res, FetchAndSyncProperties overlapSource 2 emptyDB = some out ∧ out.err = none ∧
      out.result = some res ∧ res.Status = "completed" ∧ res.TotalPagesFetched = 2 ∧
      res.FetchedCount = 4 ∧ res.SyncedCount = 3 ∧ res.SkippedCount = 0 ∧
      res.ErrorCount = 0 ∧ res.Errors = [] ∧
      dedupSkips []
        ((recordsOf [mkPage [bareRecord 10, bareRecord 11] 3 (some "page2"),
          mkPage [bareRecord 10, bareRecord 12] 3 none]).map (fun r => r.ID)) = 1 ∧
      out.db.store.propertyIDs = emptyDB.store.propertyIDs ++ [10, 11, 12] :=
  ⟨noFaults_sourceOf _ _, by decide,
    overlap_scenario overlapSource 2 emptyDB
      (mkPage [bareRecord 10, bareRecord 11] 3 (some "page2"))
      (mkPage [bareRecord 10, bareRecord 12] 3 none)
      (bareRecord 10) (bareRecord 11) (bareRecord 10) (bareRecord 12)
      (noFaults_sourceOf _ _) (by decide) rfl rfl rfl rfl rfl rfl
      (by decide) (by decide) (by decide) (by decide)⟩

/-- Counterexample to C10 as stated: on the overlap source over the empty
database, with no failing statement, the report has fetchedCount 4 and
errorCount 0, and syncedCount 3, not 2: record 11 is synced as well. -/
theorem overlap_scenario_counterexample :
    FetchAndSyncProperties overlapSource 2 emptyDB = some (outcomeOf overlapSource 2 emptyDB) ∧
    (outcomeOf overlapSource 2 emptyDB).result = some (reportOf overlapSource 2 emptyDB) ∧
    (reportOf overlapSource 2 emptyDB).FetchedCount = 4 ∧
    (reportOf overlapSource 2 emptyDB).ErrorCount = 0 ∧
    (reportOf overlapSource 2 emptyDB).SyncedCount = 3 ∧
    (reportOf overlapSource 2 emptyDB).SyncedCount ≠ 2 ∧
    (outcomeOf overlapSource 2 emptyDB).db.store.propertyIDs = [10, 11, 12] := by
  decide

/-! ## Keyed upserts -/

theorem upsertBy_cons {α : Type} (key : α → Nat) (merge : α → α → α) (row r : α)
    (rs : List α) :
    upsertBy key merge row (r :: rs)
      = if key r = key row then merge r row :: rs else r :: upsertBy key merge row rs := rfl

theorem upsertBy_hit {α : Type} (key : α → Nat) (merge : α → α → α) (row stored : α)
    (pre post : List α) (hpre : ∀ x ∈ pre, key x ≠ key row) (hk : key stored = key row) :
    upsertBy key merge row (pre ++ stored :: post) = pre ++ merge stored row :: post := by
  induction pre with
  | nil => simp [upsertBy, hk]
  | cons x xs ih =>
    have hx : key x ≠ key row := hpre x (List.mem_cons_self _ _)
    rw [List.cons_append, upsertBy_cons, if_neg hx,
      ih (fun y hy => hpre y (List.mem_cons_of_mem _ hy)), List.cons_append]

theorem upsertBy_miss {α : Type} (key : α → Nat) (merge : α → α → α) (row : α)
    (l : List α) (h : ∀ x ∈ l, key x ≠ key row) :
    upsertBy key merge row l = l ++ [row] := by
  induction l with
  | nil => rfl
  | cons x xs ih =>
    have hx : key x ≠ key row := h x (List.mem_cons_self _ _)
    rw [upsertBy_cons, if_neg hx, ih (fun y hy => h y (List.mem_cons_of_mem _ hy)),
      List.cons_append]

/-- After an upsert the first row with the key of `row` is `row` itself or the
stored row merged with it. -/
theorem upsertBy_find {α : Type} (key : α → Nat) (merge : α → α → α) (row : α) (l : List α)
    (hm : ∀ s, key s = key row → key (merge s row) = key row) :
    (upsertBy key merge row l).find? (fun x => key x == key row)
      = some (match l.find? (fun x => key x == key row) with
              | some s => merge s row
              | none => row) := by
  induction l with
  | nil => simp [upsertBy]
  | cons x xs ih =>
    by_cases hx : key x = key row
    · simp [upsertBy, hx, hm x hx]
    · have hb : (key x == key row) = false := by simpa using hx
      rw [upsertBy_cons, if_neg hx]
      simp only [List.find?_cons, hb]
      exact ih

/-- An upsert leaves the first row of every other key as it was. -/
theorem upsertBy_find_other {α : Type} (key : α → Nat) (merge : α → α → α) (row : α)
    (l : List α) (id : Nat) (hm : ∀ s, key (merge s row) = key s) (hid : id ≠ key row) :
    (upsertBy key merge row l).find? (fun x => key x == id)
      = l.find? (fun x => key x == id) := by
  induction l with
  | nil =>
    have hb : (key row == id) = false := by simpa using fun h => hid h.symm
    simp [upsertBy, List.find?_cons, hb]
  | cons x xs ih =>
    by_cases hx : key x = key row
    · have h1 : (key x == id) = false := by
        simp only [beq_eq_false_iff_ne, ne_eq]
        intro h
        exact hid (h.symm.trans hx)
      have h2 : (key (merge x row) == id) = false := by rw [hm]; exact h1
      rw [upsertBy_cons, if_pos hx]
      simp only [List.find?_cons, h1, h2]
    · rw [upsertBy_cons, if_neg hx]
      by_cases hxi : (key x == id) = true
      · simp only [List.find?_cons, hxi]
      · have hxi : (key x == id) = false := by simpa using hxi
        simp only [List.find?_cons, hxi]
        exact ih

theorem upsertBy_mem {α : Type} (key : α → Nat) (merge : α → α → α) (row : α) (l : List α)
    (x : α) (hx : x ∈ upsertBy key merge row l) :
    x ∈ l ∨ x = row ∨ ∃ s ∈ l, key s = key row ∧ x = merge s row := by
  induction l with
  | nil =>
    simp only [upsertBy, List.mem_singleton] at hx
    exact Or.inr (Or.inl hx)
  | cons y ys ih =>
    by_cases hy : key y = key row
    · simp only [upsertBy, hy, if_true, List.mem_cons] at hx
      rcases hx with h | h
      · exact Or.inr (Or.inr ⟨y, List.mem_cons_self _ _, hy, h⟩)
      · exact Or.inl (List.mem_cons_of_mem _ h)
    · simp only [upsertBy, hy, if_false, List.mem_cons] at hx
      rcases hx with h | h
      · exact Or.inl (h ▸ List.mem_cons_self _ _)
      · rcases ih h with h1 | h1 | ⟨s, hs, hk, he⟩
        · exact Or.inl (List.mem_cons_of_mem _ h1)
        · exact Or.inr (Or.inl h1)
        · exact Or.inr (Or.inr ⟨s, List.mem_cons_of_mem _ hs, hk, he⟩)

/-- An upsert keeps a row for every key that had one and has a row for the
key of `row`. -/
theorem upsertBy_keys {α : Type} (key : α → Nat) (merge : α → α → α) (row : α) (l : List α)
    (hm : ∀ s, key (merge s row) = key s) :
    (∀ s ∈ l, ∃ x ∈ upsertBy key merge row l, key x = key s) ∧
    ∃ x ∈ upsertBy key merge row l, key x = key row := by
  induction l with
  | nil => exact ⟨fun s hs => (by cases hs), row, (by simp [upsertBy]), rfl⟩
  | cons y ys ih =>
    obtain ⟨ih1, x0, hx0, hk0⟩ := ih
    by_cases hy : key y = key row
    · simp only [upsertBy, hy, if_true]
      refine ⟨?_, merge y row, List.mem_cons_self _ _, by rw [hm, hy]⟩
      intro s hs
      rcases List.mem_cons.mp hs with h | h
      · exact ⟨merge y row, List.mem_cons_self _ _, by rw [hm, h]⟩
      · exact ⟨s, List.mem_cons_of_mem _ h, rfl⟩
    · simp only [upsertBy, hy, if_false]
      refine ⟨?_, x0, List.mem_cons_of_mem _ hx0, hk0⟩
      intro s hs
      rcases List.mem_cons.mp hs with h | h
      · exact ⟨y, List.mem_cons_self _ _, by rw [h]⟩
      · obtain ⟨x, hx, hk⟩ := ih1 s h
        exact ⟨x, List.mem_cons_of_mem _ hx, hk⟩

/-! ## Users and agents -/

/-- A statement that returns no error took the effect `Store.apply` gives it. -/
theorem exec_ok (env : Env) (db : DBState) (op : DBOp) (h : (db.exec env op).1 = none) :
    db.store.apply op = .ok (db.exec env op).2.store := by
  unfold DBState.exec at h ⊢
  cases hf : env.faults db.calls op with
  | some e => simp [hf] at h
  | none =>
    rcases ha : db.store.apply op with e | s'
    · simp [hf, ha] at h
    · rfl

/-- Whatever a statement returns, the tables are those before it or those
`Store.apply` gives. -/
theorem exec_store_cases (env : Env) (db : DBState) (op : DBOp) :
    (db.exec env op).2.store = db.store ∨ db.store.apply op = .ok (db.exec env op).2.store := by
  rcases he : (db.exec env op).1 with _ | e
  · exact Or.inr (exec_ok env db op he)
  · exact Or.inl (exec_error_store env db op (by rw [he]; simp))

theorem agentsHaveUsers_upsertUser (s : Store) (row : User) (h : AgentsHaveUsers s) :
    AgentsHaveUsers { s with users := upsertBy User.ID User.onConflict row s.users } ∧
    ∃ x ∈ upsertBy User.ID User.onConflict row s.users, x.ID = row.ID := by
  obtain ⟨k1, k2⟩ := upsertBy_keys User.ID User.onConflict row s.users (fun _ => rfl)
  refine ⟨?_, k2⟩
  intro a ha
  obtain ⟨u, hu, hid⟩ := h a ha
  obtain ⟨x, hx, hk⟩ := k1 u hu
  exact ⟨x, hx, hk.trans hid⟩

theorem agentsHaveUsers_upsertAgent (s : Store) (row : Agent) (h : AgentsHaveUsers s)
    (hu : ∃ u ∈ s.users, u.ID = row.UserID) :
    AgentsHaveUsers { s with agents := upsertBy Agent.ID Agent.onConflict row s.agents } := by
  intro a ha
  rcases upsertBy_mem Agent.ID Agent.onConflict row s.agents a ha with h1 | h1 | ⟨st, _, _, h1⟩
  · exact h a h1
  · rw [h1]; exact hu
  · rw [h1]; exact hu

/-- Every statement keeps the invariant that agents refer to stored users,
provided an agent upsert is sent only when its user is stored. -/
theorem exec_agentsHaveUsers (env : Env) (db : DBState) (op : DBOp)
    (h : AgentsHaveUsers db.store)
    (hop : ∀ row, op = .upsertAgent row → ∃ u ∈ db.store.users, u.ID = row.UserID) :
    AgentsHaveUsers (db.exec env op).2.store := by
  rcases exec_store_cases env db op with hs | hs
  · rw [hs]; exact h
  · cases op with
    | firstProperty id =>
      by_cases hp : db.store.hasProperty id = true
      · simp only [Store.apply, hp, if_true, Except.ok.injEq] at hs
        rw [← hs]; exact h
      · simp [Store.apply, hp] at hs
    | txBegin =>
      simp only [Store.apply, Except.ok.injEq] at hs
      rw [← hs]; exact h
    | txCommit =>
      simp only [Store.apply, Except.ok.injEq] at hs
      rw [← hs]; exact h
    | upsertUser row =>
      simp only [Store.apply, Except.ok.injEq] at hs
      rw [← hs]; exact (agentsHaveUsers_upsertUser db.store _ h).1
    | upsertAgent row =>
      simp only [Store.apply, Except.ok.injEq] at hs
      rw [← hs]; exact agentsHaveUsers_upsertAgent db.store _ h (hop row rfl)
    | upsertCoverPhoto row =>
      simp only [Store.apply, Except.ok.injEq] at hs
      rw [← hs]; exact h
    | createProperty row =>
      by_cases hp : db.store.hasProperty row.ID = true
      · simp [Store.apply, hp] at hs
      · simp only [Store.apply, hp, Bool.false_eq_true, if_false, Except.ok.injEq] at hs
        rw [← hs]; exact h
    | upsertLocation row =>
      simp only [Store.apply, Except.ok.injEq] at hs
      rw [← hs]; exact h

theorem upsertUser_eq (env : Env) (tx : DBState) (u : ExternalUser) :
    upsertUser env tx (some u)
      = (if (tx.exec env (.upsertUser (mapUser env u))).1 = none
          then some { mapUser env u with ID := tx.store.userKey u.ID } else none,
         (tx.exec env (.upsertUser (mapUser env u))).1.map (GoError.wrap "upsert user failed: "),
         (tx.exec env (.upsertUser (mapUser env u))).2) := by
  rcases hx : tx.exec env (.upsertUser (mapUser env u)) with ⟨e, tx1⟩
  cases e with
  | none => simp [upsertUser, hx]; rfl
  | some e => simp [upsertUser, hx]

theorem upsertAgent_eq (env : Env) (tx : DBState) (a : ExternalAgent) (userID : Nat) :
    upsertAgent env tx (some a) userID
      = (if (tx.exec env (.upsertAgent (mapAgent env a userID))).1 = none
          then some { mapAgent env a userID with ID := tx.store.agentKey a.ID } else none,
         (tx.exec env (.upsertAgent (mapAgent env a userID))).1.map
           (GoError.wrap "upsert agent failed: "),
         (tx.exec env (.upsertAgent (mapAgent env a userID))).2) := by
  rcases hx : tx.exec env (.upsertAgent (mapAgent env a userID)) with ⟨e, tx1⟩
  cases e with
  | none => simp [upsertAgent, hx]; rfl
  | some e => simp [upsertAgent, hx]

theorem upsertLocation_eq (env : Env) (tx : DBState) (l : ExternalLocation) :
    upsertLocation env tx (some l)
      = (if (tx.exec env (.upsertLocation (mapLocation env l))).1 = none
          then some (mapLocation env l) else none,
         (tx.exec env (.upsertLocation (mapLocation env l))).1.map
           (GoError.wrap "upsert location failed: "),
         (tx.exec env (.upsertLocation (mapLocation env l))).2) := by
  rcases hx : tx.exec env (.upsertLocation (mapLocation env l)) with ⟨e, tx1⟩
  cases e <;> simp [upsertLocation, hx]

theorem upsertCoverPhoto_eq (env : Env) (tx : DBState) (c : ExternalCoverPhoto) :
    upsertCoverPhoto env tx (some c)
      = (if (tx.exec env (.upsertCoverPhoto
              { ID := c.ID, Url := c.Url, Description := c.Description, PropertyID := 0 })).1
            = none
          then some { ID := c.ID, Url := c.Url, Description := c.Description, PropertyID := 0 }
          else none,
         (tx.exec env (.upsertCoverPhoto
              { ID := c.ID, Url := c.Url, Description := c.Description, PropertyID := 0 })).1.map
           (GoError.wrap "upsert cover photo failed: "),
         (tx.exec env (.upsertCoverPhoto
              { ID := c.ID, Url := c.Url, Description := c.Description, PropertyID := 0 })).2) := by
  rcases hx : tx.exec env (.upsertCoverPhoto
    { ID := c.ID, Url := c.Url, Description := c.Description, PropertyID := 0 }) with ⟨e, tx1⟩
  cases e <;> simp [upsertCoverPhoto, hx]

/-- The four ways through the first block of the closure: nothing to do; the
user upsert fails and the block returns at once; the user upsert succeeds and
the agent upsert, sent next with the user's ID, fails; both succeed. -/
theorem txUserAndAgent_cases (env : Env) (r : ExternalProperty) (tx : DBState) :
    ((r.Agent = none ∨ ∃ a, r.Agent = some a ∧ a.User = none) ∧
      txUserAndAgent env r tx = (none, none, tx)) ∨
    (∃ a u e, r.Agent = some a ∧ a.User = some u ∧
      (tx.exec env (.upsertUser (mapUser env u))).1 = some e ∧
      txUserAndAgent env r tx
        = (none,
           some (.wrap ("failed to upsert user " ++ toString u.ID ++ " for property " ++
             toString r.ID ++ ": ") (.wrap "upsert user failed: " e)),
           (tx.exec env (.upsertUser (mapUser env u))).2)) ∨
    (∃ a u e, r.Agent = some a ∧ a.User = some u ∧
      (tx.exec env (.upsertUser (mapUser env u))).1 = none ∧
      ((tx.exec env (.upsertUser (mapUser env u))).2.exec env
        (.upsertAgent (mapAgent env a (tx.store.userKey u.ID)))).1 = some e ∧
      txUserAndAgent env r tx
        = (none,
           some (.wrap ("failed to upsert agent " ++ toString a.ID ++ " for property " ++
             toString r.ID ++ ": ") (.wrap "upsert agent failed: " e)),
           ((tx.exec env (.upsertUser (mapUser env u))).2.exec env
             (.upsertAgent (mapAgent env a (tx.store.userKey u.ID)))).2)) ∨
    (∃ a u, r.Agent = some a ∧ a.User = some u ∧
      (tx.exec env (.upsertUser (mapUser env u))).1 = none ∧
      ((tx.exec env (.upsertUser (mapUser env u))).2.exec env
        (.upsertAgent (mapAgent env a (tx.store.userKey u.ID)))).1 = none ∧
      txUserAndAgent env r tx
        = (some { mapAgent env a (tx.store.userKey u.ID) with
                  ID := (tx.exec env (.upsertUser (mapUser env u))).2.store.agentKey a.ID },
           none,
           ((tx.exec env (.upsertUser (mapUser env u))).2.exec env
             (.upsertAgent (mapAgent env a (tx.store.userKey u.ID)))).2)) := by
  rcases ha : r.Agent with _ | a
  · exact Or.inl ⟨Or.inl rfl, by simp [txUserAndAgent, ha]⟩
  · rcases hu : a.User with _ | u
    · exact Or.inl ⟨Or.inr ⟨a, rfl, hu⟩, by simp [txUserAndAgent, ha, hu]⟩
    · right
      rcases h1 : (tx.exec env (.upsertUser (mapUser env u))).1 with _ | e
      · right
        rcases h2 : ((tx.exec env (.upsertUser (mapUser env u))).2.exec env
            (.upsertAgent (mapAgent env a (tx.store.userKey u.ID)))).1 with _ | e
        · right
          refine ⟨a, u, rfl, hu, h1, h2, ?_⟩
          simp [txUserAndAgent, ha, hu, upsertUser_eq, h1, upsertAgent_eq, h2]
        · left
          refine ⟨a, u, e, rfl, hu, h1, h2, ?_⟩
          simp [txUserAndAgent, ha, hu, upsertUser_eq, h1, upsertAgent_eq, h2]
      · left
        refine ⟨a, u, e, rfl, hu, h1, ?_⟩
        simp [txUserAndAgent, ha, hu, upsertUser_eq, h1]

/-- After a user upsert that returned no error, a user row is stored under the
key the row was written under. -/
theorem exec_upsertUser_has (env : Env) (tx : DBState) (row : User)
    (h : (tx.exec env (.upsertUser row)).1 = none) :
    ∃ x ∈ (tx.exec env (.upsertUser row)).2.store.users, x.ID = tx.store.userKey row.ID := by
  have hs := exec_ok env tx _ h
  simp only [Store.apply, Except.ok.injEq] at hs
  rw [← hs]
  exact (upsertBy_keys User.ID User.onConflict { row with ID := tx.store.userKey row.ID }
    tx.store.users (fun _ => rfl)).2

/-- A user upsert leaves the agents table as it was. -/
theorem exec_upsertUser_agents (env : Env) (tx : DBState) (row : User) :
    (tx.exec env (.upsertUser row)).2.store.agents = tx.store.agents := by
  rcases exec_store_cases env tx (.upsertUser row) with hs | hs
  · rw [hs]
  · simp only [Store.apply, Except.ok.injEq] at hs
    rw [← hs]

/-- A row that carries a key is written under that key. -/
theorem writtenKey_of_ne (keys : List Nat) (id : Nat) (h : id ≠ 0) : writtenKey keys id = id := by
  simp [writtenKey, h]

/-- No row is written under the zero key. -/
theorem writtenKey_ne_zero (keys : List Nat) (id : Nat) : writtenKey keys id ≠ 0 := by
  unfold writtenKey assignedKey
  by_cases h : id = 0
  · simp [h]
  · simp [h]

theorem txUserAndAgent_agentsHaveUsers (env : Env) (r : ExternalProperty) (tx : DBState)
    (h : AgentsHaveUsers tx.store) :
    AgentsHaveUsers (txUserAndAgent env r tx).2.2.store := by
  have huser : ∀ u : ExternalUser,
      AgentsHaveUsers (tx.exec env (.upsertUser (mapUser env u))).2.store :=
    fun u => exec_agentsHaveUsers env tx _ h (by intro row hr; cases hr)
  have hagent : ∀ (a : ExternalAgent) (u : ExternalUser),
      (tx.exec env (.upsertUser (mapUser env u))).1 = none →
      AgentsHaveUsers ((tx.exec env (.upsertUser (mapUser env u))).2.exec env
        (.upsertAgent (mapAgent env a (tx.store.userKey u.ID)))).2.store := by
    intro a u h1
    refine exec_agentsHaveUsers env _ _ (huser u) ?_
    intro row hr
    cases hr
    exact exec_upsertUser_has env tx (mapUser env u) h1
  rcases txUserAndAgent_cases env r tx with ⟨_, he⟩ | ⟨a, u, e, _, _, _, he⟩ |
    ⟨a, u, e, _, _, h1, _, he⟩ | ⟨a, u, _, _, h1, _, he⟩
  · rw [he]; exact h
  · rw [he]; exact huser u
  · rw [he]; exact hagent a u h1
  · rw [he]; exact hagent a u h1

/-- The handle the second block leaves: the one it was given, or the one after
the cover photo upsert. -/
theorem txCoverPhoto_state (env : Env) (r : ExternalProperty) (tx : DBState) :
    (txCoverPhoto env r tx).2.2
      = match r.CoverPhoto with
        | none => tx
        | some c => (tx.exec env (.upsertCoverPhoto
            { ID := c.ID, Url := c.Url, Description := c.Description, PropertyID := 0 })).2 := by
  rcases hc : r.CoverPhoto with _ | c
  · simp [txCoverPhoto, hc]
  · rcases h1 : (tx.exec env (.upsertCoverPhoto
        { ID := c.ID, Url := c.Url, Description := c.Description, PropertyID := 0 })).1
      with _ | e <;> simp [txCoverPhoto, hc, upsertCoverPhoto_eq, h1]

/-- The handle the last block leaves: the one after the insert of the
property, or, when that succeeded and there is a location, the one after the
upsert of the location carrying the record's ID as `PropertyID`. -/
theorem txPropertyAndLocation_state (env : Env) (r : ExternalProperty) (a : Option Agent)
    (c : Option CoverPhoto) (tx : DBState) :
    (txPropertyAndLocation env r a c tx).2
      = if (tx.exec env (.createProperty (mapExternalToDBProperty env r a c).1)).1 = none then
          match r.Location with
          | none => (tx.exec env (.createProperty (mapExternalToDBProperty env r a c).1)).2
          | some l =>
            ((tx.exec env (.createProperty (mapExternalToDBProperty env r a c).1)).2.exec env
              (.upsertLocation (mapLocation env { l with PropertyID := r.ID }))).2
        else (tx.exec env (.createProperty (mapExternalToDBProperty env r a c).1)).2 := by
  have hm : mapExternalToDBProperty env r a c = ((mapExternalToDBProperty env r a c).1, none) :=
    rfl
  rcases h1 : (tx.exec env (.createProperty (mapExternalToDBProperty env r a c).1)).1
    with _ | e
  · rcases hl : r.Location with _ | l
    · rw [txPropertyAndLocation, hm]
      rcases hx : tx.exec env (.createProperty (mapExternalToDBProperty env r a c).1)
        with ⟨e1, tx1⟩
      rw [hx] at h1
      simp only at h1
      subst h1
      simp [hl, hx]
    · rw [txPropertyAndLocation, hm]
      rcases hx : tx.exec env (.createProperty (mapExternalToDBProperty env r a c).1)
        with ⟨e1, tx1⟩
      rw [hx] at h1
      simp only at h1
      subst h1
      rcases h2 : (tx1.exec env
          (.upsertLocation (mapLocation env { l with PropertyID := r.ID }))).1 with _ | e2 <;>
        simp [hl, hx, upsertLocation_eq, h2]
  · rw [txPropertyAndLocation, hm]
    rcases hx : tx.exec env (.createProperty (mapExternalToDBProperty env r a c).1)
      with ⟨e1, tx1⟩
    rw [hx] at h1
    simp only at h1
    subst h1
    simp [hx]

theorem syncTx_agentsHaveUsers (env : Env) (r : ExternalProperty) (tx : DBState)
    (h : AgentsHaveUsers tx.store) : AgentsHaveUsers (syncTx env r tx).2.store := by
  have h1 := txUserAndAgent_agentsHaveUsers env r tx h
  unfold syncTx
  rcases hx : txUserAndAgent env r tx with ⟨ma, e1, tx1⟩
  rw [hx] at h1
  simp only at h1
  cases e1 with
  | some e => exact h1
  | none =>
    simp only
    have h2 : AgentsHaveUsers (txCoverPhoto env r tx1).2.2.store := by
      rw [txCoverPhoto_state]
      split
      · exact h1
      · exact exec_agentsHaveUsers env tx1 _ h1 (by intro row hr; cases hr)
    rcases hy : txCoverPhoto env r tx1 with ⟨mc, e2, tx2⟩
    rw [hy] at h2
    simp only at h2
    cases e2 with
    | some e => exact h2
    | none =>
      simp only
      rw [txPropertyAndLocation_state]
      have h3 := exec_agentsHaveUsers env tx2
        (.createProperty (mapExternalToDBProperty env r ma mc).1) h2
        (by intro row hr; cases hr)
      split
      · split
        · exact h3
        · exact exec_agentsHaveUsers env _ _ h3 (by intro row hr; cases hr)
      · exact h3

/-- The tables `syncSingleProperty` leaves are those it found, or, when it
returns nil, those the closure left when run on the tables it found after the
lookup and the begin statement. -/
theorem syncSingleProperty_store_cases (env : Env) (db : DBState) (r : ExternalProperty) :
    (syncSingleProperty env db r).2.store = db.store ∨
    ((syncSingleProperty env db r).1 = none ∧
      (syncTx env r { store := db.store, calls := db.calls + 2 }).1 = none ∧
      (syncSingleProperty env db r).2.store
        = (syncTx env r { store := db.store, calls := db.calls + 2 }).2.store) := by
  rcases he : (syncSingleProperty env db r).1 with _ | e
  · right
    refine ⟨rfl, ?_⟩
    unfold syncSingleProperty at he ⊢
    have hs := exec_firstProperty_store env db r.ID
    have hcalls := exec_calls env db (.firstProperty r.ID)
    rcases hl : db.exec env (.firstProperty r.ID) with ⟨e1, db1⟩
    rw [hl] at hs hcalls
    simp only at hs hcalls
    cases e1 with
    | none => simp [hl] at he
    | some err =>
      simp only [hl] at he ⊢
      by_cases hnf : err.isRecordNotFound = true
      · simp only [hnf, Bool.not_true, Bool.false_eq_true, if_false] at he ⊢
        obtain ⟨t1, t2⟩ := transaction_ok env db1 _ he
        rw [hs, hcalls] at t1 t2
        exact ⟨t1, t2⟩
      · simp [hnf] at he
  · exact Or.inl (syncSingleProperty_error_store env db r (by rw [he]; simp))

theorem syncSingleProperty_agentsHaveUsers (env : Env) (db : DBState) (r : ExternalProperty)
    (h : AgentsHaveUsers db.store) : AgentsHaveUsers (syncSingleProperty env db r).2.store := by
  rcases syncSingleProperty_store_cases env db r with hs | ⟨_, _, hs⟩
  · rw [hs]; exact h
  · rw [hs]; exact syncTx_agentsHaveUsers env r _ h

theorem processAll_agentsHaveUsers (env : Env) (records : List ExternalProperty)
    (st : RunState) (h : AgentsHaveUsers st.db.store) :
    AgentsHaveUsers (processAll env st records).db.store := by
  induction records generalizing st with
  | nil => exact h
  | cons r rs ih =>
    simp only [processAll, List.foldl_cons] at ih ⊢
    apply ih
    rw [processRecord_db]
    split
    · exact h
    · exact syncSingleProperty_agentsHaveUsers env st.db r h

/-! ## Verified properties of the user and agent upserts -/

/-- C11. Inside the closure of `syncSingleProperty` the agents table changes
only when the record has an agent with a nested user, the upsert of that user
returned no error, a user row is then stored under the key that upsert wrote
(the nested user's ID whenever that ID is not zero), and the agent upsert is
the statement sent next, carrying that key as `user_id`. When
the user upsert fails the closure returns an error with the handle as that one
statement left it (no further statement is sent), and the transaction returns
an error and leaves the tables as they were. Hence `syncSingleProperty`, and every run,
started from tables in which every agent's `user_id` is the ID of a stored
user, leaves tables in which this holds again. -/
theorem agent_after_user (env : Env) (db : DBState) (r : ExternalProperty)
    (hinv : AgentsHaveUsers db.store) :
    AgentsHaveUsers (syncSingleProperty env db r).2.store ∧
    (∀ (fuel : Nat) (out : RunOutcome),
      FetchAndSyncProperties env fuel db = some out → AgentsHaveUsers out.db.store) ∧
    (∀ tx : DBState, (txUserAndAgent env r tx).2.2.store.agents ≠ tx.store.agents →
      ∃ a u, r.Agent = some a ∧ a.User = some u ∧
        (tx.exec env (.upsertUser (mapUser env u))).1 = none ∧
        (u.ID ≠ 0 → tx.store.userKey u.ID = u.ID) ∧
        (∃ x ∈ (tx.exec env (.upsertUser (mapUser env u))).2.store.users,
          x.ID = tx.store.userKey u.ID) ∧
        (txUserAndAgent env r tx).2.2
          = ((tx.exec env (.upsertUser (mapUser env u))).2.exec env
              (.upsertAgent (mapAgent env a (tx.store.userKey u.ID)))).2 ∧
        (mapAgent env a (tx.store.userKey u.ID)).UserID = tx.store.userKey u.ID) ∧
    (∀ (tx : DBState) (a : ExternalAgent) (u : ExternalUser),
      r.Agent = some a → a.User = some u →
      (tx.exec env (.upsertUser (mapUser env u))).1 ≠ none →
      (syncTx env r tx).1 ≠ none ∧
      (syncTx env r tx).2 = (tx.exec env (.upsertUser (mapUser env u))).2 ∧
      (syncTx env r tx).2.calls = tx.calls + 1 ∧
      (syncTx env r tx).2.store = tx.store ∧
      ∀ db0 : DBState, db0.exec env .txBegin = (none, tx) →
        (transaction env db0 (syncTx env r)).1 ≠ none ∧
        (transaction env db0 (syncTx env r)).2.store = db0.store) := by
  refine ⟨syncSingleProperty_agentsHaveUsers env db r hinv, ?_, ?_, ?_⟩
  · intro fuel out hrun
    obtain ⟨pages, hdb⟩ := run_db env fuel db out hrun
    rw [hdb]
    exact processAll_agentsHaveUsers env (recordsOf pages) (initialState db) hinv
  · intro tx hne
    have hkeep : ∀ u : ExternalUser,
        (tx.exec env (.upsertUser (mapUser env u))).2.store.agents = tx.store.agents := by
      intro u
      rcases exec_store_cases env tx (.upsertUser (mapUser env u)) with hs | hs
      · rw [hs]
      · simp only [Store.apply, Except.ok.injEq] at hs
        rw [← hs]
    rcases txUserAndAgent_cases env r tx with ⟨_, he⟩ | ⟨a, u, e, _, _, _, he⟩ |
      ⟨a, u, e, ha, hu, h1, h2, he⟩ | ⟨a, u, ha, hu, h1, _, he⟩
    · rw [he] at hne; exact absurd rfl hne
    · rw [he] at hne; exact absurd (hkeep u) hne
    · rw [he] at hne
      exact ⟨a, u, ha, hu, h1, writtenKey_of_ne _ _, exec_upsertUser_has env tx _ h1,
        by rw [he], rfl⟩
    · exact ⟨a, u, ha, hu, h1, writtenKey_of_ne _ _, exec_upsertUser_has env tx _ h1,
        by rw [he], rfl⟩
  · intro tx a u ha hu hfail
    rcases txUserAndAgent_cases env r tx with ⟨hno, _⟩ | ⟨a', u', e, ha', hu', _, he⟩ |
      ⟨a', u', e, ha', hu', h1, _, _⟩ | ⟨a', u', ha', hu', h1, _, _⟩
    · rcases hno with h | ⟨a', h, hn⟩
      · rw [ha] at h; cases h
      · rw [ha] at h; cases h; rw [hu] at hn; cases hn
    · rw [ha] at ha'; cases ha'; rw [hu] at hu'; cases hu'
      have hsync : syncTx env r tx
          = ((txUserAndAgent env r tx).2.1, (tx.exec env (.upsertUser (mapUser env u))).2) := by
        simp [syncTx, he]
      have hstore := exec_error_store env tx (.upsertUser (mapUser env u)) hfail
      refine ⟨by rw [hsync, he]; simp, by rw [hsync], ?_, by rw [hsync]; exact hstore, ?_⟩
      · rw [hsync]; exact exec_calls env tx _
      · intro db0 hbeg
        have herr : (transaction env db0 (syncTx env r)).1 ≠ none := by
          rcases hfc : syncTx env r tx with ⟨e2, tx1⟩
          have h2 : e2 ≠ none := by
            have := congrArg Prod.fst hsync
            rw [hfc, he] at this
            simp only at this
            rw [this]
            simp
          cases e2 with
          | none => exact absurd rfl h2
          | some e2 => simp [transaction, hbeg, hfc]
        exact ⟨herr, transaction_error_store env db0 _ herr⟩
    · rw [ha] at ha'; cases ha'; rw [hu] at hu'; cases hu'
      exact absurd h1 hfail
    · rw [ha] at ha'; cases ha'; rw [hu] at hu'; cases hu'
      exact absurd h1 hfail

/-- Witness for C11: record 20 with agent 5 and nested user 7 is synced into
the empty database; and over a database that refuses user upserts nothing of
it is stored. -/
theorem agent_after_user_witness :
    AgentsHaveUsers emptyDB.store ∧
    (syncSingleProperty overlapSource emptyDB agentRecord).2.store.agents.map
      (fun a => (a.ID, a.UserID)) = [(5, 7)] ∧
    (syncSingleProperty overlapSource emptyDB agentRecord).2.store.users.map
      (fun u => u.ID) = [7] ∧
    AgentsHaveUsers (syncSingleProperty overlapSource emptyDB agentRecord).2.store ∧
    (syncSingleProperty userDownSource emptyDB agentRecord).2.store = emptyDB.store :=
  ⟨by decide, by decide, by decide,
    (agent_after_user overlapSource emptyDB agentRecord (by decide)).1, by decide⟩

/-- When the closure returns no error, its first two blocks returned no error
and its result is that of the last block run on what they left. -/
theorem syncTx_ok_parts (env : Env) (r : ExternalProperty) (tx : DBState)
    (h : (syncTx env r tx).1 = none) :
    (txUserAndAgent env r tx).2.1 = none ∧
    (txCoverPhoto env r (txUserAndAgent env r tx).2.2).2.1 = none ∧
    syncTx env r tx
      = txPropertyAndLocation env r (txUserAndAgent env r tx).1
          (txCoverPhoto env r (txUserAndAgent env r tx).2.2).1
          (txCoverPhoto env r (txUserAndAgent env r tx).2.2).2.2 := by
  unfold syncTx at h ⊢
  rcases hx : txUserAndAgent env r tx with ⟨ma, e1, tx1⟩
  cases e1 with
  | some e => simp [hx] at h
  | none =>
    simp only [hx] at h ⊢
    rcases hy : txCoverPhoto env r tx1 with ⟨mc, e2, tx2⟩
    cases e2 with
    | some e => simp [hy] at h
    | none => simp [hy]

/-- When the last block returns no error, the insert succeeded and so did the
location upsert, if there was a location. -/
theorem txPropertyAndLocation_ok_parts (env : Env) (r : ExternalProperty) (a : Option Agent)
    (c : Option CoverPhoto) (tx : DBState)
    (h : (txPropertyAndLocation env r a c tx).1 = none) :
    (tx.exec env (.createProperty (mapExternalToDBProperty env r a c).1)).1 = none ∧
    ∀ l, r.Location = some l →
      ((tx.exec env (.createProperty (mapExternalToDBProperty env r a c).1)).2.exec env
        (.upsertLocation (mapLocation env { l with PropertyID := r.ID }))).1 = none := by
  have hm : mapExternalToDBProperty env r a c = ((mapExternalToDBProperty env r a c).1, none) :=
    rfl
  rw [txPropertyAndLocation, hm] at h
  rcases hx : tx.exec env (.createProperty (mapExternalToDBProperty env r a c).1)
    with ⟨e1, tx1⟩
  cases e1 with
  | some e => simp [hx] at h
  | none =>
    refine ⟨rfl, ?_⟩
    intro l hl
    rcases h2 : (tx1.exec env
        (.upsertLocation (mapLocation env { l with PropertyID := r.ID }))).1 with _ | e2
    · rfl
    · simp [hx, hl, upsertLocation_eq, h2] at h

theorem exec_upsertAgent_row (env : Env) (tx : DBState) (row : Agent)
    (h : (tx.exec env (.upsertAgent row)).1 = none) :
    ∃ x, (tx.exec env (.upsertAgent row)).2.store.agentRow (tx.store.agentKey row.ID) = some x ∧
      x.UserID = row.UserID := by
  have hs := exec_ok env tx _ h
  simp only [Store.apply, Except.ok.injEq] at hs
  rw [← hs]
  have hf := upsertBy_find Agent.ID Agent.onConflict
    { row with ID := tx.store.agentKey row.ID } tx.store.agents (fun _ h => h)
  refine ⟨_, hf, ?_⟩
  split <;> rfl

theorem exec_upsertLocation_row (env : Env) (tx : DBState) (row : Location)
    (h : (tx.exec env (.upsertLocation row)).1 = none) :
    ∃ x, (tx.exec env (.upsertLocation row)).2.store.locationRow row.ID = some x ∧
      x.PropertyID = row.PropertyID := by
  have hs := exec_ok env tx _ h
  simp only [Store.apply, Except.ok.injEq] at hs
  rw [← hs]
  have hf := upsertBy_find Location.ID Location.onConflict row tx.store.locations
    (fun _ h => h)
  refine ⟨_, hf, ?_⟩
  split <;> rfl

/-- An agent upsert leaves the users table as it was. -/
theorem exec_upsertAgent_users (env : Env) (tx : DBState) (row : Agent) :
    (tx.exec env (.upsertAgent row)).2.store.users = tx.store.users := by
  rcases exec_store_cases env tx (.upsertAgent row) with hs | hs
  · rw [hs]
  · simp only [Store.apply, Except.ok.injEq] at hs
    rw [← hs]

/-- The key an agent is written under is the same before and after a user
upsert. -/
theorem exec_upsertUser_agentKey (env : Env) (tx : DBState) (row : User) (id : Nat) :
    (tx.exec env (.upsertUser row)).2.store.agentKey id = tx.store.agentKey id := by
  unfold Store.agentKey
  rw [exec_upsertUser_agents]

/-- C12. The agent row `upsertAgent` builds and the result of the call do not
depend on the agent's wire `user_id` text (a number equal to the nested user's
ID, another number, or no number at all): the row carries the `userID` it is
given, and when the upsert returns no error the agent row, stored under the
key it was written under, has that `user_id`. In the closure of
`syncSingleProperty` the `userID` given is the ID of the user row as written
back by the user upsert: it is never zero, it is the key of a stored user row,
and it is the nested user's own ID whenever that ID is not zero. After the
first block succeeds the stored agent row has that key as `user_id`. -/
theorem agent_user_id (env : Env) (tx : DBState) (a : ExternalAgent) (userID : Nat) :
    (∀ text : String,
      mapAgent env { a with UserID := text } userID = mapAgent env a userID ∧
      upsertAgent env tx (some { a with UserID := text }) userID
        = upsertAgent env tx (some a) userID) ∧
    (mapAgent env a userID).UserID = userID ∧
    ((upsertAgent env tx (some a) userID).2.1 = none →
      ∃ x, (upsertAgent env tx (some a) userID).2.2.store.agentRow (tx.store.agentKey a.ID)
          = some x ∧
        x.UserID = userID) ∧
    (a.ID ≠ 0 → tx.store.agentKey a.ID = a.ID) ∧
    (∀ (r : ExternalProperty) (u : ExternalUser), r.Agent = some a → a.User = some u →
      (txUserAndAgent env r tx).2.1 = none →
      (u.ID ≠ 0 → tx.store.userKey u.ID = u.ID) ∧
      tx.store.userKey u.ID ≠ 0 ∧
      (∃ y ∈ (txUserAndAgent env r tx).2.2.store.users, y.ID = tx.store.userKey u.ID) ∧
      ∃ x, (txUserAndAgent env r tx).2.2.store.agentRow (tx.store.agentKey a.ID) = some x ∧
        x.UserID = tx.store.userKey u.ID) := by
  refine ⟨fun text => ⟨rfl, rfl⟩, rfl, ?_, writtenKey_of_ne _ _, ?_⟩
  · intro h
    rw [upsertAgent_eq] at h ⊢
    simp only [Option.map_eq_none'] at h
    exact exec_upsertAgent_row env tx (mapAgent env a userID) h
  · intro r u ha hu hok
    rcases txUserAndAgent_cases env r tx with ⟨hno, _⟩ | ⟨_, _, _, _, _, _, he⟩ |
      ⟨_, _, _, _, _, _, _, he⟩ | ⟨a', u', ha', hu', h1, h2, he⟩
    · rcases hno with h | ⟨a', h, hn⟩
      · rw [ha] at h; cases h
      · rw [ha] at h; cases h; rw [hu] at hn; cases hn
    · rw [he] at hok; simp at hok
    · rw [he] at hok; simp at hok
    · rw [ha] at ha'; cases ha'; rw [hu] at hu'; cases hu'
      refine ⟨writtenKey_of_ne _ _, writtenKey_ne_zero _ _, ?_, ?_⟩
      · rw [he]
        simp only
        rw [exec_upsertAgent_users]
        exact exec_upsertUser_has env tx (mapUser env u) h1
      · rw [he]
        have := exec_upsertAgent_row env _ (mapAgent env a (tx.store.userKey u.ID)) h2
        rw [exec_upsertUser_agentKey] at this
        exact this

/-- Witness for C12: agent 5 with wire `user_id` text "seven" and nested
user 7. -/
theorem agent_user_id_witness :
    agentRecord.Agent = some (bareAgent 5 "seven" (some (bareUser 7 "a@example.com" ""))) ∧
    (txUserAndAgent overlapSource agentRecord emptyDB).2.1 = none ∧
    ((bareUser 7 "a@example.com" "").ID ≠ 0 →
      emptyDB.store.userKey (bareUser 7 "a@example.com" "").ID
        = (bareUser 7 "a@example.com" "").ID) ∧
    emptyDB.store.userKey (bareUser 7 "a@example.com" "").ID ≠ 0 ∧
    (∃ y ∈ (txUserAndAgent overlapSource agentRecord emptyDB).2.2.store.users,
      y.ID = emptyDB.store.userKey (bareUser 7 "a@example.com" "").ID) ∧
    ∃ x, (txUserAndAgent overlapSource agentRecord emptyDB).2.2.store.agentRow
        (emptyDB.store.agentKey (bareAgent 5 "seven" (some (bareUser 7 "a@example.com" ""))).ID)
        = some x ∧
      x.UserID = emptyDB.store.userKey (bareUser 7 "a@example.com" "").ID :=
  ⟨rfl, by decide,
    (agent_user_id overlapSource emptyDB
      (bareAgent 5 "seven" (some (bareUser 7 "a@example.com" ""))) 7).2.2.2.2
      agentRecord (bareUser 7 "a@example.com" "") rfl rfl (by decide)⟩

/-- C12, the claim at a nested user that carries the ID 0. Record 22 has
agent 5 whose nested user and whose wire `user_id` text both carry 0. Into the
empty database the user is written under the key the database assigns, 1, and
the stored agent row has `user_id` 1, which is not the nested user's own
ID 0. -/
theorem agent_user_id_counterexample :
    zeroUserRecord.Agent = some (bareAgent 5 "0" (some (bareUser 0 "a@example.com" ""))) ∧
    (bareUser 0 "a@example.com" "").ID = 0 ∧
    (txUserAndAgent overlapSource zeroUserRecord emptyDB).2.1 = none ∧
    (txUserAndAgent overlapSource zeroUserRecord emptyDB).2.2.store.users.map
      (fun u => u.ID) = [1] ∧
    (txUserAndAgent overlapSource zeroUserRecord emptyDB).2.2.store.agents.map
      (fun a => (a.ID, a.UserID)) = [(5, 1)] ∧
    ¬ ∃ x, (txUserAndAgent overlapSource zeroUserRecord emptyDB).2.2.store.agentRow 5 = some x ∧
      x.UserID = (bareUser 0 "a@example.com" "").ID := by
  refine ⟨rfl, rfl, by decide, by decide, by decide, ?_⟩
  rintro ⟨x, hx, hu⟩
  have h5 : ((txUserAndAgent overlapSource zeroUserRecord emptyDB).2.2.store.agentRow 5).map
      (fun a => a.UserID) = some 1 := by decide
  rw [hx] at h5
  simp only [Option.map_some', Option.some.injEq] at h5
  rw [hu] at h5
  exact absurd h5 (by decide)

/-- C13. When a record that carries a location is synced successfully, the
stored location row with the location's ID has `property_id` equal to the
record's own ID, whatever `property_id` the wire location carried. -/
theorem location_property_id (env : Env) (db : DBState) (r : ExternalProperty)
    (l : ExternalLocation) (hl : r.Location = some l)
    (hok : (syncSingleProperty env db r).1 = none) :
    ∃ x, (syncSingleProperty env db r).2.store.locationRow l.ID = some x ∧
      x.PropertyID = r.ID := by
  rcases syncSingleProperty_store_cases env db r with hs | ⟨_, htx, hs⟩
  · exfalso
    have := (syncSingleProperty_ok env db r hok).2
    obtain ⟨q, _, hq⟩ := this
    rw [hs] at hq
    have := congrArg List.length hq
    simp at this
  · obtain ⟨_, _, hparts⟩ := syncTx_ok_parts env r _ htx
    rw [hs, hparts]
    rw [hparts] at htx
    obtain ⟨hc, hloc⟩ := txPropertyAndLocation_ok_parts env r _ _ _ htx
    rw [txPropertyAndLocation_state, if_pos hc]
    simp only [hl]
    exact exec_upsertLocation_row env _ (mapLocation env { l with PropertyID := r.ID })
      (hloc l hl)

/-- Witness for C13: record 20 carries location 9 with wire `property_id` 999. -/
theorem location_property_id_witness :
    agentRecord.Location = some (bareLocation 9 999) ∧
    (syncSingleProperty overlapSource emptyDB agentRecord).1 = none ∧
    ∃ x, (syncSingleProperty overlapSource emptyDB agentRecord).2.store.locationRow 9 = some x ∧
      x.PropertyID = 20 :=
  ⟨rfl, by decide,
    location_property_id overlapSource emptyDB agentRecord (bareLocation 9 999) rfl (by decide)⟩

/-! ## Verified properties of the mapper -/

theorem parseAPITime_unparseable (env : Env) (s : String) (hs : s ≠ "")
    (h : ∀ layout ∈ layouts, env.timeParse layout s = none) :
    parseAPITime env (some s) = .error (.other ("failed to parse time string: " ++ s)) := by
  have h1 := h "2006-01-02T15:04:05.999999999Z07:00" (by simp [layouts])
  have h2 := h "2006-01-02 15:04:05" (by simp [layouts])
  simp [parseAPITime, hs, layouts, List.findSome?, h1, h2]

/-- C14. `mapExternalToDBProperty` returns a nil error for every input. When
`created_at` (or `updated_at`) is a non-empty string that no accepted layout
parses, the field is set to the reading of the clock; when `approved_at` is
such a string, `ApprovedAt` is nil. -/
theorem unparseable_timestamps (env : Env) (r : ExternalProperty) (agent : Option Agent)
    (cover : Option CoverPhoto) :
    (mapExternalToDBProperty env r agent cover).2 = none ∧
    (r.CreatedAt ≠ "" → (∀ layout ∈ layouts, env.timeParse layout r.CreatedAt = none) →
      (mapExternalToDBProperty env r agent cover).1.CreatedAt = env.now) ∧
    (r.UpdatedAt ≠ "" → (∀ layout ∈ layouts, env.timeParse layout r.UpdatedAt = none) →
      (mapExternalToDBProperty env r agent cover).1.UpdatedAt = env.now) ∧
    (∀ s, r.ApprovedAt = some s → s ≠ "" →
      (∀ layout ∈ layouts, env.timeParse layout s = none) →
      (mapExternalToDBProperty env r agent cover).1.ApprovedAt = none) := by
  refine ⟨rfl, ?_, ?_, ?_⟩
  · intro hne h
    simp [mapExternalToDBProperty, parseAPITime_unparseable env _ hne h]
  · intro hne h
    simp [mapExternalToDBProperty, parseAPITime_unparseable env _ hne h]
  · intro s hs hne h
    simp [mapExternalToDBProperty, hs, parseAPITime_unparseable env _ hne h]

/-- Witness for C14: the three timestamps are the text "not-a-date". -/
theorem unparseable_timestamps_witness :
    (∀ layout ∈ layouts, clockedSource.timeParse layout "not-a-date" = none) ∧
    (mapExternalToDBProperty clockedSource
      (timedRecord "not-a-date" "not-a-date" (some "not-a-date")) none none).2 = none ∧
    (mapExternalToDBProperty clockedSource
      (timedRecord "not-a-date" "not-a-date" (some "not-a-date")) none none).1.CreatedAt
        = instantUTC 2026 1 1 0 0 0 0 ∧
    (mapExternalToDBProperty clockedSource
      (timedRecord "not-a-date" "not-a-date" (some "not-a-date")) none none).1.ApprovedAt
        = none :=
  ⟨by decide,
    (unparseable_timestamps clockedSource
      (timedRecord "not-a-date" "not-a-date" (some "not-a-date")) none none).1,
    (unparseable_timestamps clockedSource
      (timedRecord "not-a-date" "not-a-date" (some "not-a-date")) none none).2.1
        (by decide) (by decide),
    (unparseable_timestamps clockedSource
      (timedRecord "not-a-date" "not-a-date" (some "not-a-date")) none none).2.2.2
        "not-a-date" rfl (by decide) (by decide)⟩

/-- C15 (amended). When `created_at` (or `updated_at`) is the empty string,
`mapExternalToDBProperty` leaves the field at the zero time: it does not set
the reading of the clock, as it does for an unparseable value. An absent
`approved_at` (nil or the empty string) gives a nil `ApprovedAt`. No error is
returned. -/
theorem absent_timestamps (env : Env) (r : ExternalProperty) (agent : Option Agent)
    (cover : Option CoverPhoto) :
    (mapExternalToDBProperty env r agent cover).2 = none ∧
    (r.CreatedAt = "" → (mapExternalToDBProperty env r agent cover).1.CreatedAt = 0) ∧
    (r.UpdatedAt = "" → (mapExternalToDBProperty env r agent cover).1.UpdatedAt = 0) ∧
    (r.ApprovedAt = none ∨ r.ApprovedAt = some "" →
      (mapExternalToDBProperty env r agent cover).1.ApprovedAt = none) := by
  refine ⟨rfl, ?_, ?_, ?_⟩
  · intro h
    simp [mapExternalToDBProperty, parseAPITime, h]
  · intro h
    simp [mapExternalToDBProperty, parseAPITime, h]
  · rintro (h | h) <;> simp [mapExternalToDBProperty, parseAPITime, h]

/-- Witness for C15: the three timestamps are absent. -/
theorem absent_timestamps_witness :
    (timedRecord "" "" none).CreatedAt = "" ∧
    (mapExternalToDBProperty clockedSource (timedRecord "" "" none) none none).1.CreatedAt = 0 ∧
    (mapExternalToDBProperty clockedSource (timedRecord "" "" none) none none).1.UpdatedAt = 0 ∧
    (mapExternalToDBProperty clockedSource (timedRecord "" "" none) none none).1.ApprovedAt
      = none :=
  ⟨rfl,
    (absent_timestamps clockedSource (timedRecord "" "" none) none none).2.1 rfl,
    (absent_timestamps clockedSource (timedRecord "" "" none) none none).2.2.1 rfl,
    (absent_timestamps clockedSource (timedRecord "" "" none) none none).2.2.2 (Or.inl rfl)⟩

/-- Counterexample to C15 as stated: with the clock at 1 January 2026 and an
empty `created_at` and `updated_at`, the mapped fields are the zero time and
not the reading of the clock, while the unparseable text "not-a-date" gives
the reading of the clock. -/
theorem absent_timestamps_counterexample :
    clockedSource.now = instantUTC 2026 1 1 0 0 0 0 ∧
    (mapExternalToDBProperty clockedSource (timedRecord "" "" none) none none).1.CreatedAt = 0 ∧
    (mapExternalToDBProperty clockedSource (timedRecord "" "" none) none none).1.CreatedAt
      ≠ clockedSource.now ∧
    (mapExternalToDBProperty clockedSource (timedRecord "" "" none) none none).1.UpdatedAt
      ≠ clockedSource.now ∧
    (mapExternalToDBProperty clockedSource (timedRecord "not-a-date" "not-a-date" none)
      none none).1.CreatedAt = clockedSource.now := by
  decide

/-- C16. `parseAPITime` gives no time and no error for a nil or empty input.
For a non-empty input it returns the parse under `time.RFC3339Nano` when that
layout parses it, else the parse under `2006-01-02 15:04:05` when that one
does, else an error and no time. With the reference parser,
"2025-04-01 12:31:28" is not parsed under the first layout and is parsed under
the second to 1 April 2025, 12:31:28 UTC. -/
theorem parseAPITime_order (env : Env) :
    layouts = ["2006-01-02T15:04:05.999999999Z07:00", "2006-01-02 15:04:05"] ∧
    parseAPITime env none = .ok none ∧
    parseAPITime env (some "") = .ok none ∧
    (∀ s t, s ≠ "" → env.timeParse "2006-01-02T15:04:05.999999999Z07:00" s = some t →
      parseAPITime env (some s) = .ok (some t)) ∧
    (∀ s t, s ≠ "" → env.timeParse "2006-01-02T15:04:05.999999999Z07:00" s = none →
      env.timeParse "2006-01-02 15:04:05" s = some t →
      parseAPITime env (some s) = .ok (some t)) ∧
    (∀ s, s ≠ "" → env.timeParse "2006-01-02T15:04:05.999999999Z07:00" s = none →
      env.timeParse "2006-01-02 15:04:05" s = none →
      parseAPITime env (some s) = .error (.other ("failed to parse time string: " ++ s))) ∧
    (referenceParse "2006-01-02T15:04:05.999999999Z07:00" "2025-04-01 12:31:28" = none ∧
      referenceParse "2006-01-02 15:04:05" "2025-04-01 12:31:28"
        = some (instantUTC 2025 4 1 12 31 28 0) ∧
      parseAPITime clockedSource (some "2025-04-01 12:31:28")
        = .ok (some (instantUTC 2025 4 1 12 31 28 0)) ∧
      parseAPITime clockedSource (some "2025-04-01T11:44:25.000000Z")
        = .ok (some (instantUTC 2025 4 1 11 44 25 0))) := by
  refine ⟨rfl, rfl, rfl, ?_, ?_, ?_, by decide, by decide, rfl, rfl⟩
  · intro s t hs h1
    simp [parseAPITime, hs, layouts, List.findSome?, h1]
  · intro s t hs h1 h2
    simp [parseAPITime, hs, layouts, List.findSome?, h1, h2]
  · intro s hs h1 h2
    simp [parseAPITime, hs, layouts, List.findSome?, h1, h2]

/-- Witness for C16: the text "2025-04-01 12:31:28" with the reference parser. -/
theorem parseAPITime_order_witness :
    clockedSource.timeParse "2006-01-02T15:04:05.999999999Z07:00" "2025-04-01 12:31:28"
      = none ∧
    clockedSource.timeParse "2006-01-02 15:04:05" "2025-04-01 12:31:28"
      = some (instantUTC 2025 4 1 12 31 28 0) ∧
    parseAPITime clockedSource (some "2025-04-01 12:31:28")
      = .ok (some (instantUTC 2025 4 1 12 31 28 0)) :=
  ⟨by decide, by decide,
    (parseAPITime_order clockedSource).2.2.2.2.1 "2025-04-01 12:31:28"
      (instantUTC 2025 4 1 12 31 28 0) (by decide) (by decide) (by decide)⟩

/-! ## Verified properties of the upserts -/

theorem exec_apply (env : Env) (db : DBState) (op : DBOp) (s' : Store)
    (hf : env.faults db.calls op = none) (ha : db.store.apply op = .ok s') :
    db.exec env op = (none, { store := s', calls := db.calls + 1 }) := by
  simp [DBState.exec, hf, ha]

/-- A user row that carries a key is upserted under that key. -/
theorem apply_upsertUser (s : Store) (row : User) (h : row.ID ≠ 0) :
    s.apply (.upsertUser row)
      = .ok { s with users := upsertBy User.ID User.onConflict row s.users } := by
  have hk : s.userKey row.ID = row.ID := writtenKey_of_ne _ _ h
  simp only [Store.apply, hk]

/-- An agent row that carries a key is upserted under that key. -/
theorem apply_upsertAgent (s : Store) (row : Agent) (h : row.ID ≠ 0) :
    s.apply (.upsertAgent row)
      = .ok { s with agents := upsertBy Agent.ID Agent.onConflict row s.agents } := by
  have hk : s.agentKey row.ID = row.ID := writtenKey_of_ne _ _ h
  simp only [Store.apply, hk]

/-- The tables `upsertUser` leaves when it returns no error. -/
theorem upsertUser_store (env : Env) (db : DBState) (u : ExternalUser) (h0 : u.ID ≠ 0)
    (hok : (upsertUser env db (some u)).2.1 = none) :
    (upsertUser env db (some u)).2.2.store
      = { db.store with
          users := upsertBy User.ID User.onConflict (mapUser env u) db.store.users } := by
  rw [upsertUser_eq] at hok ⊢
  simp only [Option.map_eq_none'] at hok
  have hs := exec_ok env db _ hok
  rw [apply_upsertUser db.store (mapUser env u) h0] at hs
  simp only [Except.ok.injEq] at hs
  exact hs.symm

/-- The tables `upsertAgent` leaves when it returns no error. -/
theorem upsertAgent_store (env : Env) (db : DBState) (a : ExternalAgent) (userID : Nat)
    (h0 : a.ID ≠ 0) (hok : (upsertAgent env db (some a) userID).2.1 = none) :
    (upsertAgent env db (some a) userID).2.2.store
      = { db.store with
          agents := upsertBy Agent.ID Agent.onConflict (mapAgent env a userID)
            db.store.agents } := by
  rw [upsertAgent_eq] at hok ⊢
  simp only [Option.map_eq_none'] at hok
  have hs := exec_ok env db _ hok
  rw [apply_upsertAgent db.store (mapAgent env a userID) h0] at hs
  simp only [Except.ok.injEq] at hs
  exact hs.symm

/-- The tables `upsertUser` leaves when it returns no error, for a row with
any ID. -/
theorem upsertUser_store_keyed (env : Env) (db : DBState) (u : ExternalUser)
    (hok : (upsertUser env db (some u)).2.1 = none) :
    (upsertUser env db (some u)).2.2.store
      = { db.store with
          users := upsertBy User.ID User.onConflict
            { mapUser env u with ID := db.store.userKey u.ID } db.store.users } := by
  rw [upsertUser_eq] at hok ⊢
  simp only [Option.map_eq_none'] at hok
  have hs := exec_ok env db _ hok
  simp only [Store.apply, Except.ok.injEq] at hs
  exact hs.symm

/-- The tables `upsertAgent` leaves when it returns no error, for a row with
any ID. -/
theorem upsertAgent_store_keyed (env : Env) (db : DBState) (a : ExternalAgent) (userID : Nat)
    (hok : (upsertAgent env db (some a) userID).2.1 = none) :
    (upsertAgent env db (some a) userID).2.2.store
      = { db.store with
          agents := upsertBy Agent.ID Agent.onConflict
            { mapAgent env a userID with ID := db.store.agentKey a.ID } db.store.agents } := by
  rw [upsertAgent_eq] at hok ⊢
  simp only [Option.map_eq_none'] at hok
  have hs := exec_ok env db _ hok
  simp only [Store.apply, Except.ok.injEq] at hs
  exact hs.symm

/-- The tables `upsertLocation` leaves when it returns no error. -/
theorem upsertLocation_store (env : Env) (db : DBState) (l : ExternalLocation)
    (hok : (upsertLocation env db (some l)).2.1 = none) :
    (upsertLocation env db (some l)).2.2.store
      = { db.store with
          locations := upsertBy Location.ID Location.onConflict (mapLocation env l)
            db.store.locations } := by
  rw [upsertLocation_eq] at hok ⊢
  simp only [Option.map_eq_none'] at hok
  have hs := exec_ok env db _ hok
  simp only [Store.apply, Except.ok.injEq] at hs
  exact hs.symm

/-- The tables `upsertCoverPhoto` leaves when it returns no error. -/
theorem upsertCoverPhoto_store (env : Env) (db : DBState) (c : ExternalCoverPhoto)
    (hok : (upsertCoverPhoto env db (some c)).2.1 = none) :
    (upsertCoverPhoto env db (some c)).2.2.store
      = { db.store with
          coverPhotos := upsertBy CoverPhoto.ID CoverPhoto.onConflict
            { ID := c.ID, Url := c.Url, Description := c.Description, PropertyID := 0 }
            db.store.coverPhotos } := by
  rw [upsertCoverPhoto_eq] at hok ⊢
  simp only [Option.map_eq_none'] at hok
  have hs := exec_ok env db _ hok
  simp only [Store.apply, Except.ok.injEq] at hs
  exact hs.symm

/-- An upsert that the environment does not fail returns no error. -/
theorem exec_unfailed_upsert (env : Env) (db : DBState) (op : DBOp)
    (hf : env.faults db.calls op = none)
    (hop : (∀ id, op ≠ .firstProperty id) ∧ ∀ row, op ≠ .createProperty row) :
    (db.exec env op).1 = none := by
  unfold DBState.exec
  rw [hf]
  cases op with
  | firstProperty id => exact absurd rfl (hop.1 id)
  | createProperty row => exact absurd rfl (hop.2 row)
  | txBegin => rfl
  | txCommit => rfl
  | upsertUser row => rfl
  | upsertAgent row => rfl
  | upsertCoverPhoto row => rfl
  | upsertLocation row => rfl

/-- C17. For each of user, agent, location and cover photo, take the upsert
function of the engine and let it return no error. When the row carries a
non-zero ID that is stored, the stored row is replaced by one that takes the
listed columns from the new row and every other column (the ID, `created_at`,
and for a user `deleted_at`, for a cover photo `property_id`) from the stored
row, and all other rows and tables are left as they were. When no row is
stored under the key the row is written under, the new row is appended, a
user and an agent under that key (their own ID, or the key the database
assigns when they carry the ID 0), a location and a cover photo with a
non-zero ID under that ID. Rows are compared on every column other than the
timestamps the statement writes (below: with those set to zero), and the value
of a written `created_at` or `updated_at` is said to be the mapped one only
when that is not the zero time, which the ORM would replace by the time of the
statement. An upsert that the database
does not refuse returns no error; the database refuses the insert of a cover
photo whose `property_id` names no property. Upserting the same user twice
through `upsertUser`, the second time with another email, leaves one row with
the second email and the first `created_at`. -/
theorem column_allow_lists (env : Env) (db : DBState) :
    (∀ (u : ExternalUser) (stored : User) (pre post : List User),
      db.store.users = pre ++ stored :: post → (∀ x ∈ pre, x.ID ≠ u.ID) →
      stored.ID = u.ID → u.ID ≠ 0 → (upsertUser env db (some u)).2.1 = none →
      ∃ x : User,
        (upsertUser env db (some u)).2.2.store
          = { db.store with users := pre ++ x :: post } ∧
        { x with UpdatedAt := 0 }
          = ({ ID := stored.ID, Name := u.Name, Email := u.Email, Status := u.Status,
                EmailVerifiedAt := (mapUser env u).EmailVerifiedAt, Phone := u.Phone,
                PasswordLastUpdatedAt := (mapUser env u).PasswordLastUpdatedAt,
                FinancialInstitutionID := u.FinancialInstitutionID,
                DeletedAt := stored.DeletedAt, CreatedAt := stored.CreatedAt,
                UpdatedAt := 0, Role := u.Role,
                SignatureStorageURL := u.SignatureStorageURL,
                ProfileImageStorageURL := u.ProfileImageStorageURL } : User) ∧
        ((mapUser env u).UpdatedAt ≠ 0 → x.UpdatedAt = (mapUser env u).UpdatedAt)) ∧
    (∀ u : ExternalUser, (∀ x ∈ db.store.users, x.ID ≠ db.store.userKey u.ID) →
      (upsertUser env db (some u)).2.1 = none →
      ∃ x : User,
        (upsertUser env db (some u)).2.2.store
          = { db.store with users := db.store.users ++ [x] } ∧
        { x with CreatedAt := 0, UpdatedAt := 0 }
          = { mapUser env u with
                ID := db.store.userKey u.ID, CreatedAt := 0, UpdatedAt := 0 } ∧
        (u.ID ≠ 0 → x.ID = u.ID) ∧ x.ID ≠ 0 ∧
        ((mapUser env u).CreatedAt ≠ 0 → x.CreatedAt = (mapUser env u).CreatedAt) ∧
        ((mapUser env u).UpdatedAt ≠ 0 → x.UpdatedAt = (mapUser env u).UpdatedAt)) ∧
    (∀ (a : ExternalAgent) (userID : Nat) (stored : Agent) (pre post : List Agent),
      db.store.agents = pre ++ stored :: post → (∀ x ∈ pre, x.ID ≠ a.ID) →
      stored.ID = a.ID → a.ID ≠ 0 → (upsertAgent env db (some a) userID).2.1 = none →
      ∃ x : Agent,
        (upsertAgent env db (some a) userID).2.2.store
          = { db.store with agents := pre ++ x :: post } ∧
        { x with UpdatedAt := 0 }
          = ({ ID := stored.ID, UserID := userID, Phone1 := a.Phone1, Phone2 := a.Phone2,
                Headline1 := a.Headline1, Headline2 := a.Headline2, About := a.About,
                IsAgreementSigned := a.IsAgreementSigned, AgentType := a.AgentType,
                BankName := a.BankName, AccountName := a.AccountName,
                AccountNumber := a.AccountNumber, AccountType := a.AccountType,
                AccountBranch := a.AccountBranch, Linkedin := a.Linkedin,
                Address := a.Address, CreatedAt := stored.CreatedAt,
                UpdatedAt := 0, CoverageArea := a.CoverageArea } : Agent) ∧
        ((mapAgent env a userID).UpdatedAt ≠ 0 →
          x.UpdatedAt = (mapAgent env a userID).UpdatedAt)) ∧
    (∀ (a : ExternalAgent) (userID : Nat),
      (∀ x ∈ db.store.agents, x.ID ≠ db.store.agentKey a.ID) →
      (upsertAgent env db (some a) userID).2.1 = none →
      ∃ x : Agent,
        (upsertAgent env db (some a) userID).2.2.store
          = { db.store with agents := db.store.agents ++ [x] } ∧
        { x with CreatedAt := 0, UpdatedAt := 0 }
          = { mapAgent env a userID with
                ID := db.store.agentKey a.ID, CreatedAt := 0, UpdatedAt := 0 } ∧
        (a.ID ≠ 0 → x.ID = a.ID) ∧ x.ID ≠ 0 ∧
        ((mapAgent env a userID).CreatedAt ≠ 0 →
          x.CreatedAt = (mapAgent env a userID).CreatedAt) ∧
        ((mapAgent env a userID).UpdatedAt ≠ 0 →
          x.UpdatedAt = (mapAgent env a userID).UpdatedAt)) ∧
    (∀ (l : ExternalLocation) (stored : Location) (pre post : List Location),
      db.store.locations = pre ++ stored :: post → (∀ x ∈ pre, x.ID ≠ l.ID) →
      stored.ID = l.ID → l.ID ≠ 0 → (upsertLocation env db (some l)).2.1 = none →
      ∃ x : Location,
        (upsertLocation env db (some l)).2.2.store
          = { db.store with locations := pre ++ x :: post } ∧
        { x with UpdatedAt := 0 }
          = ({ ID := stored.ID, PropertyID := l.PropertyID, Region := l.Region,
                District := l.District, Area := l.Area, Postcode := l.Postcode,
                SubArea := l.SubArea, GoogleMapLink := l.GoogleMapLink,
                Latitude := l.Latitude, Longitude := l.Longitude,
                ZoneCategory := l.ZoneCategory, Zoning := l.Zoning,
                CreatedAt := stored.CreatedAt, UpdatedAt := 0 } : Location) ∧
        ((mapLocation env l).UpdatedAt ≠ 0 → x.UpdatedAt = (mapLocation env l).UpdatedAt)) ∧
    (∀ l : ExternalLocation, (∀ x ∈ db.store.locations, x.ID ≠ l.ID) → l.ID ≠ 0 →
      (upsertLocation env db (some l)).2.1 = none →
      ∃ x : Location,
        (upsertLocation env db (some l)).2.2.store
          = { db.store with locations := db.store.locations ++ [x] } ∧
        { x with CreatedAt := 0, UpdatedAt := 0 }
          = { mapLocation env l with CreatedAt := 0, UpdatedAt := 0 } ∧
        ((mapLocation env l).CreatedAt ≠ 0 → x.CreatedAt = (mapLocation env l).CreatedAt) ∧
        ((mapLocation env l).UpdatedAt ≠ 0 → x.UpdatedAt = (mapLocation env l).UpdatedAt)) ∧
    (∀ (c : ExternalCoverPhoto) (stored : CoverPhoto) (pre post : List CoverPhoto),
      db.store.coverPhotos = pre ++ stored :: post → (∀ x ∈ pre, x.ID ≠ c.ID) →
      stored.ID = c.ID → c.ID ≠ 0 → (upsertCoverPhoto env db (some c)).2.1 = none →
      (upsertCoverPhoto env db (some c)).2.2.store
        = { db.store with coverPhotos := pre ++
            ({ ID := stored.ID, Url := c.Url, Description := c.Description,
                PropertyID := stored.PropertyID } : CoverPhoto) :: post }) ∧
    (∀ c : ExternalCoverPhoto, (∀ x ∈ db.store.coverPhotos, x.ID ≠ c.ID) → c.ID ≠ 0 →
      (upsertCoverPhoto env db (some c)).2.1 = none →
      (upsertCoverPhoto env db (some c)).2.2.store
        = { db.store with coverPhotos := db.store.coverPhotos ++
            [{ ID := c.ID, Url := c.Url, Description := c.Description, PropertyID := 0 }] }) ∧
    ((∀ u : ExternalUser, env.faults db.calls (.upsertUser (mapUser env u)) = none →
        (upsertUser env db (some u)).2.1 = none) ∧
      (∀ (a : ExternalAgent) (userID : Nat),
        env.faults db.calls (.upsertAgent (mapAgent env a userID)) = none →
        (upsertAgent env db (some a) userID).2.1 = none) ∧
      (∀ l : ExternalLocation, env.faults db.calls (.upsertLocation (mapLocation env l)) = none →
        (upsertLocation env db (some l)).2.1 = none) ∧
      (∀ c : ExternalCoverPhoto,
        env.faults db.calls (.upsertCoverPhoto
          { ID := c.ID, Url := c.Url, Description := c.Description, PropertyID := 0 }) = none →
        (upsertCoverPhoto env db (some c)).2.1 = none)) ∧
    (∀ u1 u2 : ExternalUser, u2.ID = u1.ID → u1.ID ≠ 0 →
      (∀ x ∈ db.store.users, x.ID ≠ u1.ID) →
      (upsertUser env db (some u1)).2.1 = none →
      (upsertUser env (upsertUser env db (some u1)).2.2 (some u2)).2.1 = none →
      ∃ x0 x : User,
        (upsertUser env db (some u1)).2.2.store.users = db.store.users ++ [x0] ∧
        (upsertUser env (upsertUser env db (some u1)).2.2 (some u2)).2.2.store.users
          = db.store.users ++ [x] ∧
        x0.ID = u1.ID ∧ x0.Email = u1.Email ∧
        x.ID = u1.ID ∧ x.Email = u2.Email ∧ x.CreatedAt = x0.CreatedAt ∧
        ((mapUser env u1).CreatedAt ≠ 0 → x.CreatedAt = (mapUser env u1).CreatedAt)) := by
  refine ⟨?_, ?_, ?_, ?_, ?_, ?_, ?_, ?_, ⟨?_, ?_, ?_, ?_⟩, ?_⟩
  · intro u stored pre post hs hpre hk h0 hok
    refine ⟨User.onConflict stored (mapUser env u), ?_, rfl, fun _ => rfl⟩
    rw [upsertUser_store env db u h0 hok, hs,
      upsertBy_hit User.ID User.onConflict (mapUser env u) stored pre post hpre hk]
  · intro u hall hok
    refine ⟨{ mapUser env u with ID := db.store.userKey u.ID }, ?_, rfl,
      writtenKey_of_ne _ _, writtenKey_ne_zero _ _, fun _ => rfl, fun _ => rfl⟩
    rw [upsertUser_store_keyed env db u hok,
      upsertBy_miss User.ID User.onConflict
        { mapUser env u with ID := db.store.userKey u.ID } _ hall]
  · intro a userID stored pre post hs hpre hk h0 hok
    refine ⟨Agent.onConflict stored (mapAgent env a userID), ?_, rfl, fun _ => rfl⟩
    rw [upsertAgent_store env db a userID h0 hok, hs,
      upsertBy_hit Agent.ID Agent.onConflict (mapAgent env a userID) stored pre post hpre hk]
  · intro a userID hall hok
    refine ⟨{ mapAgent env a userID with ID := db.store.agentKey a.ID }, ?_, rfl,
      writtenKey_of_ne _ _, writtenKey_ne_zero _ _, fun _ => rfl, fun _ => rfl⟩
    rw [upsertAgent_store_keyed env db a userID hok,
      upsertBy_miss Agent.ID Agent.onConflict
        { mapAgent env a userID with ID := db.store.agentKey a.ID } _ hall]
  · intro l stored pre post hs hpre hk _ hok
    refine ⟨Location.onConflict stored (mapLocation env l), ?_, rfl, fun _ => rfl⟩
    rw [upsertLocation_store env db l hok, hs,
      upsertBy_hit Location.ID Location.onConflict (mapLocation env l) stored pre post hpre hk]
  · intro l hall _ hok
    refine ⟨mapLocation env l, ?_, rfl, fun _ => rfl, fun _ => rfl⟩
    rw [upsertLocation_store env db l hok,
      upsertBy_miss Location.ID Location.onConflict (mapLocation env l) _ hall]
  · intro c stored pre post hs hpre hk _ hok
    rw [upsertCoverPhoto_store env db c hok, hs,
      upsertBy_hit CoverPhoto.ID CoverPhoto.onConflict
        { ID := c.ID, Url := c.Url, Description := c.Description, PropertyID := 0 }
        stored pre post hpre hk]
    rfl
  · intro c hall _ hok
    rw [upsertCoverPhoto_store env db c hok,
      upsertBy_miss CoverPhoto.ID CoverPhoto.onConflict
        { ID := c.ID, Url := c.Url, Description := c.Description, PropertyID := 0 } _ hall]
  · intro u hf
    rw [upsertUser_eq]
    simp only [Option.map_eq_none']
    exact exec_unfailed_upsert env db _ hf ⟨(by intro _ h; cases h), (by intro _ h; cases h)⟩
  · intro a userID hf
    rw [upsertAgent_eq]
    simp only [Option.map_eq_none']
    exact exec_unfailed_upsert env db _ hf ⟨(by intro _ h; cases h), (by intro _ h; cases h)⟩
  · intro l hf
    rw [upsertLocation_eq]
    simp only [Option.map_eq_none']
    exact exec_unfailed_upsert env db _ hf ⟨(by intro _ h; cases h), (by intro _ h; cases h)⟩
  · intro c hf
    rw [upsertCoverPhoto_eq]
    simp only [Option.map_eq_none']
    exact exec_unfailed_upsert env db _ hf ⟨(by intro _ h; cases h), (by intro _ h; cases h)⟩
  · intro u1 u2 hid h0 hall h1 h2
    have h02 : u2.ID ≠ 0 := by rw [hid]; exact h0
    have hs1 := upsertUser_store env db u1 h0 h1
    rw [upsertBy_miss User.ID User.onConflict (mapUser env u1) _ hall] at hs1
    have hs2 := upsertUser_store env _ u2 h02 h2
    rw [hs1] at hs2
    simp only at hs2
    rw [upsertBy_hit User.ID User.onConflict (mapUser env u2) (mapUser env u1)
      db.store.users [] (fun x hx => by
        have := hall x hx
        show x.ID ≠ u2.ID
        rw [hid]; exact this) (by show u1.ID = u2.ID; exact hid.symm)] at hs2
    refine ⟨mapUser env u1, User.onConflict (mapUser env u1) (mapUser env u2), ?_, ?_,
      rfl, rfl, rfl, rfl, rfl, fun _ => rfl⟩
    · rw [hs1]
    · rw [hs2]

/-- Witness for C17: user 7 is upserted twice into the empty database, the
second time with another email and another `created_at`; a user that carries
the ID 0 is inserted into the empty database; over the stocked database, the
second versions of agent 5 (now of user 8), of location 9 and of cover photo 3
are upserted over their stored first versions, and location 10 is inserted. -/
theorem column_allow_lists_witness :
    ((upsertUser clockedSource emptyDB (some userVersions.1)).2.1 = none ∧
      (upsertUser clockedSource (upsertUser clockedSource emptyDB (some userVersions.1)).2.2
        (some userVersions.2)).2.1 = none ∧
      (upsertUser clockedSource (upsertUser clockedSource emptyDB (some userVersions.1)).2.2
        (some userVersions.2)).2.2.store.users.map (fun u => (u.ID, u.Email, u.CreatedAt))
        = [(7, "second@example.com", instantUTC 2025 4 1 11 44 25 0)] ∧
      ∃ x0 x : User,
        (upsertUser clockedSource emptyDB (some userVersions.1)).2.2.store.users
          = emptyDB.store.users ++ [x0] ∧
        (upsertUser clockedSource (upsertUser clockedSource emptyDB (some userVersions.1)).2.2
          (some userVersions.2)).2.2.store.users = emptyDB.store.users ++ [x] ∧
        x0.ID = userVersions.1.ID ∧ x0.Email = userVersions.1.Email ∧
        x.ID = userVersions.1.ID ∧ x.Email = userVersions.2.Email ∧
        x.CreatedAt = x0.CreatedAt ∧
        ((mapUser clockedSource userVersions.1).CreatedAt ≠ 0 →
          x.CreatedAt = (mapUser clockedSource userVersions.1).CreatedAt)) ∧
    ((upsertUser clockedSource emptyDB (some (bareUser 0 "a@example.com" ""))).2.1 = none ∧
      (upsertUser clockedSource emptyDB (some (bareUser 0 "a@example.com" ""))).2.2.store.users.map
        (fun u => (u.ID, u.Email)) = [(1, "a@example.com")] ∧
      ∃ x : User,
        (upsertUser clockedSource emptyDB (some (bareUser 0 "a@example.com" ""))).2.2.store
          = { emptyDB.store with users := emptyDB.store.users ++ [x] } ∧
        { x with CreatedAt := 0, UpdatedAt := 0 }
          = { mapUser clockedSource (bareUser 0 "a@example.com" "") with
                ID := emptyDB.store.userKey (bareUser 0 "a@example.com" "").ID, CreatedAt := 0, UpdatedAt := 0 } ∧
        ((bareUser 0 "a@example.com" "").ID ≠ 0 → x.ID = (bareUser 0 "a@example.com" "").ID) ∧ x.ID ≠ 0 ∧
        ((mapUser clockedSource (bareUser 0 "a@example.com" "")).CreatedAt ≠ 0 → x.CreatedAt = (mapUser clockedSource (bareUser 0 "a@example.com" "")).CreatedAt) ∧
        ((mapUser clockedSource (bareUser 0 "a@example.com" "")).UpdatedAt ≠ 0 → x.UpdatedAt = (mapUser clockedSource (bareUser 0 "a@example.com" "")).UpdatedAt)) ∧
    ((upsertAgent clockedSource stockedDB (some agentVersions.2) 8).2.1 = none ∧
      (upsertAgent clockedSource stockedDB (some agentVersions.2) 8).2.2.store.agents.map
        (fun a => (a.ID, a.UserID, a.Phone1, a.CreatedAt, a.UpdatedAt))
        = [(5, 8, "0222", instantUTC 2025 4 1 11 44 25 0, instantUTC 2025 5 2 8 0 0 0)] ∧
      ∃ x : Agent,
        (upsertAgent clockedSource stockedDB (some agentVersions.2) 8).2.2.store
          = { stockedDB.store with agents := [] ++ x :: [] } ∧
        { x with UpdatedAt := 0 }
          = ({ ID := (mapAgent clockedSource agentVersions.1 7).ID, UserID := 8, Phone1 := agentVersions.2.Phone1, Phone2 := agentVersions.2.Phone2,
                Headline1 := agentVersions.2.Headline1, Headline2 := agentVersions.2.Headline2, About := agentVersions.2.About,
                IsAgreementSigned := agentVersions.2.IsAgreementSigned, AgentType := agentVersions.2.AgentType,
                BankName := agentVersions.2.BankName, AccountName := agentVersions.2.AccountName,
                AccountNumber := agentVersions.2.AccountNumber, AccountType := agentVersions.2.AccountType,
                AccountBranch := agentVersions.2.AccountBranch, Linkedin := agentVersions.2.Linkedin,
                Address := agentVersions.2.Address, CreatedAt := (mapAgent clockedSource agentVersions.1 7).CreatedAt,
                UpdatedAt := 0, CoverageArea := agentVersions.2.CoverageArea } : Agent) ∧
        ((mapAgent clockedSource agentVersions.2 8).UpdatedAt ≠ 0 →
          x.UpdatedAt = (mapAgent clockedSource agentVersions.2 8).UpdatedAt)) ∧
    ((upsertLocation clockedSource stockedDB (some locationVersions.2)).2.1 = none ∧
      (upsertLocation clockedSource stockedDB (some locationVersions.2)).2.2.store.locations.map
        (fun l => (l.ID, l.PropertyID, l.District, l.CreatedAt, l.UpdatedAt))
        = [(9, 20, "South", instantUTC 2025 4 1 11 44 25 0, instantUTC 2025 5 2 8 0 0 0)] ∧
      ∃ x : Location,
        (upsertLocation clockedSource stockedDB (some locationVersions.2)).2.2.store
          = { stockedDB.store with locations := [] ++ x :: [] } ∧
        { x with UpdatedAt := 0 }
          = ({ ID := (mapLocation clockedSource locationVersions.1).ID, PropertyID := locationVersions.2.PropertyID, Region := locationVersions.2.Region,
                District := locationVersions.2.District, Area := locationVersions.2.Area, Postcode := locationVersions.2.Postcode,
                SubArea := locationVersions.2.SubArea, GoogleMapLink := locationVersions.2.GoogleMapLink,
                Latitude := locationVersions.2.Latitude, Longitude := locationVersions.2.Longitude,
                ZoneCategory := locationVersions.2.ZoneCategory, Zoning := locationVersions.2.Zoning,
                CreatedAt := (mapLocation clockedSource locationVersions.1).CreatedAt, UpdatedAt := 0 } : Location) ∧
        ((mapLocation clockedSource locationVersions.2).UpdatedAt ≠ 0 → x.UpdatedAt = (mapLocation clockedSource locationVersions.2).UpdatedAt)) ∧
    ((upsertLocation clockedSource stockedDB (some { locationVersions.1 with ID := 10 })).2.1 = none ∧
      ∃ x : Location,
        (upsertLocation clockedSource stockedDB (some { locationVersions.1 with ID := 10 })).2.2.store
          = { stockedDB.store with locations := stockedDB.store.locations ++ [x] } ∧
        { x with CreatedAt := 0, UpdatedAt := 0 }
          = { mapLocation clockedSource { locationVersions.1 with ID := 10 } with CreatedAt := 0, UpdatedAt := 0 } ∧
        ((mapLocation clockedSource { locationVersions.1 with ID := 10 }).CreatedAt ≠ 0 → x.CreatedAt = (mapLocation clockedSource { locationVersions.1 with ID := 10 }).CreatedAt) ∧
        ((mapLocation clockedSource { locationVersions.1 with ID := 10 }).UpdatedAt ≠ 0 → x.UpdatedAt = (mapLocation clockedSource { locationVersions.1 with ID := 10 }).UpdatedAt)) ∧
    ((upsertCoverPhoto clockedSource stockedDB (some photoVersions.2)).2.1 = none ∧
      (upsertCoverPhoto clockedSource stockedDB (some photoVersions.2)).2.2.store.coverPhotos
        = [{ ID := 3, Url := "new.jpg", Description := "new", PropertyID := 20 }] ∧
      (upsertCoverPhoto clockedSource stockedDB (some photoVersions.2)).2.2.store
        = { stockedDB.store with coverPhotos := [] ++
            ({ ID := ({ ID := 3, Url := "old.jpg", Description := "old", PropertyID := 20 } : CoverPhoto).ID, Url := photoVersions.2.Url, Description := photoVersions.2.Description,
                PropertyID := ({ ID := 3, Url := "old.jpg", Description := "old", PropertyID := 20 } : CoverPhoto).PropertyID } : CoverPhoto) :: [] }) :=
  ⟨⟨by decide, by decide, by decide,
      (column_allow_lists clockedSource emptyDB).2.2.2.2.2.2.2.2.2 userVersions.1
        userVersions.2 rfl (by decide) (by decide) (by decide) (by decide)⟩,
    ⟨by decide, by decide,
      (column_allow_lists clockedSource emptyDB).2.1 (bareUser 0 "a@example.com" "") (by decide) (by decide)⟩,
    ⟨by decide, by decide,
      (column_allow_lists clockedSource stockedDB).2.2.1 agentVersions.2 8
        (mapAgent clockedSource agentVersions.1 7) [] [] rfl (by decide) rfl (by decide) (by decide)⟩,
    ⟨by decide, by decide,
      (column_allow_lists clockedSource stockedDB).2.2.2.2.1 locationVersions.2
        (mapLocation clockedSource locationVersions.1) [] [] rfl (by decide) rfl (by decide) (by decide)⟩,
    ⟨by decide,
      (column_allow_lists clockedSource stockedDB).2.2.2.2.2.1 { locationVersions.1 with ID := 10 }
        (by decide) (by decide) (by decide)⟩,
    ⟨by decide, by decide,
      (column_allow_lists clockedSource stockedDB).2.2.2.2.2.2.1 photoVersions.2
        ({ ID := 3, Url := "old.jpg", Description := "old", PropertyID := 20 } : CoverPhoto) [] [] rfl (by decide) rfl (by decide) (by decide)⟩⟩

/-! ## The page loop, with the declared total -/

theorem pageLoop_page_exact (env : Env) (fuel : Nat) (url : String) (st : RunState)
    (page : PropertiesAPIResponse)
    (hu : url ≠ "") (hp : pageOf env (st.result.TotalPagesFetched + 1) url = some page) :
    pageLoop env (fuel + 1) url st
      = pageLoop env fuel (nextURL page)
          (processAll env (st.withMeta (st.result.TotalPagesFetched + 1)
            (if st.result.TotalPagesFetched = 0 then page.Meta.Total
              else st.result.TotalProperties)) page.Data) := by
  unfold pageOf at hp
  simp only [pageLoop, hu, if_false]
  rcases hg : env.get (st.result.TotalPagesFetched + 1) url with err | resp
  · simp [hg] at hp
  · simp only [hg] at hp ⊢
    by_cases hc : resp.StatusCode = 200
    · simp only [hc, ne_eq, not_true_eq_false, if_false] at hp ⊢
      rcases hr : resp.readErr with _ | err
      · simp only [hr] at hp ⊢
        rcases hj : env.unmarshal resp.body with err | pg
        · simp [hj] at hp
        · simp only [hj, Option.some.injEq] at hp ⊢
          subst hp
          by_cases h1 : st.result.TotalPagesFetched = 0
          · simp [h1, processAll, nextURL, RunState.withMeta]
          · simp [h1, processAll, nextURL, RunState.withMeta]
      · simp [hr] at hp
    · simp [hc] at hp

theorem totalAfter_cons (n : Nat) (current : Int) (page : PropertiesAPIResponse)
    (pages : List PropertiesAPIResponse) :
    totalAfter (n + 1) (if n = 0 then page.Meta.Total else current) pages
      = totalAfter n current (page :: pages) := by
  by_cases h : n = 0 <;> simp [totalAfter, h]

theorem totalAfter_nil (n : Nat) (current : Int) : totalAfter n current [] = current := by
  by_cases h : n = 0 <;> simp [totalAfter, h]

/-- The chain lemma with the declared total made explicit. -/
theorem pageLoop_chain_total (env : Env) (pages : List PropertiesAPIResponse) :
    ∀ (n : Nat) (url : String) (st : RunState) (fuel : Nat),
      ChainOf env n url pages → st.result.TotalPagesFetched = n → pages.length ≤ fuel →
      pageLoop env fuel url st
        = some (finishRun ((processAll env st (recordsOf pages)).withMeta
            (n + pages.length) (totalAfter n st.result.TotalProperties pages))) := by
  induction pages with
  | nil =>
    intro n url st fuel hc hn _
    simp only [ChainOf] at hc
    subst hc
    rw [pageLoop_done, totalAfter_nil]
    subst hn
    rfl
  | cons page pages ih =>
    intro n url st fuel hc hn hf
    obtain ⟨hu, hp, hrest⟩ := hc
    cases fuel with
    | zero => simp at hf
    | succ fuel =>
      subst hn
      rw [pageLoop_page_exact env fuel url st page hu hp, processAll_withMeta]
      rw [ih (st.result.TotalPagesFetched + 1) (nextURL page) _ fuel hrest rfl
        (by simpa using hf)]
      rw [processAll_withMeta, withMeta_withMeta, recordsOf_cons, processAll_append]
      have ht : ((processAll env st page.Data).withMeta (st.result.TotalPagesFetched + 1)
          (if st.result.TotalPagesFetched = 0 then page.Meta.Total
            else st.result.TotalProperties)).result.TotalProperties
          = (if st.result.TotalPagesFetched = 0 then page.Meta.Total
              else st.result.TotalProperties) := rfl
      rw [ht, totalAfter_cons]
      simp only [List.length_cons]
      congr 3
      omega

/-- The cut-short chain lemma with the declared total made explicit. -/
theorem pageLoop_failsAfter_total (env : Env) (pages : List PropertiesAPIResponse) :
    ∀ (n : Nat) (url : String) (st : RunState) (fuel : Nat),
      FailsAfter env n url pages → st.result.TotalPagesFetched = n → pages.length + 1 ≤ fuel →
      ∃ msg err, pageLoop env fuel url st
        = some (abortRun ((processAll env st (recordsOf pages)).withMeta
            (n + pages.length + 1) (totalAfter n st.result.TotalProperties pages)) msg err) := by
  induction pages with
  | nil =>
    intro n url st fuel hc hn hf
    obtain ⟨hu, hp⟩ := hc
    cases fuel with
    | zero => simp at hf
    | succ fuel =>
      subst hn
      obtain ⟨msg, err, h⟩ := pageLoop_fail env fuel url st hu hp
      refine ⟨msg, err, ?_⟩
      rw [h, totalAfter_nil]
      rfl
  | cons page pages ih =>
    intro n url st fuel hc hn hf
    obtain ⟨hu, hp, hrest⟩ := hc
    cases fuel with
    | zero => simp at hf
    | succ fuel =>
      subst hn
      rw [pageLoop_page_exact env fuel url st page hu hp, processAll_withMeta]
      obtain ⟨msg, err, hrec⟩ := ih (st.result.TotalPagesFetched + 1) (nextURL page)
        ((processAll env st page.Data).withMeta (st.result.TotalPagesFetched + 1)
          (if st.result.TotalPagesFetched = 0 then page.Meta.Total
            else st.result.TotalProperties))
        fuel hrest rfl (by simpa using hf)
      refine ⟨msg, err, ?_⟩
      rw [hrec, processAll_withMeta, withMeta_withMeta, recordsOf_cons, processAll_append]
      have ht : ((processAll env st page.Data).withMeta (st.result.TotalPagesFetched + 1)
          (if st.result.TotalPagesFetched = 0 then page.Meta.Total
            else st.result.TotalProperties)).result.TotalProperties
          = (if st.result.TotalPagesFetched = 0 then page.Meta.Total
              else st.result.TotalProperties) := rfl
      rw [ht, totalAfter_cons]
      simp only [List.length_cons]
      congr 3
      omega

theorem totalAfter_zero (pages : List PropertiesAPIResponse) :
    totalAfter 0 0 pages = declaredTotal pages := by
  cases pages <;> rfl

/-- A run over a chain of pages, with fuel for its requests, returns the
finished report of the accumulated state, with the page count of the chain and
the total its first page declares. -/
theorem run_chain_exact (env : Env) (fuel : Nat) (db : DBState)
    (pages : List PropertiesAPIResponse)
    (hu : env.propertiesURL ≠ "") (hc : ChainOf env 0 env.propertiesURL pages)
    (hfuel : pages.length ≤ fuel) :
    FetchAndSyncProperties env fuel db
      = some (finishRun ((accumulated env db pages).withMeta pages.length
          (declaredTotal pages))) := by
  unfold FetchAndSyncProperties
  rw [if_neg hu, pageLoop_chain_total env pages 0 env.propertiesURL (initialState db) fuel hc rfl
    hfuel, Nat.zero_add]
  have h0 : (initialState db).result.TotalProperties = 0 := rfl
  rw [h0, totalAfter_zero]
  rfl

/-- A run over a chain of pages cut short by a failed fetch, with fuel for its
requests, returns the aborted report of the accumulated state, with the
failed request counted and the total the first page declares. -/
theorem run_failsAfter_exact (env : Env) (fuel : Nat) (db : DBState)
    (pages : List PropertiesAPIResponse)
    (hu : env.propertiesURL ≠ "") (hc : FailsAfter env 0 env.propertiesURL pages)
    (hfuel : pages.length + 1 ≤ fuel) :
    ∃ msg err, FetchAndSyncProperties env fuel db
      = some (abortRun ((accumulated env db pages).withMeta (pages.length + 1)
          (declaredTotal pages)) msg err) := by
  unfold FetchAndSyncProperties
  obtain ⟨msg, err, h⟩ :=
    pageLoop_failsAfter_total env pages 0 env.propertiesURL (initialState db) fuel hc rfl hfuel
  refine ⟨msg, err, ?_⟩
  rw [if_neg hu, h, Nat.zero_add]
  have h0 : (initialState db).result.TotalProperties = 0 := rfl
  rw [h0, totalAfter_zero]
  rfl

/-- C18. The report's totalProperties is the total declared by the first page:
for a chain of pages that is fetched to its end, and for a chain cut short by
a failed fetch after at least one page, it is the first page's declared total
whatever the later pages declare; when the first fetch fails it is 0. -/
theorem declared_total (env : Env) (fuel : Nat) (db : DBState) :
    (∀ (first : PropertiesAPIResponse) (rest : List PropertiesAPIResponse),
      ChainOf env 0 env.propertiesURL (first :: rest) → rest.length + 1 ≤ fuel →
      ∃ out res, FetchAndSyncProperties env fuel db = some out ∧ out.err = none ∧
        out.result = some res ∧ res.TotalProperties = first.Meta.Total) ∧
    (∀ (first : PropertiesAPIResponse) (rest : List PropertiesAPIResponse),
      FailsAfter env 0 env.propertiesURL (first :: rest) → rest.length + 2 ≤ fuel →
      ∃ out res, FetchAndSyncProperties env fuel db = some out ∧ out.err ≠ none ∧
        out.result = some res ∧ res.TotalProperties = first.Meta.Total) ∧
    (FailsAfter env 0 env.propertiesURL [] → 1 ≤ fuel →
      ∃ out res, FetchAndSyncProperties env fuel db = some out ∧ out.err ≠ none ∧
        out.result = some res ∧ res.TotalProperties = 0) := by
  refine ⟨?_, ?_, ?_⟩
  · intro first rest hc hfuel
    have h := run_chain_exact env fuel db (first :: rest) hc.1 hc hfuel
    exact ⟨_, _, h, rfl, rfl, rfl⟩
  · intro first rest hc hfuel
    obtain ⟨msg, err, h⟩ := run_failsAfter_exact env fuel db (first :: rest) hc.1 hc hfuel
    exact ⟨_, _, h, by simp [abortRun], rfl, rfl⟩
  · intro hc hfuel
    obtain ⟨msg, err, h⟩ := run_failsAfter_exact env fuel db [] hc.1 hc hfuel
    exact ⟨_, _, h, by simp [abortRun], rfl, rfl⟩

/-- Witness for C18: a chain whose pages declare 5 and 99; a chain whose
third fetch fails; a source whose first fetch fails. -/
theorem declared_total_witness :
    (ChainOf mixedTotalsSource 0 mixedTotalsSource.propertiesURL mixedTotalsPages ∧
      ∃ out res, FetchAndSyncProperties mixedTotalsSource 2 emptyDB = some out ∧
        out.err = none ∧ out.result = some res ∧ res.TotalProperties = 5) ∧
    (FailsAfter fivePageSource 0 fivePageSource.propertiesURL firstTwoPages ∧
      ∃ out res, FetchAndSyncProperties fivePageSource 3 emptyDB = some out ∧
        out.err ≠ none ∧ out.result = some res ∧ res.TotalProperties = 5) ∧
    (FailsAfter unservedSource 0 unservedSource.propertiesURL [] ∧
      ∃ out res, FetchAndSyncProperties unservedSource 1 emptyDB = some out ∧
        out.err ≠ none ∧ out.result = some res ∧ res.TotalProperties = 0) :=
  ⟨⟨by decide,
    (declared_total mixedTotalsSource 2 emptyDB).1
      (mkPage [bareRecord 1] 5 (some "page2")) [mkPage [bareRecord 2] 99 none]
      (by decide) (by decide)⟩,
   ⟨by decide,
    (declared_total fivePageSource 3 emptyDB).2.1
      (mkPage [bareRecord 1] 5 (some "page2")) [mkPage [bareRecord 2] 5 (some "page3")]
      (by decide) (by decide)⟩,
   ⟨by decide, (declared_total unservedSource 1 emptyDB).2.2 (by decide) (by decide)⟩⟩

/-! ## Termination of the page loop on a chain -/

/-- With fewer requests allowed than the chain has pages, the loop is left
wanting a further request. -/
theorem pageLoop_chain_short (env : Env) (pages : List PropertiesAPIResponse) :
    ∀ (n : Nat) (url : String) (st : RunState) (fuel : Nat),
      ChainOf env n url pages → st.result.TotalPagesFetched = n → fuel < pages.length →
      pageLoop env fuel url st = none := by
  induction pages with
  | nil =>
    intro n url st fuel _ _ hf
    simp at hf
  | cons page pages ih =>
    intro n url st fuel hc hn hf
    obtain ⟨hu, hp, hrest⟩ := hc
    cases fuel with
    | zero => simp [pageLoop, hu]
    | succ fuel =>
      subst hn
      rw [pageLoop_page_exact env fuel url st page hu hp, processAll_withMeta]
      exact ih (st.result.TotalPagesFetched + 1) (nextURL page) _ fuel hrest rfl
        (by simpa using hf)

/-- The record loop consults the environment only for the time parser, the
clock and the database failures. -/
theorem processRecord_env (env env2 : Env)
    (ht : env2.timeParse = env.timeParse) (hn : env2.now = env.now)
    (hf : env2.faults = env.faults) :
    processRecord env2 = processRecord env := by
  cases env
  cases env2
  simp only at ht hn hf
  subst ht hn hf
  rfl

theorem accumulated_env (env env2 : Env) (db : DBState) (pages : List PropertiesAPIResponse)
    (ht : env2.timeParse = env.timeParse) (hn : env2.now = env.now)
    (hf : env2.faults = env.faults) :
    accumulated env2 db pages = accumulated env db pages := by
  unfold accumulated processAll
  rw [processRecord_env env env2 ht hn hf]

theorem chainOf_url (env : Env) (n : Nat) (url : String) (pages : List PropertiesAPIResponse)
    (hn : pages ≠ []) (hc : ChainOf env n url pages) : url ≠ "" := by
  cases pages with
  | nil => exact absurd rfl hn
  | cons page rest => exact hc.1

/-- C20. For a source that answers the run's requests with a chain of n >= 1
pages (each request, in order, goes to the URL the previous page carries as
its next-page URL, the first to the configured URL, and the last page carries
none), a run allowed at least n requests returns without a run-level error;
n requests are enough and fewer are not; the report has totalPagesFetched = n
and fetchedCount equal to the number of records on the n pages; the database
is the one accumulated over those pages; and the outcome is the same for
every source that answers with the same chain, whatever else it would serve. -/
theorem chain_run_stops (env : Env) (fuel : Nat) (db : DBState)
    (pages : List PropertiesAPIResponse) (hn : pages ≠ [])
    (hc : ChainOf env 0 env.propertiesURL pages) (hfuel : pages.length ≤ fuel) :
    ∃ out res, FetchAndSyncProperties env fuel db = some out ∧
      FetchAndSyncProperties env pages.length db = some out ∧
      (∀ k, k < pages.length → FetchAndSyncProperties env k db = none) ∧
      out.err = none ∧ out.result = some res ∧
      res.TotalPagesFetched = pages.length ∧
      res.FetchedCount = (recordsOf pages).length ∧
      out.db = (accumulated env db pages).db ∧
      (∀ env2 : Env, env2.timeParse = env.timeParse → env2.now = env.now →
        env2.faults = env.faults → ChainOf env2 0 env2.propertiesURL pages →
        FetchAndSyncProperties env2 fuel db = some out) := by
  have hu := chainOf_url env 0 _ pages hn hc
  refine ⟨_, _, run_chain_exact env fuel db pages hu hc hfuel,
    run_chain_exact env pages.length db pages hu hc (Nat.le_refl _), ?_, rfl, rfl, rfl,
    (accumulated_tally env db pages).1, rfl, ?_⟩
  · intro k hk
    unfold FetchAndSyncProperties
    rw [if_neg hu]
    exact pageLoop_chain_short env pages 0 _ (initialState db) k hc rfl hk
  · intro env2 ht hnow hf hc2
    rw [run_chain_exact env2 fuel db pages (chainOf_url env2 0 _ pages hn hc2) hc2 hfuel,
      accumulated_env env env2 db pages ht hnow hf]

/-- Witness for C20: the two-page chain of the overlap source, two records
per page. -/
theorem chain_run_stops_witness :
    ChainOf overlapSource 0 overlapSource.propertiesURL overlapPages ∧
    ∃ out res, FetchAndSyncProperties overlapSource 2 emptyDB = some out ∧
      FetchAndSyncProperties overlapSource 2 emptyDB = some out ∧
      (∀ k, k < 2 → FetchAndSyncProperties overlapSource k emptyDB = none) ∧
      out.err = none ∧ out.result = some res ∧
      res.TotalPagesFetched = 2 ∧
      res.FetchedCount = 4 ∧
      out.db = (accumulated overlapSource emptyDB overlapPages).db ∧
      (∀ env2 : Env, env2.timeParse = overlapSource.timeParse → env2.now = overlapSource.now →
        env2.faults = overlapSource.faults → ChainOf env2 0 env2.propertiesURL overlapPages →
        FetchAndSyncProperties env2 2 emptyDB = some out) :=
  ⟨by decide, chain_run_stops overlapSource 2 emptyDB overlapPages (by decide) (by decide)
    (by decide)⟩

/-! ## Classification of a record's outcome -/

/-- A lookup that fails with an error that is not `gorm.ErrRecordNotFound` is
returned wrapped, and the wrapped error is not the skip signal. -/
theorem syncSingleProperty_lookup_failed (env : Env) (db : DBState) (r : ExternalProperty)
    (err : GoError) (hf : env.faults db.calls (.firstProperty r.ID) = some err)
    (hn : err.isRecordNotFound = false) :
    (syncSingleProperty env db r).1
        = some (.wrap "failed to check for existing property: " err) ∧
      (GoError.wrap "failed to check for existing property: " err).isRecordNotFound = false := by
  simp [syncSingleProperty, DBState.exec, hf, hn, GoError.isRecordNotFound]

/-- A statement other than the lookup never fails with the skip signal. -/
theorem exec_not_signal (env : Env) (hs : SentinelOnlyFromLookup env) (db : DBState) (op : DBOp)
    (e : GoError) (he : (db.exec env op).1 = some e) (hop : DBOp.isLookup op = false) :
    e.isRecordNotFound = false := by
  unfold DBState.exec at he
  cases hf : env.faults db.calls op with
  | some e1 =>
    rw [hf] at he
    simp only [Option.some.injEq] at he
    subst he
    exact hs _ _ _ hf hop
  | none =>
    rw [hf] at he
    cases op with
    | firstProperty id => simp [DBOp.isLookup] at hop
    | createProperty row =>
      by_cases hp : db.store.hasProperty row.ID = true
      · simp [Store.apply, hp] at he
        subst he
        rfl
      · simp [Store.apply, hp] at he
    | txBegin => simp [Store.apply] at he
    | txCommit => simp [Store.apply] at he
    | upsertUser row => simp [Store.apply] at he
    | upsertAgent row => simp [Store.apply] at he
    | upsertCoverPhoto row => simp [Store.apply] at he
    | upsertLocation row => simp [Store.apply] at he

theorem upsertUser_not_signal (env : Env) (hs : SentinelOnlyFromLookup env) (tx : DBState)
    (u : Option ExternalUser) (e : GoError) (he : (upsertUser env tx u).2.1 = some e) :
    e.isRecordNotFound = false := by
  cases u with
  | none =>
    simp [upsertUser] at he
    subst he
    rfl
  | some u =>
    unfold upsertUser at he
    rcases hx : tx.exec env (.upsertUser (mapUser env u)) with ⟨_ | e1, tx1⟩
    · simp [hx] at he
    · simp [hx] at he
      subst he
      have hh : (tx.exec env (.upsertUser (mapUser env u))).1 = some e1 := by rw [hx]
      exact exec_not_signal env hs tx _ e1 hh rfl

theorem upsertAgent_not_signal (env : Env) (hs : SentinelOnlyFromLookup env) (tx : DBState)
    (a : Option ExternalAgent) (userID : Nat) (e : GoError)
    (he : (upsertAgent env tx a userID).2.1 = some e) :
    e.isRecordNotFound = false := by
  cases a with
  | none =>
    simp [upsertAgent] at he
    subst he
    rfl
  | some a =>
    unfold upsertAgent at he
    rcases hx : tx.exec env (.upsertAgent (mapAgent env a userID)) with ⟨_ | e1, tx1⟩
    · simp [hx] at he
    · simp [hx] at he
      subst he
      have hh : (tx.exec env (.upsertAgent (mapAgent env a userID))).1 = some e1 := by rw [hx]
      exact exec_not_signal env hs tx _ e1 hh rfl

theorem upsertLocation_not_signal (env : Env) (hs : SentinelOnlyFromLookup env) (tx : DBState)
    (l : Option ExternalLocation) (e : GoError) (he : (upsertLocation env tx l).2.1 = some e) :
    e.isRecordNotFound = false := by
  cases l with
  | none =>
    simp [upsertLocation] at he
    subst he
    rfl
  | some l =>
    unfold upsertLocation at he
    rcases hx : tx.exec env (.upsertLocation (mapLocation env l)) with ⟨_ | e1, tx1⟩
    · simp [hx] at he
    · simp [hx] at he
      subst he
      have hh : (tx.exec env (.upsertLocation (mapLocation env l))).1 = some e1 := by rw [hx]
      exact exec_not_signal env hs tx _ e1 hh rfl

theorem upsertCoverPhoto_not_signal (env : Env) (hs : SentinelOnlyFromLookup env) (tx : DBState)
    (c : Option ExternalCoverPhoto) (e : GoError)
    (he : (upsertCoverPhoto env tx c).2.1 = some e) :
    e.isRecordNotFound = false := by
  cases c with
  | none =>
    simp [upsertCoverPhoto] at he
    subst he
    rfl
  | some c =>
    unfold upsertCoverPhoto at he
    rcases hx : tx.exec env (.upsertCoverPhoto
      { ID := c.ID, Url := c.Url, Description := c.Description, PropertyID := 0 })
      with ⟨_ | e1, tx1⟩
    · simp [hx] at he
    · simp [hx] at he
      subst he
      have hh : (tx.exec env (.upsertCoverPhoto
          { ID := c.ID, Url := c.Url, Description := c.Description, PropertyID := 0 })).1
          = some e1 := by rw [hx]
      exact exec_not_signal env hs tx _ e1 hh rfl

theorem txUserAndAgent_not_signal (env : Env) (hs : SentinelOnlyFromLookup env)
    (r : ExternalProperty) (tx : DBState) (e : GoError)
    (he : (txUserAndAgent env r tx).2.1 = some e) : e.isRecordNotFound = false := by
  unfold txUserAndAgent at he
  cases ha : r.Agent with
  | none => simp [ha] at he
  | some a =>
    cases hu : a.User with
    | none => simp [ha, hu] at he
    | some u =>
      simp only [ha, hu] at he
      rcases hx : upsertUser env tx (some u) with ⟨mu, eu, tx1⟩
      rw [hx] at he
      cases eu with
      | some e1 =>
        simp only [Option.some.injEq] at he
        subst he
        exact upsertUser_not_signal env hs tx (some u) e1 (by rw [hx])
      | none =>
        cases mu with
        | none => simp at he
        | some mu =>
          simp only at he
          rcases hy : upsertAgent env tx1 (some a) mu.ID with ⟨ma, ea, tx2⟩
          rw [hy] at he
          cases ea with
          | some e2 =>
            simp only [Option.some.injEq] at he
            subst he
            exact upsertAgent_not_signal env hs tx1 (some a) mu.ID e2 (by rw [hy])
          | none => simp at he

theorem txCoverPhoto_not_signal (env : Env) (hs : SentinelOnlyFromLookup env)
    (r : ExternalProperty) (tx : DBState) (e : GoError)
    (he : (txCoverPhoto env r tx).2.1 = some e) : e.isRecordNotFound = false := by
  unfold txCoverPhoto at he
  cases hc : r.CoverPhoto with
  | none => simp [hc] at he
  | some c =>
    simp only [hc] at he
    rcases hx : upsertCoverPhoto env tx (some c) with ⟨mc, ec, tx1⟩
    rw [hx] at he
    cases ec with
    | some e1 =>
      simp only [Option.some.injEq] at he
      subst he
      exact upsertCoverPhoto_not_signal env hs tx (some c) e1 (by rw [hx])
    | none => simp at he

theorem txPropertyAndLocation_not_signal (env : Env) (hs : SentinelOnlyFromLookup env)
    (r : ExternalProperty) (a : Option Agent) (c : Option CoverPhoto) (tx : DBState)
    (e : GoError) (he : (txPropertyAndLocation env r a c tx).1 = some e) :
    e.isRecordNotFound = false := by
  unfold txPropertyAndLocation at he
  rcases hm : mapExternalToDBProperty env r a c with ⟨p, me⟩
  have hme : me = none := by
    have := (mapExternalToDBProperty_ok env r a c).1
    rw [hm] at this
    exact this
  subst hme
  rw [hm] at he
  simp only at he
  rcases hx : tx.exec env (.createProperty p) with ⟨_ | e1, tx1⟩
  · rw [hx] at he
    simp only at he
    cases hl : r.Location with
    | none => simp [hl] at he
    | some l =>
      simp only [hl] at he
      rcases hy : upsertLocation env tx1 (some { l with PropertyID := r.ID }) with ⟨ml, el, tx2⟩
      rw [hy] at he
      cases el with
      | some e2 =>
        simp only [Option.some.injEq] at he
        subst he
        exact upsertLocation_not_signal env hs tx1 _ e2 (by rw [hy])
      | none => simp at he
  · rw [hx] at he
    simp only [Option.some.injEq] at he
    subst he
    exact exec_not_signal env hs tx (.createProperty p) e1 (by rw [hx]) rfl

theorem syncTx_not_signal (env : Env) (hs : SentinelOnlyFromLookup env)
    (r : ExternalProperty) (tx : DBState) (e : GoError)
    (he : (syncTx env r tx).1 = some e) : e.isRecordNotFound = false := by
  unfold syncTx at he
  rcases hx : txUserAndAgent env r tx with ⟨ma, ea, tx1⟩
  rw [hx] at he
  cases ea with
  | some e1 =>
    simp only [Option.some.injEq] at he
    subst he
    exact txUserAndAgent_not_signal env hs r tx e1 (by rw [hx])
  | none =>
    simp only at he
    rcases hy : txCoverPhoto env r tx1 with ⟨mc, ec, tx2⟩
    rw [hy] at he
    cases ec with
    | some e2 =>
      simp only [Option.some.injEq] at he
      subst he
      exact txCoverPhoto_not_signal env hs r tx1 e2 (by rw [hy])
    | none =>
      simp only at he
      exact txPropertyAndLocation_not_signal env hs r ma mc tx2 e he

theorem transaction_not_signal (env : Env) (hs : SentinelOnlyFromLookup env) (db : DBState)
    (fc : DBState → Option GoError × DBState)
    (hfc : ∀ tx e, (fc tx).1 = some e → e.isRecordNotFound = false) (e : GoError)
    (he : (transaction env db fc).1 = some e) : e.isRecordNotFound = false := by
  unfold transaction at he
  rcases hb : db.exec env .txBegin with ⟨_ | e1, tx⟩
  · rw [hb] at he
    simp only at he
    rcases hx : fc tx with ⟨_ | e2, tx1⟩
    · rw [hx] at he
      simp only at he
      rcases hc : tx1.exec env .txCommit with ⟨_ | e3, tx2⟩
      · rw [hc] at he
        simp at he
      · rw [hc] at he
        simp only [Option.some.injEq] at he
        subst he
        exact exec_not_signal env hs tx1 .txCommit e3 (by rw [hc]) rfl
    · rw [hx] at he
      simp only [Option.some.injEq] at he
      subst he
      exact hfc tx e2 (by rw [hx])
  · rw [hb] at he
    simp only [Option.some.injEq] at he
    subst he
    exact exec_not_signal env hs db .txBegin e1 (by rw [hb]) rfl

/-- The lookup answers nil exactly when the environment does not fail it and
a row with the key is stored. -/
theorem exec_firstProperty_none (env : Env) (db : DBState) (id : Nat) :
    (db.exec env (.firstProperty id)).1 = none
      ↔ env.faults db.calls (.firstProperty id) = none ∧ db.store.hasProperty id = true := by
  unfold DBState.exec
  cases hf : env.faults db.calls (.firstProperty id) with
  | some e1 => simp
  | none =>
    by_cases hp : db.store.hasProperty id = true
    · simp [Store.apply, hp]
    · simp [Store.apply, hp]

/-- Under `SentinelOnlyFromLookup`, the error `syncSingleProperty` returns is
the skip signal exactly when the lookup answered nil. -/
theorem syncSingleProperty_signal (env : Env) (hs : SentinelOnlyFromLookup env) (db : DBState)
    (r : ExternalProperty) (e : GoError) (he : (syncSingleProperty env db r).1 = some e) :
    e.isRecordNotFound = true ↔ (db.exec env (.firstProperty r.ID)).1 = none := by
  unfold syncSingleProperty at he
  rcases hx : db.exec env (.firstProperty r.ID) with ⟨_ | e1, db1⟩
  · rw [hx] at he
    simp only [Option.some.injEq] at he
    subst he
    simp [GoError.isRecordNotFound]
  · rw [hx] at he
    simp only
    by_cases hn : e1.isRecordNotFound = true
    · simp only [hn, Bool.not_true, Bool.false_eq_true, if_false] at he
      have := transaction_not_signal env hs db1 (syncTx env r)
        (fun tx e2 h2 => syncTx_not_signal env hs r tx e2 h2) e he
      simp [this]
    · simp only [Bool.not_eq_true] at hn
      simp only [hn, Bool.not_false, if_true, Option.some.injEq] at he
      subst he
      simp [GoError.isRecordNotFound, hn]

/-- C19. Let no statement other than the existence lookup fail with
`gorm.ErrRecordNotFound` (the library raises it from `First`, `Take` and `Last`
only), and let the record not have been processed earlier in the run. Then the
record is counted as skipped exactly when the lookup answered nil, which is
exactly when the lookup was not failed and a property row with the ID is
stored; in that case skippedCount alone goes up, nothing is appended to the
error list and the store is unchanged. A lookup that failed for another reason
is returned wrapped. Every non-nil error of `syncSingleProperty` after a lookup
that did not answer nil is not the skip signal: errorCount goes up by one, the
message is appended to the error list, and skippedCount is unchanged. -/
theorem skip_classification (env : Env) (st : RunState) (r : ExternalProperty)
    (hs : SentinelOnlyFromLookup env) (hu : r.ID ∉ st.processedIDs) :
    ((processRecord env st r).result.SkippedCount = st.result.SkippedCount + 1
      ↔ (st.db.exec env (.firstProperty r.ID)).1 = none) ∧
    ((st.db.exec env (.firstProperty r.ID)).1 = none
      ↔ env.faults st.db.calls (.firstProperty r.ID) = none ∧
        st.db.store.hasProperty r.ID = true) ∧
    ((st.db.exec env (.firstProperty r.ID)).1 = none →
      processRecord env st r
        = { st with
            result := { st.result with
              FetchedCount := st.result.FetchedCount + 1
              SkippedCount := st.result.SkippedCount + 1 }
            processedIDs := r.ID :: st.processedIDs
            db := (syncSingleProperty env st.db r).2 } ∧
      (syncSingleProperty env st.db r).2.store = st.db.store) ∧
    (∀ err, (st.db.exec env (.firstProperty r.ID)).1 = some err →
      err.isRecordNotFound = false →
      (syncSingleProperty env st.db r).1
        = some (.wrap "failed to check for existing property: " err)) ∧
    (∀ e, (syncSingleProperty env st.db r).1 = some e →
      (st.db.exec env (.firstProperty r.ID)).1 ≠ none →
      e.isRecordNotFound = false ∧
      (processRecord env st r).result.SkippedCount = st.result.SkippedCount ∧
      processRecord env st r
        = { st with
            result := { st.result with
              FetchedCount := st.result.FetchedCount + 1
              ErrorCount := st.result.ErrorCount + 1 }
            allErrors := st.allErrors ++
              ["Failed to sync property ID " ++ toString r.ID ++ ": " ++ e.Error]
            processedIDs := r.ID :: st.processedIDs
            db := (syncSingleProperty env st.db r).2 }) ∧
    ((syncSingleProperty env st.db r).1 = none →
      (processRecord env st r).result.SkippedCount = st.result.SkippedCount ∧
      (processRecord env st r).result.ErrorCount = st.result.ErrorCount) := by
  have hfound : (st.db.exec env (.firstProperty r.ID)).1 = none →
      (syncSingleProperty env st.db r).1 = some .recordNotFound := by
    intro h
    unfold syncSingleProperty
    rcases hx : st.db.exec env (.firstProperty r.ID) with ⟨_ | e1, db1⟩
    · rfl
    · rw [hx] at h
      simp at h
  have hfail : ∀ e, (syncSingleProperty env st.db r).1 = some e →
      (st.db.exec env (.firstProperty r.ID)).1 ≠ none → e.isRecordNotFound = false := by
    intro e he hl
    cases hb : e.isRecordNotFound with
    | false => rfl
    | true => exact absurd ((syncSingleProperty_signal env hs st.db r e he).1 hb) hl
  refine ⟨?_, exec_firstProperty_none env st.db r.ID, ?_, ?_, ?_, ?_⟩
  · constructor
    · intro hc
      by_contra hl
      cases hx : (syncSingleProperty env st.db r).1 with
      | none =>
        rw [processRecord_synced env st r hu hx] at hc
        simp at hc
      | some e =>
        rw [processRecord_failed env st r e hu hx (hfail e hx hl)] at hc
        simp at hc
    · intro hl
      rw [processRecord_skipped env st r _ hu (hfound hl) rfl]
  · intro hl
    refine ⟨processRecord_skipped env st r _ hu (hfound hl) rfl, ?_⟩
    unfold syncSingleProperty
    rcases hx : st.db.exec env (.firstProperty r.ID) with ⟨_ | e1, db1⟩
    · have := exec_firstProperty_store env st.db r.ID
      rw [hx] at this
      exact this
    · rw [hx] at hl
      simp at hl
  · intro err hl hn
    unfold syncSingleProperty
    rcases hx : st.db.exec env (.firstProperty r.ID) with ⟨e1, db1⟩
    rw [hx] at hl
    simp only at hl
    subst hl
    simp [hn]
  · intro e he hl
    have hn := hfail e he hl
    refine ⟨hn, ?_, processRecord_failed env st r e hu he hn⟩
    rw [processRecord_failed env st r e hu he hn]
  · intro hx
    rw [processRecord_synced env st r hu hx]
    exact ⟨rfl, rfl⟩

/-- Witness for C19: record 10 on the single-page source whose database fails
statement 2 (the insert of the property) with a timeout, from the initial state
over the empty database. -/
theorem skip_classification_witness :
    SentinelOnlyFromLookup flakySource ∧
    (bareRecord 10).ID ∉ (initialState emptyDB).processedIDs ∧
    (syncSingleProperty flakySource emptyDB (bareRecord 10)).1
      = some (.wrap "failed to create property 10: " (.other "statement timeout")) ∧
    (processRecord flakySource (initialState emptyDB) (bareRecord 10)).result.ErrorCount = 1 ∧
    (∀ e, (syncSingleProperty flakySource (initialState emptyDB).db (bareRecord 10)).1 = some e →
      ((initialState emptyDB).db.exec flakySource (.firstProperty (bareRecord 10).ID)).1 ≠ none →
      e.isRecordNotFound = false ∧
      (processRecord flakySource (initialState emptyDB) (bareRecord 10)).result.SkippedCount
        = (initialState emptyDB).result.SkippedCount ∧
      processRecord flakySource (initialState emptyDB) (bareRecord 10)
        = { initialState emptyDB with
            result := { (initialState emptyDB).result with
              FetchedCount := (initialState emptyDB).result.FetchedCount + 1
              ErrorCount := (initialState emptyDB).result.ErrorCount + 1 }
            allErrors := (initialState emptyDB).allErrors ++
              ["Failed to sync property ID " ++ toString (bareRecord 10).ID ++ ": " ++ e.Error]
            processedIDs := (bareRecord 10).ID :: (initialState emptyDB).processedIDs
            db := (syncSingleProperty flakySource (initialState emptyDB).db (bareRecord 10)).2 }) :=
  have hs : SentinelOnlyFromLookup flakySource := by
    intro n op e h _
    simp only [flakySource, withFaults] at h
    by_cases hn : n = 2
    · simp [hn] at h
      subst h
      rfl
    · simp [hn] at h
  ⟨hs, by decide, by decide, by decide,
    (skip_classification flakySource (initialState emptyDB) (bareRecord 10) hs
      (by decide)).2.2.2.2.1⟩

/-! ## The error list of a report -/

theorem processRecord_errors (env : Env) (st : RunState) (r : ExternalProperty) :
    (processRecord env st r).allErrors = st.allErrors ++ errorOf env st r := by
  by_cases hs : r.ID ∈ st.processedIDs
  · simp [processRecord, errorOf, hs]
  · rcases hx : syncSingleProperty env st.db r with ⟨e, db1⟩
    cases e with
    | none => simp [processRecord, errorOf, hs, hx]
    | some err =>
      by_cases hn : err.isRecordNotFound = true
      · simp [processRecord, errorOf, hs, hx, hn]
      · simp [processRecord, errorOf, hs, hx, hn]

theorem processAll_errors (env : Env) (records : List ExternalProperty) (st : RunState) :
    (processAll env st records).allErrors = st.allErrors ++ recordErrors env st records := by
  induction records generalizing st with
  | nil => simp [processAll, recordErrors]
  | cons r rs ih =>
    have h := ih (processRecord env st r)
    simp only [processAll, List.foldl_cons] at h ⊢
    rw [h, processRecord_errors, recordErrors, List.append_assoc]

theorem accumulated_errors (env : Env) (db : DBState) (pages : List PropertiesAPIResponse) :
    (accumulated env db pages).allErrors
      = recordErrors env (initialState db) (recordsOf pages) := by
  unfold accumulated
  rw [processAll_errors]
  rfl

/-- C26. On every report returned by `FetchAndSyncProperties`, errorCount is
the length of the error list. A run that returns without a run-level error
went through a chain of pages and its error list is the list of the error
strings of the failed records, in processing order. A run that returns with a
run-level error was cut short by a failed fetch after some pages, and its
error list is that list for the pages fetched followed by one fetch-level
message, so that errorCount is the number of failed records plus one. -/
theorem error_count_is_length (env : Env) (fuel : Nat) (db : DBState) (out : RunOutcome)
    (res : SyncResult)
    (hrun : FetchAndSyncProperties env fuel db = some out) (hres : out.result = some res) :
    res.ErrorCount = res.Errors.length ∧
    (out.err = none →
      ∃ pages, ChainOf env 0 env.propertiesURL pages ∧
        res.Errors = recordErrors env (initialState db) (recordsOf pages)) ∧
    (out.err ≠ none →
      ∃ pages msg, FailsAfter env 0 env.propertiesURL pages ∧
        res.Errors = recordErrors env (initialState db) (recordsOf pages) ++ [msg] ∧
        res.ErrorCount = (recordErrors env (initialState db) (recordsOf pages)).length + 1) := by
  obtain ⟨hu, pages, hp⟩ := run_pages env fuel db out res hrun hres
  rcases hp with hc | hc
  · obtain ⟨total, hout⟩ := run_of_chain env fuel db out pages hu hrun hc
    subst hout
    have hr : res = { ((accumulated env db pages).withMeta pages.length total).result with
        Status := if ((accumulated env db pages).withMeta pages.length total).result.ErrorCount > 0
          then "completed_with_errors" else "completed"
        Errors := ((accumulated env db pages).withMeta pages.length total).allErrors } := by
      have h := (finishRun_result ((accumulated env db pages).withMeta pages.length total)).1
      rw [h] at hres
      exact (Option.some.inj hres).symm
    have he : res.Errors = (accumulated env db pages).allErrors := by rw [hr]; rfl
    have hn : res.ErrorCount = (accumulated env db pages).result.ErrorCount := by rw [hr]; rfl
    refine ⟨?_, ?_, ?_⟩
    · rw [he, hn]
      exact (accumulated_tally env db pages).2.1
    · intro _
      exact ⟨pages, hc, by rw [he, accumulated_errors]⟩
    · intro h
      exact absurd rfl h
  · obtain ⟨total, msg, err, hout⟩ := run_of_failsAfter env fuel db out pages hrun hc
    subst hout
    have hr : res = { ((accumulated env db pages).withMeta (pages.length + 1) total).result with
        Status := "failed"
        Errors := ((accumulated env db pages).withMeta (pages.length + 1) total).allErrors
          ++ [msg]
        ErrorCount :=
          ((accumulated env db pages).withMeta (pages.length + 1) total).allErrors.length
            + 1 } := by
      have h := (abortRun_result
        ((accumulated env db pages).withMeta (pages.length + 1) total) msg err).1
      rw [h] at hres
      exact (Option.some.inj hres).symm
    have he : res.Errors = (accumulated env db pages).allErrors ++ [msg] := by rw [hr]; rfl
    have hn : res.ErrorCount = (accumulated env db pages).allErrors.length + 1 := by
      rw [hr]; rfl
    refine ⟨?_, ?_, ?_⟩
    · rw [he, hn]
      simp
    · intro h
      simp [abortRun] at h
    · intro _
      exact ⟨pages, msg, hc, by rw [he, accumulated_errors], by rw [hn, accumulated_errors]⟩

/-- Witness for C26: record 10 arrives twice on page 1 over a database whose
lookups fail, and the fetch of page 2 fails: one failed record, then the
fetch-level message. -/
theorem error_count_is_length_witness :
    FetchAndSyncProperties brokenLookupDownSource 2 emptyDB
      = some (outcomeOf brokenLookupDownSource 2 emptyDB) ∧
    (outcomeOf brokenLookupDownSource 2 emptyDB).result
      = some (reportOf brokenLookupDownSource 2 emptyDB) ∧
    (reportOf brokenLookupDownSource 2 emptyDB).ErrorCount = 2 ∧
    (reportOf brokenLookupDownSource 2 emptyDB).Errors
      = ["Failed to sync property ID 10: failed to check for existing property: " ++
          "connection refused",
         "API request to page2 failed with status 500: "] ∧
    (reportOf brokenLookupDownSource 2 emptyDB).ErrorCount
      = (reportOf brokenLookupDownSource 2 emptyDB).Errors.length :=
  ⟨rfl, rfl, by decide, by decide,
    (error_count_is_length brokenLookupDownSource 2 emptyDB
      (outcomeOf brokenLookupDownSource 2 emptyDB)
      (reportOf brokenLookupDownSource 2 emptyDB) rfl rfl).1⟩

/-! ## The agent reference of an inserted property -/

theorem exec_users_agents (env : Env) (db : DBState) (op : DBOp)
    (h : DBOp.isUserOrAgentUpsert op = false) :
    (db.exec env op).2.store.users = db.store.users ∧
    (db.exec env op).2.store.agents = db.store.agents := by
  unfold DBState.exec
  cases env.faults db.calls op with
  | some e => exact ⟨rfl, rfl⟩
  | none =>
    cases op with
    | firstProperty id => by_cases hp : db.store.hasProperty id <;> simp [Store.apply, hp]
    | createProperty row =>
      by_cases hp : db.store.hasProperty row.ID <;> simp [Store.apply, hp]
    | upsertUser row => simp [DBOp.isUserOrAgentUpsert] at h
    | upsertAgent row => simp [DBOp.isUserOrAgentUpsert] at h
    | _ => simp [Store.apply]

theorem exec_congr (env env2 : Env) (db : DBState) (op : DBOp)
    (h : env2.faults db.calls op = env.faults db.calls op) :
    db.exec env2 op = db.exec env op := by
  simp [DBState.exec, h]

theorem parseAPITime_congr (env env2 : Env) (ht : env2.timeParse = env.timeParse)
    (t : Option String) : parseAPITime env2 t = parseAPITime env t := by
  simp [parseAPITime, ht]

theorem mapExternalToDBProperty_congr (env env2 : Env) (ht : env2.timeParse = env.timeParse)
    (hn : env2.now = env.now) (r : ExternalProperty) (a : Option Agent)
    (c : Option CoverPhoto) :
    mapExternalToDBProperty env2 r a c = mapExternalToDBProperty env r a c := by
  simp [mapExternalToDBProperty, parseAPITime_congr env env2 ht, hn]

theorem mapLocation_congr (env env2 : Env) (ht : env2.timeParse = env.timeParse)
    (l : ExternalLocation) : mapLocation env2 l = mapLocation env l := by
  simp [mapLocation, parseAPITime_congr env env2 ht]

theorem txUserAndAgent_none (env : Env) (r : ExternalProperty) (tx : DBState)
    (hr : r.Agent = none ∨ ∃ a, r.Agent = some a ∧ a.User = none) :
    txUserAndAgent env r tx = (none, none, tx) := by
  rcases hr with h | ⟨a, h, hu⟩
  · simp [txUserAndAgent, h]
  · simp [txUserAndAgent, h, hu]

theorem exec_agree (env env2 : Env) (h : AgreeOffUserAgent env env2) :
    (∀ tx id, DBState.exec env2 tx (.firstProperty id) = DBState.exec env tx (.firstProperty id)) ∧
    (∀ tx, DBState.exec env2 tx .txBegin = DBState.exec env tx .txBegin) ∧
    (∀ tx, DBState.exec env2 tx .txCommit = DBState.exec env tx .txCommit) ∧
    (∀ tx row, DBState.exec env2 tx (.upsertCoverPhoto row)
      = DBState.exec env tx (.upsertCoverPhoto row)) ∧
    (∀ tx row, DBState.exec env2 tx (.createProperty row)
      = DBState.exec env tx (.createProperty row)) ∧
    (∀ tx row, DBState.exec env2 tx (.upsertLocation row)
      = DBState.exec env tx (.upsertLocation row)) :=
  ⟨fun tx _ => exec_congr env env2 tx _ (h.2.2 _ _ rfl),
   fun tx => exec_congr env env2 tx _ (h.2.2 _ _ rfl),
   fun tx => exec_congr env env2 tx _ (h.2.2 _ _ rfl),
   fun tx _ => exec_congr env env2 tx _ (h.2.2 _ _ rfl),
   fun tx _ => exec_congr env env2 tx _ (h.2.2 _ _ rfl),
   fun tx _ => exec_congr env env2 tx _ (h.2.2 _ _ rfl)⟩

theorem txCoverPhoto_congr (env env2 : Env) (h : AgreeOffUserAgent env env2)
    (r : ExternalProperty) (tx : DBState) :
    txCoverPhoto env2 r tx = txCoverPhoto env r tx := by
  unfold txCoverPhoto
  simp only [upsertCoverPhoto_eq, (exec_agree env env2 h).2.2.2.1]

theorem txPropertyAndLocation_congr (env env2 : Env) (h : AgreeOffUserAgent env env2)
    (r : ExternalProperty) (a : Option Agent) (c : Option CoverPhoto) (tx : DBState) :
    txPropertyAndLocation env2 r a c tx = txPropertyAndLocation env r a c tx := by
  unfold txPropertyAndLocation
  rw [mapExternalToDBProperty_congr env env2 h.1 h.2.1]
  simp only [upsertLocation_eq, mapLocation_congr env env2 h.1,
    (exec_agree env env2 h).2.2.2.2.1, (exec_agree env env2 h).2.2.2.2.2]

theorem syncTx_congr (env env2 : Env) (h : AgreeOffUserAgent env env2)
    (r : ExternalProperty) (hr : r.Agent = none ∨ ∃ a, r.Agent = some a ∧ a.User = none)
    (tx : DBState) : syncTx env2 r tx = syncTx env r tx := by
  unfold syncTx
  rw [txUserAndAgent_none env r tx hr, txUserAndAgent_none env2 r tx hr]
  simp only [txCoverPhoto_congr env env2 h, txPropertyAndLocation_congr env env2 h]

theorem transaction_congr (env env2 : Env) (h : AgreeOffUserAgent env env2)
    (db : DBState) (fc fc2 : DBState → Option GoError × DBState) (hfc : ∀ tx, fc2 tx = fc tx) :
    transaction env2 db fc2 = transaction env db fc := by
  unfold transaction
  simp only [(exec_agree env env2 h).2.1, (exec_agree env env2 h).2.2.1, hfc]

theorem syncSingleProperty_congr (env env2 : Env) (h : AgreeOffUserAgent env env2)
    (db : DBState) (r : ExternalProperty)
    (hr : r.Agent = none ∨ ∃ a, r.Agent = some a ∧ a.User = none) :
    syncSingleProperty env2 db r = syncSingleProperty env db r := by
  unfold syncSingleProperty
  simp only [(exec_agree env env2 h).1,
    fun db1 => transaction_congr env env2 h db1 _ _ (syncTx_congr env env2 h r hr)]

theorem txCoverPhoto_users_agents (env : Env) (r : ExternalProperty) (tx : DBState) :
    (txCoverPhoto env r tx).2.2.store.users = tx.store.users ∧
    (txCoverPhoto env r tx).2.2.store.agents = tx.store.agents := by
  rw [txCoverPhoto_state]
  cases r.CoverPhoto with
  | none => exact ⟨rfl, rfl⟩
  | some c => exact exec_users_agents env tx _ rfl

theorem txPropertyAndLocation_users_agents (env : Env) (r : ExternalProperty)
    (a : Option Agent) (c : Option CoverPhoto) (tx : DBState) :
    (txPropertyAndLocation env r a c tx).2.store.users = tx.store.users ∧
    (txPropertyAndLocation env r a c tx).2.store.agents = tx.store.agents := by
  rw [txPropertyAndLocation_state]
  have h1 := exec_users_agents env tx (.createProperty (mapExternalToDBProperty env r a c).1) rfl
  split
  · cases r.Location with
    | none => exact h1
    | some l =>
      have h2 := exec_users_agents env
        (tx.exec env (.createProperty (mapExternalToDBProperty env r a c).1)).2
        (.upsertLocation (mapLocation env { l with PropertyID := r.ID })) rfl
      exact ⟨h2.1.trans h1.1, h2.2.trans h1.2⟩
  · exact h1

theorem syncTx_users_agents (env : Env) (r : ExternalProperty) (tx : DBState)
    (hr : r.Agent = none ∨ ∃ a, r.Agent = some a ∧ a.User = none) :
    (syncTx env r tx).2.store.users = tx.store.users ∧
    (syncTx env r tx).2.store.agents = tx.store.agents := by
  have hc := txCoverPhoto_users_agents env r tx
  unfold syncTx
  rw [txUserAndAgent_none env r tx hr]
  simp only
  rcases hx : txCoverPhoto env r tx with ⟨c, e, tx2⟩
  rw [hx] at hc
  cases e with
  | some err => exact hc
  | none =>
    have hp := txPropertyAndLocation_users_agents env r none c tx2
    exact ⟨hp.1.trans hc.1, hp.2.trans hc.2⟩

theorem syncSingleProperty_users_agents (env : Env) (db : DBState) (r : ExternalProperty)
    (hr : r.Agent = none ∨ ∃ a, r.Agent = some a ∧ a.User = none) :
    (syncSingleProperty env db r).2.store.users = db.store.users ∧
    (syncSingleProperty env db r).2.store.agents = db.store.agents := by
  rcases syncSingleProperty_store_cases env db r with hs | ⟨_, _, hs⟩
  · rw [hs]
    exact ⟨rfl, rfl⟩
  · rw [hs]
    exact syncTx_users_agents env r _ hr

/-- The row a successful sync leaves at the end of the properties table: the
record mapped with the agent the first block of the closure handed on. -/
theorem syncSingleProperty_inserted (env : Env) (db : DBState) (r : ExternalProperty)
    (hok : (syncSingleProperty env db r).1 = none) :
    (syncTx env r { store := db.store, calls := db.calls + 2 }).1 = none ∧
    (syncSingleProperty env db r).2.store.properties
      = db.store.properties ++
        [(mapExternalToDBProperty env r
          (txUserAndAgent env r { store := db.store, calls := db.calls + 2 }).1
          (txCoverPhoto env r
            (txUserAndAgent env r { store := db.store, calls := db.calls + 2 }).2.2).1).1] := by
  rcases syncSingleProperty_store_cases env db r with hs | ⟨_, htx, hs⟩
  · exfalso
    obtain ⟨q, _, hq⟩ := (syncSingleProperty_ok env db r hok).2
    rw [hs] at hq
    have := congrArg List.length hq
    simp at this
  · refine ⟨htx, ?_⟩
    obtain ⟨_, _, hparts⟩ := syncTx_ok_parts env r _ htx
    rw [hs, hparts]
    rw [hparts] at htx
    rw [(txPropertyAndLocation_ok env r _ _ _ htx).2, txCoverPhoto_properties,
      txUserAndAgent_properties]

theorem mapExternalToDBProperty_agentID (env : Env) (r : ExternalProperty) (a : Option Agent)
    (c : Option CoverPhoto) :
    (mapExternalToDBProperty env r a c).1.AgentID = a.map (fun x => x.ID) := by
  cases a <;> rfl

/-- What the first block of the closure hands on and leaves when it returns
no error for a record with an agent and a nested user: the agent row carrying
the key it was written under, and a stored agent row with that key. -/
theorem txUserAndAgent_handed (env : Env) (r : ExternalProperty) (a : ExternalAgent)
    (u : ExternalUser) (ha : r.Agent = some a) (hu : a.User = some u) (tx : DBState)
    (hnone : (txUserAndAgent env r tx).2.1 = none) :
    (txUserAndAgent env r tx).1
      = some { mapAgent env a (tx.store.userKey u.ID) with ID := tx.store.agentKey a.ID } ∧
    ∃ x, (txUserAndAgent env r tx).2.2.store.agentRow (tx.store.agentKey a.ID) = some x := by
  rcases txUserAndAgent_cases env r tx with ⟨hno, _⟩ | ⟨_, _, _, _, _, _, he⟩ |
    ⟨_, _, _, _, _, _, _, he⟩ | ⟨a2, u2, ha2, hu2, _, h2, he⟩
  · rcases hno with h | ⟨a2, h, hu2⟩
    · rw [ha] at h; cases h
    · rw [ha] at h
      cases h
      rw [hu] at hu2
      cases hu2
  · rw [he] at hnone; cases hnone
  · rw [he] at hnone; cases hnone
  · rw [ha] at ha2
    cases ha2
    rw [hu] at hu2
    cases hu2
    rw [he]
    simp only
    rw [exec_upsertUser_agentKey]
    refine ⟨rfl, ?_⟩
    obtain ⟨x, hx, _⟩ := exec_upsertAgent_row env _ (mapAgent env a (tx.store.userKey u.ID)) h2
    rw [exec_upsertUser_agentKey] at hx
    exact ⟨x, hx⟩

/-- A successful sync leaves the agents table as the first block of the
closure left it. -/
theorem syncSingleProperty_agents (env : Env) (db : DBState) (r : ExternalProperty)
    (hok : (syncSingleProperty env db r).1 = none) :
    (syncSingleProperty env db r).2.store.agents
      = (txUserAndAgent env r { store := db.store, calls := db.calls + 2 }).2.2.store.agents := by
  rcases syncSingleProperty_store_cases env db r with hs | ⟨_, htx, hs⟩
  · exfalso
    obtain ⟨q, _, hq⟩ := (syncSingleProperty_ok env db r hok).2
    rw [hs] at hq
    have := congrArg List.length hq
    simp at this
  · obtain ⟨_, _, hparts⟩ := syncTx_ok_parts env r _ htx
    rw [hs, hparts, (txPropertyAndLocation_users_agents env r _ _ _).2,
      (txCoverPhoto_users_agents env r _).2]

/-- C29. For a record without an agent, or whose agent has no nested user,
the first block of the closure sends no statement and hands on no agent;
`syncSingleProperty` leaves the users and agents tables as they were and
behaves the same however the database would answer upserts of users and
agents; and when it succeeds, the row it appended to the properties table has
a nil `AgentID` (and the record's ID, when that is not zero). For a record
with an agent and a nested user, when the two upserts succeed the block hands
on the agent row as written back, and the mapped property has `AgentID` equal
to the key under which the agent row is stored: never zero, and the wire
agent's ID whenever that ID is not zero. When `syncSingleProperty` succeeds,
the row it appended has that `AgentID`, and an agent row with that key is
stored. -/
theorem agent_reference (env : Env) (db : DBState) (r : ExternalProperty) :
    ((r.Agent = none ∨ ∃ a, r.Agent = some a ∧ a.User = none) →
      (∀ tx, txUserAndAgent env r tx = (none, none, tx)) ∧
      (syncSingleProperty env db r).2.store.users = db.store.users ∧
      (syncSingleProperty env db r).2.store.agents = db.store.agents ∧
      (∀ env2, AgreeOffUserAgent env env2 →
        syncSingleProperty env2 db r = syncSingleProperty env db r) ∧
      ((syncSingleProperty env db r).1 = none →
        ∃ p, (syncSingleProperty env db r).2.store.properties = db.store.properties ++ [p] ∧
          (r.ID ≠ 0 → p.ID = r.ID) ∧ p.AgentID = none)) ∧
    (∀ a u, r.Agent = some a → a.User = some u →
      (a.ID ≠ 0 → db.store.agentKey a.ID = a.ID) ∧
      db.store.agentKey a.ID ≠ 0 ∧
      (∀ tx, (tx.exec env (.upsertUser (mapUser env u))).1 = none →
        ((tx.exec env (.upsertUser (mapUser env u))).2.exec env
          (.upsertAgent (mapAgent env a (tx.store.userKey u.ID)))).1 = none →
        (txUserAndAgent env r tx).1
          = some { mapAgent env a (tx.store.userKey u.ID) with
                    ID := tx.store.agentKey a.ID } ∧
        (∃ x, (txUserAndAgent env r tx).2.2.store.agentRow (tx.store.agentKey a.ID)
          = some x) ∧
        ∀ c, (mapExternalToDBProperty env r (txUserAndAgent env r tx).1 c).1.AgentID
          = some (tx.store.agentKey a.ID)) ∧
      ((syncSingleProperty env db r).1 = none →
        (∃ x, (syncSingleProperty env db r).2.store.agentRow (db.store.agentKey a.ID)
          = some x) ∧
        ∃ p, (syncSingleProperty env db r).2.store.properties = db.store.properties ++ [p] ∧
          (r.ID ≠ 0 → p.ID = r.ID) ∧ p.AgentID = some (db.store.agentKey a.ID) ∧
          (a.ID ≠ 0 → p.AgentID = some a.ID))) := by
  refine ⟨?_, ?_⟩
  · intro hr
    refine ⟨fun tx => txUserAndAgent_none env r tx hr,
      (syncSingleProperty_users_agents env db r hr).1,
      (syncSingleProperty_users_agents env db r hr).2,
      fun env2 h => syncSingleProperty_congr env env2 h db r hr, ?_⟩
    intro hok
    obtain ⟨_, hp⟩ := syncSingleProperty_inserted env db r hok
    refine ⟨_, hp, fun _ => rfl, ?_⟩
    rw [mapExternalToDBProperty_agentID, txUserAndAgent_none env r _ hr]
    rfl
  · intro a u ha hu
    refine ⟨writtenKey_of_ne _ _, writtenKey_ne_zero _ _, ?_, ?_⟩
    · intro tx h1 h2
      have hnone : (txUserAndAgent env r tx).2.1 = none := by
        simp [txUserAndAgent, ha, hu, upsertUser_eq, h1, upsertAgent_eq, h2]
      obtain ⟨hag, hrow⟩ := txUserAndAgent_handed env r a u ha hu tx hnone
      refine ⟨hag, hrow, fun c => ?_⟩
      rw [mapExternalToDBProperty_agentID, hag]
      rfl
    · intro hok
      obtain ⟨htx, hp⟩ := syncSingleProperty_inserted env db r hok
      obtain ⟨hag, x, hx⟩ := txUserAndAgent_handed env r a u ha hu
        { store := db.store, calls := db.calls + 2 } (syncTx_ok_parts env r _ htx).1
      have hid : (mapExternalToDBProperty env r
          (txUserAndAgent env r { store := db.store, calls := db.calls + 2 }).1
          (txCoverPhoto env r
            (txUserAndAgent env r { store := db.store, calls := db.calls + 2 }).2.2).1).1.AgentID
          = some (db.store.agentKey a.ID) := by
        rw [mapExternalToDBProperty_agentID, hag]
        rfl
      refine ⟨⟨x, ?_⟩, _, hp, fun _ => rfl, hid, ?_⟩
      · unfold Store.agentRow at hx ⊢
        rw [syncSingleProperty_agents env db r hok]
        exact hx
      · intro h0
        have hk : db.store.agentKey a.ID = a.ID := writtenKey_of_ne _ _ h0
        rw [hid, hk]

/-- Witness for C29: record 21 has agent 5 without a nested user, record 20
has agent 5 with nested user 7; both are synced into the empty database. -/
theorem agent_reference_witness :
    (syncSingleProperty singlePageSource emptyDB userlessAgentRecord).2.store.users = [] ∧
    (syncSingleProperty singlePageSource emptyDB userlessAgentRecord).2.store.agents = [] ∧
    syncSingleProperty userAgentDownSource emptyDB userlessAgentRecord
      = syncSingleProperty singlePageSource emptyDB userlessAgentRecord ∧
    (∃ p, (syncSingleProperty singlePageSource emptyDB userlessAgentRecord).2.store.properties
        = emptyDB.store.properties ++ [p] ∧
        (userlessAgentRecord.ID ≠ 0 → p.ID = userlessAgentRecord.ID) ∧ p.AgentID = none) ∧
    (syncSingleProperty singlePageSource emptyDB agentRecord).2.store.properties.map
      (fun p => (p.ID, p.AgentID)) = [(20, some 5)] ∧
    ((∃ x, (syncSingleProperty singlePageSource emptyDB agentRecord).2.store.agentRow
        (emptyDB.store.agentKey
          (bareAgent 5 "seven" (some (bareUser 7 "a@example.com" ""))).ID) = some x) ∧
      ∃ p, (syncSingleProperty singlePageSource emptyDB agentRecord).2.store.properties
        = emptyDB.store.properties ++ [p] ∧
        (agentRecord.ID ≠ 0 → p.ID = agentRecord.ID) ∧
        p.AgentID = some (emptyDB.store.agentKey
          (bareAgent 5 "seven" (some (bareUser 7 "a@example.com" ""))).ID) ∧
        ((bareAgent 5 "seven" (some (bareUser 7 "a@example.com" ""))).ID ≠ 0 →
          p.AgentID = some (bareAgent 5 "seven" (some (bareUser 7 "a@example.com" ""))).ID)) :=
  ⟨((agent_reference singlePageSource emptyDB userlessAgentRecord).1
      (Or.inr ⟨bareAgent 5 "7" none, rfl, rfl⟩)).2.1,
   ((agent_reference singlePageSource emptyDB userlessAgentRecord).1
      (Or.inr ⟨bareAgent 5 "7" none, rfl, rfl⟩)).2.2.1,
   ((agent_reference singlePageSource emptyDB userlessAgentRecord).1
      (Or.inr ⟨bareAgent 5 "7" none, rfl, rfl⟩)).2.2.2.1 userAgentDownSource
      ⟨rfl, rfl, fun n op h => by cases op <;> first | rfl | cases h⟩,
   ((agent_reference singlePageSource emptyDB userlessAgentRecord).1
      (Or.inr ⟨bareAgent 5 "7" none, rfl, rfl⟩)).2.2.2.2 (by decide),
   by decide,
   ((agent_reference singlePageSource emptyDB agentRecord).2
      (bareAgent 5 "seven" (some (bareUser 7 "a@example.com" "")))
      (bareUser 7 "a@example.com" "") rfl rfl).2.2.2 (by decide)⟩

/-- C29, the claim at an agent that carries the ID 0. Record 23 has an agent
with ID 0 and nested user 7. Synced into the empty database, the agent is
written under the key the database assigns, 1, and the inserted property has
`AgentID` 1, which is not the wire agent's ID 0. -/
theorem agent_reference_counterexample :
    zeroAgentRecord.Agent = some (bareAgent 0 "7" (some (bareUser 7 "a@example.com" ""))) ∧
    (bareAgent 0 "7" (some (bareUser 7 "a@example.com" ""))).ID = 0 ∧
    (syncSingleProperty singlePageSource emptyDB zeroAgentRecord).1 = none ∧
    (syncSingleProperty singlePageSource emptyDB zeroAgentRecord).2.store.agents.map
      (fun a => (a.ID, a.UserID)) = [(1, 7)] ∧
    (syncSingleProperty singlePageSource emptyDB zeroAgentRecord).2.store.properties.map
      (fun p => (p.ID, p.AgentID)) = [(23, some 1)] ∧
    ¬ ∃ p, (syncSingleProperty singlePageSource emptyDB zeroAgentRecord).2.store.properties
        = emptyDB.store.properties ++ [p] ∧
      p.AgentID = some (bareAgent 0 "7" (some (bareUser 7 "a@example.com" ""))).ID := by
  refine ⟨rfl, rfl, by decide, by decide, by decide, ?_⟩
  rintro ⟨p, hp, ha⟩
  have h1 : (syncSingleProperty singlePageSource emptyDB zeroAgentRecord).2.store.properties.map
      (fun p => p.AgentID) = [some 1] := by decide
  rw [hp] at h1
  simp only [List.map_append, List.map_cons, List.map_nil] at h1
  have h2 : emptyDB.store.properties = [] := rfl
  rw [h2] at h1
  simp only [List.map_nil, List.nil_append, List.cons.injEq, and_true] at h1
  rw [ha] at h1
  exact absurd h1 (by decide)

/-! ## Pagination parameters -/

theorem wrapInt_of_range (x : Int) (h0 : -2 ^ 63 ≤ x) (h1 : x < 2 ^ 63) : wrapInt x = x := by
  unfold wrapInt
  rw [Int.emod_eq_of_lt (by omega) (by omega)]
  omega

/-- C27 (amended). For every pair of integers, `GetPaginationParams` returns
Page >= 1 and 1 <= PageSize <= 100: page <= 0 becomes 1, pageSize <= 0
becomes 10, pageSize > 100 becomes 100, and values in range are returned
unchanged. The offset `PaginateScope` computes from its output is
(Page - 1) * PageSize, and so not negative, whenever that product is below
2^63 (in particular for every page up to 92233720368547759), and it is 0 for
page 1. -/
theorem pagination_bounds (page pageSize : Int) :
    1 ≤ (GetPaginationParams page pageSize).Page ∧
    1 ≤ (GetPaginationParams page pageSize).PageSize ∧
    (GetPaginationParams page pageSize).PageSize ≤ 100 ∧
    (page ≤ 0 → (GetPaginationParams page pageSize).Page = 1) ∧
    (0 < page → (GetPaginationParams page pageSize).Page = page) ∧
    (pageSize ≤ 0 → (GetPaginationParams page pageSize).PageSize = 10) ∧
    (100 < pageSize → (GetPaginationParams page pageSize).PageSize = 100) ∧
    (0 < pageSize → pageSize ≤ 100 → (GetPaginationParams page pageSize).PageSize = pageSize) ∧
    (∀ q : Query,
      ((GetPaginationParams page pageSize).Page - 1) * (GetPaginationParams page pageSize).PageSize
        < 2 ^ 63 →
      (PaginateScope (GetPaginationParams page pageSize).Page
          (GetPaginationParams page pageSize).PageSize q).offset
        = some (((GetPaginationParams page pageSize).Page - 1)
            * (GetPaginationParams page pageSize).PageSize) ∧
      0 ≤ ((GetPaginationParams page pageSize).Page - 1)
            * (GetPaginationParams page pageSize).PageSize) ∧
    (∀ q : Query, page ≤ 92233720368547759 →
      ∃ offset, (PaginateScope (GetPaginationParams page pageSize).Page
          (GetPaginationParams page pageSize).PageSize q).offset = some offset ∧ 0 ≤ offset) ∧
    (∀ q : Query, (GetPaginationParams page pageSize).Page = 1 →
      (PaginateScope (GetPaginationParams page pageSize).Page
          (GetPaginationParams page pageSize).PageSize q).offset = some 0) := by
  have hp1 : 1 ≤ (GetPaginationParams page pageSize).Page := by
    simp only [GetPaginationParams, DefaultPage]
    split_ifs <;> omega
  have hs1 : 1 ≤ (GetPaginationParams page pageSize).PageSize := by
    simp only [GetPaginationParams, DefaultPageSize, MaxPageSize]
    split_ifs <;> omega
  have hs2 : (GetPaginationParams page pageSize).PageSize ≤ 100 := by
    simp only [GetPaginationParams, DefaultPageSize, MaxPageSize]
    split_ifs <;> omega
  have hpage : 0 < page → (GetPaginationParams page pageSize).Page = page := by
    intro h
    simp only [GetPaginationParams, DefaultPage]
    split_ifs <;> omega
  have hoff : ∀ q : Query,
      ((GetPaginationParams page pageSize).Page - 1) * (GetPaginationParams page pageSize).PageSize
        < 2 ^ 63 →
      (PaginateScope (GetPaginationParams page pageSize).Page
          (GetPaginationParams page pageSize).PageSize q).offset
        = some (((GetPaginationParams page pageSize).Page - 1)
            * (GetPaginationParams page pageSize).PageSize) ∧
      0 ≤ ((GetPaginationParams page pageSize).Page - 1)
            * (GetPaginationParams page pageSize).PageSize := by
    intro q hlt
    generalize (GetPaginationParams page pageSize).Page = P at hp1 hlt ⊢
    generalize (GetPaginationParams page pageSize).PageSize = S at hs1 hs2 hlt ⊢
    have hnn : 0 ≤ (P - 1) * S := Int.mul_nonneg (by omega) (by omega)
    have hP : P - 1 < 2 ^ 63 := by
      have : P - 1 ≤ (P - 1) * S := by nlinarith
      omega
    refine ⟨?_, hnn⟩
    simp only [PaginateScope, Query.Limit, Query.Offset]
    rw [wrapInt_of_range (P - 1) (by omega) hP, wrapInt_of_range _ (by omega) hlt]
  refine ⟨hp1, hs1, hs2, ?_, hpage, ?_, ?_, ?_, hoff, ?_, ?_⟩
  · intro h
    simp only [GetPaginationParams, DefaultPage]
    rw [if_pos h]
  · intro h
    simp only [GetPaginationParams, DefaultPageSize, MaxPageSize]
    split_ifs <;> omega
  · intro h
    simp only [GetPaginationParams, DefaultPageSize, MaxPageSize]
    split_ifs <;> omega
  · intro h0 h1
    simp only [GetPaginationParams, DefaultPageSize, MaxPageSize]
    split_ifs <;> omega
  · intro q hle
    refine ⟨_, (hoff q ?_).1, (hoff q ?_).2⟩ <;>
    · have hP : (GetPaginationParams page pageSize).Page ≤ 92233720368547759 := by
        by_cases h0 : 0 < page
        · rw [hpage h0]; exact hle
        · simp only [GetPaginationParams, DefaultPage]
          split_ifs <;> omega
      generalize (GetPaginationParams page pageSize).Page = P at hp1 hP ⊢
      generalize (GetPaginationParams page pageSize).PageSize = S at hs1 hs2 ⊢
      nlinarith
  · intro q h1
    have := (hoff q (by rw [h1]; simp)).1
    rw [this, h1]
    simp

/-- Witness for C27: page 3 with page size 20 gives offset 40; page 0 with
page size 500 gives page 1, page size 100 and offset 0. -/
theorem pagination_bounds_witness :
    (PaginateScope (GetPaginationParams 3 20).Page (GetPaginationParams 3 20).PageSize
      Query.Model).offset = some 40 ∧
    (GetPaginationParams 0 500).Page = 1 ∧
    (GetPaginationParams 0 500).PageSize = 100 ∧
    (PaginateScope (GetPaginationParams 0 500).Page (GetPaginationParams 0 500).PageSize
      Query.Model).offset = some 0 :=
  ⟨((pagination_bounds 3 20).2.2.2.2.2.2.2.2.1 Query.Model (by decide)).1,
   (pagination_bounds 0 500).2.2.2.1 (by decide),
   (pagination_bounds 0 500).2.2.2.2.2.2.1 (by decide),
   (pagination_bounds 0 500).2.2.2.2.2.2.2.2.2.2 Query.Model (by decide)⟩

/-- Counterexample to C27 as stated: for page 9223372036854775807 (the
largest `int`) and page size 100, `GetPaginationParams` returns both values
unchanged and the offset computed by `PaginateScope` is -200. -/
theorem pagination_bounds_counterexample :
    GetPaginationParams 9223372036854775807 100
      = { Page := 9223372036854775807, PageSize := 100 } ∧
    (PaginateScope (GetPaginationParams 9223372036854775807 100).Page
      (GetPaginationParams 9223372036854775807 100).PageSize Query.Model).offset
        = some (-200) ∧
    (-200 : Int) < 0 := by
  decide

/-! ## The page count of a paginated response -/

theorem roundHalfEven_intCast (n : ℤ) : roundHalfEven (n : ℚ) = n := by
  simp [roundHalfEven]

theorem floor_le_roundHalfEven (x : ℚ) : ⌊x⌋ ≤ roundHalfEven x := by
  unfold roundHalfEven
  split_ifs <;> omega

theorem roundHalfEven_le (x : ℚ) : roundHalfEven x ≤ ⌊x⌋ + 1 := by
  unfold roundHalfEven
  split_ifs <;> omega

theorem roundHalfEven_of_half_lt (x : ℚ) (h : 1 / 2 < x - ⌊x⌋) :
    roundHalfEven x = ⌊x⌋ + 1 := by
  unfold roundHalfEven
  rw [if_neg (by linarith), if_pos h]

/-- Dividing by the unit in the last place is multiplying by a power of two. -/
theorem div_ulp (x : ℚ) (e : ℤ) (he : e ≤ 52) :
    x / 2 ^ (e - 52) = x * ((2 ^ (52 - e).toNat : ℕ) : ℚ) := by
  have h : (2 : ℚ) ^ (e - 52) = ((2 : ℚ) ^ (52 - e).toNat)⁻¹ := by
    rw [← zpow_natCast, Int.toNat_of_nonneg (by omega), ← zpow_neg]
    congr 1
    omega
  rw [h, div_inv_eq_mul]
  push_cast
  rfl

theorem toFloat64_natCast (n : ℕ) (h : n ≤ 2 ^ 53) : toFloat64 (n : ℚ) = n := by
  unfold toFloat64
  split_ifs with h0
  · exact h0.symm
  · have hn : n ≠ 0 := by exact_mod_cast h0
    have habs : |(n : ℚ)| = n := abs_of_nonneg (by positivity)
    rw [habs, Int.log_natCast]
    by_cases h53 : n = 2 ^ 53
    · subst h53
      have : Nat.log 2 (2 ^ 53) = 53 := Nat.log_pow (by norm_num) 53
      rw [this]
      have h2 : ((2 ^ 53 : ℕ) : ℚ) / 2 ^ ((53 : ℕ) - 52 : ℤ) = ((2 ^ 52 : ℤ) : ℚ) := by
        norm_num
      rw [h2, roundHalfEven_intCast]
      norm_num
    · have hlt : n < 2 ^ 53 := lt_of_le_of_ne h h53
      have hlog : Nat.log 2 n < 53 := Nat.log_lt_of_lt_pow hn hlt
      have he : ((Nat.log 2 n : ℕ) : ℤ) ≤ 52 := by omega
      rw [div_ulp _ _ he]
      have : ((n : ℚ) * ((2 ^ (52 - (Nat.log 2 n : ℤ)).toNat : ℕ) : ℚ))
          = (((n * 2 ^ (52 - (Nat.log 2 n : ℤ)).toNat : ℕ) : ℤ) : ℚ) := by
        push_cast
        rfl
      rw [this, roundHalfEven_intCast, ← this, ← div_ulp _ _ he]
      have hpos : (2 : ℚ) ^ ((Nat.log 2 n : ℤ) - 52) ≠ 0 := by positivity
      field_simp

theorem toFloat64_of_pos (x : ℚ) (hx : 0 < x) (he : Int.log 2 x ≤ 52) :
    toFloat64 x
      = roundHalfEven (x * ((2 ^ (52 - Int.log 2 x).toNat : ℕ) : ℚ))
          / ((2 ^ (52 - Int.log 2 x).toNat : ℕ) : ℚ) := by
  unfold toFloat64
  rw [if_neg hx.ne', abs_of_pos hx, div_ulp _ _ he]
  have h : (2 : ℚ) ^ (Int.log 2 x - 52) = (((2 ^ (52 - Int.log 2 x).toNat : ℕ) : ℚ))⁻¹ := by
    have := div_ulp 1 _ he
    rw [one_div, one_mul] at this
    rw [← this, inv_inv]
  rw [h, div_eq_mul_inv]

theorem ulp_scale (x : ℚ) (he : Int.log 2 x ≤ 52) :
    (((2 ^ (52 - Int.log 2 x).toNat : ℕ) : ℚ)) = (2 : ℚ) ^ (52 - Int.log 2 x) := by
  push_cast
  rw [← zpow_natCast, Int.toNat_of_nonneg (by omega)]

theorem roundHalfEven_scaled_le (q : ℚ) (K : ℕ) (hK : 0 < K) :
    roundHalfEven (q * K) ≤ (⌊q⌋ + 1) * K := by
  have hKq : (0 : ℚ) < K := by exact_mod_cast hK
  have hqn : q < ((⌊q⌋ : ℤ) : ℚ) + 1 := Int.lt_floor_add_one q
  have h1 : q * K < (((⌊q⌋ + 1) * K : ℤ) : ℚ) := by
    push_cast
    exact mul_lt_mul_of_pos_right hqn hKq
  have h2 : ⌊q * K⌋ < (⌊q⌋ + 1) * K := Int.floor_lt.mpr h1
  have := roundHalfEven_le (q * K)
  omega

theorem floor_scaled_le (q : ℚ) (K : ℕ) : ⌊q⌋ * K ≤ ⌊q * K⌋ := by
  rw [Int.le_floor]
  push_cast
  exact mul_le_mul_of_nonneg_right (Int.floor_le q) (by positivity)

theorem roundHalfEven_scaled_gt (q : ℚ) (K a b : ℕ) (hb : 0 < b) (hqb : q * b = a)
    (hnq : ((⌊q⌋ : ℤ) : ℚ) < q) (hb2 : b < 2 * K) :
    ⌊q⌋ * K + 1 ≤ roundHalfEven (q * K) := by
  have hbq : (0 : ℚ) < b := by exact_mod_cast hb
  rcases (floor_scaled_le q K).lt_or_eq with h | h
  · have := floor_le_roundHalfEven (q * K)
    omega
  · have hnb : ⌊q⌋ * b + 1 ≤ a := by
      have h1 : ((⌊q⌋ : ℤ) : ℚ) * b < a := by
        rw [← hqb]
        exact mul_lt_mul_of_pos_right hnq hbq
      have h2 : ⌊q⌋ * (b : ℤ) < (a : ℤ) := by exact_mod_cast h1
      omega
    have hd : (1 : ℚ) ≤ (q - ⌊q⌋) * b := by
      have h3 : ((⌊q⌋ * b + 1 : ℤ) : ℚ) ≤ ((a : ℤ) : ℚ) := by exact_mod_cast hnb
      push_cast at h3
      linarith
    have hdpos : 0 < q - ⌊q⌋ := by linarith
    have hb2q : (b : ℚ) < 2 * K := by exact_mod_cast hb2
    have hhalf : 1 / 2 < q * K - ⌊q * K⌋ := by
      rw [← h]
      push_cast
      have h4 : (q - ⌊q⌋) * b < (q - ⌊q⌋) * (2 * K) := mul_lt_mul_of_pos_left hb2q hdpos
      linarith
    rw [roundHalfEven_of_half_lt _ hhalf]
    omega

/-- For a quotient of at least one, the denominator is below twice the
scaling factor. -/
theorem denominator_lt_scale (q : ℚ) (a b : ℕ) (ha : a ≤ 2 ^ 53) (hb : 0 < b)
    (hqb : q * b = a) (hnq : ((⌊q⌋ : ℤ) : ℚ) < q) (h1q : 1 ≤ q) (he : Int.log 2 q ≤ 52) :
    b < 2 * 2 ^ (52 - Int.log 2 q).toNat := by
  have hqpos : 0 < q := by linarith
  have hbq : (0 : ℚ) < b := by exact_mod_cast hb
  have hlo : (2 : ℚ) ^ Int.log 2 q ≤ q := Int.zpow_log_le_self (by norm_num) hqpos
  have hhi : q < (2 : ℚ) ^ (Int.log 2 q + 1) := Int.lt_zpow_succ_log_self (by norm_num) q
  have he0 : 0 ≤ Int.log 2 q := by
    by_contra hcon
    have hle : Int.log 2 q + 1 ≤ 0 := by omega
    have : (2 : ℚ) ^ (Int.log 2 q + 1) ≤ 2 ^ (0 : ℤ) := zpow_le_zpow_right₀ (by norm_num) hle
    simp at this
    linarith
  obtain ⟨E, hE⟩ : ∃ E : ℕ, Int.log 2 q = E := ⟨(Int.log 2 q).toNat, (Int.toNat_of_nonneg he0).symm⟩
  rw [hE] at hlo he ⊢
  have hE52 : E ≤ 52 := by omega
  have hK : (52 - (E : ℤ)).toNat = 52 - E := by omega
  rw [hK]
  rw [zpow_natCast] at hlo
  -- 2^E * b ≤ q * b = a ≤ 2^53
  have h1 : ((2 ^ E * b : ℕ) : ℚ) < ((2 ^ 53 : ℕ) : ℚ) := by
    push_cast
    have h2 : (2 : ℚ) ^ E * b ≤ q * b := mul_le_mul_of_nonneg_right hlo hbq.le
    have h3 : (a : ℚ) ≤ 2 ^ 53 := by exact_mod_cast ha
    have h4 : ((⌊q⌋ : ℤ) : ℚ) * b < q * b := mul_lt_mul_of_pos_right hnq hbq
    have h5 : (2 : ℚ) ^ E ≤ ((⌊q⌋ : ℤ) : ℚ) := by
      have : ((2 ^ E : ℕ) : ℤ) ≤ ⌊q⌋ := by
        rw [Int.le_floor]
        push_cast
        exact hlo
      exact_mod_cast this
    have h6 : (2 : ℚ) ^ E * b ≤ ((⌊q⌋ : ℤ) : ℚ) * b := mul_le_mul_of_nonneg_right h5 hbq.le
    linarith
  have h7 : 2 ^ E * b < 2 ^ 53 := by exact_mod_cast h1
  have h8 : 2 ^ 53 = 2 ^ E * (2 * 2 ^ (52 - E)) := by
    rw [← pow_succ', ← pow_add]
    congr 1
    omega
  rw [h8] at h7
  exact Nat.lt_of_mul_lt_mul_left h7

theorem ceil_toFloat64_ratio (a b : ℕ) (ha : a ≤ 2 ^ 53) (hb : 0 < b) :
    ⌈toFloat64 ((a : ℚ) / b)⌉ = ⌈(a : ℚ) / b⌉ := by
  have hbq : (0 : ℚ) < b := by exact_mod_cast hb
  by_cases hint : ∃ n : ℕ, (a : ℚ) / b = n
  · obtain ⟨n, hn⟩ := hint
    rw [hn]
    have hna : n ≤ a := by
      have h1 : (n : ℚ) * b = a := by rw [← hn]; field_simp
      have h2 : n * b = a := by exact_mod_cast h1
      calc n = n * 1 := (Nat.mul_one n).symm
        _ ≤ n * b := Nat.mul_le_mul_left n hb
        _ = a := h2
    rw [toFloat64_natCast n (le_trans hna ha)]
  · have ha0 : 0 < a := by
      rcases Nat.eq_zero_or_pos a with h | h
      · exact absurd ⟨0, by simp [h]⟩ hint
      · exact h
    have haq : (0 : ℚ) < a := by exact_mod_cast ha0
    generalize hq : (a : ℚ) / b = q at hint ⊢
    have hqb : q * b = a := by rw [← hq]; field_simp
    have hqpos : 0 < q := by rw [← hq]; exact div_pos haq hbq
    have hn0 : 0 ≤ ⌊q⌋ := Int.floor_nonneg.mpr hqpos.le
    have hnq : ((⌊q⌋ : ℤ) : ℚ) < q := by
      rcases (Int.floor_le q).lt_or_eq with h | h
      · exact h
      · exfalso
        apply hint
        refine ⟨⌊q⌋.toNat, ?_⟩
        rw [← h]
        have : ((⌊q⌋.toNat : ℕ) : ℤ) = ⌊q⌋ := Int.toNat_of_nonneg hn0
        exact_mod_cast this.symm
    have hqn : q < ((⌊q⌋ : ℤ) : ℚ) + 1 := Int.lt_floor_add_one q
    have hceil : ⌈q⌉ = ⌊q⌋ + 1 := by
      rw [Int.ceil_eq_iff]
      push_cast
      constructor <;> linarith
    rw [hceil]
    have hlo : (2 : ℚ) ^ Int.log 2 q ≤ q := Int.zpow_log_le_self (by norm_num) hqpos
    have hq53 : q < 2 ^ 53 := by
      have hqa : q ≤ a := by
        have h1 : (1 : ℚ) ≤ b := by exact_mod_cast hb
        have h2 : q * 1 ≤ q * b := mul_le_mul_of_nonneg_left h1 hqpos.le
        linarith
      have hle : q ≤ 2 ^ 53 := le_trans hqa (by exact_mod_cast ha)
      rcases hle.lt_or_eq with h | h
      · exact h
      · exact absurd ⟨2 ^ 53, by rw [h]; norm_num⟩ hint
    have he : Int.log 2 q ≤ 52 := by
      by_contra hcon
      have h53 : (53 : ℤ) ≤ Int.log 2 q := by omega
      have : (2 : ℚ) ^ (53 : ℤ) ≤ 2 ^ Int.log 2 q := zpow_le_zpow_right₀ (by norm_num) h53
      have h2 : (2 : ℚ) ^ (53 : ℤ) = 2 ^ 53 := by norm_num
      linarith
    rw [toFloat64_of_pos q hqpos he]
    have hKz := ulp_scale q he
    generalize hK : 2 ^ (52 - Int.log 2 q).toNat = K at hKz ⊢
    have hKn : 0 < K := by rw [← hK]; positivity
    have hKpos : (0 : ℚ) < K := by exact_mod_cast hKn
    have hup := roundHalfEven_scaled_le q K hKn
    have hlow : ⌊q⌋ * K + 1 ≤ roundHalfEven (q * K) := by
      rcases hn0.lt_or_eq with hpos | hzero
      · have h1q : (1 : ℚ) ≤ q := by
          have : ((1 : ℤ) : ℚ) ≤ ((⌊q⌋ : ℤ) : ℚ) := by exact_mod_cast hpos
          push_cast at this
          linarith
        have hb2 := denominator_lt_scale q a b ha hb hqb hnq h1q he
        rw [hK] at hb2
        exact roundHalfEven_scaled_gt q K a b hb hqb hnq hb2
      · have h1 : (1 : ℚ) ≤ q * K := by
          have h2 : (2 : ℚ) ^ Int.log 2 q * 2 ^ (52 - Int.log 2 q) = 2 ^ (52 : ℤ) := by
            rw [← zpow_add₀ (by norm_num)]
            congr 1
            omega
          have h3 : (2 : ℚ) ^ Int.log 2 q * K ≤ q * K :=
            mul_le_mul_of_nonneg_right hlo hKpos.le
          rw [hKz] at h3 ⊢
          rw [h2] at h3
          have h4 : (1 : ℚ) ≤ 2 ^ (52 : ℤ) := by norm_num
          linarith
        have h5 : (1 : ℤ) ≤ ⌊q * K⌋ := by
          rw [Int.le_floor]
          exact_mod_cast h1
        have := floor_le_roundHalfEven (q * K)
        rw [← hzero]
        omega
    rw [Int.ceil_eq_iff]
    push_cast
    constructor
    · rw [lt_div_iff₀ hKpos]
      have : ((⌊q⌋ * K + 1 : ℤ) : ℚ) ≤ roundHalfEven (q * K) := by exact_mod_cast hlow
      push_cast at this
      linarith
    · rw [div_le_iff₀ hKpos]
      have : ((roundHalfEven (q * K) : ℤ) : ℚ) ≤ (((⌊q⌋ + 1) * K : ℤ) : ℚ) := by
        exact_mod_cast hup
      push_cast at this
      linarith

theorem floatToInt_intCast (z : ℤ) (h0 : -2 ^ 63 ≤ z) (h1 : z < 2 ^ 63) :
    floatToInt (z : ℚ) = z := by
  unfold floatToInt
  have h0q : (-2 ^ 63 : ℚ) ≤ z := by exact_mod_cast h0
  have h1q : (z : ℚ) < 2 ^ 63 := by exact_mod_cast h1
  rw [if_pos ⟨h0q, h1q⟩]
  split_ifs <;> simp

theorem totalPages_of_nat (a b : ℕ) (ha : a ≤ 2 ^ 53) (hb : 0 < b) (hb53 : b ≤ 2 ^ 53) :
    floatToInt (Ceil (toFloat64 (toFloat64 ((a : ℤ) : ℚ) / toFloat64 ((b : ℤ) : ℚ))))
      = ⌈(a : ℚ) / b⌉ := by
  rw [Int.cast_natCast, Int.cast_natCast, toFloat64_natCast a ha, toFloat64_natCast b hb53]
  unfold Ceil
  rw [ceil_toFloat64_ratio a b ha hb]
  have hbq : (0 : ℚ) < b := by exact_mod_cast hb
  have h0 : (0 : ℤ) ≤ ⌈(a : ℚ) / b⌉ := Int.ceil_nonneg (by positivity)
  have h1 : ⌈(a : ℚ) / b⌉ ≤ a := by
    rw [Int.ceil_le]
    push_cast
    rw [div_le_iff₀ hbq]
    have h2 : (1 : ℚ) ≤ b := by exact_mod_cast hb
    have h3 : (0 : ℚ) ≤ a := by positivity
    nlinarith
  have h2 : (a : ℤ) ≤ 2 ^ 53 := by exact_mod_cast ha
  exact floatToInt_intCast _ (by omega) (by omega)

/-- C28 (amended). `CreatePaginatedResponse` passes Data, Page, PageSize and
TotalItems through and sets TotalPages to 0 when pageSize <= 0. For
0 <= totalItems <= 2^53 and 0 < pageSize <= 2^53, TotalPages is the ceiling of
totalItems / pageSize: the least n with n * pageSize >= totalItems, and 0 when
totalItems is 0. -/
theorem total_pages_ceiling {α : Type} (data : α) (totalItems page pageSize : Int) :
    (CreatePaginatedResponse data totalItems page pageSize).Data = data ∧
    (CreatePaginatedResponse data totalItems page pageSize).Page = page ∧
    (CreatePaginatedResponse data totalItems page pageSize).PageSize = pageSize ∧
    (CreatePaginatedResponse data totalItems page pageSize).TotalItems = totalItems ∧
    (pageSize ≤ 0 → (CreatePaginatedResponse data totalItems page pageSize).TotalPages = 0) ∧
    (0 ≤ totalItems → totalItems ≤ 2 ^ 53 → 0 < pageSize → pageSize ≤ 2 ^ 53 →
      (CreatePaginatedResponse data totalItems page pageSize).TotalPages
        = ⌈(totalItems : ℚ) / pageSize⌉ ∧
      totalItems ≤ (CreatePaginatedResponse data totalItems page pageSize).TotalPages * pageSize ∧
      (∀ n : Int, totalItems ≤ n * pageSize →
        (CreatePaginatedResponse data totalItems page pageSize).TotalPages ≤ n) ∧
      (totalItems = 0 → (CreatePaginatedResponse data totalItems page pageSize).TotalPages = 0)) := by
  refine ⟨rfl, rfl, rfl, rfl, ?_, ?_⟩
  · intro h
    simp only [CreatePaginatedResponse]
    rw [if_neg (by omega)]
  · intro h0 h53 hp hp53
    obtain ⟨a, rfl⟩ := Int.eq_ofNat_of_zero_le h0
    obtain ⟨b, rfl⟩ := Int.eq_ofNat_of_zero_le hp.le
    have ha : a ≤ 2 ^ 53 := by exact_mod_cast h53
    have hb : 0 < b := by exact_mod_cast hp
    have hb53 : b ≤ 2 ^ 53 := by exact_mod_cast hp53
    have hbq : (0 : ℚ) < b := by exact_mod_cast hb
    have hT : (CreatePaginatedResponse data (a : ℤ) page (b : ℤ)).TotalPages
        = ⌈(a : ℚ) / b⌉ := by
      simp only [CreatePaginatedResponse]
      rw [if_pos hp]
      exact totalPages_of_nat a b ha hb hb53
    rw [hT]
    refine ⟨by push_cast; rfl, ?_, ?_, ?_⟩
    · have h1 : (a : ℚ) / b ≤ ⌈(a : ℚ) / b⌉ := Int.le_ceil _
      rw [div_le_iff₀ hbq] at h1
      exact_mod_cast h1
    · intro n hn
      rw [Int.ceil_le, div_le_iff₀ hbq]
      exact_mod_cast hn
    · intro hz
      have : a = 0 := by exact_mod_cast hz
      subst this
      simp

/-- The conversion of 2^53 + 1 is a tie and goes to 2^53. -/
theorem toFloat64_tie : toFloat64 9007199254740993 = 9007199254740992 := by
  have hlog : Int.log 2 |(9007199254740993 : ℚ)| = 53 := by
    rw [abs_of_pos (by norm_num)]
    have : (9007199254740993 : ℚ) = ((9007199254740993 : ℕ) : ℚ) := by norm_num
    rw [this, Int.log_natCast]
    have : Nat.log 2 9007199254740993 = 53 := by
      rw [Nat.log_eq_iff (Or.inl (by norm_num))]
      norm_num
    rw [this]
    rfl
  have hfloor : ⌊(9007199254740993 : ℚ) / 2⌋ = 4503599627370496 := by
    rw [Int.floor_eq_iff]
    norm_num
  unfold toFloat64
  rw [if_neg (by norm_num), hlog]
  have hu : (2 : ℚ) ^ ((53 : ℤ) - 52) = 2 := by norm_num
  rw [hu]
  have hr : roundHalfEven ((9007199254740993 : ℚ) / 2) = 4503599627370496 := by
    unfold roundHalfEven
    rw [hfloor]
    norm_num
  rw [hr]
  norm_num

/-- Witness for C28: 101 items in pages of 10 give 11 pages; no items give
no page; a page size of 0 gives 0. -/
theorem total_pages_ceiling_witness :
    (CreatePaginatedResponse () 101 2 10).TotalPages = 11 ∧
    (CreatePaginatedResponse () 0 1 10).TotalPages = 0 ∧
    (CreatePaginatedResponse () 5 1 0).TotalPages = 0 := by
  have h := (total_pages_ceiling () 101 2 10).2.2.2.2.2 (by norm_num) (by norm_num)
    (by norm_num) (by norm_num)
  have h0 := (total_pages_ceiling () 0 1 10).2.2.2.2.2 (by norm_num) (by norm_num)
    (by norm_num) (by norm_num)
  refine ⟨?_, h0.2.2.2 rfl, (total_pages_ceiling () 5 1 0).2.2.2.2.1 (by norm_num)⟩
  have h1 := h.2.1
  have h2 := h.2.2.1 11 (by norm_num)
  omega

/-- Counterexample to C28 as stated: for totalItems = 2^53 + 1 and pageSize
= 1 the conversion to `float64` rounds the total to 2^53, and TotalPages is
9007199254740992, which is not the ceiling: TotalPages * pageSize is below
totalItems. -/
theorem total_pages_counterexample :
    (CreatePaginatedResponse () 9007199254740993 1 1).TotalPages = 9007199254740992 ∧
    ¬ ((9007199254740993 : Int)
        ≤ (CreatePaginatedResponse () 9007199254740993 1 1).TotalPages * 1) := by
  have h : (CreatePaginatedResponse () 9007199254740993 1 1).TotalPages = 9007199254740992 := by
    simp only [CreatePaginatedResponse]
    rw [if_pos (by norm_num)]
    have h1 : toFloat64 ((1 : ℤ) : ℚ) = 1 := by
      have := toFloat64_natCast 1 (by norm_num)
      simpa using this
    have h2 : ((9007199254740993 : ℤ) : ℚ) = 9007199254740993 := by norm_num
    rw [h1, h2, toFloat64_tie, div_one]
    have h3 : toFloat64 9007199254740992 = 9007199254740992 := by
      have := toFloat64_natCast 9007199254740992 (by norm_num)
      simpa using this
    rw [h3]
    unfold Ceil
    have h4 : ⌈(9007199254740992 : ℚ)⌉ = 9007199254740992 := by
      rw [Int.ceil_eq_iff]
      norm_num
    rw [h4]
    exact floatToInt_intCast _ (by norm_num) (by norm_num)
  refine ⟨h, ?_⟩
  rw [h]
  norm_num

/-! ## Filters -/

theorem where_if (c : Prop) [Decidable c] (q : Query) (sql : String) (arg : SQLArg) :
    (if c then q.Where sql arg else q)
      = { q with conds := q.conds ++ if c then [.expr sql arg] else [] } := by
  by_cases h : c <;> simp [h, Query.Where]

theorem textCondition_eq (value : Option String) (mk : String → Condition) :
    (if value ≠ none ∧ deref value ≠ "" then [mk (deref value)] else [])
      = textCondition value mk := by
  cases value with
  | none => simp [textCondition]
  | some v => by_cases h : v = "" <;> simp [textCondition, deref, h]

theorem valueCondition_eq {α : Type} [Inhabited α] [DecidableEq α] (value : Option α) (mk : α → Condition) :
    (if value ≠ none then [mk (deref value)] else []) = valueCondition value mk := by
  cases value with
  | none => simp [valueCondition]
  | some v => simp [valueCondition, deref]

theorem textSet_iff (value : Option String) :
    textSet value = true ↔ value ≠ none ∧ deref value ≠ "" := by
  cases value with
  | none => simp [textSet]
  | some v => simp [textSet, deref]

theorem textCondition_length (value : Option String) (mk : String → Condition) :
    (textCondition value mk).length = (textSet value).toNat := by
  cases value with
  | none => rfl
  | some v =>
    by_cases h : v = ""
    · simp [textCondition, textSet, h]
    · have hb : (v != "") = true := by simpa using h
      simp [textCondition, textSet, h, hb]

theorem valueCondition_length {α : Type} (value : Option α) (mk : α → Condition) :
    (valueCondition value mk).length = value.isSome.toNat := by
  cases value <;> rfl

theorem textCondition_unset (value : Option String) (mk : String → Condition)
    (h : textSet value = false) : textCondition value mk = [] := by
  cases value with
  | none => rfl
  | some v =>
    by_cases hv : v = ""
    · simp [textCondition, hv]
    · simp [textSet, hv] at h

theorem applyPropertyFilters_eq (query : Query) (filter : PropertyFilter) :
    applyPropertyFilters query filter
      = { query with
          joins := query.joins ++ expectedJoins filter
          conds := query.conds ++ expectedConditions filter } := by
  have e1 := textCondition_eq filter.OwnerName
    (fun v => .expr "properties.owner_name ILIKE ?" (.text ("%" ++ v ++ "%")))
  have e2 := textCondition_eq filter.PropertyType
    (fun v => .expr "properties.property_type = ?" (.text v))
  have e3 := textCondition_eq filter.ConstructionStage
    (fun v => .expr "properties.construction_stage = ?" (.text v))
  have e4 := textCondition_eq filter.ListingType
    (fun v => .expr "properties.listing_type = ?" (.text v))
  have e5 := valueCondition_eq filter.MinPrice
    (fun v => .expr "properties.price >= ?" (.float v))
  have e6 := valueCondition_eq filter.MaxPrice
    (fun v => .expr "properties.price <= ?" (.float v))
  have e7 := valueCondition_eq filter.AgentID
    (fun v => .expr "properties.agent_id = ?" (.uint v))
  have e8 := textCondition_eq filter.District
    (fun v => .expr "locations.district ILIKE ?" (.text ("%" ++ v ++ "%")))
  have e9 := textCondition_eq filter.Area
    (fun v => .expr "locations.area ILIKE ?" (.text ("%" ++ v ++ "%")))
  have hD := textSet_iff filter.District
  have hA := textSet_iff filter.Area
  unfold applyPropertyFilters expectedConditions expectedJoins
  simp only [where_if, Query.Joins]
  beta_reduce at e1 e2 e3 e4 e5 e6 e7 e8 e9
  rw [e1, e2, e3, e4, e5, e6, e7]
  simp only [e8, e9]
  by_cases hPD : filter.District ≠ none ∧ deref filter.District ≠ ""
  · have htD : textSet filter.District = true := hD.mpr hPD
    simp [hPD, htD]
  · have htD : textSet filter.District = false := by
      cases h : textSet filter.District with
      | false => rfl
      | true => exact absurd (hD.mp h) hPD
    by_cases hPA : filter.Area ≠ none ∧ deref filter.Area ≠ ""
    · have htA : textSet filter.Area = true := hA.mpr hPA
      simp [hPD, hPA, htD, htA]
    · have htA : textSet filter.Area = false := by
        cases h : textSet filter.Area with
        | false => rfl
        | true => exact absurd (hA.mp h) hPA
      simp [hPD, hPA, htD, htA, textCondition_unset _ _ htD, textCondition_unset _ _ htA]

/-- C21. `applyPropertyFilters` appends to the conditions of the query one
condition per filter that is set (a string filter when it is not nil and not
empty; minPrice, maxPrice and agentId when not nil), in the fixed order owner
name, property type, construction stage, listing type, minimum price, maximum
price, agent, district, area, each with its own argument, and appends the
join of the locations table once exactly when the district or the area
filter is set. An empty filter leaves the query as it is. The filter of the
combined test gives the join and its five conditions. -/
theorem filter_conditions (query : Query) (filter : PropertyFilter) :
    applyPropertyFilters query filter
      = { query with
          joins := query.joins ++ expectedJoins filter
          conds := query.conds ++ expectedConditions filter } ∧
    (expectedConditions filter).length = setCount filter ∧
    (expectedJoins filter
        = if textSet filter.District = true ∨ textSet filter.Area = true then
            ["JOIN locations ON locations.property_id = properties.id"]
          else []) ∧
    applyPropertyFilters query emptyFilter = query ∧
    applyPropertyFilters Query.Model combinedFilter
      = { Query.Model with
          joins := ["JOIN locations ON locations.property_id = properties.id"]
          conds :=
            [.expr "properties.owner_name ILIKE ?" (.text "%Combined Owner%"),
             .expr "properties.property_type = ?" (.text "Residential"),
             .expr "properties.price >= ?" (.float ⟨4677104761256804352⟩),
             .expr "properties.agent_id = ?" (.uint 20),
             .expr "locations.district ILIKE ?" (.text "%Suburb%")] } := by
  refine ⟨applyPropertyFilters_eq query filter, ?_, ?_, ?_, ?_⟩
  · simp only [expectedConditions, setCount, List.length_append, textCondition_length,
      valueCondition_length]
  · unfold expectedJoins
    by_cases h : textSet filter.District = true ∨ textSet filter.Area = true
    · rw [if_pos h, if_pos (by simpa using h)]
    · rw [if_neg h, if_neg (by simpa using h)]
  · rw [applyPropertyFilters_eq]
    simp [expectedJoins, expectedConditions, emptyFilter, textCondition, valueCondition, textSet]
  · decide

/-! ## Search -/

/-- The query a search builds before it is counted. -/
theorem SearchProperties_sent (db : ReadDB) (term : String) (pag : PaginationRequest) :
    ∃ q : Query,
      (q = if term ≠ "" then
            { Query.Model with joins := searchJoins, conds := [searchGroup term] }
          else Query.Model) ∧
      ((SearchProperties db term pag).2 = [.count q] ∨
        (SearchProperties db term pag).2
          = [.count q,
             .find { q with
               orders := ["properties.created_at DESC"]
               offset := some (wrapInt (wrapInt (pag.Page - 1) * pag.PageSize))
               limit := some pag.PageSize
               preloads := ["Location", "Agent.User", "CoverPhoto"] }]) ∧
      ((SearchProperties db term pag).2 = [.count q] ↔ ∃ e, db.count q = .error e) := by
  refine ⟨_, rfl, ?_, ?_⟩
  · by_cases ht : term = ""
    · subst ht
      simp only [SearchProperties, ne_eq, not_true_eq_false, if_false]
      rcases hc : db.count Query.Model with e | n
      · exact Or.inl rfl
      · right
        simp only
        rcases hf : db.find _ with e | rows <;> rfl
    · simp only [SearchProperties, ne_eq, ht, not_false_eq_true, if_true]
      rcases hc : db.count _ with e | n
      · exact Or.inl rfl
      · right
        simp only
        rcases hf : db.find _ with e | rows <;> rfl
  · by_cases ht : term = ""
    · subst ht
      simp only [SearchProperties, ne_eq, not_true_eq_false, if_false]
      rcases hc : db.count Query.Model with e | n
      · simp
      · simp only
        rcases hf : db.find _ with e | rows <;> simp
    · simp only [SearchProperties, ne_eq, ht, not_false_eq_true, if_true]
      have hq : ((((Query.Model.Joins "JOIN locations ON locations.property_id = properties.id").Joins
          "LEFT JOIN agents ON agents.id = properties.agent_id").Joins
          "LEFT JOIN users ON users.id = agents.user_id").WhereGroup
        [("properties.owner_name ILIKE ?", .text ("%" ++ term ++ "%")),
         ("properties.description ILIKE ?", .text ("%" ++ term ++ "%")),
         ("properties.property_design ILIKE ?", .text ("%" ++ term ++ "%")),
         ("locations.district ILIKE ?", .text ("%" ++ term ++ "%")),
         ("locations.area ILIKE ?", .text ("%" ++ term ++ "%")),
         ("locations.sub_area ILIKE ?", .text ("%" ++ term ++ "%")),
         ("users.name ILIKE ?", .text ("%" ++ term ++ "%"))])
          = { Query.Model with joins := searchJoins, conds := [searchGroup term] } := rfl
      rw [hq]
      rcases hc : db.count _ with e | n
      · simp
      · simp only
        rcases hf : db.find _ with e | rows <;> simp

/-- C22. With a non-empty term every query `SearchProperties` hands to the
database carries the three joins (locations, LEFT JOIN agents, LEFT JOIN
users) and, as its only condition, one OR-group of seven `ILIKE` expressions
(owner name, description, property design, district, area, sub-area, user
name), each bound to the pattern "%" + term + "%". With an empty term the
queries carry no join and no condition. The count query is handed over first;
when the data query follows, it carries the joins and conditions of the count
query. -/
theorem search_conditions (db : ReadDB) (term : String) (pag : PaginationRequest) :
    (term ≠ "" → ∀ s ∈ (SearchProperties db term pag).2,
      s.query.joins = searchJoins ∧ s.query.conds = [searchGroup term]) ∧
    (term = "" → ∀ s ∈ (SearchProperties db term pag).2,
      s.query.joins = [] ∧ s.query.conds = []) ∧
    (∃ q, (SearchProperties db term pag).2 = [.count q] ∨
      ∃ q2, (SearchProperties db term pag).2 = [.count q, .find q2] ∧
        q2.joins = q.joins ∧ q2.conds = q.conds) ∧
    searchGroup term
      = .orGroup
          [("properties.owner_name ILIKE ?", .text ("%" ++ term ++ "%")),
           ("properties.description ILIKE ?", .text ("%" ++ term ++ "%")),
           ("properties.property_design ILIKE ?", .text ("%" ++ term ++ "%")),
           ("locations.district ILIKE ?", .text ("%" ++ term ++ "%")),
           ("locations.area ILIKE ?", .text ("%" ++ term ++ "%")),
           ("locations.sub_area ILIKE ?", .text ("%" ++ term ++ "%")),
           ("users.name ILIKE ?", .text ("%" ++ term ++ "%"))] := by
  obtain ⟨q, hq, htrace, _⟩ := SearchProperties_sent db term pag
  refine ⟨?_, ?_, ?_, rfl⟩
  · intro ht s hs
    rw [if_pos ht] at hq
    rcases htrace with h | h
    · rw [h] at hs
      simp only [List.mem_singleton] at hs
      subst hs
      subst hq
      exact ⟨rfl, rfl⟩
    · rw [h] at hs
      simp only [List.mem_cons, List.mem_singleton, List.not_mem_nil, or_false] at hs
      rcases hs with hs | hs
      · subst hs
        subst hq
        exact ⟨rfl, rfl⟩
      · subst hs
        subst hq
        exact ⟨rfl, rfl⟩
  · intro ht s hs
    rw [if_neg (by simp [ht])] at hq
    rcases htrace with h | h
    · rw [h] at hs
      simp only [List.mem_singleton] at hs
      subst hs
      subst hq
      exact ⟨rfl, rfl⟩
    · rw [h] at hs
      simp only [List.mem_cons, List.mem_singleton, List.not_mem_nil, or_false] at hs
      rcases hs with hs | hs
      · subst hs
        subst hq
        exact ⟨rfl, rfl⟩
      · subst hs
        subst hq
        exact ⟨rfl, rfl⟩
  · refine ⟨q, ?_⟩
    rcases htrace with h | h
    · exact Or.inl h
    · exact Or.inr ⟨_, h, rfl, rfl⟩

/-- Witness for C22: the term of `TestSearchProperties_Success` on page 1 of
size 5, and the empty term. -/
theorem search_conditions_witness :
    (∀ s ∈ (SearchProperties scriptedDB "Zingwangwa" { Page := 1, PageSize := 5 }).2,
      s.query.joins = searchJoins ∧ s.query.conds = [searchGroup "Zingwangwa"]) ∧
    (∀ s ∈ (SearchProperties scriptedDB "" { Page := 1, PageSize := 5 }).2,
      s.query.joins = [] ∧ s.query.conds = []) ∧
    (SearchProperties scriptedDB "Zingwangwa" { Page := 1, PageSize := 5 }).2.length = 2 :=
  ⟨(search_conditions scriptedDB "Zingwangwa" { Page := 1, PageSize := 5 }).1 (by decide),
   (search_conditions scriptedDB "" { Page := 1, PageSize := 5 }).2.1 rfl,
   by decide⟩

/-! ## Error responses -/

/-- What `HandleError` answers for errors that are not custom errors: the
first validation error as a 400, `gorm.ErrRecordNotFound` (also wrapped) as a
404, anything else as a 500 with the error text as details. -/
theorem HandleError_other :
    (∀ (first : FieldError) (rest : List FieldError) (text : String),
      HandleError (.validation (first :: rest) text)
        = .ok { status := 400
                body := NewAPIError 400 "Invalid request data"
                  ["Validation failed on field \x27" ++ first.Namespace ++
                    "\x27, condition \x27" ++ first.Tag ++ "\x27"] }) ∧
    (∀ e : GoError, e.isRecordNotFound = true →
      HandleError (.plain e)
        = .ok { status := 404, body := NewAPIError 404 "Resource not found" [] }) ∧
    (∀ e : GoError, e.isRecordNotFound = false →
      HandleError (.plain e)
        = .ok { status := 500
                body := NewAPIError 500 "An unexpected error occurred" [e.Error] }) := by
  refine ⟨fun _ _ _ => rfl, ?_, ?_⟩
  · intro e h
    simp [HandleError, HandlerError.Error, h, NewAPIError]
  · intro e h
    simp [HandleError, HandlerError.Error, h, NewAPIError]

/-- C23, the code at the failing input. Given a `*CustomError`, `HandleError`
first evaluates `err.Error()` for its default error, and that method panics
with "unimplemented": no response is written, for `ErrPropertyExists` (409),
for every value of `NewBadRequestError` (400) and of `NewNotFoundError` (404),
and for every other custom error. -/
theorem custom_error_panics :
    HandleError (.custom ErrPropertyExists) = .error "unimplemented" ∧
    ErrPropertyExists
      = { StatusCode := 409, Message := "Property already exists"
          Details := "A property with the provided ID already exists in the database." } ∧
    (∀ details : String,
      HandleError (.custom (NewBadRequestError details)) = .error "unimplemented" ∧
      (NewBadRequestError details).StatusCode = 400) ∧
    (∀ resource : String,
      HandleError (.custom (NewNotFoundError resource)) = .error "unimplemented" ∧
      (NewNotFoundError resource).StatusCode = 404) ∧
    (∀ c : CustomError, HandleError (.custom c) = .error "unimplemented") ∧
    (∀ (c : CustomError) (response : APIResponse), HandleError (.custom c) ≠ .ok response) := by
  refine ⟨rfl, rfl, fun _ => ⟨rfl, rfl⟩, fun _ => ⟨rfl, rfl⟩, fun _ => rfl, ?_⟩
  intro c response h
  have : HandleError (.custom c) = .error "unimplemented" := rfl
  rw [this] at h
  cases h

/-! ## Creating a property -/

theorem CreateProperty_found (env : Env) (db : DBState) (req : CreatePropertyRequest)
    (h : (db.exec env (.firstProperty req.ID)).1 = none) :
    CreateProperty env db req
      = ((none, some (.custom ErrPropertyExists)),
         { store := db.store, calls := db.calls + 1 }) := by
  have hs := exec_firstProperty_store env db req.ID
  have hc := exec_calls env db (.firstProperty req.ID)
  rcases hl : db.exec env (.firstProperty req.ID) with ⟨e, db1⟩
  rw [hl] at h hs hc
  simp only at h hs hc
  subst h
  cases db1
  simp only at hs hc
  subst hs hc
  simp [CreateProperty, hl]

theorem CreateProperty_lookup_failed (env : Env) (db : DBState) (req : CreatePropertyRequest)
    (err : GoError) (h : (db.exec env (.firstProperty req.ID)).1 = some err)
    (hn : err.isRecordNotFound = false) :
    CreateProperty env db req
      = ((none, some (.plain (.wrap "failed to check for existing property: " err))),
         { store := db.store, calls := db.calls + 1 }) := by
  have hs := exec_firstProperty_store env db req.ID
  have hc := exec_calls env db (.firstProperty req.ID)
  rcases hl : db.exec env (.firstProperty req.ID) with ⟨e, db1⟩
  rw [hl] at h hs hc
  simp only at h hs hc
  subst h
  cases db1
  simp only at hs hc
  subst hs hc
  simp [CreateProperty, hl, hn]

/-- After a lookup that reports not-found, `CreateProperty` goes on to the
insert, on the database the lookup left. -/
theorem CreateProperty_absent (env : Env) (db : DBState) (req : CreatePropertyRequest)
    (err : GoError) (h : (db.exec env (.firstProperty req.ID)).1 = some err)
    (hn : err.isRecordNotFound = true) :
    CreateProperty env db req
      = match DBState.exec env { store := db.store, calls := db.calls + 1 }
            (.createProperty (newPropertyOf req)) with
        | (some createErr, db2) =>
          ((none, some (.plain (.wrap "failed to create property: " createErr))), db2)
        | (none, db2) =>
          match db2.exec env (.firstProperty req.ID) with
          | (some loadErr, db3) =>
            ((none, some (.plain
              (.wrap "failed to fetch created property with associations: " loadErr))), db3)
          | (none, db3) =>
            ((some ((db3.store.propertyRow req.ID).getD (newPropertyOf req)), none), db3) := by
  have hs := exec_firstProperty_store env db req.ID
  have hc := exec_calls env db (.firstProperty req.ID)
  rcases hl : db.exec env (.firstProperty req.ID) with ⟨e, db1⟩
  rw [hl] at h hs hc
  simp only at h hs hc
  subst h
  cases db1
  simp only at hs hc
  subst hs hc
  simp only [CreateProperty, hl, hn, Bool.not_true, Bool.false_eq_true, if_false]
  rfl

/-- What `CreateProperty` leaves after a lookup that reports not-found: at
least two statements were sent, and when the insert succeeds the properties
table has gained the row of the request. -/
theorem CreateProperty_absent_effect (env : Env) (db : DBState) (req : CreatePropertyRequest)
    (err : GoError) (h : (db.exec env (.firstProperty req.ID)).1 = some err)
    (hn : err.isRecordNotFound = true) :
    db.calls + 2 ≤ (CreateProperty env db req).2.calls ∧
    ((DBState.exec env { store := db.store, calls := db.calls + 1 }
        (.createProperty (newPropertyOf req))).1 = none →
      (CreateProperty env db req).2.store.properties
        = db.store.properties ++ [newPropertyOf req]) := by
  rw [CreateProperty_absent env db req err h hn]
  have hc1 := exec_calls env { store := db.store, calls := db.calls + 1 }
    (.createProperty (newPropertyOf req))
  have hok := exec_create_ok env { store := db.store, calls := db.calls + 1 } (newPropertyOf req)
  rcases hx : DBState.exec env { store := db.store, calls := db.calls + 1 }
    (.createProperty (newPropertyOf req)) with ⟨e, db2⟩
  rw [hx] at hc1 hok
  simp only at hc1 hok
  cases e with
  | some createErr =>
    simp only
    refine ⟨by omega, ?_⟩
    intro hnone
    cases hnone
  | none =>
    simp only
    have hc2 := exec_calls env db2 (.firstProperty req.ID)
    have hs2 := exec_firstProperty_store env db2 req.ID
    rcases hy : db2.exec env (.firstProperty req.ID) with ⟨e2, db3⟩
    rw [hy] at hc2 hs2
    simp only at hc2 hs2
    cases e2 with
    | some loadErr =>
      simp only
      exact ⟨by omega, fun _ => by rw [hs2]; exact (hok rfl).2⟩
    | none =>
      simp only
      exact ⟨by omega, fun _ => by rw [hs2]; exact (hok rfl).2⟩

/-- C25. `CreateProperty` looks the ID up before it writes. When the lookup
finds a row (as it does when the row is stored and the lookup is not failed),
the result is the conflict error `ErrPropertyExists`, status 409, and the
tables are untouched, one statement having been sent. When the lookup fails
with an error other than not-found, the result is that error wrapped, and
the tables are untouched. The tables change only after a lookup that reported
not-found; then the insert is sent, and when it succeeds the properties
table has gained the row built from the request, with the request's ID. -/
theorem create_checks_duplicates (env : Env) (db : DBState) (req : CreatePropertyRequest) :
    ((db.exec env (.firstProperty req.ID)).1 = none →
      CreateProperty env db req
        = ((none, some (.custom ErrPropertyExists)),
           { store := db.store, calls := db.calls + 1 })) ∧
    (db.store.hasProperty req.ID = true → env.faults db.calls (.firstProperty req.ID) = none →
      (db.exec env (.firstProperty req.ID)).1 = none) ∧
    ErrPropertyExists.StatusCode = 409 ∧
    (∀ err, (db.exec env (.firstProperty req.ID)).1 = some err → err.isRecordNotFound = false →
      CreateProperty env db req
        = ((none, some (.plain (.wrap "failed to check for existing property: " err))),
           { store := db.store, calls := db.calls + 1 })) ∧
    ((CreateProperty env db req).2.store ≠ db.store →
      ∃ err, (db.exec env (.firstProperty req.ID)).1 = some err ∧
        err.isRecordNotFound = true) ∧
    (∀ err, (db.exec env (.firstProperty req.ID)).1 = some err → err.isRecordNotFound = true →
      db.calls + 2 ≤ (CreateProperty env db req).2.calls ∧
      ((DBState.exec env { store := db.store, calls := db.calls + 1 }
          (.createProperty (newPropertyOf req))).1 = none →
        (CreateProperty env db req).2.store.properties
          = db.store.properties ++ [newPropertyOf req] ∧
        (newPropertyOf req).ID = req.ID)) := by
  refine ⟨CreateProperty_found env db req, ?_, rfl,
    fun err h hn => CreateProperty_lookup_failed env db req err h hn, ?_, ?_⟩
  · intro hp hf
    simp [DBState.exec, hf, Store.apply, hp]
  · intro hne
    rcases hl : (db.exec env (.firstProperty req.ID)).1 with _ | err
    · rw [CreateProperty_found env db req hl] at hne
      exact absurd rfl hne
    · rcases hn : err.isRecordNotFound with _ | _
      · rw [CreateProperty_lookup_failed env db req err hl hn] at hne
        exact absurd rfl hne
      · exact ⟨err, rfl, hn⟩
  · intro err h hn
    obtain ⟨h1, h2⟩ := CreateProperty_absent_effect env db req err h hn
    exact ⟨h1, fun hc => ⟨h2 hc, rfl⟩⟩

/-- Witness for C25: request 10 against the database that holds property 10
(conflict), against a database whose lookups fail (wrapped error), and
against the empty database (inserted). -/
theorem create_checks_duplicates_witness :
    CreateProperty singlePageSource seededDB (bareRequest 10)
      = ((none, some (.custom ErrPropertyExists)),
         { store := seededDB.store, calls := seededDB.calls + 1 }) ∧
    CreateProperty lookupDownSource seededDB (bareRequest 10)
      = ((none, some (.plain (.wrap "failed to check for existing property: "
            (.other "connection refused")))),
         { store := seededDB.store, calls := seededDB.calls + 1 }) ∧
    (CreateProperty singlePageSource emptyDB (bareRequest 10)).2.store.properties
      = emptyDB.store.properties ++ [newPropertyOf (bareRequest 10)] :=
  ⟨(create_checks_duplicates singlePageSource seededDB (bareRequest 10)).1 (by decide),
   (create_checks_duplicates lookupDownSource seededDB (bareRequest 10)).2.2.2.1
     (.other "connection refused") (by decide) (by decide),
   (((create_checks_duplicates singlePageSource emptyDB (bareRequest 10)).2.2.2.2.2
     .recordNotFound (by decide) (by decide)).2 (by decide)).1⟩

/-! ## Bulk creation -/

theorem propertyRow_id (s : Store) (id : Nat) (p : Property) (h : s.propertyRow id = some p) :
    p.ID = id := by
  unfold Store.propertyRow at h
  have := List.find?_some h
  simpa using this

/-- `CreateProperty` returns either an error and no property, or no error and
a property with the ID of the request. -/
theorem CreateProperty_result (env : Env) (db : DBState) (req : CreatePropertyRequest) :
    (∃ err, (CreateProperty env db req).1 = (none, some err)) ∨
    (∃ p, (CreateProperty env db req).1 = (some p, none) ∧ p.ID = req.ID) := by
  rcases hl : (db.exec env (.firstProperty req.ID)).1 with _ | err
  · left
    rw [CreateProperty_found env db req hl]
    exact ⟨_, rfl⟩
  · rcases hn : err.isRecordNotFound with _ | _
    · left
      rw [CreateProperty_lookup_failed env db req err hl hn]
      exact ⟨_, rfl⟩
    · rw [CreateProperty_absent env db req err hl hn]
      rcases hx : DBState.exec env { store := db.store, calls := db.calls + 1 }
        (.createProperty (newPropertyOf req)) with ⟨e, db2⟩
      cases e with
      | some createErr => exact Or.inl ⟨_, rfl⟩
      | none =>
        simp only
        rcases hy : db2.exec env (.firstProperty req.ID) with ⟨e2, db3⟩
        cases e2 with
        | some loadErr => exact Or.inl ⟨_, rfl⟩
        | none =>
          right
          refine ⟨_, rfl, ?_⟩
          rcases hr : db3.store.propertyRow req.ID with _ | row
          · rfl
          · exact propertyRow_id _ _ _ hr

theorem bulkStep_eq (env : Env) (acc : List Property × List BulkErrorDetail) (db : DBState)
    (req : CreatePropertyRequest) :
    bulkStep env (acc, db) req
      = ((acc.1 ++ (createdOf (req, (CreateProperty env db req).1.1,
            (CreateProperty env db req).1.2)).toList,
          acc.2 ++ (detailOf (req, (CreateProperty env db req).1.1,
            (CreateProperty env db req).1.2)).toList),
         (CreateProperty env db req).2) := by
  rcases CreateProperty_result env db req with ⟨err, h⟩ | ⟨p, h, _⟩
  · rcases hx : CreateProperty env db req with ⟨res, db1⟩
    rw [hx] at h
    simp only at h
    subst h
    simp [bulkStep, hx, createdOf, detailOf]
  · rcases hx : CreateProperty env db req with ⟨res, db1⟩
    rw [hx] at h
    simp only at h
    subst h
    simp [bulkStep, hx, createdOf, detailOf]

theorem bulk_fold (env : Env) (requests : List CreatePropertyRequest) :
    ∀ (acc : List Property × List BulkErrorDetail) (db : DBState),
      (requests.foldl (bulkStep env) (acc, db)).1
        = (acc.1 ++ (attempts env db requests).filterMap createdOf,
           acc.2 ++ (attempts env db requests).filterMap detailOf) := by
  induction requests with
  | nil => intro acc db; simp [attempts]
  | cons req rest ih =>
    intro acc db
    rw [List.foldl_cons, bulkStep_eq, ih]
    simp only [attempts, List.append_assoc]
    rcases hc : createdOf (req, (CreateProperty env db req).1.1,
        (CreateProperty env db req).1.2) with _ | p <;>
      rcases hd : detailOf (req, (CreateProperty env db req).1.1,
        (CreateProperty env db req).1.2) with _ | d <;>
      simp [List.filterMap_cons, hc, hd]

theorem attempts_requests (env : Env) (requests : List CreatePropertyRequest) :
    ∀ db : DBState, (attempts env db requests).map (fun a => a.1) = requests := by
  induction requests with
  | nil => intro db; rfl
  | cons req rest ih => intro db; simp [attempts, ih]

/-- Every attempt either failed, and then reports a detail and no property,
or reports a property with the ID of its request and no detail. -/
theorem attempts_outcome (env : Env) (requests : List CreatePropertyRequest) :
    ∀ (db : DBState), ∀ a ∈ attempts env db requests,
      (∃ err, a.2.2 = some err ∧ createdOf a = none ∧
        detailOf a = some { PropertyID := a.1.ID, Error := errMsg err }) ∨
      (∃ p, createdOf a = some p ∧ p.ID = a.1.ID ∧ detailOf a = none) := by
  induction requests with
  | nil => intro db a ha; simp [attempts] at ha
  | cons req rest ih =>
    intro db a ha
    simp only [attempts, List.mem_cons] at ha
    rcases ha with ha | ha
    · subst ha
      rcases CreateProperty_result env db req with ⟨err, h⟩ | ⟨p, h, hid⟩
      · left
        refine ⟨err, ?_⟩
        simp [createdOf, detailOf, h]
      · right
        refine ⟨p, ?_⟩
        simp [createdOf, detailOf, h, hid]
    · exact ih _ a ha

theorem filterMap_map_sublist {α β γ : Type} (f : α → Option β) (g : β → γ) (h : α → γ)
    (l : List α) (hf : ∀ a ∈ l, ∀ b, f a = some b → g b = h a) :
    ((l.filterMap f).map g).Sublist (l.map h) := by
  induction l with
  | nil => simp
  | cons a l ih =>
    have ih2 := ih (fun x hx => hf x (List.mem_cons_of_mem a hx))
    rcases hfa : f a with _ | b
    · rw [List.filterMap_cons_none hfa, List.map_cons]
      exact List.Sublist.cons _ ih2
    · rw [List.filterMap_cons_some hfa, List.map_cons, List.map_cons,
        hf a (List.mem_cons_self a l) b hfa]
      exact List.Sublist.cons₂ _ ih2

theorem filterMap_split_length {α β γ : Type} (f : α → Option β) (g : α → Option γ)
    (l : List α)
    (h : ∀ a ∈ l, ((f a).isSome = true ∧ g a = none) ∨ (f a = none ∧ (g a).isSome = true)) :
    (l.filterMap f).length + (l.filterMap g).length = l.length := by
  induction l with
  | nil => simp
  | cons a l ih =>
    have ih2 := ih (fun x hx => h x (List.mem_cons_of_mem a hx))
    rcases h a (List.mem_cons_self a l) with ⟨h1, h2⟩ | ⟨h1, h2⟩
    · obtain ⟨b, hb⟩ := Option.isSome_iff_exists.mp h1
      rw [List.filterMap_cons_some hb, List.filterMap_cons_none h2]
      simp only [List.length_cons]
      omega
    · obtain ⟨c, hc⟩ := Option.isSome_iff_exists.mp h2
      rw [List.filterMap_cons_none h1, List.filterMap_cons_some hc]
      simp only [List.length_cons]
      omega

/-- C24. `CreateMultipleProperties` runs `CreateProperty` on every request,
in order, each on the database the previous one left, whatever the earlier
outcomes. The successful list is the list of the properties of the attempts
that did not fail, and the error report the list of the details of those
that failed, both in request order; every detail carries the ID of its
request and the text of its error, which for the conflict error is its
message, ": " and its details; every successful property has the ID of its
request; and the two lists together have one entry per request. -/
theorem bulk_create_report (env : Env) (db : DBState) (requests : List CreatePropertyRequest) :
    (CreateMultipleProperties env db requests).1.1
      = (attempts env db requests).filterMap createdOf ∧
    (CreateMultipleProperties env db requests).1.2
      = (attempts env db requests).filterMap detailOf ∧
    (attempts env db requests).map (fun a => a.1) = requests ∧
    (CreateMultipleProperties env db requests).1.1.length
      + (CreateMultipleProperties env db requests).1.2.length = requests.length ∧
    (((CreateMultipleProperties env db requests).1.1.map (fun p => p.ID)).Sublist
      (requests.map (fun r => r.ID))) ∧
    (((CreateMultipleProperties env db requests).1.2.map (fun d => d.PropertyID)).Sublist
      (requests.map (fun r => r.ID))) ∧
    (∀ a ∈ attempts env db requests, ∀ err, a.2.2 = some err →
      detailOf a = some { PropertyID := a.1.ID, Error := errMsg err }) ∧
    errMsg (.custom ErrPropertyExists)
      = "Property already exists: A property with the provided ID already exists in the " ++
        "database." := by
  have hfold := bulk_fold env requests ([], []) db
  simp only [List.nil_append] at hfold
  have h1 : (CreateMultipleProperties env db requests).1.1
      = (attempts env db requests).filterMap createdOf := by
    unfold CreateMultipleProperties
    rw [hfold]
  have h2 : (CreateMultipleProperties env db requests).1.2
      = (attempts env db requests).filterMap detailOf := by
    unfold CreateMultipleProperties
    rw [hfold]
  have hreq := attempts_requests env requests db
  have hout := attempts_outcome env requests db
  have hids : (attempts env db requests).map (fun a => a.1.ID)
      = requests.map (fun r => r.ID) := by
    rw [← hreq, List.map_map]
    simp only [Function.comp_def, hreq]
  refine ⟨h1, h2, hreq, ?_, ?_, ?_, ?_, by decide⟩
  · rw [h1, h2, filterMap_split_length createdOf detailOf]
    · rw [← hreq, List.length_map]
      simp only [hreq]
    · intro a ha
      rcases hout a ha with ⟨err, _, hc, hd⟩ | ⟨p, hc, _, hd⟩
      · exact Or.inr ⟨hc, by rw [hd]; rfl⟩
      · exact Or.inl ⟨by rw [hc]; rfl, hd⟩
  · rw [h1, ← hids]
    refine filterMap_map_sublist createdOf (fun p => p.ID) (fun a => a.1.ID) _ ?_
    intro a ha p hp
    rcases hout a ha with ⟨err, _, hc, _⟩ | ⟨q, hc, hid, _⟩
    · rw [hc] at hp; cases hp
    · rw [hc] at hp
      cases hp
      exact hid
  · rw [h2, ← hids]
    refine filterMap_map_sublist detailOf (fun d => d.PropertyID) (fun a => a.1.ID) _ ?_
    intro a ha d hd
    rcases hout a ha with ⟨err, _, _, hdd⟩ | ⟨q, _, _, hdd⟩
    · rw [hdd] at hd
      cases hd
      rfl
    · rw [hdd] at hd; cases hd
  · intro a ha err herr
    rcases hout a ha with ⟨err2, he, _, hd⟩ | ⟨q, hc, _, _⟩
    · rw [he] at herr
      cases herr
      exact hd
    · simp [createdOf, herr] at hc

/-- Witness for C24: requests 1, 1 and 2 against the empty database: the
first and the third are created, the second is reported as a conflict. -/
theorem bulk_create_report_witness :
    (CreateMultipleProperties singlePageSource emptyDB
        [bareRequest 1, bareRequest 1, bareRequest 2]).1.1.length
      + (CreateMultipleProperties singlePageSource emptyDB
        [bareRequest 1, bareRequest 1, bareRequest 2]).1.2.length = 3 ∧
    (CreateMultipleProperties singlePageSource emptyDB
        [bareRequest 1, bareRequest 1, bareRequest 2]).1.1.map (fun p => p.ID) = [1, 2] ∧
    (CreateMultipleProperties singlePageSource emptyDB
        [bareRequest 1, bareRequest 1, bareRequest 2]).1.2
      = [{ PropertyID := 1
           Error := "Property already exists: A property with the provided ID already " ++
             "exists in the database." }] ∧
    detailOf (bareRequest 1, none, some (.custom ErrPropertyExists))
      = some { PropertyID := 1, Error := errMsg (.custom ErrPropertyExists) } :=
  ⟨(bulk_create_report singlePageSource emptyDB
      [bareRequest 1, bareRequest 1, bareRequest 2]).2.2.2.1,
   by decide, by decide,
   (bulk_create_report singlePageSource emptyDB
      [bareRequest 1, bareRequest 1, bareRequest 2]).2.2.2.2.2.2.1
      (bareRequest 1, none, some (.custom ErrPropertyExists)) (by decide)
      (.custom ErrPropertyExists) rfl⟩

end HopVal
